import Mathlib

/-!
# Marmara credit-loop module: metadata codec, vout classifier and validator entry

A shallow embedding of `src/cc/marmara.cpp`.  Bytes are natural numbers, byte strings are
lists, `int32_t`/`int64_t` values are integers, out-parameters are returned next to the
result.  What the file takes from headers that are not part of the sources at hand
(constants of `CCMarmara.h`, the serialisation stream, scripts and crypto-condition
helpers) is either a parameter or marked as modelled.
-/

namespace Marmara

/-! ## Bytes and the serialisation stream -/

abbrev Bytes := List Nat

/-- A `uint256` (transaction id): its 32 bytes. -/
abbrev uint256 := List Nat

/-- Modelled from the spec: `CPubKey` (pubkey.h) is not under src/.  A key is
represented by its significant bytes: 33 or 65 for a valid key, none for the invalid
(default constructed) key. -/
abbrev CPubKey := List Nat

/-- The `zeroid` of the source: the all-zero transaction id. -/
def zeroid : uint256 := List.replicate 32 0

/-- Little-endian bytes of `n`, `k` of them. -/
def toLE : Nat → Nat → Bytes
  | 0, _ => []
  | k + 1, n => (n % 256) :: toLE k (n / 256)

/-- Value of a little-endian byte string. -/
def fromLE : Bytes → Nat
  | [] => 0
  | b :: bs => b + 256 * fromLE bs

/-- Two's complement reading of a `w`-bit pattern. -/
def toSigned (w : Nat) (n : Nat) : Int :=
  if n < 2 ^ (w - 1) then (n : Int) else (n : Int) - 2 ^ w

/-- Bit pattern of a signed value on `w` bits. -/
def ofSigned (w : Nat) (v : Int) : Nat := (v % 2 ^ w).toNat

/-- The stream read `CDataStream::read`: takes `k` bytes off the stream, throws (none) at end of data. -/
def readN (k : Nat) (bs : Bytes) : Option (Bytes × Bytes) :=
  if bs.length < k then none else some (bs.take k, bs.drop k)

/-- Modelled from the spec: the serialisation primitives behind `E_MARSHAL` and
`E_UNMARSHAL` (serialize.h) are not under src/; fixed-width integers travel
little-endian.  Here `ss << (uint8_t)` . -/
def serU8 (v : Nat) : Bytes := [v]

def readU8 (bs : Bytes) : Option (Nat × Bytes) :=
  match bs with
  | [] => none
  | b :: rest => some (b, rest)

def serI32 (v : Int) : Bytes := toLE 4 (ofSigned 32 v)

def readI32 (bs : Bytes) : Option (Int × Bytes) :=
  match readN 4 bs with
  | none => none
  | some (d, rest) => some (toSigned 32 (fromLE d), rest)

def serI64 (v : Int) : Bytes := toLE 8 (ofSigned 64 v)

def readI64 (bs : Bytes) : Option (Int × Bytes) :=
  match readN 8 bs with
  | none => none
  | some (d, rest) => some (toSigned 64 (fromLE d), rest)

def serUint256 (v : uint256) : Bytes := v

def readUint256 (bs : Bytes) : Option (uint256 × Bytes) := readN 32 bs

/-- Largest size `ReadCompactSize` accepts. -/
def MAX_SIZE : Nat := 0x02000000

/-- Modelled from the spec: `WriteCompactSize` of serialize.h (not under src/). -/
def WriteCompactSize (n : Nat) : Bytes :=
  if n < 253 then [n]
  else if n ≤ 0xFFFF then 253 :: toLE 2 n
  else if n ≤ 0xFFFFFFFF then 254 :: toLE 4 n
  else 255 :: toLE 8 n

/-- Modelled from the spec: `ReadCompactSize` of serialize.h (not under src/); a
non-canonical or oversized length throws. -/
def ReadCompactSize (bs : Bytes) : Option (Nat × Bytes) :=
  match bs with
  | [] => none
  | ch :: rest =>
    if ch < 253 then some (ch, rest)
    else
      let width := if ch = 253 then 2 else if ch = 254 then 4 else 8
      let least := if ch = 253 then 253 else if ch = 254 then 0x10000 else 0x100000000
      match readN width rest with
      | none => none
      | some (d, rest2) =>
        let n := fromLE d
        if n < least then none
        else if n > MAX_SIZE then none
        else some (n, rest2)

/-- Writing a key: compact size of its length, then its bytes. -/
def serPubKey (pk : CPubKey) : Bytes := WriteCompactSize pk.length ++ pk

/-- Modelled from the spec: `CPubKey::Unserialize` (pubkey.h, not under src/).  Reads the
length; up to 65 bytes are read into the key (a zero length reads nothing and leaves the
key as it was), a longer run is skipped and the key invalidated.  The first component is
the key afterwards, the second the stream afterwards (none: the read threw). -/
def readPubKey (old : CPubKey) (bs : Bytes) : CPubKey × Option Bytes :=
  match ReadCompactSize bs with
  | none => (old, none)
  | some (len, rest) =>
    match readN len rest with
    | none => (old, none)
    | some (d, rest2) =>
      if len ≤ 65 then (if len = 0 then old else d, some rest2)
      else ([], some rest2)

/-- Writing a `std::string`: compact size of its length, then its characters. -/
def serString (s : List Nat) : Bytes := WriteCompactSize s.length ++ s

/-- Modelled from the spec: reading a `std::string` (serialize.h, not under src/): the
string is resized to the announced length before its characters are read, so a read
that runs out of data leaves a zero-filled string behind. -/
def readString (old : List Nat) (bs : Bytes) : List Nat × Option Bytes :=
  match ReadCompactSize bs with
  | none => (old, none)
  | some (len, rest) =>
    match readN len rest with
    | none => (List.replicate len 0, none)
    | some (d, rest2) => (d, some rest2)

/-! ## Constants of `CCMarmara.h` -/

/-- The constants the source takes from `CCMarmara.h`, which is not under src/: they are
parameters of the development. -/
structure Consts where
  EVAL_MARMARA : Nat
  MARMARA_COINBASE : Nat
  MARMARA_COINBASE_3X : Nat
  MARMARA_ACTIVATED : Nat
  MARMARA_ACTIVATED_INITIAL : Nat
  MARMARA_POOL : Nat
  MARMARA_CREATELOOP : Nat
  MARMARA_REQUEST : Nat
  MARMARA_ISSUE : Nat
  MARMARA_TRANSFER : Nat
  MARMARA_SETTLE : Nat
  MARMARA_SETTLE_PARTIAL : Nat
  MARMARA_RELEASE : Nat
  MARMARA_LOOP : Nat
  MARMARA_LOCKED : Nat
  MARMARA_ACTIVATED_FUNCIDS : List Nat
  MARMARA_OPRET_VERSION_ANY : Nat
  MARMARA_OPRET_VERSION_DEFAULT : Nat
  MARMARA_OPRET_VERSION : Nat
  MARMARA_OPRET_LOOP12_VERSION : Nat
  MARMARA_V2LOCKHEIGHT : Int
  MARMARA_POS_IMPROVEMENTS_HEIGHT : Int
  MARMARA_BATON_VOUT : Int
  MARMARA_LOOP_MARKER_VOUT : Int
  MARMARA_OPENCLOSE_VOUT : Int
  MARMARA_BATON_AMOUNT : Int
  MARMARA_LOOP_MARKER_AMOUNT : Int
  MARMARA_OPEN_MARKER_AMOUNT : Int
  MARMARA_ACTIVATED_MARKER_AMOUNT : Int
  MARMARA_CREATETX_AMOUNT : Int
  MARMARA_LOOP_TOLERANCE : Int
  MARMARA_SETTLE_VOUT : Int

/-- The constants as the comments of marmara.cpp give them: the function ids of its head
comment ('B' create, 'R' request, 'I' issue, 'T' transfer, 'S' settle, 'D' partial settle,
'A' activated, 'N' initially activated, 'C' coinbase, 'E' coinbase 3x, 'L' loop, 'K'
locked, 'O' released); versions 1 and 2 ("for cc vout data ver is always 1", "last opret
ver==2"); the output positions of `MarmaraIssue` (vout0 baton, vout1 loop marker, vout3
open/close marker); the baton amount 10000 and the loop marker amount of one txfee
("will add 20000 for marmaraissue or 10000 for marmaratransfer", "add two more txfee for
marmaraissue"); the amount 20000 of the creation transaction ("fee value 20000 for easy
identification") and the settlement payout position ("MARMARA_SETTLE_VOUT is 0").  The
module tag, the pool id, the any-version value, the heights, the activated marker amount
and the tolerance are sample values. -/
def marmaraConsts : Consts where
  EVAL_MARMARA := 0xef
  MARMARA_COINBASE := 67
  MARMARA_COINBASE_3X := 69
  MARMARA_ACTIVATED := 65
  MARMARA_ACTIVATED_INITIAL := 78
  MARMARA_POOL := 80
  MARMARA_CREATELOOP := 66
  MARMARA_REQUEST := 82
  MARMARA_ISSUE := 73
  MARMARA_TRANSFER := 84
  MARMARA_SETTLE := 83
  MARMARA_SETTLE_PARTIAL := 68
  MARMARA_RELEASE := 79
  MARMARA_LOOP := 76
  MARMARA_LOCKED := 75
  MARMARA_ACTIVATED_FUNCIDS := [67, 80, 65, 69, 78]
  MARMARA_OPRET_VERSION_ANY := 0
  MARMARA_OPRET_VERSION_DEFAULT := 1
  MARMARA_OPRET_VERSION := 1
  MARMARA_OPRET_LOOP12_VERSION := 2
  MARMARA_V2LOCKHEIGHT := 2147483646
  MARMARA_POS_IMPROVEMENTS_HEIGHT := 110777
  MARMARA_BATON_VOUT := 0
  MARMARA_LOOP_MARKER_VOUT := 1
  MARMARA_OPENCLOSE_VOUT := 3
  MARMARA_BATON_AMOUNT := 10000
  MARMARA_LOOP_MARKER_AMOUNT := 10000
  MARMARA_OPEN_MARKER_AMOUNT := 10000
  MARMARA_ACTIVATED_MARKER_AMOUNT := 5000
  MARMARA_CREATETX_AMOUNT := 20000
  MARMARA_LOOP_TOLERANCE := 100
  MARMARA_SETTLE_VOUT := 0

/-- The helper `IsFuncidOneOf` : membership of a function id in a list of ids. -/
def IsFuncidOneOf (funcid : Nat) (ids : List Nat) : Bool := decide (funcid ∈ ids)

/-! ## The credit loop record -/

/-- The credit loop data structure `struct SMarmaraCreditLoopOpret`, which stores data
from different loop transaction oprets. -/
structure SMarmaraCreditLoopOpret where
  hasCreateOpret : Bool
  hasIssuanceOpret : Bool
  hasSettlementOpret : Bool
  lastfuncid : Nat
  autoSettlement : Nat
  autoInsurance : Nat
  amount : Int
  matures : Int
  currency : List Nat
  disputeExpiresHeight : Int
  escrowOn : Nat
  blockageAmount : Int
  createtxid : uint256
  pk : CPubKey
  avalCount : Int
  remaining : Int
  version : Nat
  deriving DecidableEq

/-- The default constructor of `SMarmaraCreditLoopOpret` . -/
def SMarmaraCreditLoopOpret.init : SMarmaraCreditLoopOpret where
  hasCreateOpret := false
  hasIssuanceOpret := false
  hasSettlementOpret := false
  lastfuncid := 0
  autoSettlement := 1
  autoInsurance := 1
  amount := 0
  matures := 0
  currency := []
  disputeExpiresHeight := 0
  escrowOn := 0
  blockageAmount := 0
  createtxid := zeroid
  pk := []
  avalCount := 0
  remaining := 0
  version := 0

/-! ## Transactions and the host interface -/

/-- A transaction output over scripts of type `S` . -/
structure CTxOut (S : Type) where
  nValue : Int
  scriptPubKey : S
  deriving DecidableEq

structure COutPoint where
  hash : uint256
  n : Nat
  deriving DecidableEq

structure CTxIn (S : Type) where
  prevout : COutPoint
  scriptSig : S
  deriving DecidableEq

structure CTransaction (S : Type) where
  vin : List (CTxIn S)
  vout : List (CTxOut S)
  deriving DecidableEq

/-- The host functions the source calls and that are not part of it (scripts,
crypto-condition outputs, the protocol key, the chain index, the consensus switches).
They are parameters: every theorem holds whatever they compute. -/
structure Env (S : Type) where
  /-- The script `CScript() << OP_RETURN << data` . -/
  opReturnScript : Bytes → S
  /-- The data `GetOpReturnData` extracts from a script (empty when there is none). -/
  GetOpReturnData : S → Bytes
  /-- The call `IsPayToCryptoCondition(&dummy, vParams)` : none when the script is not a
  crypto-condition script, else its `vParams` . -/
  IsPayToCryptoCondition : S → Option (List Bytes)
  /-- The script method `GetPushedData` on a script built from raw bytes. -/
  GetPushedData : Bytes → List Bytes
  MakeCC1vout : Nat → Int → CPubKey → CTxOut S
  MakeCC1of2vout : Nat → Int → CPubKey → CPubKey → Option (List Bytes) → CTxOut S
  /-- The protocol key `GetUnspendable(cp, 0)` . -/
  Marmarapk : CPubKey
  CCtxidaddr_tweak : uint256 → CPubKey
  /-- The test `cp->ismyvin(scriptSig)` . -/
  ismyvin : S → Bool
  myGetTransaction : uint256 → Option (CTransaction S)
  /-- Height of `chainActive.Tip()`, none when there is no tip. -/
  tipHeight : Option Int
  ASSETCHAINS_MARMARA : Bool
  MarmaraIs2020JuneUpdateActive : Bool
  MarmaraValidate_h0 : CTransaction S → Nat → Bool
  /-- The null output `CTxOut()`, which the model reads where the source indexes a vector
  out of range (undefined there). -/
  nullOut : CTxOut S
  /-- The test `IsCCInput(scriptSig)` : the input spends a crypto-condition output. -/
  IsCCInput : S → Bool
  /-- The key `check_signing_pubkey(scriptSig)` finds in the signature of a cc input. -/
  check_signing_pubkey : S → CPubKey
  TotalPubkeyNormalInputs : CTransaction S → CPubKey → Int
  /-- The hash `tx.GetHash()` of a transaction. -/
  GetHash : CTransaction S → uint256
  /-- The script `CScript() << ParseHex(HexStr(pk)) << OP_CHECKSIG` . -/
  p2pkScript : CPubKey → S
  /-- The call `CCgetspenttxid(spenttxid, vini, height, txid, vout)` : the spending
  transaction when the function returns 0, none otherwise. -/
  CCgetspenttxid : uint256 → Int → Option uint256
  /-- The value `CCgettxout(txid, vout, 0, 1)` returns. -/
  CCgettxout : uint256 → Int → Int
  /-- The height `chainActive.LastTip()->GetHeight()` . -/
  lastTipHeight : Int
  DecodeStakingOpRet : S → Bool
  Parseuint256 : String → uint256
  /-- The function `abs` the compiler picks for a `CAmount` argument in
  `check_lcl_redistribution` ("should be llabs"). -/
  abs : Int → Int

/-- Element `n` of a vout vector. -/
def voutAt {S : Type} (E : Env S) (vout : List (CTxOut S)) (n : Int) : CTxOut S :=
  if n < 0 then E.nullOut else vout.getD n.toNat E.nullOut

/-- The last output `tx.vout.back()` . -/
def voutBack {S : Type} (E : Env S) (tx : CTransaction S) : CTxOut S :=
  tx.vout.getLastD E.nullOut

/-- The source's `MarmaraUnlockht` : now always the maximal height. -/
def MarmaraUnlockht (K : Consts) (_height : Int) : Int := K.MARMARA_V2LOCKHEIGHT

/-- The source's `get_next_height` . -/
def get_next_height {S : Type} (E : Env S) : Int :=
  match E.tipHeight with
  | none => 0
  | some h => h + 1

/-! ## Stream extraction with partial effects -/

/-- One piece of an `E_UNMARSHAL` body: from the struct and the stream to the struct and
the stream afterwards; the stream is none once a read has thrown, the struct then keeps
what was stored before the throw. -/
abbrev Step (σ : Type) := σ → Bytes → σ × Option Bytes

/-- Sequencing of two pieces. -/
def Step.andThen {σ : Type} (a b : Step σ) : Step σ := fun s bs =>
  match a s bs with
  | (s1, none) => (s1, none)
  | (s1, some r) => b s1 r

/-- The extraction `ss >> field` for a fixed-format field. -/
def rd {σ α : Type} (read : Bytes → Option (α × Bytes)) (set : σ → α → σ) : Step σ :=
  fun s bs =>
    match read bs with
    | none => (s, none)
    | some (v, r) => (set s v, some r)

/-- The extraction `ss >> field` where the reader works in place on the old value. -/
def rdIn {σ α : Type} (read : α → Bytes → α × Option Bytes) (get : σ → α)
    (set : σ → α → σ) : Step σ :=
  fun s bs =>
    match read (get s) bs with
    | (v, r) => (set s v, r)

/-- Modelled from the spec: the macro `E_UNMARSHAL` (not under src/): runs the body on a
stream over the bytes and succeeds when no read threw and the stream is at its end. -/
def E_UNMARSHAL {σ : Type} (body : Step σ) (s : σ) (vopret : Bytes) : σ × Bool :=
  match body s vopret with
  | (s1, some []) => (s1, true)
  | (s1, _) => (s1, false)

/-! ## Encoders of the credit loop records -/

section Codec
variable {S : Type}

/-- Modelled from the spec: the macro `E_MARSHAL` (not under src/) yields the bytes the
body wrote; the encoders below write their fields in the order of the source. -/
def MarmaraEncodeLoopCreateOpret (E : Env S) (K : Consts) (version : Nat) (senderpk : CPubKey)
    (amount : Int) (matures : Int) (currency : List Nat) : S :=
  let evalcode := K.EVAL_MARMARA
  let funcid := K.MARMARA_CREATELOOP
  E.opReturnScript (serU8 evalcode ++ serU8 funcid ++ serU8 version ++ serPubKey senderpk
    ++ serI64 amount ++ serI32 matures ++ serString currency)

def MarmaraEncodeLoopIssuerOpret (E : Env S) (K : Consts) (version : Nat) (createtxid : uint256)
    (receiverpk : CPubKey) (autoSettlement autoInsurance : Nat) (avalCount : Int)
    (disputeExpiresHeight : Int) (escrowOn : Nat) (blockageAmount : Int) : S :=
  let evalcode := K.EVAL_MARMARA
  let funcid := K.MARMARA_ISSUE
  E.opReturnScript (serU8 evalcode ++ serU8 funcid ++ serU8 version ++ serUint256 createtxid
    ++ serPubKey receiverpk ++ serU8 autoSettlement ++ serU8 autoInsurance ++ serI32 avalCount
    ++ serI32 disputeExpiresHeight ++ serU8 escrowOn ++ serI64 blockageAmount)

def MarmaraEncodeLoopRequestOpret (E : Env S) (K : Consts) (version : Nat) (createtxid : uint256)
    (senderpk : CPubKey) : S :=
  let evalcode := K.EVAL_MARMARA
  let funcid := K.MARMARA_REQUEST
  E.opReturnScript (serU8 evalcode ++ serU8 funcid ++ serU8 version ++ serUint256 createtxid
    ++ serPubKey senderpk)

def MarmaraEncodeLoopTransferOpret (E : Env S) (K : Consts) (version : Nat) (createtxid : uint256)
    (receiverpk : CPubKey) (avalCount : Int) : S :=
  let evalcode := K.EVAL_MARMARA
  let funcid := K.MARMARA_TRANSFER
  E.opReturnScript (serU8 evalcode ++ serU8 funcid ++ serU8 version ++ serUint256 createtxid
    ++ serPubKey receiverpk ++ serI32 avalCount)

def MarmaraEncodeLoopCCVoutOpret (E : Env S) (K : Consts) (createtxid : uint256)
    (senderpk : CPubKey) : S :=
  let evalcode := K.EVAL_MARMARA
  let funcid := K.MARMARA_LOCKED
  let version := K.MARMARA_OPRET_VERSION
  E.opReturnScript (serU8 evalcode ++ serU8 funcid ++ serU8 version ++ serUint256 createtxid
    ++ serPubKey senderpk)

def MarmaraEncodeLoopSettlementOpret (E : Env S) (K : Consts) (version : Nat) (isSuccess : Bool)
    (createtxid : uint256) (pk : CPubKey) (remaining : Int) : S :=
  let evalcode := K.EVAL_MARMARA
  let funcid := if isSuccess then K.MARMARA_SETTLE else K.MARMARA_SETTLE_PARTIAL
  E.opReturnScript (serU8 evalcode ++ serU8 funcid ++ serU8 version ++ serUint256 createtxid
    ++ serPubKey pk ++ serI64 remaining)

/-! ## Decoder of the credit loop records -/

abbrev LoopStep := Step SMarmaraCreditLoopOpret

/-- The extraction `ss >> evalcode` into the local variable. -/
def rdEvalcode : LoopStep := rd readU8 (fun s _ => s)

def rdLastfuncid : LoopStep := rd readU8 (fun s v => { s with lastfuncid := v })

def rdVersion : LoopStep := rd readU8 (fun s v => { s with version := v })

def rdPk : LoopStep := rdIn readPubKey (fun s => s.pk) (fun s v => { s with pk := v })

def rdCreatetxid : LoopStep := rd readUint256 (fun s v => { s with createtxid := v })

def rdAmount : LoopStep := rd readI64 (fun s v => { s with amount := v })

def rdMatures : LoopStep := rd readI32 (fun s v => { s with matures := v })

def rdCurrency : LoopStep :=
  rdIn readString (fun s => s.currency) (fun s v => { s with currency := v })

def rdAutoSettlement : LoopStep := rd readU8 (fun s v => { s with autoSettlement := v })

def rdAutoInsurance : LoopStep := rd readU8 (fun s v => { s with autoInsurance := v })

def rdAvalCount : LoopStep := rd readI32 (fun s v => { s with avalCount := v })

def rdDisputeExpiresHeight : LoopStep :=
  rd readI32 (fun s v => { s with disputeExpiresHeight := v })

def rdEscrowOn : LoopStep := rd readU8 (fun s v => { s with escrowOn := v })

def rdBlockageAmount : LoopStep := rd readI64 (fun s v => { s with blockageAmount := v })

def rdRemaining : LoopStep := rd readI64 (fun s v => { s with remaining := v })

/-- Body of the `E_UNMARSHAL` of a create record. -/
def unmarshalCreate : LoopStep :=
  rdEvalcode.andThen (rdLastfuncid.andThen (rdVersion.andThen (rdPk.andThen
    (rdAmount.andThen (rdMatures.andThen rdCurrency)))))

/-- Body of the `E_UNMARSHAL` of an issue record. -/
def unmarshalIssue : LoopStep :=
  rdEvalcode.andThen (rdLastfuncid.andThen (rdVersion.andThen (rdCreatetxid.andThen
    (rdPk.andThen (rdAutoSettlement.andThen (rdAutoInsurance.andThen (rdAvalCount.andThen
      (rdDisputeExpiresHeight.andThen (rdEscrowOn.andThen rdBlockageAmount)))))))))

/-- Body of the `E_UNMARSHAL` of a request record and of a locked vout record. -/
def unmarshalRequest : LoopStep :=
  rdEvalcode.andThen (rdLastfuncid.andThen (rdVersion.andThen (rdCreatetxid.andThen rdPk)))

/-- Body of the `E_UNMARSHAL` of a transfer record. -/
def unmarshalTransfer : LoopStep :=
  rdEvalcode.andThen (rdLastfuncid.andThen (rdVersion.andThen (rdCreatetxid.andThen
    (rdPk.andThen rdAvalCount))))

/-- Body of the `E_UNMARSHAL` of a settlement record. -/
def unmarshalSettle : LoopStep :=
  rdEvalcode.andThen (rdLastfuncid.andThen (rdVersion.andThen (rdCreatetxid.andThen
    (rdPk.andThen rdRemaining))))

/-- The funcid dispatch of `MarmaraDecodeLoopOpret` : the struct afterwards and the flag
`found` . -/
def decodeLoopFields (K : Consts) (funcid : Nat) (vopret : Bytes)
    (loopData : SMarmaraCreditLoopOpret) : SMarmaraCreditLoopOpret × Bool :=
  if funcid = K.MARMARA_CREATELOOP then
    match E_UNMARSHAL unmarshalCreate loopData vopret with
    | (ld, true) => ({ ld with hasCreateOpret := true }, true)
    | (ld, false) => (ld, false)
  else if funcid = K.MARMARA_ISSUE then
    match E_UNMARSHAL unmarshalIssue loopData vopret with
    | (ld, true) => ({ ld with hasIssuanceOpret := true }, true)
    | (ld, false) => (ld, false)
  else if funcid = K.MARMARA_REQUEST then
    E_UNMARSHAL unmarshalRequest loopData vopret
  else if funcid = K.MARMARA_TRANSFER then
    E_UNMARSHAL unmarshalTransfer loopData vopret
  else if funcid = K.MARMARA_LOCKED then
    E_UNMARSHAL unmarshalRequest loopData vopret
  else if funcid = K.MARMARA_SETTLE ∨ funcid = K.MARMARA_SETTLE_PARTIAL then
    match E_UNMARSHAL unmarshalSettle loopData vopret with
    | (ld, true) => ({ ld with hasSettlementOpret := true }, true)
    | (ld, false) => (ld, false)
  else (loopData, false)

/-- The source's `MarmaraDecodeLoopOpret` : decodes the different loop oprets and updates
`loopData` ; returns the function id, or 0, and the struct as the call leaves it. -/
def MarmaraDecodeLoopOpret (E : Env S) (K : Consts) (scriptPubKey : S)
    (loopData : SMarmaraCreditLoopOpret) (checkVersion : Nat) :
    Nat × SMarmaraCreditLoopOpret :=
  let vopret := E.GetOpReturnData scriptPubKey
  if 3 ≤ vopret.length then
    let evalcode := vopret.getD 0 0
    let funcid := vopret.getD 1 0
    let version := vopret.getD 2 0
    if evalcode = K.EVAL_MARMARA then
      match decodeLoopFields K funcid vopret loopData with
      | (ld, false) => (0, ld)
      | (ld, true) =>
        if checkVersion ≠ K.MARMARA_OPRET_VERSION_ANY ∧ version ≠ checkVersion then (0, ld)
        else (funcid, ld)
    else (0, loopData)
  else (0, loopData)

/-! ## Activated (coinbase) and release records -/

/-- The out-parameters of `MarmaraDecodeCoinbaseOpretExt` . -/
structure CoinbaseOpret where
  version : Nat
  pk : CPubKey
  height : Int
  unlockht : Int
  matureht : Int
  deriving DecidableEq

abbrev CoinbaseStep := Step CoinbaseOpret

/-- The version dependent part of the body: `if (version == 1) { ss >> height; ss >>
unlockht; }` . -/
def rdHeightsV1 : CoinbaseStep := fun s bs =>
  if s.version = 1 then
    ((rd readI32 (fun (s : CoinbaseOpret) v => { s with height := v })).andThen
      (rd readI32 (fun (s : CoinbaseOpret) v => { s with unlockht := v }))) s bs
  else (s, some bs)

/-- The version dependent part of the body: `if (version == 2) { ss >> matureht; }` . -/
def rdHeightV2 : CoinbaseStep := fun s bs =>
  if s.version = 2 then (rd readI32 (fun (s : CoinbaseOpret) v => { s with matureht := v })) s bs
  else (s, some bs)

/-- Body of the `E_UNMARSHAL` of `MarmaraDecodeCoinbaseOpretExt` : evalcode, funcid,
version, pk, then the height fields the version calls for. -/
def unmarshalCoinbase : CoinbaseStep :=
  (rd readU8 (fun s _ => s)).andThen
  ((rd readU8 (fun s _ => s)).andThen
  ((rd readU8 (fun s v => { s with version := v })).andThen
  ((rdIn readPubKey (fun s => s.pk) (fun s v => { s with pk := v })).andThen
  (rdHeightsV1.andThen rdHeightV2))))

/-- The source's `MarmaraDecodeCoinbaseOpretExt` : decodes an activated coin opreturn;
returns the function id, or 0, and the out-parameters as the call leaves them. -/
def MarmaraDecodeCoinbaseOpretExt (E : Env S) (K : Consts) (scriptPubKey : S)
    (out : CoinbaseOpret) : Nat × CoinbaseOpret :=
  let vopret := E.GetOpReturnData scriptPubKey
  if 3 ≤ vopret.length then
    if vopret.getD 0 0 = K.EVAL_MARMARA then
      if IsFuncidOneOf (vopret.getD 1 0) K.MARMARA_ACTIVATED_FUNCIDS then
        if 1 ≤ vopret.getD 2 0 ∧ vopret.getD 2 0 ≤ 2 then
          match E_UNMARSHAL unmarshalCoinbase out vopret with
          | (o, true) => (vopret.getD 1 0, o)
          | (o, false) => (0, o)
        else (0, out)
      else (0, out)
    else (0, out)
  else (0, out)

/-- The source's `MarmaraDecodeCoinbaseOpret` : the same with local `version` and
`matureht` ; returns the function id and `pk`, `height`, `unlockht` . -/
def MarmaraDecodeCoinbaseOpret (E : Env S) (K : Consts) (scriptPubKey : S) (pk : CPubKey)
    (height unlockht : Int) : Nat × CPubKey × Int × Int :=
  match MarmaraDecodeCoinbaseOpretExt E K scriptPubKey
      { version := 0, pk := pk, height := height, unlockht := unlockht, matureht := 0 } with
  | (r, o) => (r, o.pk, o.height, o.unlockht)

/-- The source's `MarmaraEncodeCoinbaseOpretExt` . -/
def MarmaraEncodeCoinbaseOpretExt (E : Env S) (K : Consts) (version funcid : Nat)
    (pk : CPubKey) (ht matureht : Int) : S :=
  let evalcode := K.EVAL_MARMARA
  if version = 1 then
    let unlockht := MarmaraUnlockht K ht
    E.opReturnScript (serU8 evalcode ++ serU8 funcid ++ serU8 version ++ serPubKey pk
      ++ serI32 ht ++ serI32 unlockht)
  else
    E.opReturnScript (serU8 evalcode ++ serU8 funcid ++ serU8 version ++ serPubKey pk
      ++ (if version = 2 then serI32 matureht else []))

def MarmaraEncodeCoinbaseOpret (E : Env S) (K : Consts) (funcid : Nat) (pk : CPubKey)
    (ht : Int) : S :=
  MarmaraEncodeCoinbaseOpretExt E K 1 funcid pk ht 0

/-- The source's `MarmaraDecodeReleaseOpret` : the function id, or 0, and `version` . -/
def MarmaraDecodeReleaseOpret (E : Env S) (K : Consts) (scriptPubKey : S) (version : Nat)
    (checkVersion : Nat) : Nat × Nat :=
  let vopret := E.GetOpReturnData scriptPubKey
  if 3 ≤ vopret.length then
    if vopret.getD 0 0 = K.EVAL_MARMARA then
      if IsFuncidOneOf (vopret.getD 1 0) [K.MARMARA_RELEASE] then
        if checkVersion = K.MARMARA_OPRET_VERSION_ANY ∨ vopret.getD 2 0 = checkVersion then
          match E_UNMARSHAL ((rd readU8 (fun (s : Nat) _ => s)).andThen
              ((rd readU8 (fun s _ => s)).andThen (rd readU8 (fun _ v => v)))) version vopret with
          | (v, true) => (vopret.getD 1 0, v)
          | (v, false) => (0, v)
        else (0, version)
      else (0, version)
    else (0, version)
  else (0, version)

/-- The source's `MarmaraEncodeReleaseOpret` : the dummy opret with the release funcid. -/
def MarmaraEncodeReleaseOpret (E : Env S) (K : Consts) : S :=
  let evalcode := K.EVAL_MARMARA
  let funcid := K.MARMARA_RELEASE
  let version := K.MARMARA_OPRET_VERSION
  E.opReturnScript (serU8 evalcode ++ serU8 funcid ++ serU8 version)

/-! ## Vout classifier -/

/-- The source's `MakeMarmaraCC1of2voutOpret` . -/
def MakeMarmaraCC1of2voutOpret (E : Env S) (K : Consts) (amount : Int) (pk2 : CPubKey)
    (opret : S) : CTxOut S :=
  let vopret := E.GetOpReturnData opret
  if ¬ vopret.isEmpty then
    E.MakeCC1of2vout K.EVAL_MARMARA amount E.Marmarapk pk2 (some [vopret])
  else
    E.MakeCC1of2vout K.EVAL_MARMARA amount E.Marmarapk pk2 none

/-- The source's `MyGetCCopret`, called on an empty `opret` : the cc opret of a script,
none when the function returns false. -/
def MyGetCCopret (E : Env S) (scriptPubKey : S) : Option S :=
  match E.IsPayToCryptoCondition scriptPubKey with
  | none => none
  | some vParams =>
    if 1 ≤ vParams.length then
      let vData := E.GetPushedData (vParams.getD 0 [])
      if 1 < vData.length ∧ (vData.getD 0 []).length = 4 then
        some (E.opReturnScript (vData.getD 1 []))
      else none
    else none

def GetCCOpReturnData (E : Env S) (spk : S) : Option S := MyGetCCopret E spk

/-- The class `CMarmaraOpretCheckerBase` : the flag and the member `CheckOpret`, which
returns its answer and the pubkey variable as it leaves it. -/
structure CMarmaraOpretCheckerBase (S : Type) where
  checkOnlyCC : Bool
  CheckOpret : S → CPubKey → Bool × CPubKey

/-- The checker `CMarmaraActivatedOpretChecker` : only the cc opret is allowed. -/
def CMarmaraActivatedOpretChecker (E : Env S) (K : Consts) : CMarmaraOpretCheckerBase S where
  checkOnlyCC := true
  CheckOpret := fun spk opretpk =>
    match MarmaraDecodeCoinbaseOpret E K spk opretpk 0 0 with
    | (r, pk, _, _) => (decide (r ≠ 0), pk)

/-- The checker `CMarmaraLockInLoopOpretChecker(onlyCC, checkVersion)` . -/
def CMarmaraLockInLoopOpretChecker (E : Env S) (K : Consts) (onlyCC : Bool)
    (checkVersion : Nat) : CMarmaraOpretCheckerBase S where
  checkOnlyCC := onlyCC
  CheckOpret := fun spk opretpk =>
    match MarmaraDecodeLoopOpret E K spk SMarmaraCreditLoopOpret.init checkVersion with
    | (funcid, loopData) => if funcid ≠ 0 then (true, loopData.pk) else (false, opretpk)

def CHECK_ONLY_CCOPRET : Bool := true

/-- The source's `tx_has_my_cc_vin` . -/
def tx_has_my_cc_vin (E : Env S) (tx : CTransaction S) : Bool :=
  tx.vin.any (fun vin => E.ismyvin vin.scriptSig)

/-- The source's `activated_vout_matches_pk_in_opret` . -/
def activated_vout_matches_pk_in_opret [DecidableEq S] (E : Env S) (K : Consts) (tx : CTransaction S)
    (nvout : Int) (opret : S) : Bool :=
  match MarmaraDecodeCoinbaseOpret E K opret [] 0 0 with
  | (_, pk, _, _) =>
    decide (voutAt E tx.vout nvout
      = MakeMarmaraCC1of2voutOpret E K (voutAt E tx.vout nvout).nValue pk opret)

/-- The source's `vout_matches_createtxid_in_opret` . -/
def vout_matches_createtxid_in_opret [DecidableEq S] (E : Env S) (K : Consts)
    (tx : CTransaction S) (nvout : Int) (opret : S) : Bool :=
  match MarmaraDecodeLoopOpret E K opret SMarmaraCreditLoopOpret.init
      K.MARMARA_OPRET_VERSION_ANY with
  | (_, loopData) =>
    let createtxidPk := E.CCtxidaddr_tweak loopData.createtxid
    decide (voutAt E tx.vout nvout
      = MakeMarmaraCC1of2voutOpret E K (voutAt E tx.vout nvout).nValue createtxidPk opret)

/-- The source's `get_either_opret` : calls the checker first for the cc vout opret, then
(when the checker allows it) for the last vout opret.  The first component is `opretOut`
when the function returns true and none when it returns false; the second is the
pubkey variable as the call leaves it.  (The checker is a value here, so the test for a
null checker has no counterpart.) -/
def get_either_opret (E : Env S) (opretChecker : CMarmaraOpretCheckerBase S)
    (tx : CTransaction S) (nvout : Int) (opretpk : CPubKey) : Option S × CPubKey :=
  if nvout < 0 ∨ nvout ≥ (tx.vout.length : Int) then (none, opretpk)
  else
    let first : Option S × CPubKey :=
      match GetCCOpReturnData E (voutAt E tx.vout nvout).scriptPubKey with
      | some opret =>
        match opretChecker.CheckOpret opret opretpk with
        | (true, pk) => (some opret, pk)
        | (false, pk) => (none, pk)
      | none => (none, opretpk)
    if ¬ opretChecker.checkOnlyCC ∧ first.1.isNone then
      if nvout < (tx.vout.length : Int) - 1 then
        match opretChecker.CheckOpret (voutBack E tx).scriptPubKey first.2 with
        | (true, pk) => (some (voutBack E tx).scriptPubKey, pk)
        | (false, pk) => (none, pk)
      else first
    else first

/-- The source's `IsMarmaraActivatedVout` : the answer and `pk_in_opret` as the call
leaves it. -/
def IsMarmaraActivatedVout [DecidableEq S] (E : Env S) (K : Consts) (tx : CTransaction S)
    (nvout : Int) (pk_in_opret : CPubKey) : Bool × CPubKey :=
  if nvout < 0 ∨ nvout ≥ (tx.vout.length : Int) then (false, pk_in_opret)
  else
    match get_either_opret E (CMarmaraActivatedOpretChecker E K) tx nvout pk_in_opret with
    | (some opret, pk) =>
      if activated_vout_matches_pk_in_opret E K tx nvout opret then (true, pk)
      else (false, pk)
    | (none, pk) => (false, pk)

/-- The source's `IsMarmaraLockedInLoopVout` : the answer, `pk_in_opret` and `createtxid`
as the call leaves them. -/
def IsMarmaraLockedInLoopVout [DecidableEq S] (E : Env S) (K : Consts) (tx : CTransaction S)
    (nvout : Int) (pk_in_opret : CPubKey) (createtxid : uint256) :
    Bool × CPubKey × uint256 :=
  if nvout < 0 ∨ nvout ≥ (tx.vout.length : Int) then (false, pk_in_opret, createtxid)
  else
    match get_either_opret E
        (CMarmaraLockInLoopOpretChecker E K CHECK_ONLY_CCOPRET K.MARMARA_OPRET_VERSION_DEFAULT)
        tx nvout pk_in_opret with
    | (some opret, pk) =>
      match MarmaraDecodeLoopOpret E K opret SMarmaraCreditLoopOpret.init
          K.MARMARA_OPRET_VERSION_ANY with
      | (funcid, loopData) =>
        if funcid ≠ K.MARMARA_LOCKED then (false, pk, createtxid)
        else if vout_matches_createtxid_in_opret E K tx nvout opret then
          if ¬ tx_has_my_cc_vin E tx then (false, pk, createtxid)
          else (true, pk, loopData.createtxid)
        else (false, pk, createtxid)
    | (none, pk) => (false, pk, createtxid)

/-! ## Whole-transaction checks and the validator entry -/

/-- One round of the loop of `check_global_spent_tx` : false when the round returns false. -/
def check_global_spent_vin [DecidableEq S] (E : Env S) (K : Consts) (funcids : Finset Nat)
    (vin : CTxIn S) : Bool :=
  if E.ismyvin vin.scriptSig then
    match E.myGetTransaction vin.prevout.hash with
    | some vintx =>
      let n : Int := toSigned 32 vin.prevout.n
      if E.MakeCC1vout K.EVAL_MARMARA (voutAt E vintx.vout n).nValue E.Marmarapk
          = voutAt E vintx.vout n then
        if n = K.MARMARA_LOOP_MARKER_AMOUNT then false
        else if n = K.MARMARA_OPENCLOSE_VOUT ∧ funcids ≠ {K.MARMARA_SETTLE}
            ∧ funcids ≠ {K.MARMARA_SETTLE_PARTIAL} then false
        else if n = K.MARMARA_ACTIVATED_MARKER_AMOUNT then false
        else true
      else true
    | none => true
  else true

/-- The source's `check_global_spent_tx` : checks whether a global pk vout is spent. -/
def check_global_spent_tx [DecidableEq S] (E : Env S) (K : Consts) (tx : CTransaction S)
    (funcids : Finset Nat) : Bool :=
  tx.vin.all (check_global_spent_vin E K funcids)

/-- The first loop of `get_txfee` : the sum of the spent outputs, none when a previous
transaction cannot be got. -/
def get_txfee_inputs (E : Env S) : List (CTxIn S) → Int → Option Int
  | [], inputs => some inputs
  | vin :: rest, inputs =>
    match E.myGetTransaction vin.prevout.hash with
    | none => none
    | some tx => get_txfee_inputs E rest (inputs + (voutAt E tx.vout vin.prevout.n).nValue)

/-- The source's `get_txfee` . -/
def get_txfee (E : Env S) (tx : CTransaction S) : Int :=
  match get_txfee_inputs E tx.vin 0 with
  | none => -1
  | some inputs =>
    let outputs := (tx.vout.map (fun vout => vout.nValue)).sum
    inputs - outputs

/-- One round of the loop of `MarmaraValidate` that collects the function ids. -/
def collectFuncIdsAt [DecidableEq S] (E : Env S) (K : Consts) (tx : CTransaction S)
    (funcIds : Finset Nat) (i : Nat) : Finset Nat :=
  let spk := (voutAt E tx.vout i).scriptPubKey
  let funcIds1 : Finset Nat :=
    if (E.IsPayToCryptoCondition spk).isSome then
      match get_either_opret E (CMarmaraActivatedOpretChecker E K) tx i [] with
      | (some opret, _) => insert (MarmaraDecodeCoinbaseOpret E K opret [] 0 0).1 funcIds
      | (none, opretpk) =>
        match get_either_opret E
            (CMarmaraLockInLoopOpretChecker E K CHECK_ONLY_CCOPRET
              K.MARMARA_OPRET_VERSION_DEFAULT) tx i opretpk with
        | (some opret, _) =>
          insert (MarmaraDecodeLoopOpret E K opret SMarmaraCreditLoopOpret.init
            K.MARMARA_OPRET_VERSION_ANY).2.lastfuncid funcIds
        | (none, _) => funcIds
    else funcIds
  if i + 1 = tx.vout.length then
    match MarmaraDecodeLoopOpret E K spk SMarmaraCreditLoopOpret.init
        K.MARMARA_OPRET_VERSION_ANY with
    | (r, loopData) =>
      if r ≠ 0 then insert loopData.lastfuncid funcIds1
      else
        match MarmaraDecodeReleaseOpret E K spk 0 1 with
        | (funcid, _) => if funcid ≠ 0 then insert funcid funcIds1 else funcIds1
  else funcIds1

/-- The set `funcIds` that `MarmaraValidate` collects from the outputs of a transaction. -/
def collectFuncIds [DecidableEq S] (E : Env S) (K : Consts) (tx : CTransaction S) :
    Finset Nat :=
  (List.range tx.vout.length).foldl (collectFuncIdsAt E K tx) ∅

/-- The structural checkers `MarmaraValidate` dispatches to, as it sees them: their
verdict on a transaction. -/
structure Checkers (S : Type) where
  check_issue_tx_12 : CTransaction S → Bool
  check_issue_tx : CTransaction S → Bool
  check_settlement_tx : CTransaction S → Bool
  check_stake_tx : Bool → CTransaction S → Bool
  check_release_tx : CTransaction S → Bool

/-- The bound `max_txfee = 2 * 10000` of `MarmaraValidate` . -/
def max_txfee : Int := 2 * 10000

/-- The dispatch of `MarmaraValidate` on the set of function ids, entered when
`check_global_spent_tx` holds: true where the source returns true, false where it falls
through to `eval->Error` . -/
def dispatchFuncIds (E : Env S) (K : Consts) (C : Checkers S) (tx : CTransaction S)
    (funcIds : Finset Nat) : Bool :=
  if funcIds = ∅ then false
  else if funcIds = {K.MARMARA_POOL} then false
  else if funcIds = {K.MARMARA_LOOP} then false
  else if funcIds = {K.MARMARA_CREATELOOP} then false
  else if funcIds = {K.MARMARA_REQUEST} then false
  else if funcIds = {K.MARMARA_ISSUE} ∨ funcIds = {K.MARMARA_ISSUE, K.MARMARA_LOCKED}
      ∨ funcIds = {K.MARMARA_ACTIVATED, K.MARMARA_ISSUE, K.MARMARA_LOCKED} then
    if E.MarmaraIs2020JuneUpdateActive then C.check_issue_tx_12 tx else C.check_issue_tx tx
  else if funcIds = {K.MARMARA_TRANSFER} ∨ funcIds = {K.MARMARA_TRANSFER, K.MARMARA_LOCKED}
      ∨ funcIds = {K.MARMARA_ACTIVATED, K.MARMARA_TRANSFER, K.MARMARA_LOCKED} then
    if E.MarmaraIs2020JuneUpdateActive then C.check_issue_tx_12 tx else C.check_issue_tx tx
  else if funcIds = {K.MARMARA_SETTLE} then C.check_settlement_tx tx
  else if funcIds = {K.MARMARA_SETTLE_PARTIAL} then C.check_settlement_tx tx
  else if funcIds = {K.MARMARA_COINBASE} ∨ funcIds = {K.MARMARA_COINBASE_3X} then
    C.check_stake_tx false tx
  else if funcIds = {K.MARMARA_LOCKED} then C.check_stake_tx true tx
  else if funcIds = {K.MARMARA_ACTIVATED} ∨ funcIds = {K.MARMARA_ACTIVATED_INITIAL} then
    C.check_stake_tx false tx
  else if funcIds = {K.MARMARA_RELEASE} ∨ funcIds = {K.MARMARA_RELEASE, K.MARMARA_ACTIVATED} then
    if E.MarmaraIs2020JuneUpdateActive then C.check_release_tx tx else false
  else false

/-- The source's `MarmaraValidate` : true when the transaction is accepted. -/
def MarmaraValidate [DecidableEq S] (E : Env S) (K : Consts) (C : Checkers S)
    (tx : CTransaction S) (nIn : Nat) : Bool :=
  if get_next_height E < K.MARMARA_POS_IMPROVEMENTS_HEIGHT then E.MarmaraValidate_h0 tx nIn
  else if ¬ E.ASSETCHAINS_MARMARA then false
  else if tx.vout.length < 1 then false
  else
    let funcIds := collectFuncIds E K tx
    let txfee := get_txfee E tx
    if txfee < 0 ∨ txfee > max_txfee then false
    else if check_global_spent_tx E K tx funcIds then dispatchFuncIds E K C tx funcIds
    else false

/-! ## Loop records as values -/

/-- A loop record with the arguments its encoder takes. -/
inductive LoopRecord where
  | create (version : Nat) (senderpk : CPubKey) (amount matures : Int) (currency : List Nat)
  | issue (version : Nat) (createtxid : uint256) (receiverpk : CPubKey)
      (autoSettlement autoInsurance : Nat) (avalCount disputeExpiresHeight : Int)
      (escrowOn : Nat) (blockageAmount : Int)
  | request (version : Nat) (createtxid : uint256) (senderpk : CPubKey)
  | transfer (version : Nat) (createtxid : uint256) (receiverpk : CPubKey) (avalCount : Int)
  | locked (createtxid : uint256) (senderpk : CPubKey)
  | settle (version : Nat) (isSuccess : Bool) (createtxid : uint256) (pk : CPubKey)
      (remaining : Int)
  deriving DecidableEq

/-- The script the matching encoder of the source writes for a record. -/
def LoopRecord.encode (E : Env S) (K : Consts) : LoopRecord → S
  | .create v pk amount matures currency =>
    MarmaraEncodeLoopCreateOpret E K v pk amount matures currency
  | .issue v txid pk aS aI aval dispute escrow blockage =>
    MarmaraEncodeLoopIssuerOpret E K v txid pk aS aI aval dispute escrow blockage
  | .request v txid pk => MarmaraEncodeLoopRequestOpret E K v txid pk
  | .transfer v txid pk aval => MarmaraEncodeLoopTransferOpret E K v txid pk aval
  | .locked txid pk => MarmaraEncodeLoopCCVoutOpret E K txid pk
  | .settle v ok txid pk remaining => MarmaraEncodeLoopSettlementOpret E K v ok txid pk remaining

/-- The bytes the encoder of a record hands to `OP_RETURN` . -/
def LoopRecord.payload (K : Consts) : LoopRecord → Bytes
  | .create v pk amount matures currency =>
    serU8 K.EVAL_MARMARA ++ serU8 K.MARMARA_CREATELOOP ++ serU8 v ++ serPubKey pk
      ++ serI64 amount ++ serI32 matures ++ serString currency
  | .issue v txid pk aS aI aval dispute escrow blockage =>
    serU8 K.EVAL_MARMARA ++ serU8 K.MARMARA_ISSUE ++ serU8 v ++ serUint256 txid
      ++ serPubKey pk ++ serU8 aS ++ serU8 aI ++ serI32 aval ++ serI32 dispute
      ++ serU8 escrow ++ serI64 blockage
  | .request v txid pk =>
    serU8 K.EVAL_MARMARA ++ serU8 K.MARMARA_REQUEST ++ serU8 v ++ serUint256 txid
      ++ serPubKey pk
  | .transfer v txid pk aval =>
    serU8 K.EVAL_MARMARA ++ serU8 K.MARMARA_TRANSFER ++ serU8 v ++ serUint256 txid
      ++ serPubKey pk ++ serI32 aval
  | .locked txid pk =>
    serU8 K.EVAL_MARMARA ++ serU8 K.MARMARA_LOCKED ++ serU8 K.MARMARA_OPRET_VERSION
      ++ serUint256 txid ++ serPubKey pk
  | .settle v ok txid pk remaining =>
    serU8 K.EVAL_MARMARA ++ serU8 (if ok then K.MARMARA_SETTLE else K.MARMARA_SETTLE_PARTIAL)
      ++ serU8 v ++ serUint256 txid ++ serPubKey pk ++ serI64 remaining

/-- The function id of a record's kind. -/
def LoopRecord.funcid (K : Consts) : LoopRecord → Nat
  | .create .. => K.MARMARA_CREATELOOP
  | .issue .. => K.MARMARA_ISSUE
  | .request .. => K.MARMARA_REQUEST
  | .transfer .. => K.MARMARA_TRANSFER
  | .locked .. => K.MARMARA_LOCKED
  | .settle _ ok _ _ _ => if ok then K.MARMARA_SETTLE else K.MARMARA_SETTLE_PARTIAL

/-- The version a record is written with. -/
def LoopRecord.version (K : Consts) : LoopRecord → Nat
  | .create v .. => v
  | .issue v .. => v
  | .request v .. => v
  | .transfer v .. => v
  | .locked .. => K.MARMARA_OPRET_VERSION
  | .settle v .. => v

/-- The pubkey of a record. -/
def LoopRecord.pk : LoopRecord → CPubKey
  | .create _ pk .. => pk
  | .issue _ _ pk .. => pk
  | .request _ _ pk => pk
  | .transfer _ _ pk _ => pk
  | .locked _ pk => pk
  | .settle _ _ _ pk _ => pk

def inInt32 (v : Int) : Prop := -2147483648 ≤ v ∧ v < 2147483648

def inInt64 (v : Int) : Prop := -9223372036854775808 ≤ v ∧ v < 9223372036854775808

instance (v : Int) : Decidable (inInt32 v) := by unfold inInt32; infer_instance

instance (v : Int) : Decidable (inInt64 v) := by unfold inInt64; infer_instance

/-- A key as the type `CPubKey` holds it: 33 or 65 significant bytes, or none. -/
def IsPubKey (pk : CPubKey) : Prop := pk.length = 33 ∨ pk.length = 65 ∨ pk = []

instance (pk : CPubKey) : Decidable (IsPubKey pk) := by unfold IsPubKey; infer_instance

/-- The fields of a record are values of their C++ types: 32-byte ids, keys, `int32_t` and
`int64_t` numbers, a string the stream can carry. -/
def LoopRecord.InRange : LoopRecord → Prop
  | .create _ pk amount matures currency =>
    IsPubKey pk ∧ inInt64 amount ∧ inInt32 matures ∧ currency.length ≤ MAX_SIZE
  | .issue _ txid pk _ _ aval dispute _ blockage =>
    txid.length = 32 ∧ IsPubKey pk ∧ inInt32 aval ∧ inInt32 dispute ∧ inInt64 blockage
  | .request _ txid pk => txid.length = 32 ∧ IsPubKey pk
  | .transfer _ txid pk aval => txid.length = 32 ∧ IsPubKey pk ∧ inInt32 aval
  | .locked txid pk => txid.length = 32 ∧ IsPubKey pk
  | .settle _ _ txid pk remaining => txid.length = 32 ∧ IsPubKey pk ∧ inInt64 remaining

/-- What the round trip promises: the struct `ld` with the function id, the version, the
creation txid, the pubkey and the kind-specific fields of the record stored in it (and
the flag of the kind raised); every other field as it was. -/
def LoopRecord.stored (K : Consts) (ld : SMarmaraCreditLoopOpret) :
    LoopRecord → SMarmaraCreditLoopOpret
  | .create v pk amount matures currency =>
    { ld with lastfuncid := K.MARMARA_CREATELOOP, version := v, pk := pk, amount := amount,
              matures := matures, currency := currency, hasCreateOpret := true }
  | .issue v txid pk aS aI aval dispute escrow blockage =>
    { ld with lastfuncid := K.MARMARA_ISSUE, version := v, createtxid := txid, pk := pk,
              autoSettlement := aS, autoInsurance := aI, avalCount := aval,
              disputeExpiresHeight := dispute, escrowOn := escrow, blockageAmount := blockage,
              hasIssuanceOpret := true }
  | .request v txid pk =>
    { ld with lastfuncid := K.MARMARA_REQUEST, version := v, createtxid := txid, pk := pk }
  | .transfer v txid pk aval =>
    { ld with lastfuncid := K.MARMARA_TRANSFER, version := v, createtxid := txid, pk := pk,
              avalCount := aval }
  | .locked txid pk =>
    { ld with lastfuncid := K.MARMARA_LOCKED, version := K.MARMARA_OPRET_VERSION,
              createtxid := txid, pk := pk }
  | .settle v ok txid pk remaining =>
    { ld with lastfuncid := (if ok then K.MARMARA_SETTLE else K.MARMARA_SETTLE_PARTIAL),
              version := v, createtxid := txid, pk := pk, remaining := remaining,
              hasSettlementOpret := true }

/-- The key a struct holds after a key has been read into it: a key without bytes
leaves the old key in place. -/
def keyRead (old pk : CPubKey) : CPubKey := if pk = [] then old else pk

/-- The struct after the `E_UNMARSHAL` body of a record's kind has run over the record:
the fields read, the flag of the kind not yet raised. -/
def LoopRecord.parsed (K : Consts) (ld : SMarmaraCreditLoopOpret) :
    LoopRecord → SMarmaraCreditLoopOpret
  | .create v pk amount matures currency =>
    { ld with lastfuncid := K.MARMARA_CREATELOOP, version := v, pk := keyRead ld.pk pk,
              amount := amount, matures := matures, currency := currency }
  | .issue v txid pk aS aI aval dispute escrow blockage =>
    { ld with lastfuncid := K.MARMARA_ISSUE, version := v, createtxid := txid,
              pk := keyRead ld.pk pk,
              autoSettlement := aS, autoInsurance := aI, avalCount := aval,
              disputeExpiresHeight := dispute, escrowOn := escrow, blockageAmount := blockage }
  | .request v txid pk =>
    { ld with lastfuncid := K.MARMARA_REQUEST, version := v, createtxid := txid,
              pk := keyRead ld.pk pk }
  | .transfer v txid pk aval =>
    { ld with lastfuncid := K.MARMARA_TRANSFER, version := v, createtxid := txid,
              pk := keyRead ld.pk pk, avalCount := aval }
  | .locked txid pk =>
    { ld with lastfuncid := K.MARMARA_LOCKED, version := K.MARMARA_OPRET_VERSION,
              createtxid := txid, pk := keyRead ld.pk pk }
  | .settle v ok txid pk remaining =>
    { ld with lastfuncid := (if ok then K.MARMARA_SETTLE else K.MARMARA_SETTLE_PARTIAL),
              version := v, createtxid := txid, pk := keyRead ld.pk pk,
              remaining := remaining }

/-- The struct after the funcid dispatch has parsed a record: the fields read and the
flag of the kind raised. -/
def LoopRecord.decoded (K : Consts) (ld : SMarmaraCreditLoopOpret) (r : LoopRecord) :
    SMarmaraCreditLoopOpret :=
  match r with
  | .create .. => { r.parsed K ld with hasCreateOpret := true }
  | .issue .. => { r.parsed K ld with hasIssuanceOpret := true }
  | .settle .. => { r.parsed K ld with hasSettlementOpret := true }
  | _ => r.parsed K ld

/-- The `E_UNMARSHAL` body `MarmaraDecodeLoopOpret` runs for a record's kind. -/
def LoopRecord.body : LoopRecord → LoopStep
  | .create .. => unmarshalCreate
  | .issue .. => unmarshalIssue
  | .request .. => unmarshalRequest
  | .transfer .. => unmarshalTransfer
  | .locked .. => unmarshalRequest
  | .settle .. => unmarshalSettle

instance (r : LoopRecord) : Decidable r.InRange := by
  cases r <;> (unfold LoopRecord.InRange; infer_instance)

/-- The function ids of the loop records. -/
def Consts.loopKinds (K : Consts) : List Nat :=
  [K.MARMARA_CREATELOOP, K.MARMARA_ISSUE, K.MARMARA_REQUEST, K.MARMARA_TRANSFER,
    K.MARMARA_LOCKED, K.MARMARA_SETTLE, K.MARMARA_SETTLE_PARTIAL]

/-- The function ids of the loop records are pairwise different. -/
def Consts.LoopKindsDistinct (K : Consts) : Prop := K.loopKinds.Nodup

instance (K : Consts) : Decidable K.LoopKindsDistinct := by
  unfold Consts.LoopKindsDistinct; infer_instance

/-- The law of the script container the codec relies on: `GetOpReturnData` gives back
the data of the script `CScript() << OP_RETURN << data` . -/
def Env.OpretFraming (E : Env S) : Prop :=
  ∀ data : Bytes, E.GetOpReturnData (E.opReturnScript data) = data

/-! ## The claims about the validator entry, in the words of the specification -/

/-- The sets of function ids the specification lists as recognized. -/
def Consts.recognizedSets (K : Consts) : List (Finset Nat) :=
  [{K.MARMARA_ISSUE}, {K.MARMARA_ISSUE, K.MARMARA_LOCKED},
    {K.MARMARA_ACTIVATED, K.MARMARA_ISSUE, K.MARMARA_LOCKED},
    {K.MARMARA_TRANSFER}, {K.MARMARA_TRANSFER, K.MARMARA_LOCKED},
    {K.MARMARA_ACTIVATED, K.MARMARA_TRANSFER, K.MARMARA_LOCKED},
    {K.MARMARA_SETTLE}, {K.MARMARA_SETTLE_PARTIAL},
    {K.MARMARA_COINBASE}, {K.MARMARA_COINBASE_3X},
    {K.MARMARA_LOCKED}, {K.MARMARA_ACTIVATED}, {K.MARMARA_ACTIVATED_INITIAL},
    {K.MARMARA_RELEASE}, {K.MARMARA_RELEASE, K.MARMARA_ACTIVATED}]

/-- The function ids of the header are pairwise different. -/
def Consts.FuncidsDistinct (K : Consts) : Prop :=
  [K.MARMARA_COINBASE, K.MARMARA_COINBASE_3X, K.MARMARA_ACTIVATED,
    K.MARMARA_ACTIVATED_INITIAL, K.MARMARA_POOL, K.MARMARA_CREATELOOP, K.MARMARA_REQUEST,
    K.MARMARA_ISSUE, K.MARMARA_TRANSFER, K.MARMARA_SETTLE, K.MARMARA_SETTLE_PARTIAL,
    K.MARMARA_RELEASE, K.MARMARA_LOOP, K.MARMARA_LOCKED].Nodup

instance (K : Consts) : Decidable K.FuncidsDistinct := by
  unfold Consts.FuncidsDistinct; infer_instance

/-- The value of the output an input spends (0 when the previous transaction is not
known). -/
def spentValue (E : Env S) (vin : CTxIn S) : Int :=
  match E.myGetTransaction vin.prevout.hash with
  | some tx => (voutAt E tx.vout vin.prevout.n).nValue
  | none => 0

/-- The fee in the words of the specification: the sum of the values of the outputs the
inputs spend minus the sum of the values of the outputs. -/
def specFee (E : Env S) (tx : CTransaction S) : Int :=
  (tx.vin.map (spentValue E)).sum - (tx.vout.map (fun vout => vout.nValue)).sum

end Codec

/-! ## Loop lookups and the baton walk -/

section LoopChecks
variable {S : Type}

/-- The source's `skipBadLoop` : the fixed list of bad loop transactions. -/
def skipBadLoop (E : Env S) (refbatontxid : uint256) : Bool :=
  E.Parseuint256 "a8774a147f5153d8da4c554a4953de06b3b864f681a460cb9e3968a01d144370" = refbatontxid ||
  E.Parseuint256 "8a7fb07112fa8e99f3480485921df2119097e4ea34cb5c59449f34fdac74e266" = refbatontxid ||
  E.Parseuint256 "7d20cc53b11488600e61d349c16e5e2f9cdd905ad86aca8c4bfdf7dd0f6b6242" = refbatontxid ||
  E.Parseuint256 "01208c5b322d444cdcc07f09bfaef8e6cca7f65c6c580d1cf6cde6b063dee98d" = refbatontxid

/-- The source's `fixBadSettle` . -/
def fixBadSettle (E : Env S) (K : Consts) (settletxid : uint256) : Bool :=
  E.Parseuint256 "57ae9f4a36ece775041ede5f0792831861428552f16eaf44cff9001020542d05" = settletxid &&
  decide (get_next_height E < K.MARMARA_POS_IMPROVEMENTS_HEIGHT)

/-- The source's `get_create_txid` : finds the creation txid from the loop tx opret, or
returns the txid itself for the creation tx; the return value and `createtxid` . -/
def get_create_txid (E : Env S) (K : Consts) (txid : uint256) (checkVersion : Nat) :
    Int × uint256 :=
  match E.myGetTransaction txid with
  | some tx =>
    if 1 < tx.vout.length then
      match MarmaraDecodeLoopOpret E K (voutBack E tx).scriptPubKey
          SMarmaraCreditLoopOpret.init checkVersion with
      | (funcid, loopData) =>
        if funcid = K.MARMARA_ISSUE ∨ funcid = K.MARMARA_TRANSFER ∨ funcid = K.MARMARA_REQUEST then
          (0, loopData.createtxid)
        else if funcid = K.MARMARA_CREATELOOP then (0, txid)
        else (-1, zeroid)
    else (-1, zeroid)
  | none => (-1, zeroid)

/-- The while loop of `MarmaraGetbatontxid` : follows the spent batons from `txid` ; the
return value, the credit loop and the baton txid, or none when `fuel` rounds did not
end the loop. -/
def batonWalk (E : Env S) (K : Consts) :
    Nat → uint256 → List uint256 → Int → Option (Int × List uint256 × uint256)
  | 0, _, _, _ => none
  | fuel + 1, txid, creditloop, n =>
    match E.CCgetspenttxid txid K.MARMARA_BATON_VOUT with
    | some spenttxid =>
      let value := E.CCgettxout spenttxid K.MARMARA_BATON_VOUT
      if value = K.MARMARA_BATON_AMOUNT then some (n + 1, creditloop ++ [txid], spenttxid)
      else if value > 0 then some (n + 1, creditloop ++ [txid], spenttxid)
      else batonWalk E K fuel spenttxid (creditloop ++ [txid]) (n + 1)
    | none =>
      if n = 0 then some (0, creditloop, zeroid) else some (-1, creditloop, zeroid)

/-- The source's `MarmaraGetbatontxid` : starting from any loop txid, finds the latest yet
unspent baton; returns the number of transactions marked with the baton, the credit
loop with the visited txids appended, and the baton txid (none: out of fuel). -/
def MarmaraGetbatontxid (E : Env S) (K : Consts) (fuel : Nat) (creditloop : List uint256)
    (querytxid : uint256) : Option (Int × List uint256 × uint256) :=
  match get_create_txid E K querytxid K.MARMARA_OPRET_VERSION_ANY with
  | (ret, createtxid) =>
    if ret = 0 then batonWalk E K fuel createtxid creditloop 0
    else some (-1, creditloop, zeroid)

/-- The number of cc outputs, the last output apart, that are locked-in-loop vouts: the
counting loop of `get_loop_endorsers_number` . -/
def countLockedVouts [DecidableEq S] (E : Env S) (K : Consts) (tx : CTransaction S) : Nat :=
  ((List.range (tx.vout.length - 1)).filter (fun (ivout : Nat) =>
    (E.IsPayToCryptoCondition (voutAt E tx.vout ivout).scriptPubKey).isSome
      && (IsMarmaraLockedInLoopVout E K tx ivout [] zeroid).1)).length

/-- The source's `get_loop_endorsers_number` : the return value and `createtxid` . -/
def get_loop_endorsers_number [DecidableEq S] (E : Env S) (K : Consts) (prevtxid : uint256)
    (checkVersion : Nat) : Int × uint256 :=
  match E.myGetTransaction prevtxid with
  | some tx =>
    if 1 < tx.vout.length then
      match MarmaraDecodeLoopOpret E K (voutBack E tx).scriptPubKey
          SMarmaraCreditLoopOpret.init checkVersion with
      | (funcid, loopData) =>
        if funcid = K.MARMARA_CREATELOOP then (0, E.GetHash tx)
        else if funcid = K.MARMARA_ISSUE then (1, loopData.createtxid)
        else if funcid = K.MARMARA_TRANSFER then
          if countLockedVouts E K tx = 0 then (-1, loopData.createtxid)
          else ((countLockedVouts E K tx : Int), loopData.createtxid)
        else (-1, zeroid)
    else (-1, zeroid)
  | none => (-1, zeroid)

/-- The source's `get_loop_creation_data` : loads the create tx and adds the data of its
opret to `loopData` ; the return value and `loopData` .  (The data `GetOpReturnData` hands
out has two bytes or more only when the function returns true.) -/
def get_loop_creation_data (E : Env S) (K : Consts) (createtxid : uint256)
    (loopData : SMarmaraCreditLoopOpret) (checkVersion : Nat) :
    Int × SMarmaraCreditLoopOpret :=
  match E.myGetTransaction createtxid with
  | some tx =>
    if 1 < tx.vout.length then
      let vopret := E.GetOpReturnData (voutBack E tx).scriptPubKey
      if 2 ≤ vopret.length ∧ vopret.getD 0 0 = K.EVAL_MARMARA
          ∧ vopret.getD 1 0 = K.MARMARA_CREATELOOP then
        match MarmaraDecodeLoopOpret E K (voutBack E tx).scriptPubKey loopData checkVersion with
        | (funcid, ld) => if funcid = K.MARMARA_CREATELOOP then (0, ld) else (-1, ld)
      else (-1, loopData)
    else (-1, loopData)
  | none => (-1, loopData)

/-- The verdict of the last branch of `check_request_tx` : false when one of the two tests
sets the error string. -/
def requestKindOk (K : Consts) (issueFuncId funcid : Nat) : Bool :=
  !(decide (issueFuncId = K.MARMARA_ISSUE ∧ funcid ≠ K.MARMARA_CREATELOOP)
    || decide (issueFuncId = K.MARMARA_TRANSFER ∧ funcid ≠ K.MARMARA_REQUEST))

/-- The source's `check_request_tx` : checks the request or create tx; true when no error
string was set. -/
def check_request_tx (E : Env S) (K : Consts) (requesttxid : uint256) (receiverpk : CPubKey)
    (issueFuncId : Nat) (checkVersion : Nat) : Bool :=
  if requesttxid = zeroid then false
  else
    match get_create_txid E K requesttxid checkVersion with
    | (ret, createtxid) =>
      if ret < 0 then false
      else
        match get_loop_creation_data E K createtxid SMarmaraCreditLoopOpret.init checkVersion with
        | (ret2, loopData) =>
          if ret2 < 0 then false
          else
            match E.myGetTransaction requesttxid with
            | none => false
            | some requesttx =>
              if requesttx.vout.length < 1 then false
              else
                match MarmaraDecodeLoopOpret E K (voutBack E requesttx).scriptPubKey loopData
                    checkVersion with
                | (funcid, loopData2) =>
                  if funcid = 0 then false
                  else if E.TotalPubkeyNormalInputs requesttx receiverpk = 0 then false
                  else if E.TotalPubkeyNormalInputs requesttx loopData2.pk > 0 then false
                  else requestKindOk K issueFuncId funcid

/-- The source's `get_cc_balance` : the values of the Marmara cc outputs the transaction
spends minus the values of its cc outputs. -/
def get_cc_balance (E : Env S) (tx : CTransaction S) : Int :=
  let ccInputs := (tx.vin.map (fun vin =>
    if E.IsCCInput vin.scriptSig ∧ E.ismyvin vin.scriptSig then
      match E.myGetTransaction vin.prevout.hash with
      | some vintx => (voutAt E vintx.vout vin.prevout.n).nValue
      | none => 0
    else 0)).sum
  let ccOutputs := (tx.vout.map (fun vout =>
    if (E.IsPayToCryptoCondition vout.scriptPubKey).isSome then vout.nValue else 0)).sum
  ccInputs - ccOutputs

end LoopChecks

/-! ## The issue/transfer checker of version 1.1 -/

section IssueV1
variable {S : Type} [DecidableEq S]

/-- State of the first loop of `check_lcl_redistribution` . -/
structure LclVouts where
  lclAmount : Int
  endorserPks : List CPubKey
  usedccvouts : Finset Int

/-- One round of the first loop of `check_lcl_redistribution` (none: the function returns
false).  The difference `diff` is the value of the comparison `nValue != amount / (n + 1)`,
as the source writes it. -/
def lclVoutStep (E : Env S) (K : Consts) (tx : CTransaction S) (createtxid : uint256)
    (creationAmount : Int) (nPrevEndorsers : Int) (st : LclVouts) (ivout : Nat) :
    Option LclVouts :=
  if (E.IsPayToCryptoCondition (voutAt E tx.vout ivout).scriptPubKey).isSome then
    match IsMarmaraLockedInLoopVout E K tx ivout [] zeroid with
    | (true, _, voutcreatetxid) =>
      match GetCCOpReturnData E (voutAt E tx.vout ivout).scriptPubKey with
      | some opret =>
        if voutcreatetxid ≠ createtxid then none
        else
          let voutLoopData := (MarmaraDecodeLoopOpret E K opret SMarmaraCreditLoopOpret.init
            K.MARMARA_OPRET_VERSION_DEFAULT).2
          let diff : Int :=
            if (voutAt E tx.vout ivout).nValue ≠ Int.tdiv creationAmount (nPrevEndorsers + 1)
            then 1 else 0
          if diff < -K.MARMARA_LOOP_TOLERANCE ∨ diff > K.MARMARA_LOOP_TOLERANCE then none
          else some { lclAmount := st.lclAmount + (voutAt E tx.vout ivout).nValue,
                      endorserPks := st.endorserPks ++ [voutLoopData.pk],
                      usedccvouts := insert (ivout : Int) st.usedccvouts }
      | none => some st
    | (false, _, _) => some st
  else some st

/-- A loop with early return over a list: none as soon as a round fails. -/
def foldSteps {σ α : Type} (step : σ → α → Option σ) : σ → List α → Option σ
  | st, [] => some st
  | st, a :: rest =>
    match step st a with
    | none => none
    | some st1 => foldSteps step st1 rest

/-- One round of the loop over all outputs that sums the amount redistributed to the
normal outputs of the endorsers (none: the function returns false). -/
def redistributedStep (E : Env S) (K : Consts) (endorserPks : List CPubKey)
    (creationAmount : Int) (nPrevEndorsers : Int) (redistributedAmount : Int)
    (v : CTxOut S) : Option Int :=
  if (E.IsPayToCryptoCondition v.scriptPubKey).isNone then
    if endorserPks.any (fun pk =>
        decide (v = { nValue := v.nValue, scriptPubKey := E.p2pkScript pk })) then
      let diff := v.nValue - Int.tdiv (Int.tdiv creationAmount nPrevEndorsers) (nPrevEndorsers + 1)
      if diff < -K.MARMARA_LOOP_TOLERANCE ∨ diff > K.MARMARA_LOOP_TOLERANCE then none
      else some (redistributedAmount + v.nValue)
    else some redistributedAmount
  else some redistributedAmount

/-- One round of the loop of `check_lcl_redistribution` over the spent locked-in-loop
inputs, which collects their pubkeys (none: the function returns false). -/
def lclVinStep (E : Env S) (K : Consts) (createtxid : uint256) (endorserPksPrev : List CPubKey)
    (vin : CTxIn S) : Option (List CPubKey) :=
  if E.IsCCInput vin.scriptSig then
    if E.ismyvin vin.scriptSig then
      match E.myGetTransaction vin.prevout.hash with
      | some vintx =>
        match IsMarmaraLockedInLoopVout E K vintx (toSigned 32 vin.prevout.n) [] zeroid with
        | (true, pk_in_opret, voutcreatetxid) =>
          if voutcreatetxid ≠ createtxid then none
          else some (endorserPksPrev ++ [pk_in_opret])
        | (false, _, _) => none
      | none => none
    else none
  else some endorserPksPrev

/-- The source's `check_lcl_redistribution` : checks the total loop amount in the tx and
the amount redistributed back (version 1.1 only).  On success `usedccvouts`, `loopAmount`
and `nPrevEndorsers` ; none when the function returns false.  The two sorted lists of
pubkeys are equal when one is a permutation of the other; `pop_front` on an empty
list, undefined in the source, leaves the list empty. -/
def check_lcl_redistribution (E : Env S) (K : Consts) (tx : CTransaction S)
    (prevtxid : uint256) (startvin : Nat) (usedccvouts : Finset Int) :
    Option (Finset Int × Int × Int) :=
  match get_loop_endorsers_number E K prevtxid K.MARMARA_OPRET_VERSION_DEFAULT with
  | (nPrevEndorsers, createtxid) =>
    if nPrevEndorsers < 0 then none
    else
      match get_loop_creation_data E K createtxid SMarmaraCreditLoopOpret.init
          K.MARMARA_OPRET_VERSION_DEFAULT with
      | (ret, creationLoopData) =>
        if ret < 0 then none
        else if tx.vout.length = 0 ∨ (MarmaraDecodeLoopOpret E K (voutBack E tx).scriptPubKey
            SMarmaraCreditLoopOpret.init K.MARMARA_OPRET_VERSION_DEFAULT).1 = 0 then none
        else
          match foldSteps (lclVoutStep E K tx createtxid creationLoopData.amount nPrevEndorsers)
              { lclAmount := 0, endorserPks := [], usedccvouts := usedccvouts }
              (List.range (tx.vout.length - 1)) with
          | none => none
          | some vouts =>
            if E.abs (creationLoopData.amount - vouts.lclAmount) > K.MARMARA_LOOP_TOLERANCE then none
            else
              let endorserPks := vouts.endorserPks.tail
              if nPrevEndorsers ≠ (endorserPks.length : Int) then none
              else
                let redistributionOk : Bool :=
                  if nPrevEndorsers ≠ 0 then
                    match foldSteps (redistributedStep E K endorserPks creationLoopData.amount
                        nPrevEndorsers) 0 tx.vout with
                    | none => false
                    | some redistributedAmount =>
                      let diff := Int.tdiv vouts.lclAmount (nPrevEndorsers + 1) - redistributedAmount
                      !(decide (diff < -K.MARMARA_LOOP_TOLERANCE ∨ diff > K.MARMARA_LOOP_TOLERANCE))
                  else true
                if !redistributionOk then none
                else
                  match foldSteps (lclVinStep E K createtxid) [] (tx.vin.drop startvin) with
                  | none => none
                  | some endorserPksPrev =>
                    if decide (List.Perm endorserPks endorserPksPrev) then
                      some (vouts.usedccvouts, creationLoopData.amount, nPrevEndorsers)
                    else none

/-- The first loop of `check_issue_tx` over the inputs: the index `ivin` at which the loop
stops (the number of inputs when it runs to the end), none when the function returns
false. -/
def issueScanVins (E : Env S) (K : Consts) : List (CTxIn S) → Nat → Bool → Option Nat
  | [], ivin, _ => some ivin
  | vin :: rest, ivin, activatedHasBegun =>
    if E.IsCCInput vin.scriptSig then
      if E.ismyvin vin.scriptSig then
        match E.myGetTransaction vin.prevout.hash with
        | some vintx =>
          if (IsMarmaraActivatedVout E K vintx (toSigned 32 vin.prevout.n) []).1 then
            if E.check_signing_pubkey vin.scriptSig = E.Marmarapk then none
            else issueScanVins E K rest (ivin + 1) true
          else if activatedHasBegun then some ivin
          else issueScanVins E K rest (ivin + 1) activatedHasBegun
        | none => none
      else none
    else issueScanVins E K rest (ivin + 1) activatedHasBegun

/-- Element `i` of a vin vector (out of range: an input with a null outpoint). -/
def vinAt (E : Env S) (vin : List (CTxIn S)) (i : Nat) : CTxIn S :=
  vin.getD i { prevout := { hash := zeroid, n := 0 }, scriptSig := E.nullOut.scriptPubKey }

/-- The indices of the cc outputs of a transaction, the last output apart. -/
def ccVoutIndices (E : Env S) (tx : CTransaction S) : Finset Int :=
  ((List.range (tx.vout.length - 1)).filter (fun (i : Nat) =>
    (E.IsPayToCryptoCondition (voutAt E tx.vout i).scriptPubKey).isSome)).foldl
    (fun acc (i : Nat) => insert (i : Int) acc) ∅

/-- The indices of the cc outputs, the last output apart, that are activated vouts. -/
def activatedVoutIndices (E : Env S) (K : Consts) (tx : CTransaction S) : Finset Int :=
  ((List.range (tx.vout.length - 1)).filter (fun (i : Nat) =>
    (E.IsPayToCryptoCondition (voutAt E tx.vout i).scriptPubKey).isSome
      && (IsMarmaraActivatedVout E K tx i []).1)).foldl
    (fun acc (i : Nat) => insert (i : Int) acc) ∅

/-- The part of `check_issue_tx` that checks the baton and the markers: the set
`usedccvouts` with their positions added, none when the function returns false. -/
def issueMarkers (E : Env S) (K : Consts) (tx : CTransaction S)
    (loopData : SMarmaraCreditLoopOpret) (usedccvouts : Finset Int) : Option (Finset Int) :=
  let holderpk := loopData.pk
  if (tx.vout.length : Int) ≤ K.MARMARA_BATON_VOUT
      ∨ voutAt E tx.vout K.MARMARA_BATON_VOUT
        ≠ E.MakeCC1vout K.EVAL_MARMARA K.MARMARA_BATON_AMOUNT holderpk then none
  else
    let used1 := insert K.MARMARA_BATON_VOUT usedccvouts
    if loopData.lastfuncid = K.MARMARA_ISSUE then
      if (tx.vout.length : Int) ≤ K.MARMARA_OPENCLOSE_VOUT
          ∨ voutAt E tx.vout K.MARMARA_OPENCLOSE_VOUT
            ≠ E.MakeCC1vout K.EVAL_MARMARA K.MARMARA_OPEN_MARKER_AMOUNT E.Marmarapk then none
      else if (tx.vout.length : Int) ≤ K.MARMARA_LOOP_MARKER_VOUT
          ∨ voutAt E tx.vout K.MARMARA_LOOP_MARKER_VOUT
            ≠ E.MakeCC1vout K.EVAL_MARMARA K.MARMARA_LOOP_MARKER_AMOUNT E.Marmarapk then none
      else some (insert K.MARMARA_LOOP_MARKER_VOUT (insert K.MARMARA_OPENCLOSE_VOUT used1))
    else some used1

/-- The source's `check_issue_tx` : checks an issue or transfer tx of version 1.1. -/
def check_issue_tx (E : Env S) (K : Consts) (tx : CTransaction S) : Bool :=
  if tx.vout.length = 0 then false
  else if skipBadLoop E (E.GetHash tx) then true
  else
    let loopData := (MarmaraDecodeLoopOpret E K (voutBack E tx).scriptPubKey
      SMarmaraCreditLoopOpret.init K.MARMARA_OPRET_VERSION_DEFAULT).2
    if loopData.lastfuncid ≠ K.MARMARA_ISSUE ∧ loopData.lastfuncid ≠ K.MARMARA_TRANSFER then false
    else
      match issueScanVins E K tx.vin 0 false with
      | none => false
      | some ivin =>
        if ivin ≥ tx.vin.length then false
        else
          let requesttx_i := ivin
          if !check_request_tx E K (vinAt E tx.vin requesttx_i).prevout.hash loopData.pk
              loopData.lastfuncid K.MARMARA_OPRET_VERSION_DEFAULT then false
          else
            let prevtxid0 : uint256 :=
              if loopData.lastfuncid = K.MARMARA_ISSUE then (vinAt E tx.vin requesttx_i).prevout.hash
              else zeroid
            let afterBaton : Option (Nat × uint256) :=
              if loopData.lastfuncid = K.MARMARA_TRANSFER then
                if ivin + 1 ≥ tx.vin.length then none
                else
                  let baton_i := ivin + 1
                  let batonOk : Bool :=
                    match E.myGetTransaction (vinAt E tx.vin baton_i).prevout.hash with
                    | some vintx => tx_has_my_cc_vin E vintx
                    | none => true
                  if !batonOk then none
                  else some (baton_i, (vinAt E tx.vin baton_i).prevout.hash)
              else some (ivin, prevtxid0)
            match afterBaton with
            | none => false
            | some (ivin1, prevtxid) =>
              match check_lcl_redistribution E K tx prevtxid (ivin1 + 1) ∅ with
              | none => false
              | some (usedccvouts, loopAmount, nPrevEndorsers) =>
                match issueMarkers E K tx loopData usedccvouts with
                | none => false
                | some used =>
                  let usedAll := used ∪ activatedVoutIndices E K tx
                  if ccVoutIndices E tx ≠ usedAll then false
                  else
                    let ccBatonsBalance : Int :=
                      if loopData.lastfuncid = K.MARMARA_ISSUE then
                        K.MARMARA_CREATETX_AMOUNT - (K.MARMARA_BATON_AMOUNT
                          + K.MARMARA_LOOP_MARKER_AMOUNT + K.MARMARA_OPEN_MARKER_AMOUNT)
                      else
                        (K.MARMARA_BATON_AMOUNT + K.MARMARA_BATON_AMOUNT
                          + Int.tdiv loopAmount (nPrevEndorsers + 1)) - K.MARMARA_BATON_AMOUNT
                    let balanceDiff := get_cc_balance E tx - ccBatonsBalance
                    if balanceDiff < -K.MARMARA_LOOP_TOLERANCE
                        ∨ balanceDiff > K.MARMARA_LOOP_TOLERANCE then false
                    else true

end IssueV1

/-! ## The issue/transfer checker of version 1.2 -/

section IssueV2
variable {S : Type} [DecidableEq S]

/-- The variables the loop of `check_issue_tx_12` over the inputs updates. -/
structure Issue12Vins where
  CCActivatedInputs : Int
  CCLockedInputs : Int
  CCUnknownInputs : Int
  bRequestTxChecked : Bool
  bBatonTxChecked : Bool
  deriving DecidableEq

/-- The check of `check_issue_tx_12` on the baton tx a transfer spends. -/
def issue12BatonOk (E : Env S) (K : Consts) (loopData : SMarmaraCreditLoopOpret)
    (vintx : CTransaction S) (value : Int) : Bool :=
  match MarmaraDecodeLoopOpret E K (voutBack E vintx).scriptPubKey SMarmaraCreditLoopOpret.init
      K.MARMARA_OPRET_LOOP12_VERSION with
  | (funcid, vintxLoopData) =>
    if funcid = 0 then false
    else if vintxLoopData.version ≠ loopData.version then false
    else if vintxLoopData.createtxid ≠ loopData.createtxid then false
    else if !IsFuncidOneOf vintxLoopData.lastfuncid [K.MARMARA_ISSUE, K.MARMARA_TRANSFER] then false
    else if value ≠ K.MARMARA_BATON_AMOUNT then false
    else if !tx_has_my_cc_vin E vintx then false
    else true

/-- One round of the loop of `check_issue_tx_12` over the inputs (none: the function
returns false).  The value of the spent output is `vintx.vout[prevout.n].nValue` ; the
index is in range when the output is an activated or a locked-in-loop vout. -/
def issue12VinStep (E : Env S) (K : Consts) (loopData : SMarmaraCreditLoopOpret)
    (st : Issue12Vins) (vin : CTxIn S) : Option Issue12Vins :=
  if E.IsCCInput vin.scriptSig then
    if E.ismyvin vin.scriptSig then
      match E.myGetTransaction vin.prevout.hash with
      | some vintx =>
        let value := (voutAt E vintx.vout vin.prevout.n).nValue
        match IsMarmaraActivatedVout E K vintx (toSigned 32 vin.prevout.n) [] with
        | (true, _) =>
          if E.check_signing_pubkey vin.scriptSig = E.Marmarapk then none
          else some { st with CCActivatedInputs := st.CCActivatedInputs + value }
        | (false, pk_in_opret) =>
          match IsMarmaraLockedInLoopVout E K vintx (toSigned 32 vin.prevout.n) pk_in_opret
              zeroid with
          | (true, _, createtxid) =>
            if createtxid ≠ loopData.createtxid then none
            else some { st with CCLockedInputs := st.CCLockedInputs + value }
          | (false, _, _) =>
            if !st.bRequestTxChecked then
              if !check_request_tx E K vin.prevout.hash loopData.pk loopData.lastfuncid
                  K.MARMARA_OPRET_LOOP12_VERSION then none
              else if value ≠ K.MARMARA_CREATETX_AMOUNT ∧ value ≠ K.MARMARA_BATON_AMOUNT then none
              else some { st with bRequestTxChecked := true }
            else if loopData.lastfuncid = K.MARMARA_TRANSFER ∧ !st.bBatonTxChecked then
              if issue12BatonOk E K loopData vintx value then
                some { st with bBatonTxChecked := true }
              else none
            else some { st with CCUnknownInputs := st.CCUnknownInputs + value }
      | none => none
    else none
  else some st

/-- The variables the loop of `check_issue_tx_12` over the outputs updates. -/
structure Issue12Vouts where
  lclAmount : Int
  CCchange : Int
  CCUnknownOutputs : Int
  endorserPks : Finset CPubKey
  deriving DecidableEq

/-- One round of the loop of `check_issue_tx_12` over the outputs, the last one apart
(none: the function returns false). -/
def issue12VoutStep (E : Env S) (K : Consts) (tx : CTransaction S)
    (loopData creationLoopData : SMarmaraCreditLoopOpret) (st : Issue12Vouts) (ivout : Nat) :
    Option Issue12Vouts :=
  if (E.IsPayToCryptoCondition (voutAt E tx.vout ivout).scriptPubKey).isSome then
    if (ivout : Int) = K.MARMARA_BATON_VOUT then
      if voutAt E tx.vout ivout
          ≠ E.MakeCC1vout K.EVAL_MARMARA K.MARMARA_BATON_AMOUNT loopData.pk then none
      else some st
    else if loopData.lastfuncid = K.MARMARA_ISSUE ∧ (ivout : Int) = K.MARMARA_LOOP_MARKER_VOUT then
      if voutAt E tx.vout ivout
          ≠ E.MakeCC1vout K.EVAL_MARMARA K.MARMARA_LOOP_MARKER_AMOUNT E.Marmarapk then none
      else some st
    else if loopData.lastfuncid = K.MARMARA_ISSUE ∧ (ivout : Int) = K.MARMARA_OPENCLOSE_VOUT then
      if voutAt E tx.vout ivout
          ≠ E.MakeCC1vout K.EVAL_MARMARA K.MARMARA_OPEN_MARKER_AMOUNT E.Marmarapk then none
      else some st
    else
      match IsMarmaraLockedInLoopVout E K tx ivout [] zeroid with
      | (true, _, voutcreatetxid) =>
        match GetCCOpReturnData E (voutAt E tx.vout ivout).scriptPubKey with
        | some ccopret =>
          if voutcreatetxid ≠ loopData.createtxid then none
          else
            let voutLoopData := (MarmaraDecodeLoopOpret E K ccopret SMarmaraCreditLoopOpret.init
              K.MARMARA_OPRET_VERSION_DEFAULT).2
            if ((Int.tdiv creationLoopData.amount 2 - (voutAt E tx.vout ivout).nValue).natAbs : Int)
                > K.MARMARA_LOOP_TOLERANCE then none
            else some { st with lclAmount := st.lclAmount + (voutAt E tx.vout ivout).nValue,
                                endorserPks := insert voutLoopData.pk st.endorserPks }
        | none => some st
      | (false, pk_in_opret, _) =>
        if (IsMarmaraActivatedVout E K tx ivout pk_in_opret).1 then
          some { st with CCchange := st.CCchange + (voutAt E tx.vout ivout).nValue }
        else
          some { st with CCUnknownOutputs := st.CCUnknownOutputs + (voutAt E tx.vout ivout).nValue }
  else some st

/-- The checks of `check_issue_tx_12` that follow its two loops. -/
def issue12Final (K : Consts) (loopData creationLoopData : SMarmaraCreditLoopOpret)
    (vins : Issue12Vins) (vouts : Issue12Vouts) : Bool :=
  if vouts.endorserPks ≠ {creationLoopData.pk, loopData.pk} then false
  else if vins.CCUnknownInputs ≠ 0 then false
  else if vouts.CCUnknownOutputs ≠ 0 then false
  else if ((creationLoopData.amount - vouts.lclAmount).natAbs : Int) > K.MARMARA_LOOP_TOLERANCE
    then false
  else if loopData.lastfuncid = K.MARMARA_ISSUE then
    if vins.CCLockedInputs ≠ 0 then false
    else if ((vins.CCActivatedInputs - (vouts.lclAmount + vouts.CCchange)).natAbs : Int)
        > K.MARMARA_LOOP_TOLERANCE then false
    else true
  else
    if vins.CCActivatedInputs ≠ 0 then false
    else if vouts.CCchange ≠ 0 then false
    else if ((vins.CCLockedInputs - vouts.lclAmount).natAbs : Int) > K.MARMARA_LOOP_TOLERANCE
      then false
    else true

/-- The record `check_issue_tx_12` decodes from the last output. -/
def issue12LoopData (E : Env S) (K : Consts) (tx : CTransaction S) : SMarmaraCreditLoopOpret :=
  (MarmaraDecodeLoopOpret E K (voutBack E tx).scriptPubKey SMarmaraCreditLoopOpret.init
    K.MARMARA_OPRET_LOOP12_VERSION).2

/-- The creation record `check_issue_tx_12` loads for the createtxid of the last output. -/
def issue12CreationData (E : Env S) (K : Consts) (tx : CTransaction S) :
    Int × SMarmaraCreditLoopOpret :=
  get_loop_creation_data E K (issue12LoopData E K tx).createtxid SMarmaraCreditLoopOpret.init
    K.MARMARA_OPRET_LOOP12_VERSION

/-- The loop of `check_issue_tx_12` over the inputs. -/
def issue12Vins (E : Env S) (K : Consts) (tx : CTransaction S) : Option Issue12Vins :=
  foldSteps (issue12VinStep E K (issue12LoopData E K tx))
    { CCActivatedInputs := 0, CCLockedInputs := 0, CCUnknownInputs := 0,
      bRequestTxChecked := false, bBatonTxChecked := false } tx.vin

/-- The loop of `check_issue_tx_12` over the outputs. -/
def issue12Vouts (E : Env S) (K : Consts) (tx : CTransaction S) : Option Issue12Vouts :=
  foldSteps (issue12VoutStep E K tx (issue12LoopData E K tx) (issue12CreationData E K tx).2)
    { lclAmount := 0, CCchange := 0, CCUnknownOutputs := 0, endorserPks := ∅ }
    (List.range (tx.vout.length - 1))

/-- The source's `check_issue_tx_12` : checks an issue or transfer tx of loop version 1.2. -/
def check_issue_tx_12 (E : Env S) (K : Consts) (tx : CTransaction S) : Bool :=
  if tx.vout.length = 0 then false
  else if skipBadLoop E (E.GetHash tx) then true
  else
    let loopData := issue12LoopData E K tx
    if loopData.version ≠ 2 then false
    else if loopData.lastfuncid ≠ K.MARMARA_ISSUE ∧ loopData.lastfuncid ≠ K.MARMARA_TRANSFER
      then false
    else if (issue12CreationData E K tx).1 < 0 then false
    else
      match issue12Vins E K tx with
      | none => false
      | some vins =>
        if !vins.bRequestTxChecked then false
        else if loopData.lastfuncid = K.MARMARA_TRANSFER ∧ !vins.bBatonTxChecked then false
        else
          match issue12Vouts E K tx with
          | none => false
          | some vouts => issue12Final K loopData (issue12CreationData E K tx).2 vins vouts

end IssueV2

/-! ## The settlement, stake and release checkers -/

section OtherCheckers
variable {S : Type} [DecidableEq S]

/-- The record `check_settlement_tx` decodes from the last output of the settlement tx. -/
def settleLoopDataOf (E : Env S) (K : Consts) (settletx : CTransaction S) :
    SMarmaraCreditLoopOpret :=
  (MarmaraDecodeLoopOpret E K (voutBack E settletx).scriptPubKey SMarmaraCreditLoopOpret.init
    K.MARMARA_OPRET_VERSION_ANY).2

/-- The variable `settledAmount` of `check_settlement_tx` : the value of the output
`MARMARA_SETTLE_VOUT` when it is a normal output that pays to the key of the holder, 0
otherwise. -/
def settledAmountOf (E : Env S) (K : Consts) (settletx : CTransaction S) (holderpk : CPubKey) :
    Int :=
  let out := voutAt E settletx.vout K.MARMARA_SETTLE_VOUT
  if (E.IsPayToCryptoCondition out.scriptPubKey).isNone then
    if out = { nValue := out.nValue, scriptPubKey := E.p2pkScript holderpk } then out.nValue
    else 0
  else 0

/-- One round of the last loop of `check_settlement_tx` : false when the round returns
false. -/
def settleVinOk (E : Env S) (K : Consts) (createtxid : uint256) (vin : CTxIn S) : Bool :=
  if E.ismyvin vin.scriptSig then
    match E.myGetTransaction vin.prevout.hash with
    | some vintx =>
      match IsMarmaraLockedInLoopVout E K vintx (toSigned 32 vin.prevout.n) [] zeroid with
      | (true, _, vincreatetxid) => decide (vincreatetxid = createtxid)
      | (false, _, _) => false
    | none => false
  else true

/-- The part of `check_settlement_tx` that follows the load of the baton tx: the amount
and balance checks and the check of the cc inputs. -/
def settleAmountsOk (E : Env S) (K : Consts) (settletx : CTransaction S)
    (settleLoopData creationLoopData batonLoopData : SMarmaraCreditLoopOpret)
    (createtxid : uint256) : Bool :=
  let settledAmount := settledAmountOf E K settletx batonLoopData.pk
  if settletx.vout.any (fun v => (E.IsPayToCryptoCondition v.scriptPubKey).isSome) then false
  else if get_cc_balance E settletx ≠ settledAmount + K.MARMARA_OPEN_MARKER_AMOUNT then false
  else
    let diff := settledAmount - creationLoopData.amount
    if settleLoopData.lastfuncid = K.MARMARA_SETTLE ∧ diff < 0 then false
    else if settleLoopData.lastfuncid = K.MARMARA_SETTLE_PARTIAL
        ∧ (diff ≥ 0 ∨ settledAmount ≤ 0) then false
    else (settletx.vin.drop 1).all (settleVinOk E K createtxid)

/-- The check of the issue tx in `check_settlement_tx`, called depending on the loop
version of the settlement record: false when the function returns false there. -/
def settleIssueOk (E : Env S) (K : Consts) (settleLoopData : SMarmaraCreditLoopOpret)
    (issuetx : CTransaction S) : Bool :=
  if settleLoopData.version = 1 then check_issue_tx E K issuetx
  else if settleLoopData.version = 2 then check_issue_tx_12 E K issuetx
  else false

/-- The source's `check_settlement_tx` ; none when `fuel` rounds did not end the walk of
`MarmaraGetbatontxid` . -/
def check_settlement_tx (E : Env S) (K : Consts) (fuel : Nat) (settletx : CTransaction S) :
    Option Bool :=
  if settletx.vout.length = 0 then some false
  else if settletx.vin.length = 0 then some false
  else if fixBadSettle E K (E.GetHash settletx) then some true
  else
    let settleLoopData := settleLoopDataOf E K settletx
    if settleLoopData.lastfuncid ≠ K.MARMARA_SETTLE
        ∧ settleLoopData.lastfuncid ≠ K.MARMARA_SETTLE_PARTIAL then some false
    else if ((vinAt E settletx.vin 0).prevout.n : Int) ≠ K.MARMARA_OPENCLOSE_VOUT then some false
    else
      let issuetxid := (vinAt E settletx.vin 0).prevout.hash
      match E.myGetTransaction issuetxid with
      | none => some false
      | some issuetx =>
        if !settleIssueOk E K settleLoopData issuetx then some false
        else if skipBadLoop E issuetxid then some true
        else
          match MarmaraGetbatontxid E K fuel [] issuetxid with
          | none => none
          | some (n, creditloop, batontxid) =>
            if n ≤ 0 ∨ creditloop = [] then some false
            else
              let createtxid := creditloop.headD zeroid
              match get_loop_creation_data E K createtxid SMarmaraCreditLoopOpret.init
                  settleLoopData.version with
              | (ret, creationLoopData) =>
                if ret < 0 then some false
                else if createtxid ≠ settleLoopData.createtxid then some false
                else if E.lastTipHeight < creationLoopData.matures then some false
                else
                  match E.myGetTransaction batontxid with
                  | none => some false
                  | some batontx =>
                    if batontx.vout.length = 0 then some false
                    else
                      let batonLoopData := (MarmaraDecodeLoopOpret E K
                        (voutBack E batontx).scriptPubKey SMarmaraCreditLoopOpret.init
                        settleLoopData.version).2
                      if batonLoopData.lastfuncid ≠ K.MARMARA_ISSUE
                          ∧ batonLoopData.lastfuncid ≠ K.MARMARA_TRANSFER then some false
                      else some (settleAmountsOk E K settletx settleLoopData creationLoopData
                        batonLoopData createtxid)

/-- The sums `vin_amounts` and `vout_amounts` of `check_stake_tx` : a map from keys to
amounts, as the list of its entries. -/
abbrev StakeAmounts := List (uint256 × Int)

/-- The statement `amounts[key] += value` on such a map. -/
def StakeAmounts.add : StakeAmounts → uint256 → Int → StakeAmounts
  | [], key, value => [(key, 0 + value)]
  | (k, a) :: rest, key, value =>
    if k = key then (k, a + value) :: rest else (k, a) :: StakeAmounts.add rest key value

/-- Equality of two such maps: the same entries. -/
def StakeAmounts.same (a b : StakeAmounts) : Bool :=
  decide (a.length = b.length) && a.all (fun p => decide (p ∈ b))

/-- The key `check_stake_tx` makes for output `i` of `tx`, none when the output is neither
an activated nor a locked-in-loop vout.  The source writes the key as
`coinaddr + isLocked ? createtxid.ToString() : ""` ; the sum binds first and is a pointer
that is not null, so the key is `createtxid.ToString()`, with `createtxid` the null id
unless the output is a locked-in-loop vout. -/
def stakeKey (E : Env S) (K : Consts) (tx : CTransaction S) (i : Int) : Option uint256 :=
  match IsMarmaraActivatedVout E K tx i [] with
  | (true, _) => some zeroid
  | (false, opretpk) =>
    match IsMarmaraLockedInLoopVout E K tx i opretpk zeroid with
    | (true, _, createtxid) => some createtxid
    | (false, _, _) => none

/-- One round of the loop of `check_stake_tx` over the inputs: the test is made on output
`i` of `tx` itself, as the source writes it, and the amount is that of the spent output. -/
def stakeVinStep (E : Env S) (K : Consts) (tx : CTransaction S) (vin_amounts : StakeAmounts)
    (i : Nat) : StakeAmounts :=
  let vin := vinAt E tx.vin i
  if E.ismyvin vin.scriptSig then
    match E.myGetTransaction vin.prevout.hash with
    | some vintx =>
      match stakeKey E K tx i with
      | some key =>
        vin_amounts.add key (voutAt E vintx.vout (toSigned 32 vin.prevout.n)).nValue
      | none => vin_amounts
    | none => vin_amounts
  else vin_amounts

/-- The source's `check_stake_tx` (its parameter `isLocked` is not read: a local variable
of the same name hides it). -/
def check_stake_tx (E : Env S) (K : Consts) (_isLocked : Bool) (tx : CTransaction S) : Bool :=
  if tx.vout.length ≠ 2 then false
  else if !E.DecodeStakingOpRet (voutAt E tx.vout 1).scriptPubKey then false
  else
    let vout_amounts : StakeAmounts :=
      if (E.IsPayToCryptoCondition (voutAt E tx.vout 0).scriptPubKey).isSome then
        match stakeKey E K tx 0 with
        | some key => StakeAmounts.add [] key (voutAt E tx.vout 0).nValue
        | none => []
      else []
    let vin_amounts : StakeAmounts :=
      (List.range tx.vin.length).foldl (stakeVinStep E K tx) []
    decide (vin_amounts.length > 0) && vin_amounts.same vout_amounts

/-- The variables the first loop of `check_release_tx` updates. -/
structure ReleaseVins where
  ccInputs : Int
  inputpks : Finset CPubKey

/-- One round of the loop of `check_release_tx` over the inputs (none: the function
returns false). -/
def releaseVinStep (E : Env S) (K : Consts) (st : ReleaseVins) (vin : CTxIn S) :
    Option ReleaseVins :=
  if E.ismyvin vin.scriptSig then
    if E.check_signing_pubkey vin.scriptSig = E.Marmarapk then none
    else
      match E.myGetTransaction vin.prevout.hash with
      | some vintx =>
        match IsMarmaraActivatedVout E K vintx (toSigned 32 vin.prevout.n) [] with
        | (true, opretpk) =>
          some { ccInputs := st.ccInputs + (voutAt E vintx.vout vin.prevout.n).nValue,
                 inputpks := insert opretpk st.inputpks }
        | (false, _) => none
      | none => some st
  else some st

/-- The variables the second loop of `check_release_tx` updates. -/
structure ReleaseVouts where
  normalOutputs : Int
  ccOutputs : Int
  outputpks : Finset CPubKey

/-- One round of the loop of `check_release_tx` over the outputs (none: the function
returns false). -/
def releaseVoutStep (E : Env S) (K : Consts) (tx : CTransaction S) (st : ReleaseVouts)
    (i : Nat) : Option ReleaseVouts :=
  if (E.IsPayToCryptoCondition (voutAt E tx.vout i).scriptPubKey).isSome then
    match IsMarmaraActivatedVout E K tx i [] with
    | (true, opretpk) =>
      some { st with ccOutputs := st.ccOutputs + (voutAt E tx.vout i).nValue,
                     outputpks := insert opretpk st.outputpks }
    | (false, _) => none
  else some { st with normalOutputs := st.normalOutputs + (voutAt E tx.vout i).nValue }

/-- The source's `check_release_tx` . -/
def check_release_tx (E : Env S) (K : Consts) (tx : CTransaction S) : Bool :=
  match foldSteps (releaseVinStep E K) { ccInputs := 0, inputpks := ∅ } tx.vin with
  | none => false
  | some vins =>
    if vins.inputpks.card > 1 then false
    else
      match foldSteps (releaseVoutStep E K tx)
          { normalOutputs := 0, ccOutputs := 0, outputpks := ∅ } (List.range tx.vout.length) with
      | none => false
      | some vouts =>
        if vouts.outputpks.card > 0 ∧ vins.inputpks ≠ vouts.outputpks then false
        else if vins.ccInputs < vouts.ccOutputs then false
        else true

end OtherCheckers

section CheckersOfTheSource
variable {S : Type} [DecidableEq S]

/-- The checkers `MarmaraValidate` calls, as this file embeds them.  The settlement
checker walks the loop with the given fuel and counts as accepting when it returns true. -/
def marmaraCheckers (E : Env S) (K : Consts) (fuel : Nat) : Checkers S where
  check_issue_tx_12 := check_issue_tx_12 E K
  check_issue_tx := check_issue_tx E K
  check_settlement_tx := fun tx => decide (check_settlement_tx E K fuel tx = some true)
  check_stake_tx := check_stake_tx E K
  check_release_tx := check_release_tx E K

end CheckersOfTheSource

/-! ## The terms of the claims about the checkers -/

section ClaimTerms
variable {S : Type} [DecidableEq S]

/-- A Marmara cc input that spends an activated vout of a known transaction. -/
def isActivatedInput (E : Env S) (K : Consts) (vin : CTxIn S) : Bool :=
  E.IsCCInput vin.scriptSig && E.ismyvin vin.scriptSig &&
    match E.myGetTransaction vin.prevout.hash with
    | some vintx => (IsMarmaraActivatedVout E K vintx (toSigned 32 vin.prevout.n) []).1
    | none => false

/-- A Marmara cc input that spends a locked-in-loop vout of a known transaction (an output
the source does not take for an activated vout first). -/
def isLockedInput (E : Env S) (K : Consts) (vin : CTxIn S) : Bool :=
  E.IsCCInput vin.scriptSig && E.ismyvin vin.scriptSig &&
    match E.myGetTransaction vin.prevout.hash with
    | some vintx =>
      !(IsMarmaraActivatedVout E K vintx (toSigned 32 vin.prevout.n) []).1
        && (IsMarmaraLockedInLoopVout E K vintx (toSigned 32 vin.prevout.n) [] zeroid).1
    | none => false

/-- The total value of the activated outputs a transaction spends. -/
def activatedInputTotal (E : Env S) (K : Consts) (tx : CTransaction S) : Int :=
  (tx.vin.map (fun vin => if isActivatedInput E K vin then spentValue E vin else 0)).sum

/-- The total value of the locked-in-loop outputs a transaction spends. -/
def lockedInputTotal (E : Env S) (K : Consts) (tx : CTransaction S) : Int :=
  (tx.vin.map (fun vin => if isLockedInput E K vin then spentValue E vin else 0)).sum

/-- The positions `check_issue_tx_12` reserves for the baton and, in an issuance, for the
two markers. -/
def issue12MarkerPos (K : Consts) (loopData : SMarmaraCreditLoopOpret) (ivout : Nat) : Bool :=
  decide ((ivout : Int) = K.MARMARA_BATON_VOUT) ||
    (decide (loopData.lastfuncid = K.MARMARA_ISSUE) &&
      (decide ((ivout : Int) = K.MARMARA_LOOP_MARKER_VOUT)
        || decide ((ivout : Int) = K.MARMARA_OPENCLOSE_VOUT)))

/-- A cc output of an issue/transfer tx, not at a reserved position, that is a
locked-in-loop vout. -/
def isLockedOutput (E : Env S) (K : Consts) (tx : CTransaction S) (ivout : Nat) : Bool :=
  (E.IsPayToCryptoCondition (voutAt E tx.vout ivout).scriptPubKey).isSome
    && !issue12MarkerPos K (issue12LoopData E K tx) ivout
    && (IsMarmaraLockedInLoopVout E K tx ivout [] zeroid).1

/-- A cc output of an issue/transfer tx, not at a reserved position, that is an activated
vout (and not a locked-in-loop vout).  The activated test runs on the pubkey variable as
the locked-in-loop test leaves it, as in the source. -/
def isActivatedOutput (E : Env S) (K : Consts) (tx : CTransaction S) (ivout : Nat) : Bool :=
  (E.IsPayToCryptoCondition (voutAt E tx.vout ivout).scriptPubKey).isSome
    && !issue12MarkerPos K (issue12LoopData E K tx) ivout
    && !(IsMarmaraLockedInLoopVout E K tx ivout [] zeroid).1
    && (IsMarmaraActivatedVout E K tx ivout
        (IsMarmaraLockedInLoopVout E K tx ivout [] zeroid).2.1).1

/-- The total value of the locked-in-loop outputs of an issue/transfer tx, the last output
apart. -/
def lockedOutputTotal (E : Env S) (K : Consts) (tx : CTransaction S) : Int :=
  ((List.range (tx.vout.length - 1)).map (fun (i : Nat) =>
    if isLockedOutput E K tx i then (voutAt E tx.vout i).nValue else 0)).sum

/-- The total value of the activated (change) outputs of an issue/transfer tx, the last
output apart. -/
def activatedOutputTotal (E : Env S) (K : Consts) (tx : CTransaction S) : Int :=
  ((List.range (tx.vout.length - 1)).map (fun (i : Nat) =>
    if isActivatedOutput E K tx i then (voutAt E tx.vout i).nValue else 0)).sum

/-- The creation record `check_settlement_tx` loads for the first entry of the credit
loop. -/
def settleCreationDataOf (E : Env S) (K : Consts) (settletx : CTransaction S)
    (creditloop : List uint256) : SMarmaraCreditLoopOpret :=
  (get_loop_creation_data E K (creditloop.headD zeroid) SMarmaraCreditLoopOpret.init
    (settleLoopDataOf E K settletx).version).2

/-- The record `check_settlement_tx` decodes from the last output of the baton tx. -/
def settleBatonDataOf (E : Env S) (K : Consts) (settletx batontx : CTransaction S) :
    SMarmaraCreditLoopOpret :=
  (MarmaraDecodeLoopOpret E K (voutBack E batontx).scriptPubKey SMarmaraCreditLoopOpret.init
    (settleLoopDataOf E K settletx).version).2

/-- The transaction `MarmaraSettlement` builds: vin0 spends the open/close marker of the
issuance, then come the normal inputs `AddNormalinputs2` adds for the fee and the
locked-in-loop inputs `AddMarmaraCCInputs` adds; vout0 pays their total `lclAmount` to the
holder, then come the outputs `FinalizeCCTx` appends (normal change and the settlement
record).  The input scripts are those the host signs with. -/
def MarmaraSettlementTx (E : Env S) (K : Consts) (issuetxid : uint256) (markerSig : S)
    (normalVins lclVins : List (CTxIn S)) (lclAmount : Int) (holderpk : CPubKey)
    (finalVouts : List (CTxOut S)) : CTransaction S where
  vin := { prevout := { hash := issuetxid, n := ofSigned 32 K.MARMARA_OPENCLOSE_VOUT },
           scriptSig := markerSig } :: (normalVins ++ lclVins)
  vout := { nValue := lclAmount, scriptPubKey := E.p2pkScript holderpk } :: finalVouts

/-- The total value `get_cc_balance` counts for a list of inputs. -/
def ccInputsValue (E : Env S) (vins : List (CTxIn S)) : Int :=
  (vins.map (fun vin =>
    if E.IsCCInput vin.scriptSig ∧ E.ismyvin vin.scriptSig then
      match E.myGetTransaction vin.prevout.hash with
      | some vintx => (voutAt E vintx.vout vin.prevout.n).nValue
      | none => 0
    else 0)).sum

/-- The owner key of the activated output an input of a release tx spends, none when the
previous transaction is not known or the output is not an activated vout. -/
def releaseInputOwner (E : Env S) (K : Consts) (vin : CTxIn S) : Option CPubKey :=
  match E.myGetTransaction vin.prevout.hash with
  | some vintx =>
    match IsMarmaraActivatedVout E K vintx (toSigned 32 vin.prevout.n) [] with
    | (true, opretpk) => some opretpk
    | (false, _) => none
  | none => none

/-- The total value of the outputs the Marmara cc inputs of a transaction spend. -/
def marmaraInputTotal (E : Env S) (tx : CTransaction S) : Int :=
  (tx.vin.map (fun vin => if E.ismyvin vin.scriptSig then spentValue E vin else 0)).sum

/-- The total value of the cc outputs of a transaction. -/
def ccOutputTotal (E : Env S) (tx : CTransaction S) : Int :=
  ((List.range tx.vout.length).map (fun (i : Nat) =>
    if (E.IsPayToCryptoCondition (voutAt E tx.vout i).scriptPubKey).isSome
    then (voutAt E tx.vout i).nValue else 0)).sum

/-- A chain of baton-holding transactions behind `txid` : each spends the baton output of
the one before (so that `CCgettxout` does not find that output unspent), and the baton
output of the last one is unspent. -/
def BatonChain (E : Env S) (K : Consts) : uint256 → List uint256 → Prop
  | _, [] => False
  | txid, [b] =>
    E.CCgetspenttxid txid K.MARMARA_BATON_VOUT = some b
      ∧ E.CCgettxout b K.MARMARA_BATON_VOUT = K.MARMARA_BATON_AMOUNT
  | txid, b :: b2 :: rest =>
    E.CCgetspenttxid txid K.MARMARA_BATON_VOUT = some b
      ∧ E.CCgettxout b K.MARMARA_BATON_VOUT ≠ K.MARMARA_BATON_AMOUNT
      ∧ E.CCgettxout b K.MARMARA_BATON_VOUT ≤ 0
      ∧ BatonChain E K b (b2 :: rest)

/-- A trail of transactions linked by baton spends: each entry's baton output is spent by
the next entry. -/
def BatonLinked (E : Env S) (K : Consts) (trail : List uint256) : Prop :=
  List.Chain' (fun a b => E.CCgetspenttxid a K.MARMARA_BATON_VOUT = some b) trail

/-- A chain of spent batons behind `txid` that ends without a live baton: each entry
spends the baton output of the one before, `CCgettxout` finds no positive value on its
own baton output, and the baton output of the last one has no spender. -/
def DeadBatonChain (E : Env S) (K : Consts) : uint256 → List uint256 → Prop
  | txid, [] => E.CCgetspenttxid txid K.MARMARA_BATON_VOUT = none
  | txid, b :: rest =>
    E.CCgetspenttxid txid K.MARMARA_BATON_VOUT = some b
      ∧ E.CCgettxout b K.MARMARA_BATON_VOUT ≠ K.MARMARA_BATON_AMOUNT
      ∧ E.CCgettxout b K.MARMARA_BATON_VOUT ≤ 0
      ∧ DeadBatonChain E K b rest

end ClaimTerms

/-! ## The builders: input selection, issuance amounts and redistribution -/

section Builders
variable {S : Type}

/-- The loop of `redistribute_lcl_remainder` that distributes the rounding error back to
the new outputs, by one satoshi: `for (i = first; i < mtx.vout.size() && error != 0; i++)
mtx.vout[i].nValue++, error--` . -/
def distributeRoundError : List (CTxOut S) → Int → List (CTxOut S)
  | [], _ => []
  | v :: rest, err =>
    if err ≠ 0 then { v with nValue := v.nValue + 1 } :: distributeRoundError rest (err - 1)
    else v :: rest

/-- The normal outputs `redistribute_lcl_remainder` appends for the endorsers. -/
def lclNormalVouts (E : Env S) (endorserPubkeys : List CPubKey) (endorsersNumber : Int)
    (amountToDistribute : Int) : List (CTxOut S) :=
  let amountToPkNormal := Int.tdiv amountToDistribute endorsersNumber
  let amountDistributed := amountToPkNormal * endorsersNumber
  let errorNormals := amountToDistribute - amountDistributed
  distributeRoundError
    (endorserPubkeys.map (fun pk =>
      ({ nValue := amountToPkNormal, scriptPubKey := E.p2pkScript pk } : CTxOut S)))
    errorNormals

/-- The locked-in-loop outputs `redistribute_lcl_remainder` appends for a positive
`change` .  The division and the product with `endorserPubkeys.size()` are unsigned, on
64 bits. -/
def lclChangeVouts (E : Env S) (K : Consts) (createtxid : uint256)
    (endorserPubkeys : List CPubKey) (change : Int) : List (CTxOut S) :=
  let createtxidPk := E.CCtxidaddr_tweak createtxid
  let amountToPkCC := toSigned 64 (ofSigned 64 change / endorserPubkeys.length)
  let amountDistributedCC :=
    toSigned 64 ((ofSigned 64 amountToPkCC * endorserPubkeys.length) % 2 ^ 64)
  let errorCCOutputs := change - amountDistributedCC
  distributeRoundError
    (endorserPubkeys.map (fun pk =>
      MakeMarmaraCC1of2voutOpret E K amountToPkCC createtxidPk
        (MarmaraEncodeLoopCCVoutOpret E K createtxid pk)))
    errorCCOutputs

/-- The outputs `redistribute_lcl_remainder` appends once `AddMarmaraCCInputs` has added
the locked-in-loop inputs of value `inputsum` and collected `endorserPubkeys` ; none
when the function returns -1 because the number of pubkeys is not the number of
endorsers. -/
def redistributeVouts (E : Env S) (K : Consts) (createtxid : uint256)
    (endorserPubkeys : List CPubKey) (endorsersNumber : Int) (inputsum : Int)
    (amountToDistribute : Int) : Option (List (CTxOut S)) :=
  if (endorserPubkeys.length : Int) ≠ endorsersNumber then none
  else
    let normals := lclNormalVouts E endorserPubkeys endorsersNumber amountToDistribute
    let change := inputsum - amountToDistribute
    if change > 0 then some (normals ++ lclChangeVouts E K createtxid endorserPubkeys change)
    else some normals

/-- The amount `amountToLock` of `MarmaraIssue` . -/
def issueAmountToLock (version : Nat) (endorsersNumber : Int) (amount : Int) : Int :=
  if version = 1 then
    (if endorsersNumber > 0 then Int.tdiv amount (endorsersNumber + 1) else amount)
  else amount

/-- The amount `utxoAmount` of each locked-in-loop output of `MarmaraIssue` . -/
def issueUtxoAmount (version : Nat) (amountToLock : Int) : Int :=
  if version = 1 then amountToLock else Int.tdiv amountToLock 2

/-- The outputs `MarmaraIssue` pushes before the redistribution and the last output:
the baton, the loop marker of an issuance, the locked-in-loop output marked with the
issuer, the open/close marker of an issuance, for version 2 the locked-in-loop output
marked with the receiver, and the activated change.  Here `loopData` is the creation
record, `inputsum` the value of the activated inputs added and `nextheight` the value
of `komodo_nextheight()` . -/
def MarmaraIssueVouts (E : Env S) (K : Consts) (version funcid : Nat) (createtxid : uint256)
    (loopData : SMarmaraCreditLoopOpret) (receiverpk mypk : CPubKey)
    (endorsersNumber inputsum nextheight : Int) : List (CTxOut S) :=
  let amountToLock := issueAmountToLock version endorsersNumber loopData.amount
  let createtxidPk := E.CCtxidaddr_tweak createtxid
  let lockOpret := MarmaraEncodeLoopCCVoutOpret E K createtxid loopData.pk
  let utxoAmount := issueUtxoAmount version amountToLock
  let CCchange := inputsum - amountToLock
  let height := if nextheight % 2 ≠ 0 then nextheight + 1 else nextheight
  [E.MakeCC1vout K.EVAL_MARMARA K.MARMARA_BATON_AMOUNT receiverpk]
    ++ (if funcid = K.MARMARA_ISSUE then
          [E.MakeCC1vout K.EVAL_MARMARA K.MARMARA_LOOP_MARKER_AMOUNT E.Marmarapk] else [])
    ++ [MakeMarmaraCC1of2voutOpret E K utxoAmount createtxidPk lockOpret]
    ++ (if funcid = K.MARMARA_ISSUE then
          [E.MakeCC1vout K.EVAL_MARMARA K.MARMARA_OPEN_MARKER_AMOUNT E.Marmarapk] else [])
    ++ (if version = 2 then
          [MakeMarmaraCC1of2voutOpret E K utxoAmount createtxidPk
            (MarmaraEncodeLoopCCVoutOpret E K createtxid receiverpk)] else [])
    ++ (if CCchange > 0 then
          [MakeMarmaraCC1of2voutOpret E K CCchange mypk
            (MarmaraEncodeCoinbaseOpret E K K.MARMARA_ACTIVATED mypk height)] else [])

end Builders

/-! ## Binary floating point, for the ratios of pegs.cpp

The ratios of pegs.cpp are values of the type `double` .  They are modelled as binary
floating-point numbers with 53 significant bits and rounding to nearest, ties to even.
The exponent is not bounded: the ratios are quotients of 64-bit integers, far inside
the exponent range of the 64-bit format, where the two agree. -/

/-- Number of binary digits of `n`, with `fuel` rounds. -/
def bitLenAux : Nat → Nat → Nat
  | 0, _ => 0
  | fuel + 1, n => if n = 0 then 0 else bitLenAux fuel (n / 2) + 1

/-- Number of binary digits of `n` . -/
def bitLen (n : Nat) : Nat := bitLenAux n n

/-- A value of the type `double` : a finite number `m * 2 ^ e`, an infinity or a NaN. -/
inductive Dbl where
  | fin (m : Int) (e : Int)
  | inf (neg : Bool)
  | nan
  deriving DecidableEq

/-- The quotient `n / d` rounded to the nearest integer, ties to the even one. -/
def roundHalfEven (n d : Nat) : Nat :=
  if 2 * (n % d) < d then n / d
  else if 2 * (n % d) > d then n / d + 1
  else if (n / d) % 2 = 0 then n / d else n / d + 1

/-- The number `(n / d) * 2 ^ e`, negated when `neg`, rounded to 53 significant bits: the
quotient is scaled by a power of two into the range from 2^52 to 2^53 and rounded to an
integer there.  With `bn` and `bd` the numbers of binary digits of `n` and `d`, the
quotient times `2 ^ (bd + 53 - bn)` lies between 2^52 and 2^54; it is halved once more
when it is 2^53 or more. -/
def Dbl.round (neg : Bool) (n d : Nat) (e : Int) : Dbl :=
  if n = 0 then .fin 0 0
  else
    let a0 : Nat := bitLen d + 53 - bitLen n
    let b0 : Nat := bitLen n - (bitLen d + 53)
    let halve : Bool := decide (n * 2 ^ a0 ≥ 2 ^ 53 * (d * 2 ^ b0))
    let m := roundHalfEven (n * 2 ^ a0) (if halve then 2 * (d * 2 ^ b0) else d * 2 ^ b0)
    .fin (if neg then -(m : Int) else (m : Int))
      (e + ((b0 : Int) - (a0 : Int)) + (if halve then 1 else 0))

/-- The conversion of an integer to `double` . -/
def Dbl.ofInt (v : Int) : Dbl := Dbl.round (decide (v < 0)) v.natAbs 1 0

/-- The product of two values of type `double` . -/
def Dbl.mul : Dbl → Dbl → Dbl
  | .nan, _ => .nan
  | _, .nan => .nan
  | .fin m1 e1, .fin m2 e2 => Dbl.round (decide (m1 * m2 < 0)) (m1 * m2).natAbs 1 (e1 + e2)
  | .inf s, .fin m _ => if m = 0 then .nan else .inf (s != decide (m < 0))
  | .fin m _, .inf s => if m = 0 then .nan else .inf (s != decide (m < 0))
  | .inf s1, .inf s2 => .inf (s1 != s2)

/-- The quotient of two values of type `double` ; a zero divisor is the positive zero, as
the conversion of the integer 0 gives it. -/
def Dbl.div : Dbl → Dbl → Dbl
  | .nan, _ => .nan
  | _, .nan => .nan
  | .fin m1 e1, .fin m2 e2 =>
    if m2 = 0 then (if m1 = 0 then .nan else .inf (decide (m1 < 0)))
    else Dbl.round (decide (m1 < 0) != decide (m2 < 0)) m1.natAbs m2.natAbs (e1 - e2)
  | .inf s, .fin m _ => .inf (s != decide (m < 0))
  | .fin _ _, .inf _ => .fin 0 0
  | .inf _, .inf _ => .nan

/-- The comparison `a < b` of two values of type `double` (false when one is a NaN). -/
def Dbl.lt : Dbl → Dbl → Bool
  | .nan, _ => false
  | _, .nan => false
  | .fin m1 e1, .fin m2 e2 =>
    decide (m1 * 2 ^ (e1 - min e1 e2).toNat < m2 * 2 ^ (e2 - min e1 e2).toNat)
  | .inf s, .fin _ _ => s
  | .fin _ _, .inf s => !s
  | .inf s1, .inf s2 => s1 && !s2

/-- The comparison `a >= b` of two values of type `double` (false when one is a NaN). -/
def Dbl.ge : Dbl → Dbl → Bool
  | .nan, _ => false
  | _, .nan => false
  | .fin m1 e1, .fin m2 e2 =>
    decide (m1 * 2 ^ (e1 - min e1 e2).toNat ≥ m2 * 2 ^ (e2 - min e1 e2).toNat)
  | .inf s, .fin _ _ => !s
  | .fin _ _, .inf s => s
  | .inf s1, .inf s2 => !s1 || s2

/-- The value of type `double` is the integer `n` . -/
def Dbl.isInt : Dbl → Int → Bool
  | .fin m e, n => decide (m * 2 ^ e.toNat = n * 2 ^ (-e).toNat)
  | _, _ => false

/-- The rational value of a finite `double` (0 for the others). -/
def Dbl.toRat : Dbl → ℚ
  | .fin m e => (m : ℚ) * (2 : ℚ) ^ e
  | _ => 0

/-! ## The pegs ledger: records, ratios and the validator (pegs.cpp) -/

section Pegs
variable {S : Type}

/-- The thresholds and values pegs.cpp defines. -/
def PEGS_ACCOUNT_MAX_DEBT : Int := 80
def PEGS_GLOBAL_RED_ZONE : Int := 60
def PEGS_ACCOUNT_YELLOW_ZONE : Int := 60
def PEGS_ACCOUNT_RED_ZONE : Int := 90
def CC_MARKER_VALUE : Int := 1000
def CC_TXFEE : Int := 10000

/-- An address string of the host. -/
abbrev CCAddr := Bytes

/-- The variables a pegs record is decoded into: the token id, the pegs txid, the source
key, the amount, the account state (deposit, debt) and the account key. -/
structure PegsVars where
  tokenid : uint256
  pegstxid : uint256
  srcpub : CPubKey
  amount : Int
  account : Int × Int
  accountpk : CPubKey
  deriving DecidableEq

/-- The variables as `PegsValidate` and `PegsDecodeAccountTx` declare them: zero ids,
invalid keys, the account (0,0); the amount is not initialised in the source and is 0
here. -/
def PegsVars.init : PegsVars :=
  { tokenid := zeroid, pegstxid := zeroid, srcpub := [], amount := 0, account := (0, 0),
    accountpk := [] }

/-- The host functions pegs.cpp calls and that are not part of it, with the constants it
takes from headers that are not under src/.  They are parameters. -/
structure PegsEnv (S : Type) where
  EVAL_PEGS : Nat
  EVAL_IMPORTCOIN : Nat
  EVAL_TOKENS : Nat
  COIN : Int
  /-- The data `GetOpReturnData` extracts from a script (empty when there is none). -/
  GetOpReturnData : S → Bytes
  /-- The call `DecodeTokenOpRetV1(script, tokenid, pubkeys, oprets)` : the return value,
  the variable `tokenid` afterwards (given its value before) and `oprets` . -/
  DecodeTokenOpRetV1 : S → uint256 → Nat × uint256 × List Bytes
  /-- The call `GetOpReturnCCBlob(oprets, vOpretExtra)` : the blob when it returns true. -/
  GetOpReturnCCBlob : List Bytes → Option Bytes
  IsPegsImport : CTransaction S → Bool
  /-- The call `UnmarshalImportTx(tx, proof, burntx, payouts)` : the burn transaction when
  it returns true. -/
  UnmarshalImportTx : CTransaction S → Option (CTransaction S)
  /-- The call `UnmarshalBurnTx(burntx, pegstxid, tokenid, srcpub, amount, account,
  accountpk)` : the variables afterwards and the return value. -/
  UnmarshalBurnTx : CTransaction S → PegsVars → PegsVars × Bool
  /-- The test `cp->ismyvin(scriptSig)` of the pegs module. -/
  ismyvin : S → Bool
  /-- The protocol key `GetUnspendable(cp, 0)` of the pegs module. -/
  pegspk : CPubKey
  /-- The address functions: the return value and the address written. -/
  GetCCaddress1of2 : CPubKey → CPubKey → Bool × CCAddr
  GetTokensCCaddress1of2 : CPubKey → CPubKey → Bool × CCAddr
  GetTokensCCaddress : CPubKey → Bool × CCAddr
  GetCCaddress : CPubKey → Bool × CCAddr
  _GetCCaddress : Nat → CPubKey → Bool × CCAddr
  /-- The call `Getscriptaddress(addr, CScript() << ParseHex(HexStr(CCtxidaddr(addr,
  pegstxid))) << OP_CHECKSIG)` : the return value and the burn address of the peg. -/
  txidScriptAddress : uint256 → Bool × CCAddr
  /-- The call `ConstrainVout(vout, CCflag, cmpaddr, nValue)` . -/
  ConstrainVout : CTxOut S → Int → CCAddr → Int → Bool
  /-- The unspent outputs `SetCCunspents` finds for an address: txid, index, value. -/
  SetCCunspents : CCAddr → List (uint256 × Int × Int)
  myGetTransaction : uint256 → Option (CTransaction S)
  GetHash : CTransaction S → uint256
  /-- The call `myIsutxo_spentinmempool(ignoretxid, ignorevin, txid, vout)` : the spending
  transaction `ignoretxid` when the return value is not 0. -/
  myIsutxo_spentinmempool : uint256 → Int → Option uint256
  KOMODO_EARLYTXID : uint256
  ASSETCHAINS_PEGSCCPARAMS : Nat → Nat
  /-- The call `DecodeTokenCreateOpRetV1(script, origpubkey, name, description)` : the
  return value and the description. -/
  DecodeTokenCreateOpRetV1 : S → Nat × Bytes
  /-- The calls `SplitStr(description, vexpr); prices_syntheticvec(exp, vexpr)` : the
  vector `exp` when the result is not negative. -/
  prices_syntheticvec : Bytes → Option (List Nat)
  /-- The call `prices_syntheticprice(exp, komodo_currentheight(), 0, 1)` . -/
  prices_syntheticprice : List Nat → Int
  /-- The call `PreventCC(eval, tx, -1, numvins, -1, numvouts)` . -/
  PreventCC : CTransaction S → Bool
  /-- The branches of `PegsValidate` for redeem ('R'), close ('X') and exchange ('E'),
  which are not embedded: the value returned, none when the branch ends in `break` . -/
  otherBranch : Nat → CTransaction S → Option Bool
  /-- The null output and input, which the model reads where the source indexes a vector
  out of range (undefined there). -/
  nullOut : CTxOut S
  nullIn : CTxIn S

/-- Element `n` of the outputs of a transaction. -/
def pegsVout (E : PegsEnv S) (tx : CTransaction S) (n : Nat) : CTxOut S :=
  tx.vout.getD n E.nullOut

/-- The last output `tx.vout[numvouts-1]` . -/
def pegsLastVout (E : PegsEnv S) (tx : CTransaction S) : CTxOut S :=
  tx.vout.getLastD E.nullOut

/-- Element `n` of the inputs of a transaction. -/
def pegsVin (E : PegsEnv S) (tx : CTransaction S) (n : Nat) : CTxIn S :=
  tx.vin.getD n E.nullIn

/-- Reading `n` ids off the stream. -/
def readUint256s : Nat → Bytes → Option (List uint256 × Bytes)
  | 0, bs => some ([], bs)
  | n + 1, bs =>
    match readUint256 bs with
    | none => none
    | some (v, rest) =>
      match readUint256s n rest with
      | none => none
      | some (vs, rest2) => some (v :: vs, rest2)

/-- The extraction `ss >> bindtxids` of a vector of ids: its compact size, then the ids. -/
def readVecUint256 (bs : Bytes) : Option (List uint256 × Bytes) :=
  match ReadCompactSize bs with
  | none => none
  | some (n, rest) => readUint256s n rest

/-- The source's `DecodePegsCreateOpRet` : the function id, or 0. -/
def DecodePegsCreateOpRet (E : PegsEnv S) (scriptPubKey : S) : Nat :=
  let vopret := E.GetOpReturnData scriptPubKey
  if vopret.length > 2 ∧ vopret.getD 0 0 = E.EVAL_PEGS then
    match E_UNMARSHAL ((rd readU8 (fun (s : Nat × Nat × List uint256) v => (v, s.2.1, s.2.2))).andThen
        ((rd readU8 (fun s v => (s.1, v, s.2.2))).andThen
          (rd readVecUint256 (fun s v => (s.1, s.2.1, v))))) (0, 0, []) vopret with
    | (s, true) => s.2.1
    | (_, false) => 0
  else 0

/-- The body `ss >> e; ss >> f; ss >> pegstxid; ss >> srcpub; ss >> amount; ss >> account;
ss >> accountpk` of `DecodePegsAccountOpRet`, on the bytes `e`, `f` and the variables. -/
def unmarshalPegsAccount : Step (Nat × Nat × PegsVars) :=
  (rd readU8 (fun s v => (v, s.2.1, s.2.2))).andThen
  ((rd readU8 (fun s v => (s.1, v, s.2.2))).andThen
  ((rd readUint256 (fun s v => (s.1, s.2.1, { s.2.2 with pegstxid := v }))).andThen
  ((rdIn readPubKey (fun s => s.2.2.srcpub)
      (fun s v => (s.1, s.2.1, { s.2.2 with srcpub := v }))).andThen
  ((rd readI64 (fun s v => (s.1, s.2.1, { s.2.2 with amount := v }))).andThen
  ((rd readI64 (fun s v =>
      (s.1, s.2.1, { s.2.2 with account := (v, s.2.2.account.2) }))).andThen
  ((rd readI64 (fun s v =>
      (s.1, s.2.1, { s.2.2 with account := (s.2.2.account.1, v) }))).andThen
  (rdIn readPubKey (fun s => s.2.2.accountpk)
      (fun s v => (s.1, s.2.1, { s.2.2 with accountpk := v })))))))))

/-- The bytes `vopret` that `DecodePegsAccountOpRet` and `DecodePegsOpRet` take from a
script, and the variable `tokenid` afterwards: the blob of a token opret when there is
one, else the data of the opreturn. -/
def pegsVopret (E : PegsEnv S) (scriptPubKey : S) (tokenid : uint256) : Bytes × uint256 :=
  match E.DecodeTokenOpRetV1 scriptPubKey tokenid with
  | (tf, tokenid1, oprets) =>
    if tf ≠ 0 then
      match E.GetOpReturnCCBlob oprets with
      | some vOpretExtra =>
        if vOpretExtra.length > 0 then (vOpretExtra, tokenid1)
        else (E.GetOpReturnData scriptPubKey, tokenid1)
      | none => (E.GetOpReturnData scriptPubKey, tokenid1)
    else (E.GetOpReturnData scriptPubKey, tokenid1)

/-- The source's `DecodePegsAccountOpRet` : the function id, or 0, and the variables
afterwards. -/
def DecodePegsAccountOpRet (E : PegsEnv S) (scriptPubKey : S) (v : PegsVars) :
    Nat × PegsVars :=
  match pegsVopret E scriptPubKey v.tokenid with
  | (vopret, tokenid1) =>
    if vopret.length > 2 ∧ vopret.getD 0 0 = E.EVAL_PEGS then
      match E_UNMARSHAL unmarshalPegsAccount (0, 0, { v with tokenid := tokenid1 }) vopret with
      | (s, true) => (s.2.1, s.2.2)
      | (s, false) => (0, s.2.2)
    else (0, { v with tokenid := tokenid1 })

/-- The source's `DecodePegsGetOpRet` : 'G' or 0, and the variables afterwards. -/
def DecodePegsGetOpRet (E : PegsEnv S) (tx : CTransaction S) (v : PegsVars) : Nat × PegsVars :=
  let vopret := E.GetOpReturnData (pegsLastVout E tx).scriptPubKey
  if vopret.length > 2 ∧ vopret.getD 0 0 = E.EVAL_IMPORTCOIN then
    match E.UnmarshalImportTx tx with
    | some burntx =>
      match E.UnmarshalBurnTx burntx v with
      | (v1, true) => (71, v1)
      | (v1, false) => (0, v1)
    | none => (0, v)
  else (0, v)

/-- The source's `DecodePegsOpRet` : the function id, or 0, and the variables `pegstxid`
and `tokenid` afterwards. -/
def DecodePegsOpRet (E : PegsEnv S) (tx : CTransaction S) (pegstxid tokenid : uint256) :
    Nat × uint256 × uint256 :=
  if tx.vout.length < 1 then (0, pegstxid, tokenid)
  else
    match pegsVopret E (pegsLastVout E tx).scriptPubKey tokenid with
    | (vopret, tokenid1) =>
      if E.IsPegsImport tx then
        match DecodePegsGetOpRet E tx
            { PegsVars.init with pegstxid := pegstxid, tokenid := tokenid1 } with
        | (f, v) => (f, v.pegstxid, v.tokenid)
      else if vopret.length > 2 ∧ vopret.getD 0 0 = E.EVAL_PEGS then
        match E_UNMARSHAL ((rd readU8 (fun (s : Nat × Nat × uint256) v => (v, s.2.1, s.2.2))).andThen
            ((rd readU8 (fun s v => (s.1, v, s.2.2))).andThen
              (rd readUint256 (fun s v => (s.1, s.2.1, v))))) (0, 0, pegstxid) vopret with
        | (s, _) =>
          if s.2.1 = 67 ∨ s.2.1 = 70 ∨ s.2.1 = 82 ∨ s.2.1 = 88 ∨ s.2.1 = 69 ∨ s.2.1 = 76 then
            (s.2.1, s.2.2, tokenid1)
          else (0, s.2.2, tokenid1)
      else (0, pegstxid, tokenid1)

/-- The source's `PegsDecodeAccountTx` : the name of the kind of the transaction, or the
empty string, and the variables `pk` (here `srcpub` ), `amount`, `account` and
`accountpk` afterwards. -/
def PegsDecodeAccountTx (E : PegsEnv S) (tx : CTransaction S) (v : PegsVars) :
    String × PegsVars :=
  match DecodePegsOpRet E tx zeroid zeroid with
  | (funcid, pegstxid, tokenid) =>
    let v0 : PegsVars := { v with tokenid := tokenid, pegstxid := pegstxid }
    let viaAccount (want : Nat) (name : String) : String × PegsVars :=
      match DecodePegsAccountOpRet E (pegsLastVout E tx).scriptPubKey v0 with
      | (f, v1) => if f = want then (name, v1) else ("", v1)
    if funcid ≠ 0 then
      if funcid = 70 then viaAccount 70 "fund"
      else if funcid = 71 then
        match DecodePegsGetOpRet E tx v0 with
        | (f, v1) => if f = 71 then ("get", v1) else ("", v1)
      else if funcid = 82 then viaAccount 82 "redeem"
      else if funcid = 88 then viaAccount 88 "close"
      else if funcid = 69 then viaAccount 69 "exchange"
      else if funcid = 76 then viaAccount 76 "liquidate"
      else ("", v0)
    else ("", v0)

/-- The variables the loop of `PegsFindAccount` updates. -/
structure FindAccountState (S : Type) where
  accounttxid : uint256
  funcid : Nat
  acctx : Option (CTransaction S)
  tmppegstxid : uint256
  tmptokenid : uint256

/-- One round of the loop of `PegsFindAccount` over the unspent outputs. -/
def findAccountStep (E : PegsEnv S) (pegstxid tokenid : uint256) (st : FindAccountState S)
    (u : uint256 × Int × Int) : FindAccountState S :=
  if u.2.1 = 1 ∧ u.2.2 = CC_MARKER_VALUE then
    match E.myGetTransaction u.1 with
    | some tx =>
      if tx.vout.length > 0 then
        match DecodePegsOpRet E tx st.tmppegstxid st.tmptokenid with
        | (f, tmppegstxid, tmptokenid) =>
          if f ≠ 0 ∧ pegstxid = tmppegstxid ∧ tokenid = tmptokenid then
            { accounttxid := u.1, funcid := f, acctx := some tx,
              tmppegstxid := tmppegstxid, tmptokenid := tmptokenid }
          else { st with tmppegstxid := tmppegstxid, tmptokenid := tmptokenid }
      else st
    | none => st
  else st

/-- The source's `PegsFindAccount` : the function id of the account transaction found, or
0, the variable `accounttxid` and the variable `account` afterwards. -/
def PegsFindAccount (E : PegsEnv S) (pk : CPubKey) (pegstxid tokenid : uint256)
    (account : Int × Int) : Nat × uint256 × (Int × Int) :=
  let coinaddr := (E.GetCCaddress1of2 pk E.pegspk).2
  let st := (E.SetCCunspents coinaddr).foldl (findAccountStep E pegstxid tokenid)
    { accounttxid := zeroid, funcid := 0, acctx := none, tmppegstxid := zeroid,
      tmptokenid := zeroid }
  if st.accounttxid ≠ zeroid then
    match st.acctx with
    | some acctx =>
      (st.funcid, st.accounttxid,
        (PegsDecodeAccountTx E acctx { PegsVars.init with account := account }).2.account)
    | none => (st.funcid, st.accounttxid, account)
  else (0, st.accounttxid, account)

/-- The source's `CheckSynthetic` . -/
def CheckSynthetic (E : PegsEnv S) (description : Bytes) : Bool :=
  (E.prices_syntheticvec description).isSome

/-- The source's `PegsGetTokenPrice` . -/
def PegsGetTokenPrice (E : PegsEnv S) (tokenid : uint256) : Int :=
  match E.myGetTransaction tokenid with
  | some tokentx =>
    if tokentx.vout.length > 0 then
      match E.DecodeTokenCreateOpRetV1 (pegsLastVout E tokentx).scriptPubKey with
      | (f, desc) =>
        if f = 99 then
          match E.prices_syntheticvec desc with
          | some exp => if E.prices_syntheticprice exp ≥ 0 then E.prices_syntheticprice exp else 0
          | none => 0
        else 0
    else 0
  | none => 0

/-- The GMP function `mpz_get_si` for a 64-bit `long` : the value when it fits, else the
least significant 63 bits of the magnitude with the sign of the value. -/
def mpz_get_si (z : Int) : Int :=
  if -(2 ^ 63) ≤ z ∧ z < 2 ^ 63 then z
  else if z ≥ 0 then z % 2 ^ 63 else -((-z) % 2 ^ 63)

/-- The source's `PegsGetTokensAmountPerPrice` . -/
def PegsGetTokensAmountPerPrice (E : PegsEnv S) (amount : Int) (tokenid : uint256) : Int :=
  let price := PegsGetTokenPrice E tokenid
  if price = 0 then 0
  else mpz_get_si (Int.tdiv (amount * E.COIN) price)

/-- The value `deposit * price / COIN` that `PegsGetRatio` divides by. -/
def pegsDepositValue (COIN price deposit : Int) : Int :=
  mpz_get_si (Int.tdiv (deposit * price) COIN)

/-- The expression `((double)debt)*100/value` of `PegsGetRatio` . -/
def pegsRatio (debt value : Int) : Dbl :=
  Dbl.div (Dbl.mul (Dbl.ofInt debt) (Dbl.ofInt 100)) (Dbl.ofInt value)

/-- The source's `PegsGetRatio` . -/
def PegsGetRatio (E : PegsEnv S) (tokenid : uint256) (account : Int × Int) : Dbl :=
  pegsRatio account.2 (pegsDepositValue E.COIN (PegsGetTokenPrice E tokenid) account.1)

/-- The source's `PegsGetAccountRatio` . -/
def PegsGetAccountRatio (E : PegsEnv S) (pegstxid tokenid accounttxid : uint256) : Dbl :=
  match E.myGetTransaction accounttxid with
  | some tx =>
    if tx.vout.length > 0 then
      match DecodePegsOpRet E tx zeroid zeroid with
      | (funcid, tmppegstxid, tmptokenid) =>
        if funcid ≠ 0 ∧ pegstxid = tmppegstxid ∧ tokenid = tmptokenid then
          PegsGetRatio E tokenid (PegsDecodeAccountTx E tx PegsVars.init).2.account
        else Dbl.ofInt 0
    else Dbl.ofInt 0
  | none => Dbl.ofInt 0

/-- The variables the first loop of `PegsGetGlobalRatio` updates: the map
`globalaccounts` as a list of entries (token id, deposit, debt) and the variables the
decoders write into. -/
structure GlobalRatioState where
  globalaccounts : List (uint256 × Int × Int)
  tmppegstxid : uint256
  tokenid : uint256
  vars : PegsVars

/-- The update `globalaccounts[tokenid].first += d1; globalaccounts[tokenid].second += d2`
of the map, a new entry starting from (0,0). -/
def globalAdd (m : List (uint256 × Int × Int)) (tokenid : uint256) (d1 d2 : Int) :
    List (uint256 × Int × Int) :=
  match m with
  | [] => [(tokenid, d1, d2)]
  | (t, a, b) :: rest =>
    if t = tokenid then (t, a + d1, b + d2) :: rest
    else (t, a, b) :: globalAdd rest tokenid d1 d2

/-- One round of the first loop of `PegsGetGlobalRatio`, over the account markers. -/
def globalRatioStep1 (E : PegsEnv S) (pegstxid : uint256) (st : GlobalRatioState)
    (u : uint256 × Int × Int) : GlobalRatioState :=
  if u.2.1 = 0 ∧ u.2.2 = CC_MARKER_VALUE then
    match E.myGetTransaction u.1 with
    | some tx =>
      if tx.vout.length > 0 then
        match DecodePegsOpRet E tx st.tmppegstxid st.tokenid with
        | (funcid, tmppegstxid, tokenid) =>
          if funcid ≠ 0 ∧ pegstxid = tmppegstxid
              ∧ (funcid = 70 ∨ funcid = 71 ∨ funcid = 69) then
            let vars := (PegsDecodeAccountTx E tx st.vars).2
            { globalaccounts := globalAdd st.globalaccounts tokenid vars.account.1 vars.account.2,
              tmppegstxid := tmppegstxid, tokenid := tokenid, vars := vars }
          else { st with tmppegstxid := tmppegstxid, tokenid := tokenid }
      else st
    | none => st
  else st

/-- One round of the second loop of `PegsGetGlobalRatio`, over the tokens of the peg. -/
def globalRatioStep2 (E : PegsEnv S) (pegstxid : uint256) (st : GlobalRatioState)
    (u : uint256 × Int × Int) : GlobalRatioState :=
  match E.myGetTransaction u.1 with
  | some tx =>
    if tx.vout.length > 0 then
      match DecodePegsOpRet E tx st.tmppegstxid st.tokenid with
      | (funcid, tmppegstxid, tokenid) =>
        if funcid ≠ 0 ∧ pegstxid = tmppegstxid then
          { st with globalaccounts := globalAdd st.globalaccounts tokenid u.2.2 0,
                    tmppegstxid := tmppegstxid, tokenid := tokenid }
        else { st with tmppegstxid := tmppegstxid, tokenid := tokenid }
    else st
  | none => st

/-- The source's `PegsGetGlobalRatio` . -/
def PegsGetGlobalRatio (E : PegsEnv S) (pegstxid : uint256) : Dbl :=
  let st1 := (E.SetCCunspents (E.GetCCaddress1of2 E.pegspk E.pegspk).2).foldl
    (globalRatioStep1 E pegstxid)
    { globalaccounts := [], tmppegstxid := zeroid, tokenid := zeroid, vars := PegsVars.init }
  let st2 := (E.SetCCunspents (E.GetTokensCCaddress E.pegspk).2).foldl
    (globalRatioStep2 E pegstxid) st1
  let globaldeposit : Int :=
    (st2.globalaccounts.map (fun a => a.2.1 * PegsGetTokenPrice E a.1)).sum
  let globaldebt : Int := (st2.globalaccounts.map (fun a => a.2.2)).sum
  if globaldebt > 0 then
    Dbl.div (Dbl.mul (Dbl.ofInt globaldebt) (Dbl.ofInt 100))
      (Dbl.ofInt (mpz_get_si (Int.tdiv globaldeposit E.COIN)))
  else Dbl.ofInt 0

/-- The source's `ValidateAccount` : the error, or the empty string. -/
def ValidateAccount (E : PegsEnv S) (tx : CTransaction S) (tokenid : uint256)
    (prevaccount : Int × Int) : String :=
  match PegsDecodeAccountTx E tx PegsVars.init with
  | (name, v) =>
    if !E.ismyvin (pegsVin E tx 0).scriptSig then
      "vin.0 is CC account marker for pegs" ++ name ++ "!"
    else if !E.ismyvin (pegsVin E tx 1).scriptSig then
      "vin.1 is CC account marker for pegs" ++ name ++ "!"
    else if (E.GetCCaddress1of2 E.pegspk E.pegspk).1
        ∧ !E.ConstrainVout (pegsVout E tx 0) 1 (E.GetCCaddress1of2 E.pegspk E.pegspk).2
            CC_MARKER_VALUE then
      "invalid account marker vout.0 for pegs" ++ name ++ "!"
    else if (E.GetCCaddress1of2 v.accountpk E.pegspk).1
        ∧ !E.ConstrainVout (pegsVout E tx 1) 1 (E.GetCCaddress1of2 v.accountpk E.pegspk).2
            CC_MARKER_VALUE then
      "invalid account marker vout.1 for pegs" ++ name ++ "!"
    else if name = "fund" ∧ (prevaccount.1 + v.amount ≠ v.account.1
        ∨ prevaccount.2 ≠ v.account.2 ∨ v.srcpub ≠ v.accountpk) then
      "invalid previous and current account comparisons!"
    else if name = "redeem" ∧ (prevaccount.1 - v.amount ≠ v.account.1
        ∨ prevaccount.2 ≠ v.account.2 ∨ v.srcpub ≠ v.accountpk) then
      "invalid previous and current account comparisons!"
    else if name = "close" ∧ (v.account.1 ≠ 0 ∨ prevaccount.2 - v.amount ≠ 0
        ∨ v.account.2 ≠ 0 ∨ v.srcpub ≠ v.accountpk) then
      "invalid previous and current account comparisons!"
    else if name = "exchange"
        ∧ (prevaccount.1 - PegsGetTokensAmountPerPrice E v.amount tokenid ≠ v.account.1
          ∨ prevaccount.2 - v.amount ≠ v.account.2) then
      "invalid previous and current account comparisons!"
    else if name = "liquidate" ∧ (prevaccount.2 - v.amount ≠ v.account.2
        ∨ v.account.1 ≠ 0 ∨ v.account.2 ≠ 0) then
      "invalid previous and current account comparisons!"
    else ""

/-- The red-zone threshold of an account: `ASSETCHAINS_PEGSCCPARAMS[0]` when it is not
0, else `PEGS_ACCOUNT_RED_ZONE` . -/
def accountRedZone (E : PegsEnv S) : Int :=
  if E.ASSETCHAINS_PEGSCCPARAMS 0 ≠ 0 then (E.ASSETCHAINS_PEGSCCPARAMS 0 : Int)
  else PEGS_ACCOUNT_RED_ZONE

/-- The global red-zone threshold: `ASSETCHAINS_PEGSCCPARAMS[1]` when it is not 0, else
`PEGS_GLOBAL_RED_ZONE` . -/
def globalRedZone (E : PegsEnv S) : Int :=
  if E.ASSETCHAINS_PEGSCCPARAMS 1 ≠ 0 then (E.ASSETCHAINS_PEGSCCPARAMS 1 : Int)
  else PEGS_GLOBAL_RED_ZONE

/-- The branch `case 'F'` of `PegsValidate` : the value returned, none when the branch
ends in `break` .  The variables are `pegstxid` and `tokenid` as `DecodePegsOpRet` left
them.  The last test of the branch returns a string from a function of type `bool` :
the value returned is true. -/
def pegsValidateFund (E : PegsEnv S) (tx : CTransaction S) (pegstxid tokenid : uint256) :
    Option Bool :=
  match E.myGetTransaction pegstxid with
  | none => some false
  | some pegstx =>
    if pegstx.vout.length ≤ 0 then some false
    else if DecodePegsCreateOpRet E (pegsLastVout E pegstx).scriptPubKey ≠ 67 then some false
    else
      match E.myGetTransaction tokenid with
      | none => some false
      | some tokentx =>
        if tokentx.vout.length ≤ 0 then some false
        else if (E.DecodeTokenCreateOpRetV1 (pegsLastVout E tokentx).scriptPubKey).1 ≠ 99 then
          some false
        else if !CheckSynthetic E
            (E.DecodeTokenCreateOpRetV1 (pegsLastVout E tokentx).scriptPubKey).2 then some false
        else if tx.vout.length < 1 then some false
        else
          match DecodePegsAccountOpRet E (pegsLastVout E tx).scriptPubKey
              { PegsVars.init with tokenid := tokenid, pegstxid := pegstxid } with
          | (f, v) =>
            if f ≠ 70 then some false
            else
              match PegsFindAccount E v.srcpub v.pegstxid v.tokenid (0, 0) with
              | (fa, accounttxid, prevaccount) =>
                if fa ≠ 0 ∧ ValidateAccount E tx v.tokenid prevaccount ≠ "" then some false
                else if accounttxid = zeroid then
                  if !E.ismyvin (pegsVin E tx 0).scriptSig then some false
                  else if (E.GetCCaddress1of2 E.pegspk E.pegspk).1
                      ∧ !E.ConstrainVout (pegsVout E tx 0) 1
                          (E.GetCCaddress1of2 E.pegspk E.pegspk).2 CC_MARKER_VALUE then
                    some false
                  else if (E.GetCCaddress1of2 v.srcpub E.pegspk).1
                      ∧ !E.ConstrainVout (pegsVout E tx 1) 1
                          (E.GetCCaddress1of2 v.srcpub E.pegspk).2 CC_MARKER_VALUE then
                    some false
                  else if v.amount ≠ v.account.1 ∨ v.account.2 ≠ 0 then some false
                  else none
                else if (E.GetTokensCCaddress1of2 v.srcpub E.pegspk).1
                    ∧ !E.ConstrainVout (pegsVout E tx 2) 1
                        (E.GetTokensCCaddress1of2 v.srcpub E.pegspk).2 v.amount then
                  some true
                else none

/-- The branch `case 'L'` of `PegsValidate` : the value returned, none when the branch
ends in `break` .  The tests of the outputs 2 to 5 return a string from a function of
type `bool` : the value returned is true. -/
def pegsValidateLiquidate (E : PegsEnv S) (tx : CTransaction S) (pegstxid tokenid : uint256) :
    Option Bool :=
  if tx.vout.length < 1 then some false
  else
    match DecodePegsAccountOpRet E (pegsLastVout E tx).scriptPubKey
        { PegsVars.init with tokenid := tokenid, pegstxid := pegstxid } with
    | (f, v) =>
      if f ≠ 76 then some false
      else
        match PegsFindAccount E v.accountpk v.pegstxid v.tokenid (0, 0) with
        | (fa, accounttxid, prevaccount) =>
          if fa = 0 then some false
          else if accounttxid ≠ zeroid
              ∧ (E.myIsutxo_spentinmempool accounttxid 1).isSome
              ∧ E.myIsutxo_spentinmempool accounttxid 1 ≠ some (E.GetHash tx) then some false
          else if ValidateAccount E tx v.tokenid prevaccount ≠ "" then some false
          else if Dbl.lt (PegsGetRatio E v.tokenid prevaccount) (Dbl.ofInt (accountRedZone E))
            then some false
          else if (E._GetCCaddress E.EVAL_TOKENS v.srcpub).1
              ∧ !E.ConstrainVout (pegsVout E tx 2) 1
                  (E._GetCCaddress E.EVAL_TOKENS v.srcpub).2 v.amount then some true
          else if (E.txidScriptAddress v.pegstxid).1
              ∧ !E.ConstrainVout (pegsVout E tx 3) 0 (E.txidScriptAddress v.pegstxid).2
                  prevaccount.2 then some true
          else if (E.GetTokensCCaddress E.pegspk).1
              ∧ !E.ConstrainVout (pegsVout E tx 4) 1 (E.GetTokensCCaddress E.pegspk).2
                  (prevaccount.1 - v.amount) then some true
          else if tx.vout.length > 5 ∧ (E.GetCCaddress E.pegspk).1
              ∧ !E.ConstrainVout (pegsVout E tx 5) 1 (E.GetCCaddress E.pegspk).2 0 then some true
          else none

/-- The source's `PegsValidate` .  The calls of `CCOpretCheck` and `ExactAmounts`, whose
results the source does not use, are left out; `eval->Invalid` returns false. -/
def PegsValidate (E : PegsEnv S) (tx : CTransaction S) : Bool :=
  if tx.vout.length < 1 then false
  else
    match DecodePegsOpRet E tx zeroid zeroid with
    | (funcid, pegstxid, tokenid) =>
      let branch : Option Bool :=
        if funcid ≠ 0 then
          if E.KOMODO_EARLYTXID ≠ zeroid ∧ pegstxid ≠ E.KOMODO_EARLYTXID then some false
          else if funcid = 67 then some false
          else if funcid = 70 then pegsValidateFund E tx pegstxid tokenid
          else if funcid = 82 ∨ funcid = 88 ∨ funcid = 69 then E.otherBranch funcid tx
          else if funcid = 76 then pegsValidateLiquidate E tx pegstxid tokenid
          else none
        else none
      match branch with
      | some b => b
      | none => E.PreventCC tx

/-- The tests of `PegsLiquidate` on the account of the liquidator `mypk` : true when the
builder refuses with "cannot find account, you must have an account to liquidate another
account!" or with "not able to liquidate another account when your account ratio is in
red zone .." . -/
def pegsLiquidatorRefuses (E : PegsEnv S) (mypk : CPubKey) (pegstxid tokenid : uint256) :
    Bool :=
  match PegsFindAccount E mypk pegstxid tokenid (0, 0) with
  | (funcid, _, myaccount) =>
    decide (funcid = 0)
      || Dbl.ge (PegsGetRatio E tokenid myaccount) (Dbl.ofInt (accountRedZone E))

/-- The test of `PegsLiquidate` on the zones: true when the builder refuses with "not
able to liquidate account until account ratio >= .. and global ratio >= .." . -/
def pegsLiquidateRefuses (E : PegsEnv S) (pegstxid tokenid liquidatetxid : uint256) : Bool :=
  Dbl.lt (PegsGetAccountRatio E pegstxid tokenid liquidatetxid) (Dbl.ofInt (accountRedZone E))
    || Dbl.lt (PegsGetGlobalRatio E pegstxid) (Dbl.ofInt (globalRedZone E))

/-- The amount `tmpamount` of `PegsLiquidate` : the debt in tokens, times 105/100. -/
def pegsLiquidateTmpAmount (E : PegsEnv S) (tokenid : uint256) (account : Int × Int) : Int :=
  Int.tdiv (PegsGetTokensAmountPerPrice E account.2 tokenid * 105) 100

/-- The amount of tokens `PegsLiquidate` pays to the liquidator: `tmpamount +
((tokenamount - tmpamount) * 10 / 100)` . -/
def pegsLiquidateAmount (E : PegsEnv S) (tokenid : uint256) (account : Int × Int) : Int :=
  pegsLiquidateTmpAmount E tokenid account
    + Int.tdiv ((account.1 - pegsLiquidateTmpAmount E tokenid account) * 10) 100

/-- The amount of tokens `PegsLiquidate` sends to the global token address of the peg:
`tokenamount - amount` . -/
def pegsLiquidateRemainder (E : PegsEnv S) (tokenid : uint256) (account : Int × Int) : Int :=
  account.1 - pegsLiquidateAmount E tokenid account

end Pegs

section PegsTerms
variable {S : Type}

/-- The function id and the record `PegsValidate` decodes from the last output of a
transaction, the variables `pegstxid` and `tokenid` being the ones `DecodePegsOpRet`
left. -/
def pegsRecordOf (E : PegsEnv S) (tx : CTransaction S) : Nat × PegsVars :=
  DecodePegsAccountOpRet E (pegsLastVout E tx).scriptPubKey
    { PegsVars.init with tokenid := (DecodePegsOpRet E tx zeroid zeroid).2.2,
                         pegstxid := (DecodePegsOpRet E tx zeroid zeroid).2.1 }

/-- The account `PegsValidate` finds for the source key of the record of a Fund: the
function id of its latest transaction, or 0 when there is no account, the id of that
transaction and the state (deposit, debt) it recorded. -/
def pegsFundPrevAccount (E : PegsEnv S) (tx : CTransaction S) : Nat × uint256 × (Int × Int) :=
  PegsFindAccount E (pegsRecordOf E tx).2.srcpub (pegsRecordOf E tx).2.pegstxid
    (pegsRecordOf E tx).2.tokenid (0, 0)

end PegsTerms

/-! ## A symbolic host for evaluation

Scripts as terms; used to run the definitions on concrete transactions. -/

/-- Scripts as terms: data carrier outputs, crypto-condition outputs with their optional
parameters, pay-to-pubkey outputs, input scripts marked as spending a Marmara
crypto-condition or not, input scripts of a Marmara cc spend and of a normal spend with
their signer, and the staking opreturn. -/
inductive SymScript where
  | opret (data : Bytes)
  | cc1 (evalcode : Nat) (pk : CPubKey)
  | cc1of2 (evalcode : Nat) (pk1 pk2 : CPubKey) (vData : Option (List Bytes))
  | p2pk (pk : CPubKey)
  | sig (isMarmaraCC : Bool)
  | ccSig (signer : CPubKey)
  | normalSig (signer : CPubKey)
  | staking
  deriving DecidableEq

/-- Pushes of a parameter script: each item behind its length byte. -/
def symPushData (items : List Bytes) : Bytes :=
  items.foldr (fun d acc => d.length :: (d ++ acc)) []

/-- Items of a parameter script, read back (`fuel` bounds the number of items). -/
def symGetPushedData : Nat → Bytes → List Bytes
  | 0, _ => []
  | _ + 1, [] => []
  | fuel + 1, len :: rest =>
    if rest.length < len then [] else rest.take len :: symGetPushedData fuel (rest.drop len)

/-- The value of a hexadecimal digit. -/
def symHexDigit (c : Char) : Nat :=
  if c.isDigit then c.toNat - 48 else if c.toNat ≥ 97 then c.toNat - 87 else c.toNat - 55

/-- Bytes of a hexadecimal string, in the order written. -/
def symHexBytes : List Char → List Nat
  | a :: b :: rest => (16 * symHexDigit a + symHexDigit b) :: symHexBytes rest
  | _ => []

/-- The transaction of the list that spends output `n` of `txid`, if any. -/
def symSpender (chain : List (uint256 × CTransaction SymScript)) (txid : uint256) (n : Int) :
    Option uint256 :=
  (chain.find? (fun p => p.2.vin.any (fun vin =>
    vin.prevout.hash = txid ∧ (vin.prevout.n : Int) = n))).map (fun p => p.1)

/-- The symbolic host over a list of known transactions. -/
def symEnv (chain : List (uint256 × CTransaction SymScript)) (tip : Option Int)
    (juneUpdate : Bool) : Env SymScript where
  opReturnScript := SymScript.opret
  GetOpReturnData := fun s =>
    match s with
    | .opret d => d
    | _ => []
  IsPayToCryptoCondition := fun s =>
    match s with
    | .cc1 _ _ => some []
    | .cc1of2 e _ _ (some vData) => some [symPushData ([1, e, 1, 2] :: vData)]
    | .cc1of2 _ _ _ none => some []
    | _ => none
  GetPushedData := fun b => symGetPushedData b.length b
  MakeCC1vout := fun e v pk => { nValue := v, scriptPubKey := .cc1 e pk }
  MakeCC1of2vout := fun e v pk1 pk2 vData => { nValue := v, scriptPubKey := .cc1of2 e pk1 pk2 vData }
  Marmarapk := 2 :: List.replicate 32 1
  CCtxidaddr_tweak := fun txid => 2 :: txid
  ismyvin := fun s =>
    match s with
    | .sig b => b
    | .ccSig _ => true
    | _ => false
  myGetTransaction := fun txid => chain.lookup txid
  tipHeight := tip
  ASSETCHAINS_MARMARA := true
  MarmaraIs2020JuneUpdateActive := juneUpdate
  MarmaraValidate_h0 := fun _ _ => false
  nullOut := { nValue := -1, scriptPubKey := .opret [] }
  IsCCInput := fun s =>
    match s with
    | .sig b => b
    | .ccSig _ => true
    | _ => false
  check_signing_pubkey := fun s =>
    match s with
    | .ccSig pk => pk
    | _ => []
  TotalPubkeyNormalInputs := fun tx pk =>
    ((tx.vin.filter (fun vin => vin.scriptSig = .normalSig pk)).length : Int)
  GetHash := fun tx =>
    match chain.find? (fun p => p.2 = tx) with
    | some p => p.1
    | none => []
  p2pkScript := SymScript.p2pk
  CCgetspenttxid := symSpender chain
  CCgettxout := fun txid n =>
    match symSpender chain txid n, chain.lookup txid with
    | none, some tx => if n < 0 ∨ n ≥ (tx.vout.length : Int) then -1
        else (tx.vout.getD n.toNat { nValue := -1, scriptPubKey := .opret [] }).nValue
    | _, _ => -1
  lastTipHeight := tip.getD 0
  DecodeStakingOpRet := fun s => decide (s = .staking)
  Parseuint256 := fun str => (symHexBytes str.toList).reverse
  abs := fun x => (x.natAbs : Int)

/-! ## Sample transactions -/

/-- The symbolic host without known transactions. -/
def sampleEnv : Env SymScript := symEnv [] none true

/-- A creation txid. -/
def sampleCreatetxid : uint256 := List.replicate 32 7

/-- The key of an endorser. -/
def samplePk : CPubKey := 3 :: List.replicate 32 9

/-- A transaction with one activated output, as `MarmaraLock` builds it. -/
def sampleActivatedTx : CTransaction SymScript where
  vin := []
  vout := [MakeMarmaraCC1of2voutOpret sampleEnv marmaraConsts 1000 samplePk
    (MarmaraEncodeCoinbaseOpret sampleEnv marmaraConsts marmaraConsts.MARMARA_ACTIVATED
      samplePk 100)]

/-- A transaction with a Marmara cc input and one locked-in-loop output, as `MarmaraIssue`
builds it: paid to the key of the createtxid, marked with the key of the endorser. -/
def sampleLockedTx : CTransaction SymScript where
  vin := [{ prevout := { hash := List.replicate 32 5, n := 0 }, scriptSig := .sig true }]
  vout := [MakeMarmaraCC1of2voutOpret sampleEnv marmaraConsts 1000
    (sampleEnv.CCtxidaddr_tweak sampleCreatetxid)
    (MarmaraEncodeLoopCCVoutOpret sampleEnv marmaraConsts sampleCreatetxid samplePk)]

/-- The same with the output paid to the key of the endorser. -/
def sampleMisdirectedTx : CTransaction SymScript where
  vin := [{ prevout := { hash := List.replicate 32 5, n := 0 }, scriptSig := .sig true }]
  vout := [MakeMarmaraCC1of2voutOpret sampleEnv marmaraConsts 1000 samplePk
    (MarmaraEncodeLoopCCVoutOpret sampleEnv marmaraConsts sampleCreatetxid samplePk)]

/-- The id of the sample transaction with the activated output. -/
def sampleActivatedTxid : uint256 := List.replicate 32 1

/-- The id of the sample issuance. -/
def sampleIssueTxid : uint256 := List.replicate 32 2

/-- An issuance with the outputs of `MarmaraIssue` : vout0 the baton to the receiver, vout1
the loop marker, vout2 the amount locked in the loop, vout3 the open/close marker, and
the issue record in the last output. -/
def sampleIssueTx : CTransaction SymScript where
  vin := [{ prevout := { hash := List.replicate 32 5, n := 0 }, scriptSig := .sig true }]
  vout := [sampleEnv.MakeCC1vout marmaraConsts.EVAL_MARMARA marmaraConsts.MARMARA_BATON_AMOUNT
      samplePk,
    sampleEnv.MakeCC1vout marmaraConsts.EVAL_MARMARA marmaraConsts.MARMARA_LOOP_MARKER_AMOUNT
      sampleEnv.Marmarapk,
    MakeMarmaraCC1of2voutOpret sampleEnv marmaraConsts 1000
      (sampleEnv.CCtxidaddr_tweak sampleCreatetxid)
      (MarmaraEncodeLoopCCVoutOpret sampleEnv marmaraConsts sampleCreatetxid samplePk),
    sampleEnv.MakeCC1vout marmaraConsts.EVAL_MARMARA marmaraConsts.MARMARA_OPEN_MARKER_AMOUNT
      sampleEnv.Marmarapk,
    { nValue := 0, scriptPubKey := MarmaraEncodeLoopIssuerOpret sampleEnv marmaraConsts 2
        sampleCreatetxid samplePk 1 1 0 0 0 0 }]

/-- The symbolic host that knows the two sample transactions, past the h0 consensus. -/
def sampleChainEnv : Env SymScript :=
  symEnv [(sampleActivatedTxid, sampleActivatedTx), (sampleIssueTxid, sampleIssueTx)]
    (some 200000) true

/-- A stake transaction: spends the sample activated output to the same activated
output. -/
def sampleStakeTx : CTransaction SymScript where
  vin := [{ prevout := { hash := sampleActivatedTxid, n := 0 }, scriptSig := .sig true }]
  vout := sampleActivatedTx.vout

/-- A transaction that spends the loop marker (vout1) of the sample issuance through a
Marmara cc input and pays it into an activated output. -/
def sampleMarkerSpendTx : CTransaction SymScript where
  vin := [{ prevout := { hash := sampleIssueTxid, n := 1 }, scriptSig := .sig true }]
  vout := [MakeMarmaraCC1of2voutOpret sampleEnv marmaraConsts 10000 samplePk
    (MarmaraEncodeCoinbaseOpret sampleEnv marmaraConsts marmaraConsts.MARMARA_ACTIVATED
      samplePk 100)]

/-- Checkers that pass every transaction: with them the entry checks and the dispatch
alone decide. -/
def permissiveCheckers : Checkers SymScript where
  check_issue_tx_12 := fun _ => true
  check_issue_tx := fun _ => true
  check_settlement_tx := fun _ => true
  check_stake_tx := fun _ _ => true
  check_release_tx := fun _ => true

/-! ## A sample credit loop of version 1.2 -/

/-- The key of the holder (the receiver of the sample loop). -/
def sampleHolderPk : CPubKey := 2 :: List.replicate 32 8

/-- The id of the creation transaction of the sample loop. -/
def loopCreateTxid : uint256 := List.replicate 32 17

/-- The id of the issuance of the sample loop. -/
def loopIssueTxid : uint256 := List.replicate 32 18

/-- The id of the settlement of the sample loop. -/
def loopSettleTxid : uint256 := List.replicate 32 19

/-- The id of a transaction with a locked-in-loop output of value zero. -/
def loopZeroLockedTxid : uint256 := List.replicate 32 20

/-- The creation transaction of the sample loop, as the receiver makes it: a normal input
of the holder, the request output of 20000 and the creation record of version 2 with the
key of the issuer, the amount 1000 and the maturity height 150000. -/
def loopCreateTx : CTransaction SymScript where
  vin := [{ prevout := { hash := List.replicate 32 5, n := 0 },
            scriptSig := .normalSig sampleHolderPk }]
  vout := [sampleEnv.MakeCC1vout marmaraConsts.EVAL_MARMARA marmaraConsts.MARMARA_CREATETX_AMOUNT
      samplePk,
    { nValue := 0, scriptPubKey := MarmaraEncodeLoopCreateOpret sampleEnv marmaraConsts 2
        samplePk 1000 150000 [77] }]

/-- A locked-in-loop output of the sample loop with the given value and endorser key. -/
def loopLockedOut (value : Int) (pk : CPubKey) : CTxOut SymScript :=
  MakeMarmaraCC1of2voutOpret sampleEnv marmaraConsts value
    (sampleEnv.CCtxidaddr_tweak loopCreateTxid)
    (MarmaraEncodeLoopCCVoutOpret sampleEnv marmaraConsts loopCreateTxid pk)

/-- The issuance of the sample loop, as `MarmaraIssue` builds it for version 1.2: it spends
the activated output of the issuer and the request output; vout0 the baton to the holder,
vout1 the loop marker, vout2 half the amount locked for the issuer, vout3 the open/close
marker, vout4 half the amount locked for the holder, and the issue record last. -/
def loopIssueTx : CTransaction SymScript where
  vin := [{ prevout := { hash := sampleActivatedTxid, n := 0 }, scriptSig := .ccSig samplePk },
    { prevout := { hash := loopCreateTxid, n := 0 }, scriptSig := .ccSig samplePk }]
  vout := [sampleEnv.MakeCC1vout marmaraConsts.EVAL_MARMARA marmaraConsts.MARMARA_BATON_AMOUNT
      sampleHolderPk,
    sampleEnv.MakeCC1vout marmaraConsts.EVAL_MARMARA marmaraConsts.MARMARA_LOOP_MARKER_AMOUNT
      sampleEnv.Marmarapk,
    loopLockedOut 500 samplePk,
    sampleEnv.MakeCC1vout marmaraConsts.EVAL_MARMARA marmaraConsts.MARMARA_OPEN_MARKER_AMOUNT
      sampleEnv.Marmarapk,
    loopLockedOut 500 sampleHolderPk,
    { nValue := 0, scriptPubKey := MarmaraEncodeLoopIssuerOpret sampleEnv marmaraConsts 2
        loopCreateTxid sampleHolderPk 1 1 0 0 0 0 }]

/-- A transaction with a locked-in-loop output of the sample loop of value zero (vout0)
and a plain Marmara cc output of value zero (vout1). -/
def loopZeroLockedTx : CTransaction SymScript where
  vin := [{ prevout := { hash := List.replicate 32 5, n := 0 }, scriptSig := .sig true }]
  vout := [loopLockedOut 0 samplePk,
    sampleEnv.MakeCC1vout marmaraConsts.EVAL_MARMARA 0 samplePk,
    { nValue := 0, scriptPubKey := .opret [] }]

/-- The settlement of the sample loop, as `MarmaraSettlement` builds it: it spends the
open/close marker of the issuance, a normal input for the fee and the two locked-in-loop
outputs, and pays the amount to the holder. -/
def loopSettleTx : CTransaction SymScript where
  vin := [{ prevout := { hash := loopIssueTxid, n := 3 }, scriptSig := .ccSig sampleEnv.Marmarapk },
    { prevout := { hash := List.replicate 32 6, n := 0 }, scriptSig := .normalSig sampleHolderPk },
    { prevout := { hash := loopIssueTxid, n := 2 }, scriptSig := .ccSig sampleEnv.Marmarapk },
    { prevout := { hash := loopIssueTxid, n := 4 }, scriptSig := .ccSig sampleEnv.Marmarapk }]
  vout := [{ nValue := 1000, scriptPubKey := .p2pk sampleHolderPk },
    { nValue := 0, scriptPubKey := MarmaraEncodeLoopSettlementOpret sampleEnv marmaraConsts 2
        true loopCreateTxid sampleHolderPk 0 }]

/-- The transactions of the sample loop before its settlement. -/
def loopChain : List (uint256 × CTransaction SymScript) :=
  [(sampleActivatedTxid, sampleActivatedTx), (loopCreateTxid, loopCreateTx),
   (loopIssueTxid, loopIssueTx), (loopZeroLockedTxid, loopZeroLockedTx)]

/-- The symbolic host that knows the sample loop, at height 200000. -/
def loopEnv : Env SymScript := symEnv loopChain (some 200000) true

/-- The same host once the settlement is mined. -/
def loopSettledEnv : Env SymScript :=
  symEnv (loopChain ++ [(loopSettleTxid, loopSettleTx)]) (some 200001) true

/-- The id of a transaction of normal inputs with a plain Marmara cc output. -/
def loopLockedSourceTxid : uint256 := List.replicate 32 21

/-- The id of the stake transaction that turns it into a locked-in-loop output. -/
def loopLockedStakeTxid : uint256 := List.replicate 32 22

/-- A transaction of the issuer with a normal input only, which no cc validation sees:
vout0 a plain Marmara cc output of the given value, vout1 a normal output of 20000. -/
def loopLockedSourceTx (value : Int) : CTransaction SymScript where
  vin := [{ prevout := { hash := List.replicate 32 5, n := 2 },
            scriptSig := .normalSig samplePk }]
  vout := [sampleEnv.MakeCC1vout marmaraConsts.EVAL_MARMARA value samplePk,
    { nValue := 20000, scriptPubKey := .p2pk samplePk }]

/-- A transaction in the form of a stake transaction: it spends the plain cc output
into a locked-in-loop output of the sample loop of the same value, followed by the
staking opreturn. -/
def loopLockedStakeTx (value : Int) : CTransaction SymScript where
  vin := [{ prevout := { hash := loopLockedSourceTxid, n := 0 }, scriptSig := .ccSig samplePk }]
  vout := [loopLockedOut value samplePk, { nValue := 0, scriptPubKey := .staking }]

/-- The host that knows the creation of the sample loop, the activated output of the
issuer and the two transactions above, at height 200000; the sample loop is not issued
yet. -/
def loopLockedEnv (value : Int) : Env SymScript :=
  symEnv [(sampleActivatedTxid, sampleActivatedTx), (loopCreateTxid, loopCreateTx),
    (loopLockedSourceTxid, loopLockedSourceTx value),
    (loopLockedStakeTxid, loopLockedStakeTx value)] (some 200000) true

/-- The sample issuance with two more inputs: one spends the locked-in-loop output of the
stake transaction, the other the normal output of 20000 for the markers and the fee. -/
def loopIssueTxLockedVin : CTransaction SymScript where
  vin := loopIssueTx.vin ++
    [{ prevout := { hash := loopLockedStakeTxid, n := 0 },
       scriptSig := .ccSig sampleEnv.Marmarapk },
     { prevout := { hash := loopLockedSourceTxid, n := 1 }, scriptSig := .normalSig samplePk }]
  vout := loopIssueTx.vout

/-- The sample issuance with one more input, which spends the plain cc output of value
zero: an output that is neither activated nor locked-in-loop, spent after the request. -/
def loopIssueTxZeroUnknownVin : CTransaction SymScript where
  vin := loopIssueTx.vin ++
    [{ prevout := { hash := loopZeroLockedTxid, n := 1 }, scriptSig := .ccSig samplePk }]
  vout := loopIssueTx.vout

/-- The sample issuance with one more cc output of the given value before the record (at
index 5): paid to the issuer, neither baton, marker, locked-in-loop nor activated. -/
def loopIssueTxUnknownVout (value : Int) : CTransaction SymScript where
  vin := loopIssueTx.vin
  vout := loopIssueTx.vout.take 5 ++
    [sampleEnv.MakeCC1vout marmaraConsts.EVAL_MARMARA value samplePk] ++ loopIssueTx.vout.drop 5

/-- The sample issuance with the loop marker (vout1) replaced by a normal output to the
issuer. -/
def loopIssueTxNoLoopMarker : CTransaction SymScript where
  vin := loopIssueTx.vin
  vout := loopIssueTx.vout.take 1 ++
    [{ nValue := 10000, scriptPubKey := .p2pk samplePk }] ++ loopIssueTx.vout.drop 2

/-- The sample issuance with the baton (vout0) replaced by a normal output to the issuer. -/
def loopIssueTxNoBaton : CTransaction SymScript where
  vin := loopIssueTx.vin
  vout := { nValue := 10000, scriptPubKey := .p2pk samplePk } :: loopIssueTx.vout.drop 1

/-! ## A sample credit loop of version 1.1 with a transfer -/

/-- The key of the second holder (the receiver of the transfer). -/
def sampleHolder2Pk : CPubKey := 3 :: List.replicate 32 7

/-- The id of the creation transaction of the sample loop of version 1.1. -/
def loopV1CreateTxid : uint256 := List.replicate 32 33

/-- The id of its issuance. -/
def loopV1IssueTxid : uint256 := List.replicate 32 34

/-- The id of the request of the second holder. -/
def loopV1RequestTxid : uint256 := List.replicate 32 35

/-- The id of the transaction with the activated output of the first holder. -/
def loopV1ActivatedTxid : uint256 := List.replicate 32 36

/-- The creation transaction: a normal input of the first holder, the request output and
the creation record of version 1 with the key of the issuer and the amount 1000. -/
def loopV1CreateTx : CTransaction SymScript where
  vin := [{ prevout := { hash := List.replicate 32 5, n := 0 },
            scriptSig := .normalSig sampleHolderPk }]
  vout := [sampleEnv.MakeCC1vout marmaraConsts.EVAL_MARMARA marmaraConsts.MARMARA_CREATETX_AMOUNT
      samplePk,
    { nValue := 0, scriptPubKey := MarmaraEncodeLoopCreateOpret sampleEnv marmaraConsts 1
        samplePk 1000 150000 [77] }]

/-- A locked-in-loop output of the loop of version 1.1 with the given value and endorser
key. -/
def loopV1LockedOut (value : Int) (pk : CPubKey) : CTxOut SymScript :=
  MakeMarmaraCC1of2voutOpret sampleEnv marmaraConsts value
    (sampleEnv.CCtxidaddr_tweak loopV1CreateTxid)
    (MarmaraEncodeLoopCCVoutOpret sampleEnv marmaraConsts loopV1CreateTxid pk)

/-- The issuance of version 1.1: it spends the activated output of the issuer and the
request output; vout0 the baton to the first holder, vout1 the loop marker, vout2 the
whole amount locked for the issuer, vout3 the open/close marker, the issue record last. -/
def loopV1IssueTx : CTransaction SymScript where
  vin := [{ prevout := { hash := sampleActivatedTxid, n := 0 }, scriptSig := .ccSig samplePk },
    { prevout := { hash := loopV1CreateTxid, n := 0 }, scriptSig := .ccSig samplePk }]
  vout := [sampleEnv.MakeCC1vout marmaraConsts.EVAL_MARMARA marmaraConsts.MARMARA_BATON_AMOUNT
      sampleHolderPk,
    sampleEnv.MakeCC1vout marmaraConsts.EVAL_MARMARA marmaraConsts.MARMARA_LOOP_MARKER_AMOUNT
      sampleEnv.Marmarapk,
    loopV1LockedOut 1000 samplePk,
    sampleEnv.MakeCC1vout marmaraConsts.EVAL_MARMARA marmaraConsts.MARMARA_OPEN_MARKER_AMOUNT
      sampleEnv.Marmarapk,
    { nValue := 0, scriptPubKey := MarmaraEncodeLoopIssuerOpret sampleEnv marmaraConsts 1
        loopV1CreateTxid sampleHolderPk 1 1 0 0 0 0 }]

/-- The request of the second holder: a normal input of the second holder, the request
baton and the request record with the key of the first holder. -/
def loopV1RequestTx : CTransaction SymScript where
  vin := [{ prevout := { hash := List.replicate 32 5, n := 1 },
            scriptSig := .normalSig sampleHolder2Pk }]
  vout := [sampleEnv.MakeCC1vout marmaraConsts.EVAL_MARMARA marmaraConsts.MARMARA_BATON_AMOUNT
      sampleHolderPk,
    { nValue := 0, scriptPubKey := MarmaraEncodeLoopRequestOpret sampleEnv marmaraConsts 1
        loopV1CreateTxid sampleHolderPk }]

/-- A transaction with an activated output of 500 of the first holder. -/
def loopV1ActivatedTx : CTransaction SymScript where
  vin := []
  vout := [MakeMarmaraCC1of2voutOpret sampleEnv marmaraConsts 500 sampleHolderPk
    (MarmaraEncodeCoinbaseOpret sampleEnv marmaraConsts marmaraConsts.MARMARA_ACTIVATED
      sampleHolderPk 100)]

/-- The transfer of the first holder to the second with the given values of its two
locked-in-loop outputs: it spends the activated output of the first holder, the request
baton, the baton of the issuance and the locked-in-loop output of the issuance; vout0 the
baton to the second holder, vout1 and vout2 the amounts locked for the first holder and
for the issuer, vout3 the normal output that pays half the amount back to the issuer, the
transfer record last. -/
def loopV1TransferTx (locked1 locked2 : Int) : CTransaction SymScript where
  vin := [{ prevout := { hash := loopV1ActivatedTxid, n := 0 }, scriptSig := .ccSig sampleHolderPk },
    { prevout := { hash := loopV1RequestTxid, n := 0 }, scriptSig := .ccSig sampleHolderPk },
    { prevout := { hash := loopV1IssueTxid, n := 0 }, scriptSig := .ccSig sampleHolderPk },
    { prevout := { hash := loopV1IssueTxid, n := 2 }, scriptSig := .ccSig sampleEnv.Marmarapk }]
  vout := [sampleEnv.MakeCC1vout marmaraConsts.EVAL_MARMARA marmaraConsts.MARMARA_BATON_AMOUNT
      sampleHolder2Pk,
    loopV1LockedOut locked1 sampleHolderPk,
    loopV1LockedOut locked2 samplePk,
    { nValue := 500, scriptPubKey := .p2pk samplePk },
    { nValue := 0, scriptPubKey := MarmaraEncodeLoopTransferOpret sampleEnv marmaraConsts 1
        loopV1CreateTxid sampleHolder2Pk 0 }]

/-- The symbolic host that knows the loop of version 1.1 up to the request of the second
holder. -/
def loopV1Env : Env SymScript :=
  symEnv [(sampleActivatedTxid, sampleActivatedTx), (loopV1CreateTxid, loopV1CreateTx),
    (loopV1IssueTxid, loopV1IssueTx), (loopV1RequestTxid, loopV1RequestTx),
    (loopV1ActivatedTxid, loopV1ActivatedTx)] (some 200000) false

/-- The issuance of version 1.1 with the loop marker (vout1) replaced by a normal output
to the issuer. -/
def loopV1IssueTxNoLoopMarker : CTransaction SymScript where
  vin := loopV1IssueTx.vin
  vout := loopV1IssueTx.vout.take 1 ++
    [{ nValue := 10000, scriptPubKey := .p2pk samplePk }] ++ loopV1IssueTx.vout.drop 2

/-! ## Sample stake and release transactions -/

/-- A stake transaction that spends the activated output of one owner (the sample key)
into an activated output of the same value of another owner (the holder key). -/
def stakeToOtherOwnerTx : CTransaction SymScript where
  vin := [{ prevout := { hash := sampleActivatedTxid, n := 0 }, scriptSig := .ccSig samplePk }]
  vout := [MakeMarmaraCC1of2voutOpret sampleEnv marmaraConsts 1000 sampleHolderPk
      (MarmaraEncodeCoinbaseOpret sampleEnv marmaraConsts marmaraConsts.MARMARA_ACTIVATED
        sampleHolderPk 100),
    { nValue := 0, scriptPubKey := .staking }]

/-- A stake transaction that spends the activated output to the same owner. -/
def stakeToSelfTx : CTransaction SymScript where
  vin := [{ prevout := { hash := sampleActivatedTxid, n := 0 }, scriptSig := .ccSig samplePk }]
  vout := [MakeMarmaraCC1of2voutOpret sampleEnv marmaraConsts 1000 samplePk
      (MarmaraEncodeCoinbaseOpret sampleEnv marmaraConsts marmaraConsts.MARMARA_ACTIVATED
        samplePk 100),
    { nValue := 0, scriptPubKey := .staking }]

/-- A release transaction: it spends the activated output of 1000 of the sample key, keeps
400 activated for the same key and releases 600 to a normal output; the release record
comes last. -/
def sampleReleaseTx : CTransaction SymScript where
  vin := [{ prevout := { hash := sampleActivatedTxid, n := 0 }, scriptSig := .ccSig samplePk }]
  vout := [MakeMarmaraCC1of2voutOpret sampleEnv marmaraConsts 400 samplePk
      (MarmaraEncodeCoinbaseOpret sampleEnv marmaraConsts marmaraConsts.MARMARA_ACTIVATED
        samplePk 100),
    { nValue := 600, scriptPubKey := .p2pk samplePk },
    { nValue := 0, scriptPubKey := MarmaraEncodeReleaseOpret sampleEnv marmaraConsts }]

/-! ## Sample candidates for the selection loop -/

/-- The address of a script in the symbolic host of the pegs ledger. -/
def symPegsAddr : SymScript → CCAddr
  | .cc1 e pk => [1, e] ++ pk
  | .cc1of2 e pk1 pk2 _ => [2, e] ++ pk1 ++ pk2
  | .p2pk pk => 3 :: pk
  | _ => []

/-- The symbolic host of the pegs ledger over a list of known transactions and the
unspent outputs of the addresses, with the price 100000000 for every token and the
given answer of `PreventCC` .  A token opret is the bytes 0xf2, 't', the token id and
the blob; the evaluation code 0xf2ee stands for a token output of the pegs module. -/
def symPegsEnv (chain : List (uint256 × CTransaction SymScript))
    (unspents : List (CCAddr × List (uint256 × Int × Int))) (preventCC : Bool) :
    PegsEnv SymScript where
  EVAL_PEGS := 0xee
  EVAL_IMPORTCOIN := 0xe2
  EVAL_TOKENS := 0xf2
  COIN := 100000000
  GetOpReturnData := fun s =>
    match s with
    | .opret d => d
    | _ => []
  DecodeTokenOpRetV1 := fun s old =>
    match s with
    | .opret (0xf2 :: 116 :: rest) =>
      if rest.length ≥ 32 then (116, rest.take 32, [rest.drop 32]) else (0, old, [])
    | _ => (0, old, [])
  GetOpReturnCCBlob := fun oprets => oprets.head?
  IsPegsImport := fun _ => false
  UnmarshalImportTx := fun _ => none
  UnmarshalBurnTx := fun _ v => (v, false)
  ismyvin := fun s =>
    match s with
    | .sig b => b
    | .ccSig _ => true
    | _ => false
  pegspk := 2 :: List.replicate 32 9
  GetCCaddress1of2 := fun pk1 pk2 => (true, [2, 0xee] ++ pk1 ++ pk2)
  GetTokensCCaddress1of2 := fun pk1 pk2 => (true, [2, 0xf2ee] ++ pk1 ++ pk2)
  GetTokensCCaddress := fun pk => (true, [1, 0xf2ee] ++ pk)
  GetCCaddress := fun pk => (true, [1, 0xee] ++ pk)
  _GetCCaddress := fun e pk => (true, [1, e] ++ pk)
  txidScriptAddress := fun txid => (true, 3 :: 2 :: txid)
  ConstrainVout := fun vout CCflag cmpaddr nValue =>
    let isCC : Int :=
      match vout.scriptPubKey with
      | .cc1 _ _ => 1
      | .cc1of2 _ _ _ _ => 1
      | _ => 0
    decide (isCC = CCflag) && decide (symPegsAddr vout.scriptPubKey = cmpaddr)
      && (decide (nValue = 0) || decide (nValue = vout.nValue))
  SetCCunspents := fun addr => (unspents.lookup addr).getD []
  myGetTransaction := fun txid => chain.lookup txid
  GetHash := fun tx =>
    match chain.find? (fun p => p.2 = tx) with
    | some p => p.1
    | none => []
  myIsutxo_spentinmempool := fun _ _ => none
  KOMODO_EARLYTXID := zeroid
  ASSETCHAINS_PEGSCCPARAMS := fun _ => 0
  DecodeTokenCreateOpRetV1 := fun s =>
    match s with
    | .opret (0xf2 :: 99 :: desc) => (99, desc)
    | _ => (0, [])
  prices_syntheticvec := fun desc => if desc = [] then none else some desc
  prices_syntheticprice := fun _ => 100000000
  PreventCC := fun _ => preventCC
  otherBranch := fun _ _ => none
  nullOut := { nValue := -1, scriptPubKey := .opret [] }
  nullIn := { prevout := { hash := zeroid, n := 0 }, scriptSig := .opret [] }

/-- The protocol key of the pegs module in the symbolic host. -/
def pegsPk : CPubKey := 2 :: List.replicate 32 9

/-- The key of the owner of the sample account. -/
def pegsOwnerPk : CPubKey := 2 :: List.replicate 32 11

/-- The key of a second account owner. -/
def pegsOwner2Pk : CPubKey := 2 :: List.replicate 32 13

/-- The key of a third party: the liquidator, or the receiver of misdirected tokens. -/
def pegsOtherPk : CPubKey := 2 :: List.replicate 32 12

/-- The id of the creation transaction of the sample peg. -/
def pegsCreateTxid : uint256 := List.replicate 32 50

/-- The id of the creation transaction of the sample token. -/
def pegsTokenid : uint256 := List.replicate 32 51

/-- The creation transaction of the sample peg: the record 'C' without bind txids. -/
def pegsCreateTx : CTransaction SymScript where
  vin := [{ prevout := { hash := List.replicate 32 5, n := 0 }, scriptSig := .normalSig pegsOwnerPk }]
  vout := [{ nValue := 10000, scriptPubKey := .cc1 0xee pegsPk },
    { nValue := 0, scriptPubKey := .opret [0xee, 67, 0] }]

/-- The creation transaction of the sample token, with a price synthetic as description. -/
def pegsTokenTx : CTransaction SymScript where
  vin := [{ prevout := { hash := List.replicate 32 5, n := 1 }, scriptSig := .normalSig pegsOwnerPk }]
  vout := [{ nValue := 100000, scriptPubKey := .cc1 0xf2 pegsOwnerPk },
    { nValue := 0, scriptPubKey := .opret [0xf2, 99, 1] }]

/-- The account record of the sample peg and token, as `EncodePegsAccountOpRet` writes it
inside a token opret: the evaluation code, the function id, the pegs txid, the source
key, the amount, the account state and the account key. -/
def pegsRecord (funcid : Nat) (srcpub : CPubKey) (amount : Int) (account : Int × Int)
    (accountpk : CPubKey) : CTxOut SymScript :=
  { nValue := 0,
    scriptPubKey := .opret ([0xf2, 116] ++ pegsTokenid ++ ([0xee, funcid] ++ pegsCreateTxid
      ++ serPubKey srcpub ++ serI64 amount ++ serI64 account.1 ++ serI64 account.2
      ++ serPubKey accountpk)) }

/-- The two account markers of an account transaction: vout0 to the 1of2 address of the
protocol key, vout1 to the 1of2 address of the account key and the protocol key. -/
def pegsMarkers (accountpk : CPubKey) : List (CTxOut SymScript) :=
  [{ nValue := 1000, scriptPubKey := .cc1of2 0xee pegsPk pegsPk none },
   { nValue := 1000, scriptPubKey := .cc1of2 0xee accountpk pegsPk none }]

/-- An input that spends a crypto-condition output of the pegs module. -/
def pegsCCVin (txid : uint256) (n : Nat) : CTxIn SymScript :=
  { prevout := { hash := txid, n := n }, scriptSig := .ccSig pegsPk }

/-- A first Fund of 500 tokens by the owner: vout2 pays the tokens to the token address
of the account (1of2 of the owner key and the protocol key). -/
def pegsFirstFundTx : CTransaction SymScript where
  vin := [pegsCCVin pegsCreateTxid 0]
  vout := pegsMarkers pegsOwnerPk
    ++ [{ nValue := 500, scriptPubKey := .cc1of2 0xf2ee pegsOwnerPk pegsPk none },
        pegsRecord 70 pegsOwnerPk 500 (500, 0) pegsOwnerPk]

/-- The same first Fund with vout2 paying the 500 tokens to the plain token address of a
third party. -/
def pegsFirstFundMisdirectedTx : CTransaction SymScript where
  vin := [pegsCCVin pegsCreateTxid 0]
  vout := pegsMarkers pegsOwnerPk
    ++ [{ nValue := 500, scriptPubKey := .cc1 0xf2 pegsOtherPk },
        pegsRecord 70 pegsOwnerPk 500 (500, 0) pegsOwnerPk]

/-- The id of the first Fund. -/
def pegsFirstFundTxid : uint256 := List.replicate 32 52

/-- A top-up Fund of 200 tokens for the account the first Fund created. -/
def pegsTopUpTx : CTransaction SymScript where
  vin := [pegsCCVin pegsFirstFundTxid 0, pegsCCVin pegsFirstFundTxid 1]
  vout := pegsMarkers pegsOwnerPk
    ++ [{ nValue := 200, scriptPubKey := .cc1of2 0xf2ee pegsOwnerPk pegsPk none },
        pegsRecord 70 pegsOwnerPk 200 (700, 0) pegsOwnerPk]

/-- The same top-up with vout2 paying only 1 token, to the plain token address of a third
party. -/
def pegsTopUpMisdirectedTx : CTransaction SymScript where
  vin := [pegsCCVin pegsFirstFundTxid 0, pegsCCVin pegsFirstFundTxid 1]
  vout := pegsMarkers pegsOwnerPk
    ++ [{ nValue := 1, scriptPubKey := .cc1 0xf2 pegsOtherPk },
        pegsRecord 70 pegsOwnerPk 200 (700, 0) pegsOwnerPk]

/-- The host that knows the peg and the token, without accounts. -/
def pegsEmptyEnv : PegsEnv SymScript :=
  symPegsEnv [(pegsCreateTxid, pegsCreateTx), (pegsTokenid, pegsTokenTx)] [] true

/-- The unspent markers once the first Fund is mined. -/
def pegsFundedUnspents : List (CCAddr × List (uint256 × Int × Int)) :=
  [([2, 0xee] ++ pegsPk ++ pegsPk, [(pegsFirstFundTxid, 0, 1000)]),
   ([2, 0xee] ++ pegsOwnerPk ++ pegsPk, [(pegsFirstFundTxid, 1, 1000)])]

/-- The host once the first Fund is mined, with the given answer of `PreventCC` . -/
def pegsFundedEnv (preventCC : Bool) : PegsEnv SymScript :=
  symPegsEnv [(pegsCreateTxid, pegsCreateTx), (pegsTokenid, pegsTokenTx),
    (pegsFirstFundTxid, pegsFirstFundTx)] pegsFundedUnspents preventCC

/-- The id of the account transaction of an account in the red zone. -/
def pegsRedAccountTxid : uint256 := List.replicate 32 53

/-- The id of the account transaction of a second, debt-free account. -/
def pegsBigAccountTxid : uint256 := List.replicate 32 54

/-- An account transaction of the owner that leaves the deposit 1000 and the given debt. -/
def pegsRedAccountTx (debt : Int) : CTransaction SymScript where
  vin := [pegsCCVin pegsFirstFundTxid 0, pegsCCVin pegsFirstFundTxid 1]
  vout := pegsMarkers pegsOwnerPk
    ++ [{ nValue := 1000, scriptPubKey := .cc1of2 0xf2ee pegsOwnerPk pegsPk none },
        pegsRecord 70 pegsOwnerPk 0 (1000, debt) pegsOwnerPk]

/-- The account transaction of the second owner: the deposit 100000 and no debt. -/
def pegsBigAccountTx : CTransaction SymScript where
  vin := [pegsCCVin pegsCreateTxid 0]
  vout := pegsMarkers pegsOwner2Pk
    ++ [{ nValue := 100000, scriptPubKey := .cc1of2 0xf2ee pegsOwner2Pk pegsPk none },
        pegsRecord 70 pegsOwner2Pk 100000 (100000, 0) pegsOwner2Pk]

/-- The host with the account of deposit 1000 and debt 950, ratio 95, and the debt-free
account of deposit 100000: the global ratio is below 1. -/
def pegsRedEnv : PegsEnv SymScript :=
  symPegsEnv [(pegsCreateTxid, pegsCreateTx), (pegsTokenid, pegsTokenTx),
      (pegsRedAccountTxid, pegsRedAccountTx 950), (pegsBigAccountTxid, pegsBigAccountTx)]
    [([2, 0xee] ++ pegsPk ++ pegsPk,
        [(pegsRedAccountTxid, 0, 1000), (pegsBigAccountTxid, 0, 1000)]),
     ([2, 0xee] ++ pegsOwnerPk ++ pegsPk, [(pegsRedAccountTxid, 1, 1000)]),
     ([2, 0xee] ++ pegsOwner2Pk ++ pegsPk, [(pegsBigAccountTxid, 1, 1000)])] true

/-- The liquidation of the account of debt 950 by the third party: it spends the two
markers of the account, pays 950 tokens to the liquidator (vout2), burns the debt of
950 coins (vout3), sends the other 50 tokens to the global token address (vout4), the
change to the global address (vout5) and records the account as (0,0). -/
def pegsLiquidateTx : CTransaction SymScript where
  vin := [pegsCCVin pegsRedAccountTxid 0, pegsCCVin pegsRedAccountTxid 1]
  vout := pegsMarkers pegsOwnerPk
    ++ [{ nValue := 950, scriptPubKey := .cc1 0xf2 pegsOtherPk },
        { nValue := 950, scriptPubKey := .p2pk (2 :: pegsCreateTxid) },
        { nValue := 50, scriptPubKey := .cc1 0xf2ee pegsPk },
        { nValue := 7000, scriptPubKey := .cc1 0xee pegsPk },
        pegsRecord 76 pegsOtherPk 950 (0, 0) pegsOwnerPk]

/-- The host with the single account of deposit 1000 and debt 990: the account ratio and
the global ratio are 99. -/
def pegsDeepRedEnv : PegsEnv SymScript :=
  symPegsEnv [(pegsCreateTxid, pegsCreateTx), (pegsTokenid, pegsTokenTx),
      (pegsRedAccountTxid, pegsRedAccountTx 990)]
    [([2, 0xee] ++ pegsPk ++ pegsPk, [(pegsRedAccountTxid, 0, 1000)]),
     ([2, 0xee] ++ pegsOwnerPk ++ pegsPk, [(pegsRedAccountTxid, 1, 1000)])] true

/-- The id of the account transaction of the liquidator. -/
def pegsLiquidatorAccountTxid : uint256 := List.replicate 32 55

/-- The account transaction of the liquidator (the third party): the deposit 100 and the
debt 10, ratio 10. -/
def pegsLiquidatorAccountTx : CTransaction SymScript where
  vin := [pegsCCVin pegsCreateTxid 0]
  vout := pegsMarkers pegsOtherPk
    ++ [{ nValue := 100, scriptPubKey := .cc1of2 0xf2ee pegsOtherPk pegsPk none },
        pegsRecord 70 pegsOtherPk 0 (100, 10) pegsOtherPk]

/-- The host with the account of deposit 1000 and debt 990 and the account of the
liquidator: the global ratio is 1000 * 100 / 1100, about 90.9. -/
def pegsLiquidatorEnv : PegsEnv SymScript :=
  symPegsEnv [(pegsCreateTxid, pegsCreateTx), (pegsTokenid, pegsTokenTx),
      (pegsRedAccountTxid, pegsRedAccountTx 990),
      (pegsLiquidatorAccountTxid, pegsLiquidatorAccountTx)]
    [([2, 0xee] ++ pegsPk ++ pegsPk,
        [(pegsRedAccountTxid, 0, 1000), (pegsLiquidatorAccountTxid, 0, 1000)]),
     ([2, 0xee] ++ pegsOwnerPk ++ pegsPk, [(pegsRedAccountTxid, 1, 1000)]),
     ([2, 0xee] ++ pegsOtherPk ++ pegsPk, [(pegsLiquidatorAccountTxid, 1, 1000)])] true

/-! # Theorems -/

/-! ## Lemmas on the serialisation stream -/

section CodecLemmas
variable {S : Type}

theorem toLE_length (k n : Nat) : (toLE k n).length = k := by
  induction k generalizing n with
  | zero => rfl
  | succ k ih => simp [toLE, ih]

theorem fromLE_toLE (k n : Nat) : fromLE (toLE k n) = n % 256 ^ k := by
  induction k generalizing n with
  | zero => simp [toLE, fromLE, Nat.mod_one]
  | succ k ih =>
    simp only [toLE, fromLE, ih]
    rw [pow_succ, mul_comm (256 ^ k) 256, Nat.mod_mul]

theorem readN_append (xs rest : Bytes) : readN xs.length (xs ++ rest) = some (xs, rest) := by
  simp [readN]

theorem readI32_serI32 (v : Int) (h : inInt32 v) (rest : Bytes) :
    readI32 (serI32 v ++ rest) = some (v, rest) := by
  obtain ⟨h1, h2⟩ := h
  have hl : (toLE 4 (ofSigned 32 v)).length = 4 := toLE_length _ _
  have := readN_append (toLE 4 (ofSigned 32 v)) rest
  rw [hl] at this
  simp only [readI32, serI32, this, fromLE_toLE]
  simp only [toSigned, ofSigned]
  congr 2
  split <;> omega

theorem readI64_serI64 (v : Int) (h : inInt64 v) (rest : Bytes) :
    readI64 (serI64 v ++ rest) = some (v, rest) := by
  obtain ⟨h1, h2⟩ := h
  have hl : (toLE 8 (ofSigned 64 v)).length = 8 := toLE_length _ _
  have := readN_append (toLE 8 (ofSigned 64 v)) rest
  rw [hl] at this
  simp only [readI64, serI64, this, fromLE_toLE]
  simp only [toSigned, ofSigned]
  congr 2
  split <;> omega

theorem ReadCompactSize_Write (n : Nat) (h : n ≤ MAX_SIZE) (rest : Bytes) :
    ReadCompactSize (WriteCompactSize n ++ rest) = some (n, rest) := by
  unfold MAX_SIZE at h
  unfold WriteCompactSize
  split
  · simp [ReadCompactSize, *]
  · split
    · have hl : (toLE 2 n).length = 2 := toLE_length _ _
      have := readN_append (toLE 2 n) rest
      rw [hl] at this
      have h2 : n % 256 ^ 2 = n := by omega
      simp [ReadCompactSize, this, fromLE_toLE, MAX_SIZE, h2]
      omega
    · split
      · have hl : (toLE 4 n).length = 4 := toLE_length _ _
        have := readN_append (toLE 4 n) rest
        rw [hl] at this
        have h2 : n % 256 ^ 4 = n := by omega
        simp [ReadCompactSize, this, fromLE_toLE, MAX_SIZE, h2]
        omega
      · omega

theorem readU8_cons (v : Nat) (rest : Bytes) : readU8 (serU8 v ++ rest) = some (v, rest) := rfl

theorem readUint256_append (t : uint256) (h : t.length = 32) (rest : Bytes) :
    readUint256 (serUint256 t ++ rest) = some (t, rest) := by
  have := readN_append t rest
  rw [h] at this
  simpa [readUint256, serUint256] using this

theorem IsPubKey.length_le {pk : CPubKey} (h : IsPubKey pk) : pk.length ≤ 65 := by
  rcases h with h | h | h
  · omega
  · omega
  · simp [h]

theorem readPubKey_ser (old pk : CPubKey) (h : IsPubKey pk) (rest : Bytes) :
    readPubKey old (serPubKey pk ++ rest) = (keyRead old pk, some rest) := by
  have hle := h.length_le
  have h1 : ReadCompactSize (WriteCompactSize pk.length ++ (pk ++ rest))
      = some (pk.length, pk ++ rest) :=
    ReadCompactSize_Write _ (by unfold MAX_SIZE; omega) _
  simp only [readPubKey, serPubKey, List.append_assoc, h1, readN_append, hle, if_true,
    List.length_eq_zero, keyRead]

theorem readString_ser (old s : List Nat) (h : s.length ≤ MAX_SIZE) (rest : Bytes) :
    readString old (serString s ++ rest) = (s, some rest) := by
  have h1 : ReadCompactSize (WriteCompactSize s.length ++ (s ++ rest))
      = some (s.length, s ++ rest) := ReadCompactSize_Write _ h _
  simp only [readString, serString, List.append_assoc, h1, readN_append]

theorem E_UNMARSHAL_of_run {σ : Type} (body : Step σ) (s s1 : σ) (bs rest : Bytes)
    (h : body s bs = (s1, some rest)) :
    E_UNMARSHAL body s bs = (s1, decide (rest = [])) := by
  unfold E_UNMARSHAL
  rw [h]
  cases rest <;> simp

/-! ## Lemmas on the loop records -/

/-- Running the body of a record's kind on its payload followed by more bytes. -/
theorem body_payload (K : Consts) (ld : SMarmaraCreditLoopOpret) (r : LoopRecord)
    (h : r.InRange) (rest : Bytes) :
    r.body ld (r.payload K ++ rest) = (r.parsed K ld, some rest) := by
  cases r with
  | create v pk amount matures currency =>
    obtain ⟨h1, h2, h3, h4⟩ := h
    simp only [LoopRecord.body, LoopRecord.parsed, unmarshalCreate, LoopRecord.payload,
      Step.andThen, rdEvalcode, rdLastfuncid,
      rdVersion, rdPk, rdAmount, rdMatures, rdCurrency, rd, rdIn, List.append_assoc,
      readU8_cons, readPubKey_ser _ _ h1, readI64_serI64 _ h2, readI32_serI32 _ h3,
      readString_ser _ _ h4]
  | issue v txid pk aS aI aval dispute escrow blockage =>
    obtain ⟨h1, h2, h3, h4, h5⟩ := h
    simp only [LoopRecord.body, LoopRecord.parsed, unmarshalIssue, LoopRecord.payload,
      Step.andThen, rdEvalcode, rdLastfuncid, rdVersion, rdPk, rdCreatetxid, rdAutoSettlement,
      rdAutoInsurance, rdAvalCount, rdDisputeExpiresHeight, rdEscrowOn, rdBlockageAmount,
      rd, rdIn, List.append_assoc,
      readU8_cons, readUint256_append _ h1, readPubKey_ser _ _ h2, readI32_serI32 _ h3,
      readI32_serI32 _ h4, readI64_serI64 _ h5]
  | request v txid pk =>
    obtain ⟨h1, h2⟩ := h
    simp only [LoopRecord.body, LoopRecord.parsed, unmarshalRequest, LoopRecord.payload,
      Step.andThen, rdEvalcode, rdLastfuncid, rdVersion, rdPk, rdCreatetxid,
      rd, rdIn, List.append_assoc,
      readU8_cons, readUint256_append _ h1, readPubKey_ser _ _ h2]
  | transfer v txid pk aval =>
    obtain ⟨h1, h2, h3⟩ := h
    simp only [LoopRecord.body, LoopRecord.parsed, unmarshalTransfer, LoopRecord.payload,
      Step.andThen, rdEvalcode, rdLastfuncid, rdVersion, rdPk, rdCreatetxid, rdAvalCount,
      rd, rdIn, List.append_assoc,
      readU8_cons, readUint256_append _ h1, readPubKey_ser _ _ h2, readI32_serI32 _ h3]
  | locked txid pk =>
    obtain ⟨h1, h2⟩ := h
    simp only [LoopRecord.body, LoopRecord.parsed, unmarshalRequest, LoopRecord.payload,
      Step.andThen, rdEvalcode, rdLastfuncid, rdVersion, rdPk, rdCreatetxid,
      rd, rdIn, List.append_assoc,
      readU8_cons, readUint256_append _ h1, readPubKey_ser _ _ h2]
  | settle v ok txid pk remaining =>
    obtain ⟨h1, h2, h3⟩ := h
    simp only [LoopRecord.body, LoopRecord.parsed, unmarshalSettle, LoopRecord.payload,
      Step.andThen, rdEvalcode, rdLastfuncid, rdVersion, rdPk, rdCreatetxid, rdRemaining,
      rd, rdIn, List.append_assoc,
      readU8_cons, readUint256_append _ h1, readPubKey_ser _ _ h2, readI64_serI64 _ h3]

theorem LoopRecord.payload_eq_cons (K : Consts) (r : LoopRecord) :
    ∃ tail, r.payload K = K.EVAL_MARMARA :: r.funcid K :: r.version K :: tail := by
  cases r <;> simp [LoopRecord.payload, LoopRecord.funcid, LoopRecord.version, serU8]

theorem LoopRecord.encode_eq (E : Env S) (K : Consts) (r : LoopRecord) :
    r.encode E K = E.opReturnScript (r.payload K) := by
  cases r <;> rfl

/-- Into a struct that can take the record's key, the decoder stores what the round trip
promises. -/
theorem LoopRecord.decoded_eq_stored (K : Consts) (ld : SMarmaraCreditLoopOpret)
    (r : LoopRecord) (hpk : r.pk = [] → ld.pk = []) : r.decoded K ld = r.stored K ld := by
  have hk : keyRead ld.pk r.pk = r.pk := by
    unfold keyRead
    split
    · next h => rw [h, hpk h]
    · rfl
  cases r <;>
    simp only [LoopRecord.decoded, LoopRecord.parsed, LoopRecord.stored, LoopRecord.pk] at hk ⊢ <;>
    rw [hk]

theorem decodeLoopFields_payload (K : Consts) (hK : K.LoopKindsDistinct)
    (ld : SMarmaraCreditLoopOpret) (r : LoopRecord) (h : r.InRange) (rest : Bytes) :
    decodeLoopFields K (r.funcid K) (r.payload K ++ rest) ld
      = if rest = [] then (r.decoded K ld, true) else (r.parsed K ld, false) := by
  have hb := E_UNMARSHAL_of_run _ _ _ _ _ (body_payload K ld r h rest)
  unfold Consts.LoopKindsDistinct Consts.loopKinds at hK
  simp only [List.nodup_cons, List.mem_cons, List.mem_singleton, not_or, List.not_mem_nil,
    not_false_eq_true, List.nodup_nil, and_true] at hK
  obtain ⟨⟨h12, h13, h14, h15, h16, h17⟩, ⟨h23, h24, h25, h26, h27⟩, ⟨h34, h35, h36, h37⟩,
    ⟨h45, h46, h47⟩, ⟨h56, h57⟩, h67⟩ := hK
  cases r with
  | create v pk amount matures currency =>
    simp only [LoopRecord.body] at hb
    simp only [decodeLoopFields, LoopRecord.funcid, if_true, hb]
    by_cases hr : rest = [] <;> simp [hr, LoopRecord.decoded, LoopRecord.parsed]
  | issue v txid pk aS aI aval dispute escrow blockage =>
    simp only [LoopRecord.body] at hb
    simp only [decodeLoopFields, LoopRecord.funcid, if_true, hb, Ne.symm h12, if_false]
    by_cases hr : rest = [] <;> simp [hr, LoopRecord.decoded, LoopRecord.parsed]
  | request v txid pk =>
    simp only [LoopRecord.body] at hb
    simp only [decodeLoopFields, LoopRecord.funcid, if_true, hb, Ne.symm h13, Ne.symm h23,
      if_false]
    by_cases hr : rest = [] <;> simp [hr, LoopRecord.decoded, LoopRecord.parsed]
  | transfer v txid pk aval =>
    simp only [LoopRecord.body] at hb
    simp only [decodeLoopFields, LoopRecord.funcid, if_true, hb, Ne.symm h14, Ne.symm h24,
      Ne.symm h34, if_false]
    by_cases hr : rest = [] <;> simp [hr, LoopRecord.decoded, LoopRecord.parsed]
  | locked txid pk =>
    simp only [LoopRecord.body] at hb
    simp only [decodeLoopFields, LoopRecord.funcid, if_true, hb, Ne.symm h15, Ne.symm h25,
      Ne.symm h35, Ne.symm h45, if_false]
    by_cases hr : rest = [] <;> simp [hr, LoopRecord.decoded, LoopRecord.parsed]
  | settle v ok txid pk remaining =>
    simp only [LoopRecord.body] at hb
    have e1 : (if ok = true then K.MARMARA_SETTLE else K.MARMARA_SETTLE_PARTIAL)
        ≠ K.MARMARA_CREATELOOP := by split <;> exact Ne.symm ‹_›
    have e2 : (if ok = true then K.MARMARA_SETTLE else K.MARMARA_SETTLE_PARTIAL)
        ≠ K.MARMARA_ISSUE := by split <;> exact Ne.symm ‹_›
    have e3 : (if ok = true then K.MARMARA_SETTLE else K.MARMARA_SETTLE_PARTIAL)
        ≠ K.MARMARA_REQUEST := by split <;> exact Ne.symm ‹_›
    have e4 : (if ok = true then K.MARMARA_SETTLE else K.MARMARA_SETTLE_PARTIAL)
        ≠ K.MARMARA_TRANSFER := by split <;> exact Ne.symm ‹_›
    have e5 : (if ok = true then K.MARMARA_SETTLE else K.MARMARA_SETTLE_PARTIAL)
        ≠ K.MARMARA_LOCKED := by split <;> exact Ne.symm ‹_›
    have e6 : (if ok = true then K.MARMARA_SETTLE else K.MARMARA_SETTLE_PARTIAL)
        = K.MARMARA_SETTLE ∨ (if ok = true then K.MARMARA_SETTLE else K.MARMARA_SETTLE_PARTIAL)
        = K.MARMARA_SETTLE_PARTIAL := by split <;> simp
    simp only [decodeLoopFields, LoopRecord.funcid, if_true, hb, e1, e2, e3, e4, e5, e6,
      if_false]
    by_cases hr : rest = [] <;> simp [hr, LoopRecord.decoded, LoopRecord.parsed]

/-- Decoding a script whose data is a record followed by `rest` . -/
theorem decode_payload (E : Env S) (K : Consts) (hK : K.LoopKindsDistinct)
    (ld : SMarmaraCreditLoopOpret) (r : LoopRecord) (h : r.InRange) (rest : Bytes)
    (script : S) (c : Nat) (hs : E.GetOpReturnData script = r.payload K ++ rest) :
    MarmaraDecodeLoopOpret E K script ld c =
      if rest = [] then
        (if c ≠ K.MARMARA_OPRET_VERSION_ANY ∧ r.version K ≠ c then (0, r.decoded K ld)
          else (r.funcid K, r.decoded K ld))
      else (0, r.parsed K ld) := by
  obtain ⟨tail, ht⟩ := r.payload_eq_cons K
  have hf := decodeLoopFields_payload K hK ld r h rest
  unfold MarmaraDecodeLoopOpret
  simp only [hs]
  rw [ht] at hf ⊢
  simp only [List.cons_append, List.length_cons, List.getD_cons_zero, List.getD_cons_succ]
    at hf ⊢
  rw [if_pos (by omega), hf]
  by_cases hr : rest = []
  · simp only [hr, if_true]
  · simp [hr]

/-- The funcid dispatch finds nothing and leaves the struct alone for a function id that
is not a loop record kind. -/
theorem decodeLoopFields_unknown (K : Consts) (funcid : Nat) (vopret : Bytes)
    (ld : SMarmaraCreditLoopOpret) (h : funcid ∉ K.loopKinds) :
    decodeLoopFields K funcid vopret ld = (ld, false) := by
  simp only [Consts.loopKinds, List.mem_cons, List.mem_singleton, not_or, List.not_mem_nil,
    not_false_eq_true, and_true] at h
  obtain ⟨h1, h2, h3, h4, h5, h6, h7⟩ := h
  simp [decodeLoopFields, h1, h2, h3, h4, h5, h6, h7]

end CodecLemmas


/-! ## The metadata codec (claims C2 to C5) -/

section CodecTheorems
variable {S : Type}

/-- C2: round trip of the loop records.  For every record kind (create, request, issue,
transfer, settle, partial settle and the locked vout record), every version and every
field value of the C++ types, zero and default values included, `MarmaraDecodeLoopOpret`
applied to what the matching encoder wrote, with the record's version or the any-version
value as filter, returns the function id of the kind and leaves the struct with the
version, createtxid, pubkey and kind-specific fields of the record stored in it.  (A key
without bytes is read as "keep the key of the struct", so for such a key the struct must
start without a key, as a default constructed struct does.) -/
theorem loop_opret_round_trip (E : Env S) (K : Consts) (r : LoopRecord)
    (ld : SMarmaraCreditLoopOpret) (c : Nat)
    (hE : E.OpretFraming) (hK : K.LoopKindsDistinct) (hr : r.InRange)
    (hpk : r.pk = [] → ld.pk = [])
    (hc : c = r.version K ∨ c = K.MARMARA_OPRET_VERSION_ANY) :
    MarmaraDecodeLoopOpret E K (r.encode E K) ld c = (r.funcid K, r.stored K ld) := by
  have hs : E.GetOpReturnData (r.encode E K) = r.payload K ++ [] := by
    rw [r.encode_eq, hE, List.append_nil]
  rw [decode_payload E K hK ld r hr [] _ c hs, r.decoded_eq_stored K ld hpk]
  rcases hc with hc | hc <;> simp [hc]

theorem symEnv_OpretFraming (chain : List (uint256 × CTransaction SymScript))
    (tip : Option Int) (june : Bool) : (symEnv chain tip june).OpretFraming :=
  fun _ => rfl

/-- Witness of C2: an issue record of version 2 with all optional fields zero and the
key without bytes, decoded into a default constructed struct. -/
theorem loop_opret_round_trip_witness :
    MarmaraDecodeLoopOpret (symEnv [] none false) marmaraConsts
        ((LoopRecord.issue 2 zeroid [] 0 0 0 0 0 0).encode (symEnv [] none false) marmaraConsts)
        SMarmaraCreditLoopOpret.init 2
      = (73, (LoopRecord.issue 2 zeroid [] 0 0 0 0 0 0).stored marmaraConsts
          SMarmaraCreditLoopOpret.init) :=
  loop_opret_round_trip (symEnv [] none false) marmaraConsts
    (LoopRecord.issue 2 zeroid [] 0 0 0 0 0 0) SMarmaraCreditLoopOpret.init 2
    (symEnv_OpretFraming _ _ _) (by decide) (by decide) (fun _ => rfl) (Or.inl rfl)

/-- C3: what `MarmaraDecodeLoopOpret` rejects.  It returns 0 for a payload shorter than 3
bytes, for a first byte that is not the module tag, for a second byte that is not a loop
record kind, for a version byte that differs from a demanded specific version, and for a
record followed by extra bytes; with the any-version filter a record of whatever version
is accepted, and whatever a specific filter accepts the any-version filter accepts with
the same result.  The function is total: it returns in every case. -/
theorem loop_opret_rejects (E : Env S) (K : Consts) (ld : SMarmaraCreditLoopOpret) (c : Nat) :
    (∀ script, (E.GetOpReturnData script).length < 3 →
        (MarmaraDecodeLoopOpret E K script ld c).1 = 0) ∧
    (∀ script, (E.GetOpReturnData script).getD 0 0 ≠ K.EVAL_MARMARA →
        (MarmaraDecodeLoopOpret E K script ld c).1 = 0) ∧
    (∀ script, (E.GetOpReturnData script).getD 1 0 ∉ K.loopKinds →
        (MarmaraDecodeLoopOpret E K script ld c).1 = 0) ∧
    (∀ script, c ≠ K.MARMARA_OPRET_VERSION_ANY → (E.GetOpReturnData script).getD 2 0 ≠ c →
        (MarmaraDecodeLoopOpret E K script ld c).1 = 0) ∧
    (∀ script (r : LoopRecord) (extra : Bytes), K.LoopKindsDistinct → r.InRange →
        E.GetOpReturnData script = r.payload K ++ extra → extra ≠ [] →
        (MarmaraDecodeLoopOpret E K script ld c).1 = 0) ∧
    (∀ r : LoopRecord, E.OpretFraming → K.LoopKindsDistinct → r.InRange →
        (MarmaraDecodeLoopOpret E K (r.encode E K) ld K.MARMARA_OPRET_VERSION_ANY).1
          = r.funcid K) ∧
    (∀ script, (MarmaraDecodeLoopOpret E K script ld c).1 ≠ 0 →
        MarmaraDecodeLoopOpret E K script ld K.MARMARA_OPRET_VERSION_ANY
          = MarmaraDecodeLoopOpret E K script ld c) := by
  refine ⟨?_, ?_, ?_, ?_, ?_, ?_, ?_⟩
  · intro script h
    simp [MarmaraDecodeLoopOpret, Nat.not_le.mpr h]
  · intro script h
    unfold MarmaraDecodeLoopOpret
    simp only [h, if_false]
    split <;> rfl
  · intro script h
    unfold MarmaraDecodeLoopOpret
    simp only [decodeLoopFields_unknown K _ _ ld h]
    split
    · split <;> rfl
    · rfl
  · intro script h1 h2
    unfold MarmaraDecodeLoopOpret
    simp only [ne_eq, h1, not_false_eq_true, h2, and_self, if_true]
    split
    · split
      · split <;> rfl
      · rfl
    · rfl
  · intro script r extra hK hr hs hx
    rw [decode_payload E K hK ld r hr extra script c hs, if_neg hx]
  · intro r hE hK hr
    have hs : E.GetOpReturnData (r.encode E K) = r.payload K ++ [] := by
      rw [r.encode_eq, hE, List.append_nil]
    rw [decode_payload E K hK ld r hr [] _ _ hs]
    simp
  · intro script h
    unfold MarmaraDecodeLoopOpret at h ⊢
    simp only [ne_eq, not_true_eq_false, false_and, if_false] at h ⊢
    split
    · split
      · split
        · rfl
        · next ld1 hd =>
          simp only [‹3 ≤ _›, ‹_ = K.EVAL_MARMARA›, if_true, hd] at h
          split
          · next hv =>
            rw [if_pos hv] at h
            exact absurd rfl h
          · rfl
      · rfl
    · rfl

/-- Witness of C3: a request record of version 2 followed by one extra byte is rejected
under the any-version filter. -/
theorem loop_opret_rejects_witness :
    (MarmaraDecodeLoopOpret (symEnv [] none false) marmaraConsts
        (SymScript.opret ((LoopRecord.request 2 zeroid []).payload marmaraConsts ++ [0]))
        SMarmaraCreditLoopOpret.init 0).1 = 0 :=
  (loop_opret_rejects (symEnv [] none false) marmaraConsts SMarmaraCreditLoopOpret.init
    0).2.2.2.2.1 _ (LoopRecord.request 2 zeroid []) [0] (by decide) (by decide) rfl (by decide)

end CodecTheorems

section CodecTheorems2
variable {S : Type}

/-- C4, as the claim states it, fails: a well-formed request record of version 2, decoded
with version 1 demanded, makes `MarmaraDecodeLoopOpret` return 0 and leaves the struct
populated from the rejected record. -/
theorem loop_opret_not_found_populates :
    (MarmaraDecodeLoopOpret (symEnv [] none false) marmaraConsts
        ((LoopRecord.request 2 (List.replicate 32 7) (2 :: List.replicate 32 9)).encode
          (symEnv [] none false) marmaraConsts) SMarmaraCreditLoopOpret.init 1).1 = 0 ∧
    (MarmaraDecodeLoopOpret (symEnv [] none false) marmaraConsts
        ((LoopRecord.request 2 (List.replicate 32 7) (2 :: List.replicate 32 9)).encode
          (symEnv [] none false) marmaraConsts) SMarmaraCreditLoopOpret.init 1).2
      ≠ SMarmaraCreditLoopOpret.init := by
  have hs : (symEnv [] none false).GetOpReturnData
      ((LoopRecord.request 2 (List.replicate 32 7) (2 :: List.replicate 32 9)).encode
          (symEnv [] none false) marmaraConsts)
      = (LoopRecord.request 2 (List.replicate 32 7) (2 :: List.replicate 32 9)).payload
          marmaraConsts ++ [] := by
    rw [LoopRecord.encode_eq, symEnv_OpretFraming, List.append_nil]
  rw [decode_payload _ _ (by decide) _ _ (by decide) [] _ 1 hs]
  constructor
  · decide
  · decide

/-- C4, amended: when `MarmaraDecodeLoopOpret` returns 0 because the payload is shorter
than 3 bytes, the module tag is wrong or the kind is not a loop record kind, the struct
is exactly what it was before the call; when it returns 0 because a well-formed record
has another version than the one demanded, the struct holds the fields of the record. -/
theorem loop_opret_not_found_struct (E : Env S) (K : Consts) (ld : SMarmaraCreditLoopOpret)
    (c : Nat) :
    (∀ script, ((E.GetOpReturnData script).length < 3
          ∨ (E.GetOpReturnData script).getD 0 0 ≠ K.EVAL_MARMARA
          ∨ (E.GetOpReturnData script).getD 1 0 ∉ K.loopKinds) →
        MarmaraDecodeLoopOpret E K script ld c = (0, ld)) ∧
    (∀ r : LoopRecord, E.OpretFraming → K.LoopKindsDistinct → r.InRange →
        c ≠ K.MARMARA_OPRET_VERSION_ANY → r.version K ≠ c →
        MarmaraDecodeLoopOpret E K (r.encode E K) ld c = (0, r.decoded K ld)) := by
  constructor
  · intro script h
    unfold MarmaraDecodeLoopOpret
    rcases h with h | h | h
    · simp [Nat.not_le.mpr h]
    · simp only [h, if_false]
      split <;> rfl
    · simp only [decodeLoopFields_unknown K _ _ ld h]
      split
      · split <;> rfl
      · rfl
  · intro r hE hK hr h1 h2
    have hs : E.GetOpReturnData (r.encode E K) = r.payload K ++ [] := by
      rw [r.encode_eq, hE, List.append_nil]
    rw [decode_payload E K hK ld r hr [] _ c hs]
    simp [h1, h2]

/-- Witness of the amended C4: a payload of two bytes leaves the struct as it was. -/
theorem loop_opret_not_found_struct_witness :
    MarmaraDecodeLoopOpret (symEnv [] none false) marmaraConsts (SymScript.opret [0xef, 73])
      SMarmaraCreditLoopOpret.init 1 = (0, SMarmaraCreditLoopOpret.init) :=
  (loop_opret_not_found_struct (symEnv [] none false) marmaraConsts
    SMarmaraCreditLoopOpret.init 1).1 _ (Or.inl (by decide))

/-- Running the body of the activated record decoder on a version 1 record. -/
theorem unmarshalCoinbase_v1 (e f : Nat) (pk : CPubKey) (ht unlockht : Int)
    (out : CoinbaseOpret) (hpk : IsPubKey pk) (h1 : inInt32 ht) (h2 : inInt32 unlockht) :
    E_UNMARSHAL unmarshalCoinbase out
        (serU8 e ++ serU8 f ++ serU8 1 ++ serPubKey pk ++ serI32 ht ++ serI32 unlockht)
      = ({ out with version := 1, pk := keyRead out.pk pk, height := ht,
                    unlockht := unlockht }, true) := by
  have h2' := readI32_serI32 unlockht h2 []
  rw [List.append_nil] at h2'
  simp [E_UNMARSHAL, unmarshalCoinbase, rdHeightsV1, rdHeightV2, Step.andThen, rd, rdIn,
    List.append_assoc, readU8_cons, readPubKey_ser _ _ hpk, readI32_serI32 _ h1, h2']

/-- Running the body of the activated record decoder on a version 2 record. -/
theorem unmarshalCoinbase_v2 (e f : Nat) (pk : CPubKey) (matureht : Int)
    (out : CoinbaseOpret) (hpk : IsPubKey pk) (h1 : inInt32 matureht) :
    E_UNMARSHAL unmarshalCoinbase out
        (serU8 e ++ serU8 f ++ serU8 2 ++ serPubKey pk ++ serI32 matureht)
      = ({ out with version := 2, pk := keyRead out.pk pk, matureht := matureht }, true) := by
  have h1' := readI32_serI32 matureht h1 []
  rw [List.append_nil] at h1'
  simp [E_UNMARSHAL, unmarshalCoinbase, rdHeightsV1, rdHeightV2, Step.andThen, rd, rdIn,
    List.append_assoc, readU8_cons, readPubKey_ser _ _ hpk, h1']

/-- C5: round trip of the activated (coinbase) record.  For every function id of
`MARMARA_ACTIVATED_FUNCIDS`, key and heights, decoding what
`MarmaraEncodeCoinbaseOpretExt` wrote for version 1 returns the function id with version
1, the key, the height and the unlock height `MarmaraUnlockht(ht)` ; for version 2 it
returns the function id with version 2, the key and the mature height; and a payload
whose version byte is neither 1 nor 2 decodes to 0. -/
theorem coinbase_opret_round_trip (E : Env S) (K : Consts) (f : Nat) (pk : CPubKey)
    (ht m : Int) (out : CoinbaseOpret)
    (hE : E.OpretFraming) (hf : f ∈ K.MARMARA_ACTIVATED_FUNCIDS) (hpk : IsPubKey pk)
    (hold : pk = [] → out.pk = []) (hht : inInt32 ht) (hm : inInt32 m)
    (hlock : inInt32 K.MARMARA_V2LOCKHEIGHT) :
    MarmaraDecodeCoinbaseOpretExt E K (MarmaraEncodeCoinbaseOpretExt E K 1 f pk ht m) out
      = (f, { out with version := 1, pk := pk, height := ht,
                       unlockht := MarmaraUnlockht K ht }) ∧
    MarmaraDecodeCoinbaseOpretExt E K (MarmaraEncodeCoinbaseOpretExt E K 2 f pk ht m) out
      = (f, { out with version := 2, pk := pk, matureht := m }) ∧
    (∀ script : S, (E.GetOpReturnData script).getD 2 0 ≠ 1 →
        (E.GetOpReturnData script).getD 2 0 ≠ 2 →
        MarmaraDecodeCoinbaseOpretExt E K script out = (0, out)) := by
  have hk : keyRead out.pk pk = pk := by
    unfold keyRead
    split
    · next h => rw [h, hold h]
    · rfl
  have hE1 : ∀ d, E.GetOpReturnData (E.opReturnScript d) = d := hE
  refine ⟨?_, ?_, ?_⟩
  · have hu := unmarshalCoinbase_v1 K.EVAL_MARMARA f pk ht (MarmaraUnlockht K ht) out hpk hht hlock
    unfold MarmaraDecodeCoinbaseOpretExt MarmaraEncodeCoinbaseOpretExt
    simp only [if_true, hE1, hu, hk]
    simp [serU8, IsFuncidOneOf, hf]
  · have hu := unmarshalCoinbase_v2 K.EVAL_MARMARA f pk m out hpk hm
    unfold MarmaraDecodeCoinbaseOpretExt MarmaraEncodeCoinbaseOpretExt
    simp only [if_true, hE1, hu, hk, OfNat.ofNat_ne_one, if_false]
    simp [serU8, IsFuncidOneOf, hf]
  · intro script h1 h2
    unfold MarmaraDecodeCoinbaseOpretExt
    have : ¬ (1 ≤ (E.GetOpReturnData script).getD 2 0 ∧ (E.GetOpReturnData script).getD 2 0 ≤ 2) := by
      omega
    simp only [this, if_false]
    split
    · split
      · split <;> rfl
      · rfl
    · rfl

/-- Witness of C5: an activated record for height 100 and mature height 0. -/
theorem coinbase_opret_round_trip_witness :
    MarmaraDecodeCoinbaseOpretExt (symEnv [] none false) marmaraConsts
        (MarmaraEncodeCoinbaseOpretExt (symEnv [] none false) marmaraConsts 1 65
          (2 :: List.replicate 32 9) 100 0)
        { version := 0, pk := [], height := 0, unlockht := 0, matureht := 0 }
      = (65, { version := 1, pk := 2 :: List.replicate 32 9, height := 100,
               unlockht := 2147483646, matureht := 0 }) :=
  (coinbase_opret_round_trip (symEnv [] none false) marmaraConsts 65
    (2 :: List.replicate 32 9) 100 0
    { version := 0, pk := [], height := 0, unlockht := 0, matureht := 0 }
    (symEnv_OpretFraming _ _ _) (by decide) (by decide) (by decide) (by decide) (by decide)
    (by decide)).1

end CodecTheorems2


/-! ## The vout classifier (claims C6 to C8) -/

section ClassifierTheorems
variable {S : Type} [DecidableEq S]

omit [DecidableEq S] in
/-- With a checker that looks at the cc opret only, `get_either_opret` succeeds exactly on
what the output's own cc opret gives. -/
theorem get_either_opret_onlyCC (E : Env S) (chk : CMarmaraOpretCheckerBase S)
    (hchk : chk.checkOnlyCC = true) (tx : CTransaction S) (n : Int) (pk0 : CPubKey)
    (opret : S) (pk : CPubKey) (h : get_either_opret E chk tx n pk0 = (some opret, pk)) :
    0 ≤ n ∧ n < (tx.vout.length : Int)
      ∧ GetCCOpReturnData E (voutAt E tx.vout n).scriptPubKey = some opret
      ∧ chk.CheckOpret opret pk0 = (true, pk) := by
  unfold get_either_opret at h
  split at h
  · simp at h
  · next hn =>
    simp only [hchk, not_true_eq_false, false_and, if_false] at h
    refine ⟨by omega, by omega, ?_⟩
    split at h
    · next o ho =>
      split at h
      · next pk1 hc =>
        simp only [Prod.mk.injEq, Option.some.injEq] at h
        obtain ⟨h1, h2⟩ := h
        subst h1 h2
        exact ⟨ho, hc⟩
      · simp at h
    · simp at h

omit [DecidableEq S] in
theorem get_either_opret_out_of_range (E : Env S) (chk : CMarmaraOpretCheckerBase S)
    (tx : CTransaction S) (n : Int) (pk0 : CPubKey)
    (h : n < 0 ∨ n ≥ (tx.vout.length : Int)) :
    get_either_opret E chk tx n pk0 = (none, pk0) := by
  unfold get_either_opret
  rw [if_pos h]

omit [DecidableEq S] in
theorem get_either_opret_no_ccopret (E : Env S) (chk : CMarmaraOpretCheckerBase S)
    (hchk : chk.checkOnlyCC = true) (tx : CTransaction S) (n : Int) (pk0 : CPubKey)
    (h : GetCCOpReturnData E (voutAt E tx.vout n).scriptPubKey = none) :
    get_either_opret E chk tx n pk0 = (none, pk0) := by
  unfold get_either_opret
  split
  · rfl
  · simp [hchk, h]

omit [DecidableEq S] in
/-- The version filter decides the return value only: the struct is the same under every
filter. -/
theorem decode_struct_filter (E : Env S) (K : Consts) (script : S)
    (ld : SMarmaraCreditLoopOpret) (c1 c2 : Nat) :
    (MarmaraDecodeLoopOpret E K script ld c1).2 = (MarmaraDecodeLoopOpret E K script ld c2).2 := by
  unfold MarmaraDecodeLoopOpret
  simp only
  split
  · split
    · split
      · rfl
      · split <;> split <;> rfl
    · rfl
  · rfl

/-- What an accepted activated vout satisfies. -/
theorem IsMarmaraActivatedVout_true (E : Env S) (K : Consts) (tx : CTransaction S) (n : Int)
    (pk0 pk : CPubKey) (h : IsMarmaraActivatedVout E K tx n pk0 = (true, pk)) :
    0 ≤ n ∧ n < (tx.vout.length : Int) ∧
      ∃ opret, GetCCOpReturnData E (voutAt E tx.vout n).scriptPubKey = some opret
        ∧ (MarmaraDecodeCoinbaseOpret E K opret pk0 0 0).1 ≠ 0
        ∧ pk = (MarmaraDecodeCoinbaseOpret E K opret pk0 0 0).2.1
        ∧ voutAt E tx.vout n = MakeMarmaraCC1of2voutOpret E K (voutAt E tx.vout n).nValue
            (MarmaraDecodeCoinbaseOpret E K opret [] 0 0).2.1 opret := by
  unfold IsMarmaraActivatedVout at h
  split at h
  · simp at h
  · split at h
    · next opret pk1 hg =>
      obtain ⟨h0, h1, h2, h3⟩ := get_either_opret_onlyCC E _ rfl tx n pk0 opret pk1 hg
      split at h
      · next hm =>
        simp only [Prod.mk.injEq, true_and] at h
        subst h
        refine ⟨h0, h1, opret, h2, ?_, ?_, ?_⟩
        · simp only [CMarmaraActivatedOpretChecker, Prod.mk.injEq, decide_eq_true_eq] at h3
          exact h3.1
        · simp only [CMarmaraActivatedOpretChecker, Prod.mk.injEq, decide_eq_true_eq] at h3
          exact h3.2.symm
        · simpa [activated_vout_matches_pk_in_opret] using hm
      · simp at h
    · simp at h

/-- What an accepted locked-in-loop vout satisfies. -/
theorem IsMarmaraLockedInLoopVout_true (E : Env S) (K : Consts) (tx : CTransaction S)
    (n : Int) (pk0 : CPubKey) (txid0 : uint256) (pk : CPubKey) (createtxid : uint256)
    (h : IsMarmaraLockedInLoopVout E K tx n pk0 txid0 = (true, pk, createtxid)) :
    0 ≤ n ∧ n < (tx.vout.length : Int) ∧
      ∃ opret loopData, GetCCOpReturnData E (voutAt E tx.vout n).scriptPubKey = some opret
        ∧ MarmaraDecodeLoopOpret E K opret SMarmaraCreditLoopOpret.init
            K.MARMARA_OPRET_VERSION_ANY = (K.MARMARA_LOCKED, loopData)
        ∧ voutAt E tx.vout n = MakeMarmaraCC1of2voutOpret E K (voutAt E tx.vout n).nValue
            (E.CCtxidaddr_tweak loopData.createtxid) opret
        ∧ tx_has_my_cc_vin E tx = true
        ∧ createtxid = loopData.createtxid ∧ pk = loopData.pk := by
  unfold IsMarmaraLockedInLoopVout at h
  split at h
  · simp at h
  · split at h
    · next opret pk1 hg =>
      obtain ⟨h0, h1, h2, h3⟩ := get_either_opret_onlyCC E _ rfl tx n pk0 opret pk1 hg
      split at h
      next funcid loopData hd =>
      split at h
      · simp at h
      · next hfun =>
        split at h
        · next hm =>
          split at h
          · simp at h
          · next hcc =>
            simp only [Prod.mk.injEq, true_and] at h
            obtain ⟨hp, hc⟩ := h
            subst hp hc
            simp only [ne_eq, Decidable.not_not] at hfun
            subst hfun
            refine ⟨h0, h1, opret, loopData, h2, hd, ?_, ?_, rfl, ?_⟩
            · simpa [vout_matches_createtxid_in_opret, hd] using hm
            · simpa using hcc
            · have hs := decode_struct_filter E K opret SMarmaraCreditLoopOpret.init
                K.MARMARA_OPRET_VERSION_DEFAULT K.MARMARA_OPRET_VERSION_ANY
              rw [hd] at hs
              simp only [CMarmaraLockInLoopOpretChecker] at h3
              split at h3
              · simp only [Prod.mk.injEq, true_and] at h3
                rw [← h3, hs]
              · simp at h3
        · simp at h
    · simp at h

/-- C6: what the classifiers accept.  `IsMarmaraActivatedVout` returns true only if the
index is a valid output index, the output's own cc opret decodes as an activated record
and the output equals the 1of2 output rebuilt from its own value, the protocol key, the
pubkey of the record and the record; `IsMarmaraLockedInLoopVout` returns true only if the
index is valid, the cc opret decodes as a locked vout record, the output equals the 1of2
output rebuilt with the key derived from the record's createtxid, the transaction has a
Marmara cc input, and the createtxid and pubkey handed back are the record's; for an
index out of range and for an output without cc opret both return false. -/
theorem classifier_accepts_only (E : Env S) (K : Consts) (tx : CTransaction S) (n : Int)
    (pk0 : CPubKey) (txid0 : uint256) :
    (∀ pk, IsMarmaraActivatedVout E K tx n pk0 = (true, pk) →
      0 ≤ n ∧ n < (tx.vout.length : Int) ∧
      ∃ opret, GetCCOpReturnData E (voutAt E tx.vout n).scriptPubKey = some opret
        ∧ (MarmaraDecodeCoinbaseOpret E K opret pk0 0 0).1 ≠ 0
        ∧ pk = (MarmaraDecodeCoinbaseOpret E K opret pk0 0 0).2.1
        ∧ voutAt E tx.vout n = MakeMarmaraCC1of2voutOpret E K (voutAt E tx.vout n).nValue
            (MarmaraDecodeCoinbaseOpret E K opret [] 0 0).2.1 opret) ∧
    (∀ pk createtxid, IsMarmaraLockedInLoopVout E K tx n pk0 txid0 = (true, pk, createtxid) →
      0 ≤ n ∧ n < (tx.vout.length : Int) ∧
      ∃ opret loopData, GetCCOpReturnData E (voutAt E tx.vout n).scriptPubKey = some opret
        ∧ MarmaraDecodeLoopOpret E K opret SMarmaraCreditLoopOpret.init
            K.MARMARA_OPRET_VERSION_ANY = (K.MARMARA_LOCKED, loopData)
        ∧ voutAt E tx.vout n = MakeMarmaraCC1of2voutOpret E K (voutAt E tx.vout n).nValue
            (E.CCtxidaddr_tweak loopData.createtxid) opret
        ∧ tx_has_my_cc_vin E tx = true
        ∧ createtxid = loopData.createtxid ∧ pk = loopData.pk) ∧
    ((n < 0 ∨ n ≥ (tx.vout.length : Int)) →
      (IsMarmaraActivatedVout E K tx n pk0).1 = false
        ∧ (IsMarmaraLockedInLoopVout E K tx n pk0 txid0).1 = false) ∧
    (GetCCOpReturnData E (voutAt E tx.vout n).scriptPubKey = none →
      (IsMarmaraActivatedVout E K tx n pk0).1 = false
        ∧ (IsMarmaraLockedInLoopVout E K tx n pk0 txid0).1 = false) := by
  refine ⟨?_, ?_, ?_, ?_⟩
  · intro pk h
    exact IsMarmaraActivatedVout_true E K tx n pk0 pk h
  · intro pk createtxid h
    exact IsMarmaraLockedInLoopVout_true E K tx n pk0 txid0 pk createtxid h
  · intro h
    constructor
    · unfold IsMarmaraActivatedVout
      rw [if_pos h]
    · unfold IsMarmaraLockedInLoopVout
      rw [if_pos h]
  · intro h
    constructor
    · unfold IsMarmaraActivatedVout
      split
      · rfl
      · rw [get_either_opret_no_ccopret E _ rfl tx n pk0 h]
    · unfold IsMarmaraLockedInLoopVout
      split
      · rfl
      · rw [get_either_opret_no_ccopret E _ rfl tx n pk0 h]

/-- Witness of C6: the accepted activated output of the sample transaction. -/
theorem classifier_accepts_only_witness :
    0 ≤ (0 : Int) ∧ (0 : Int) < (sampleActivatedTx.vout.length : Int) ∧
      ∃ opret, GetCCOpReturnData sampleEnv
          (voutAt sampleEnv sampleActivatedTx.vout 0).scriptPubKey = some opret
        ∧ (MarmaraDecodeCoinbaseOpret sampleEnv marmaraConsts opret [] 0 0).1 ≠ 0
        ∧ samplePk = (MarmaraDecodeCoinbaseOpret sampleEnv marmaraConsts opret [] 0 0).2.1
        ∧ voutAt sampleEnv sampleActivatedTx.vout 0
            = MakeMarmaraCC1of2voutOpret sampleEnv marmaraConsts
                (voutAt sampleEnv sampleActivatedTx.vout 0).nValue
                (MarmaraDecodeCoinbaseOpret sampleEnv marmaraConsts opret [] 0 0).2.1 opret :=
  (classifier_accepts_only sampleEnv marmaraConsts sampleActivatedTx 0 [] zeroid).1 samplePk
    (by decide)

/-- C7, as the claim states it, fails: the locked vout of the sample transaction carries
the endorser key in its record, a key that is neither the protocol key nor the key
derived from the createtxid that its destination is made of, and
`IsMarmaraLockedInLoopVout` returns true for it. -/
theorem locked_vout_record_key_unchecked :
    IsMarmaraLockedInLoopVout sampleEnv marmaraConsts sampleLockedTx 0 [] zeroid
      = (true, samplePk, sampleCreatetxid) ∧
    voutAt sampleEnv sampleLockedTx.vout 0
      = sampleEnv.MakeCC1of2vout marmaraConsts.EVAL_MARMARA 1000 sampleEnv.Marmarapk
          (sampleEnv.CCtxidaddr_tweak sampleCreatetxid)
          (some [(LoopRecord.locked sampleCreatetxid samplePk).payload marmaraConsts]) ∧
    samplePk ≠ sampleEnv.CCtxidaddr_tweak sampleCreatetxid ∧
    samplePk ≠ sampleEnv.Marmarapk := by
  decide

/-- C7, amended: an output that is not the 1of2 output rebuilt from its own value, the
protocol key and the key derived from the createtxid of its embedded record is rejected
by `IsMarmaraLockedInLoopVout` ; the pubkey in the record is compared with no key. -/
theorem locked_vout_rejects_other_destination (E : Env S) (K : Consts) (tx : CTransaction S)
    (n : Int) (pk0 : CPubKey) (txid0 : uint256) (opret : S)
    (hop : GetCCOpReturnData E (voutAt E tx.vout n).scriptPubKey = some opret)
    (hne : voutAt E tx.vout n ≠ MakeMarmaraCC1of2voutOpret E K (voutAt E tx.vout n).nValue
        (E.CCtxidaddr_tweak (MarmaraDecodeLoopOpret E K opret SMarmaraCreditLoopOpret.init
          K.MARMARA_OPRET_VERSION_ANY).2.createtxid) opret) :
    (IsMarmaraLockedInLoopVout E K tx n pk0 txid0).1 = false := by
  cases hr : IsMarmaraLockedInLoopVout E K tx n pk0 txid0 with
  | mk b rest =>
    cases b with
    | false => rfl
    | true =>
      obtain ⟨pk, createtxid⟩ := rest
      obtain ⟨_, _, opret1, loopData, h1, h2, h3, _⟩ :=
        IsMarmaraLockedInLoopVout_true E K tx n pk0 txid0 pk createtxid hr
      rw [hop] at h1
      cases h1
      rw [h2] at hne
      exact absurd h3 hne

/-- Witness of the amended C7: the sample locked output paid to the endorser key instead
of the key of the createtxid is rejected. -/
theorem locked_vout_rejects_other_destination_witness :
    (IsMarmaraLockedInLoopVout sampleEnv marmaraConsts sampleMisdirectedTx 0 [] zeroid).1
      = false :=
  locked_vout_rejects_other_destination sampleEnv marmaraConsts sampleMisdirectedTx 0 []
    zeroid (SymScript.opret ((LoopRecord.locked sampleCreatetxid samplePk).payload marmaraConsts))
    (by decide) (by decide)

/-- C8: a transaction without an input that spends a Marmara cc output has no
locked-in-loop vout, whatever the output and its record are; the answer of
`IsMarmaraActivatedVout` does not depend on the inputs of the transaction. -/
theorem locked_needs_cc_vin_activated_does_not (E : Env S) (K : Consts) (tx : CTransaction S)
    (n : Int) (pk0 : CPubKey) (txid0 : uint256) :
    ((∀ vin ∈ tx.vin, E.ismyvin vin.scriptSig = false) →
      (IsMarmaraLockedInLoopVout E K tx n pk0 txid0).1 = false) ∧
    (∀ vins : List (CTxIn S),
      IsMarmaraActivatedVout E K { tx with vin := vins } n pk0
        = IsMarmaraActivatedVout E K tx n pk0) := by
  constructor
  · intro h
    have hcc : tx_has_my_cc_vin E tx = false := by
      unfold tx_has_my_cc_vin
      rw [List.any_eq_false]
      intro vin hv
      simp [h vin hv]
    cases hr : IsMarmaraLockedInLoopVout E K tx n pk0 txid0 with
    | mk b rest =>
      cases b with
      | false => rfl
      | true =>
        obtain ⟨pk, createtxid⟩ := rest
        obtain ⟨_, _, _, _, _, _, _, h4, _⟩ :=
          IsMarmaraLockedInLoopVout_true E K tx n pk0 txid0 pk createtxid hr
        rw [hcc] at h4
        cases h4
  · intro vins
    rfl

/-- Witness of C8: the sample locked output in a transaction without inputs. -/
theorem locked_needs_cc_vin_activated_does_not_witness :
    (IsMarmaraLockedInLoopVout sampleEnv marmaraConsts { sampleLockedTx with vin := [] } 0 []
      zeroid).1 = false :=
  (locked_needs_cc_vin_activated_does_not sampleEnv marmaraConsts
    { sampleLockedTx with vin := [] } 0 [] zeroid).1 (by decide)

end ClassifierTheorems


/-! ## The validator entry (claims C1, C9, C10) -/

section ValidateTheorems
variable {S : Type} [DecidableEq S]

omit [DecidableEq S] in
/-- The dispatch returns true only on a recognized set of function ids. -/
theorem dispatchFuncIds_true (E : Env S) (K : Consts) (C : Checkers S) (tx : CTransaction S)
    (funcIds : Finset Nat) (h : dispatchFuncIds E K C tx funcIds = true) :
    funcIds ∈ K.recognizedSets := by
  by_contra hn
  simp only [Consts.recognizedSets, List.mem_cons, List.mem_singleton, List.not_mem_nil,
    or_false, not_or] at hn
  obtain ⟨n1, n2, n3, n4, n5, n6, n7, n8, n9, n10, n11, n12, n13, n14, n15⟩ := hn
  unfold dispatchFuncIds at h
  simp only [n1, n2, n3, n4, n5, n6, n7, n8, n9, n10, n11, n12, n13, n14, n15, or_self,
    if_false] at h
  split_ifs at h

/-- With the current consensus active, an accepted transaction has passed every entry
check. -/
theorem MarmaraValidate_true (E : Env S) (K : Consts) (C : Checkers S) (tx : CTransaction S)
    (nIn : Nat) (hh : ¬ get_next_height E < K.MARMARA_POS_IMPROVEMENTS_HEIGHT)
    (h : MarmaraValidate E K C tx nIn = true) :
    E.ASSETCHAINS_MARMARA = true ∧ 1 ≤ tx.vout.length
      ∧ 0 ≤ get_txfee E tx ∧ get_txfee E tx ≤ max_txfee
      ∧ check_global_spent_tx E K tx (collectFuncIds E K tx) = true
      ∧ dispatchFuncIds E K C tx (collectFuncIds E K tx) = true := by
  unfold MarmaraValidate at h
  rw [if_neg hh] at h
  split at h
  · simp at h
  · next h1 =>
    split at h
    · simp at h
    · next h2 =>
      simp only at h
      split at h
      · simp at h
      · next h3 =>
        split at h
        · next h4 =>
          refine ⟨by simpa using h1, by omega, by omega, by omega, h4, h⟩
        · simp at h

/-- C1: with the current (post-h0) consensus active, `MarmaraValidate` accepts a
transaction only if the set of function ids it collects from the outputs is one of the
recognized sets; for the empty set and for every other set it rejects, in particular for
the sets {CreateLoop}, {Request}, {Pool} and (the function ids being pairwise different)
{Issue, Transfer}. -/
theorem validate_accepts_only_recognized_sets (E : Env S) (K : Consts) (C : Checkers S)
    (tx : CTransaction S) (nIn : Nat)
    (hh : ¬ get_next_height E < K.MARMARA_POS_IMPROVEMENTS_HEIGHT) :
    (MarmaraValidate E K C tx nIn = true → collectFuncIds E K tx ∈ K.recognizedSets) ∧
    (collectFuncIds E K tx ∉ K.recognizedSets → MarmaraValidate E K C tx nIn = false) ∧
    (collectFuncIds E K tx = ∅ → MarmaraValidate E K C tx nIn = false) ∧
    (collectFuncIds E K tx = {K.MARMARA_CREATELOOP} → MarmaraValidate E K C tx nIn = false) ∧
    (collectFuncIds E K tx = {K.MARMARA_REQUEST} → MarmaraValidate E K C tx nIn = false) ∧
    (collectFuncIds E K tx = {K.MARMARA_POOL} → MarmaraValidate E K C tx nIn = false) ∧
    (K.FuncidsDistinct → collectFuncIds E K tx = {K.MARMARA_ISSUE, K.MARMARA_TRANSFER} →
      MarmaraValidate E K C tx nIn = false) := by
  have key : ∀ s : Finset Nat, collectFuncIds E K tx = s →
      dispatchFuncIds E K C tx s = false → MarmaraValidate E K C tx nIn = false := by
    intro s hs hd
    cases hv : MarmaraValidate E K C tx nIn with
    | false => rfl
    | true =>
      have := (MarmaraValidate_true E K C tx nIn hh hv).2.2.2.2.2
      rw [hs, hd] at this
      cases this
  have hrec : collectFuncIds E K tx ∉ K.recognizedSets →
      MarmaraValidate E K C tx nIn = false := by
    intro hn
    cases hv : MarmaraValidate E K C tx nIn with
    | false => rfl
    | true =>
      exact absurd (dispatchFuncIds_true E K C tx _
        (MarmaraValidate_true E K C tx nIn hh hv).2.2.2.2.2) hn
  refine ⟨?_, hrec, ?_, ?_, ?_, ?_, ?_⟩
  · intro h
    exact dispatchFuncIds_true E K C tx _ (MarmaraValidate_true E K C tx nIn hh h).2.2.2.2.2
  · intro h
    exact key ∅ h (by simp [dispatchFuncIds])
  · intro h
    refine key _ h ?_
    unfold dispatchFuncIds
    rw [if_neg (Finset.singleton_ne_empty _)]
    by_cases c1 : ({K.MARMARA_CREATELOOP} : Finset Nat) = {K.MARMARA_POOL}
    · rw [if_pos c1]
    · rw [if_neg c1]
      by_cases c2 : ({K.MARMARA_CREATELOOP} : Finset Nat) = {K.MARMARA_LOOP}
      · rw [if_pos c2]
      · rw [if_neg c2, if_pos rfl]
  · intro h
    refine key _ h ?_
    unfold dispatchFuncIds
    rw [if_neg (Finset.singleton_ne_empty _)]
    by_cases c1 : ({K.MARMARA_REQUEST} : Finset Nat) = {K.MARMARA_POOL}
    · rw [if_pos c1]
    · rw [if_neg c1]
      by_cases c2 : ({K.MARMARA_REQUEST} : Finset Nat) = {K.MARMARA_LOOP}
      · rw [if_pos c2]
      · rw [if_neg c2]
        by_cases c3 : ({K.MARMARA_REQUEST} : Finset Nat) = {K.MARMARA_CREATELOOP}
        · rw [if_pos c3]
        · rw [if_neg c3, if_pos rfl]
  · intro h
    refine key _ h ?_
    unfold dispatchFuncIds
    rw [if_neg (Finset.singleton_ne_empty _), if_pos rfl]
  · intro hK h
    apply hrec
    rw [h]
    unfold Consts.FuncidsDistinct at hK
    simp only [List.nodup_cons, List.mem_cons, List.mem_singleton, not_or, List.not_mem_nil,
      not_false_eq_true, List.nodup_nil, and_true] at hK
    obtain ⟨⟨-, -, -, -, -, -, cI, -, -, -, -, -, -⟩, ⟨-, -, -, -, -, eI, -, -, -, -, -, -⟩,
      ⟨-, -, -, -, aI, aT, -, -, -, -, -⟩, ⟨-, -, -, nI, -, -, -, -, -, -⟩, -, -, -,
      ⟨iT, iS, iD, iO, -, iL⟩, ⟨-, -, -, -, tL⟩, -⟩ := hK
    simp only [Consts.recognizedSets, List.mem_cons, List.mem_singleton, List.not_mem_nil,
      or_false, Finset.ext_iff, Finset.mem_insert, Finset.mem_singleton]
    intro hmem
    rcases hmem with hm | hm | hm | hm | hm | hm | hm | hm | hm | hm | hm | hm | hm | hm | hm <;>
    · have h1 := hm K.MARMARA_ISSUE
      have h2 := hm K.MARMARA_TRANSFER
      simp [iT, iS, iD, iO, iL, tL, Ne.symm cI, Ne.symm eI, Ne.symm aI, Ne.symm aT, Ne.symm nI,
        Ne.symm iT] at h1 h2

/-- Witness of C1: the sample stake transaction is accepted and its set of function ids,
{Activated}, is a recognized set. -/
theorem validate_accepts_only_recognized_sets_witness :
    collectFuncIds sampleChainEnv marmaraConsts sampleStakeTx ∈ marmaraConsts.recognizedSets :=
  (validate_accepts_only_recognized_sets sampleChainEnv marmaraConsts permissiveCheckers
    sampleStakeTx 0 (by decide)).1 (by decide)

omit [DecidableEq S] in
theorem get_txfee_inputs_resolved (E : Env S) (vins : List (CTxIn S)) (acc : Int)
    (h : ∀ vin ∈ vins, ∃ ptx, E.myGetTransaction vin.prevout.hash = some ptx) :
    get_txfee_inputs E vins acc = some (acc + (vins.map (spentValue E)).sum) := by
  induction vins generalizing acc with
  | nil => simp [get_txfee_inputs]
  | cons vin rest ih =>
    obtain ⟨ptx, hp⟩ := h vin (List.mem_cons_self _ _)
    have hrest : ∀ v ∈ rest, ∃ ptx, E.myGetTransaction v.prevout.hash = some ptx :=
      fun v hv => h v (List.mem_cons_of_mem _ hv)
    simp only [get_txfee_inputs, hp, ih _ hrest, List.map_cons, List.sum_cons, spentValue]
    congr 1
    omega

omit [DecidableEq S] in
theorem get_txfee_inputs_unresolved (E : Env S) (vins : List (CTxIn S)) (acc : Int)
    (h : ∃ vin ∈ vins, E.myGetTransaction vin.prevout.hash = none) :
    get_txfee_inputs E vins acc = none := by
  induction vins generalizing acc with
  | nil => simp at h
  | cons vin rest ih =>
    unfold get_txfee_inputs
    cases hp : E.myGetTransaction vin.prevout.hash with
    | none => rfl
    | some ptx =>
      simp only
      apply ih
      obtain ⟨v, hv, hn⟩ := h
      rcases List.mem_cons.mp hv with rfl | hv
      · rw [hp] at hn
        cases hn
      · exact ⟨v, hv, hn⟩

/-- C9: with the current consensus active, `MarmaraValidate` rejects every transaction
whose fee is negative or greater than 20000, whatever its function ids are, so every
accepted transaction has its fee in [0, 20000]; the fee `get_txfee` computes is the sum
of the values of the outputs the inputs spend minus the sum of the values of the outputs,
and -1 when the transaction of a spent output cannot be got. -/
theorem validate_bounds_txfee (E : Env S) (K : Consts) (C : Checkers S) (tx : CTransaction S)
    (nIn : Nat) (hh : ¬ get_next_height E < K.MARMARA_POS_IMPROVEMENTS_HEIGHT) :
    (MarmaraValidate E K C tx nIn = true → 0 ≤ get_txfee E tx ∧ get_txfee E tx ≤ 20000) ∧
    ((get_txfee E tx < 0 ∨ 20000 < get_txfee E tx) → MarmaraValidate E K C tx nIn = false) ∧
    ((∀ vin ∈ tx.vin, ∃ ptx, E.myGetTransaction vin.prevout.hash = some ptx) →
      get_txfee E tx = specFee E tx) ∧
    ((∃ vin ∈ tx.vin, E.myGetTransaction vin.prevout.hash = none) → get_txfee E tx = -1) := by
  have hb : MarmaraValidate E K C tx nIn = true →
      0 ≤ get_txfee E tx ∧ get_txfee E tx ≤ 20000 := by
    intro h
    obtain ⟨_, _, h1, h2, _⟩ := MarmaraValidate_true E K C tx nIn hh h
    unfold max_txfee at h2
    exact ⟨h1, by omega⟩
  refine ⟨hb, ?_, ?_, ?_⟩
  · intro h
    cases hv : MarmaraValidate E K C tx nIn with
    | false => rfl
    | true =>
      have := hb hv
      omega
  · intro h
    unfold get_txfee specFee
    rw [get_txfee_inputs_resolved E tx.vin 0 h]
    simp
  · intro h
    unfold get_txfee
    rw [get_txfee_inputs_unresolved E tx.vin 0 h]

/-- Witness of C9: the accepted sample stake transaction pays the fee 0. -/
theorem validate_bounds_txfee_witness :
    0 ≤ get_txfee sampleChainEnv sampleStakeTx ∧ get_txfee sampleChainEnv sampleStakeTx ≤ 20000 :=
  (validate_bounds_txfee sampleChainEnv marmaraConsts permissiveCheckers sampleStakeTx 0
    (by decide)).1 (by decide)

/-- The part of C10 that the code keeps: a transaction that spends, through a Marmara cc
input, a protocol-key output at index `MARMARA_OPENCLOSE_VOUT` is rejected by
`check_global_spent_tx` unless its set of function ids is {Settle} or {SettlePartial}. -/
theorem check_global_spent_openclose (E : Env S) (K : Consts) (tx : CTransaction S)
    (funcids : Finset Nat) (vin : CTxIn S) (vintx : CTransaction S) (hv : vin ∈ tx.vin)
    (hcc : E.ismyvin vin.scriptSig = true)
    (hget : E.myGetTransaction vin.prevout.hash = some vintx)
    (hmarker : E.MakeCC1vout K.EVAL_MARMARA
        (voutAt E vintx.vout (toSigned 32 vin.prevout.n)).nValue E.Marmarapk
      = voutAt E vintx.vout (toSigned 32 vin.prevout.n))
    (hn : toSigned 32 vin.prevout.n = K.MARMARA_OPENCLOSE_VOUT)
    (h1 : funcids ≠ {K.MARMARA_SETTLE}) (h2 : funcids ≠ {K.MARMARA_SETTLE_PARTIAL}) :
    check_global_spent_tx E K tx funcids = false := by
  unfold check_global_spent_tx
  rw [List.all_eq_false]
  refine ⟨vin, hv, ?_⟩
  unfold check_global_spent_vin
  rw [hn] at hmarker
  simp only [hcc, if_true, hget, hn, hmarker]
  split_ifs <;> simp_all

/-- The slip behind the failing input of C10: a round of the loop lets every spend pass
whose output index differs from the two marker amounts and from the open/close
position, whatever the spent output is. -/
theorem check_global_spent_vin_index_vs_amount (E : Env S) (K : Consts) (funcids : Finset Nat)
    (vin : CTxIn S)
    (h1 : toSigned 32 vin.prevout.n ≠ K.MARMARA_LOOP_MARKER_AMOUNT)
    (h2 : toSigned 32 vin.prevout.n ≠ K.MARMARA_OPENCLOSE_VOUT)
    (h3 : toSigned 32 vin.prevout.n ≠ K.MARMARA_ACTIVATED_MARKER_AMOUNT) :
    check_global_spent_vin E K funcids vin = true := by
  unfold check_global_spent_vin
  split
  · split
    · simp only [h1, h2, h3, false_and, if_false]
      split <;> rfl
    · rfl
  · rfl

set_option maxRecDepth 100000 in
/-- C10, the failing input: the sample transaction spends, through a Marmara cc input,
output 1 (`MARMARA_LOOP_MARKER_VOUT`) of the sample issuance, which is the loop marker (a
protocol-key output of the loop marker amount); its set of function ids is {Activated};
`check_global_spent_tx` accepts it, and so does `MarmaraValidate` when the stake checker
passes.  The loop compares the output index with `MARMARA_LOOP_MARKER_AMOUNT` and
`MARMARA_ACTIVATED_MARKER_AMOUNT`, not with the marker positions. -/
theorem check_global_spent_misses_loop_marker :
    (∃ vin ∈ sampleMarkerSpendTx.vin,
      sampleChainEnv.ismyvin vin.scriptSig = true
        ∧ sampleChainEnv.myGetTransaction vin.prevout.hash = some sampleIssueTx
        ∧ (vin.prevout.n : Int) = marmaraConsts.MARMARA_LOOP_MARKER_VOUT
        ∧ voutAt sampleChainEnv sampleIssueTx.vout vin.prevout.n
            = sampleChainEnv.MakeCC1vout marmaraConsts.EVAL_MARMARA
                marmaraConsts.MARMARA_LOOP_MARKER_AMOUNT sampleChainEnv.Marmarapk) ∧
    collectFuncIds sampleChainEnv marmaraConsts sampleMarkerSpendTx
      = {marmaraConsts.MARMARA_ACTIVATED} ∧
    check_global_spent_tx sampleChainEnv marmaraConsts sampleMarkerSpendTx
      (collectFuncIds sampleChainEnv marmaraConsts sampleMarkerSpendTx) = true ∧
    MarmaraValidate sampleChainEnv marmaraConsts permissiveCheckers sampleMarkerSpendTx 0
      = true := by
  refine ⟨⟨_, List.mem_singleton.mpr rfl, ?_⟩, ?_, ?_, ?_⟩ <;> decide

end ValidateTheorems

/-! ## The baton walk (claim C20) -/
section WalkTheorems
variable {S : Type}

/-- The walk along a chain of batons: with enough fuel it ends at the last one. -/
theorem batonWalk_chain (E : Env S) (K : Consts) (bs : List uint256) :
    ∀ (fuel : Nat) (txid : uint256) (creditloop : List uint256) (n : Int),
      BatonChain E K txid bs → bs.length ≤ fuel →
      batonWalk E K fuel txid creditloop n
        = some (n + (bs.length : Int), creditloop ++ txid :: bs.dropLast, bs.getLastD zeroid) := by
  induction bs with
  | nil => intro fuel txid cl n h; exact absurd h (by simp [BatonChain])
  | cons b rest ih =>
    intro fuel txid cl n h hf
    cases fuel with
    | zero => simp at hf
    | succ fuel =>
      cases rest with
      | nil =>
        obtain ⟨h1, h2⟩ := h
        simp [batonWalk, h1, h2]
      | cons b2 rest2 =>
        obtain ⟨h1, h2, h3, h4⟩ := h
        have hf2 : (b2 :: rest2).length ≤ fuel := by simpa using hf
        have h3b : ¬ (E.CCgettxout b K.MARMARA_BATON_VOUT > 0) := by omega
        rw [batonWalk]
        simp only [h1, if_neg h2, if_neg h3b]
        rw [ih fuel b (cl ++ [txid]) (n + 1) h4 hf2]
        simp only [List.length_cons, Nat.cast_add, Nat.cast_one, List.append_assoc,
          List.singleton_append, List.dropLast_cons₂, List.getLastD_cons, Option.some.injEq,
          Prod.mk.injEq, and_true]
        omega

/-- C20 (amended): the walk of MarmaraGetbatontxid.  Started from any transaction q whose
createtxid is found as c (the creation transaction itself, a request, the issuance or a
transfer), along a chain of N >= 1 baton-holding transactions behind c (each spending
the baton output of the one before, the last baton unspent), the walk ends for every
fuel >= N and returns N, the trail c, b1, .., b(N-1) of exactly N entries and bN as the
current baton.  Only the spent index of the baton outputs enters, so the result is the
same after the settlement, which spends the open/close marker; the walk returns 0 when
the baton output of the creation transaction is not spent. -/
theorem baton_walk_result (E : Env S) (K : Consts) (c q : uint256)
    (hq : get_create_txid E K q K.MARMARA_OPRET_VERSION_ANY = (0, c)) :
    (∀ (bs : List uint256) (fuel : Nat), BatonChain E K c bs → bs.length ≤ fuel →
      MarmaraGetbatontxid E K fuel [] q
        = some ((bs.length : Int), c :: bs.dropLast, bs.getLastD zeroid)
      ∧ (c :: bs.dropLast).length = bs.length)
    ∧ (∀ fuel : Nat, E.CCgetspenttxid c K.MARMARA_BATON_VOUT = none →
      MarmaraGetbatontxid E K (fuel + 1) [] q = some (0, [], zeroid)) := by
  constructor
  · intro bs fuel hc hf
    constructor
    · simp only [MarmaraGetbatontxid, hq, if_true]
      rw [batonWalk_chain E K bs fuel c [] 0 hc hf]
      simp
    · cases bs with
      | nil => exact absurd hc (by simp [BatonChain])
      | cons b rest => simp [List.length_dropLast]
  · intro fuel hn
    simp [MarmaraGetbatontxid, hq, batonWalk, hn]

end WalkTheorems

set_option maxRecDepth 100000 in
/-- Witness of C20: the walk over the sample loop, started from its issuance. -/
theorem baton_walk_result_witness :
    get_create_txid loopEnv marmaraConsts loopIssueTxid marmaraConsts.MARMARA_OPRET_VERSION_ANY
        = (0, loopCreateTxid)
      ∧ BatonChain loopEnv marmaraConsts loopCreateTxid [loopIssueTxid]
      ∧ MarmaraGetbatontxid loopEnv marmaraConsts 5 [] loopIssueTxid
        = some (1, [loopCreateTxid], loopIssueTxid) :=
  ⟨by decide, ⟨by decide, by decide⟩,
    ((baton_walk_result loopEnv marmaraConsts loopCreateTxid loopIssueTxid (by decide)).1
      [loopIssueTxid] 5 ⟨by decide, by decide⟩ (by decide)).1⟩

set_option maxRecDepth 100000 in
/-- C20, as the claim states it, fails: the settlement of the sample loop is accepted by
`check_settlement_tx` and, once it is among the known transactions, `MarmaraGetbatontxid`
still returns 1 with the same trail and baton, not 0: the settlement spends the
open/close marker of the issuance and leaves the baton unspent. -/
theorem baton_walk_after_settlement_not_zero :
    check_settlement_tx loopEnv marmaraConsts 5 loopSettleTx = some true
      ∧ loopSettledEnv.myGetTransaction loopSettleTxid = some loopSettleTx
      ∧ MarmaraGetbatontxid loopSettledEnv marmaraConsts 5 [] loopIssueTxid
        = some (1, [loopCreateTxid], loopIssueTxid) := by
  refine ⟨by decide, by decide, by decide⟩

/-! ## The release checker (claim C19) -/
section ReleaseTheorems
variable {S : Type} [DecidableEq S]

/-- A loop with early return that ended: an additive variable grew by the sum of what
the rounds add. -/
theorem foldSteps_sum {σ α : Type} (step : σ → α → Option σ) (m : σ → Int) (v : α → Int)
    (hstep : ∀ s a s1, step s a = some s1 → m s1 = m s + v a) :
    ∀ (l : List α) (s s1 : σ), foldSteps step s l = some s1 → m s1 = m s + (l.map v).sum := by
  intro l
  induction l with
  | nil => intro s s1 h; simp [foldSteps] at h; simp [h]
  | cons a rest ih =>
    intro s s1 h
    rw [foldSteps] at h
    split at h
    · simp at h
    · next s2 h2 =>
      rw [ih s2 s1 h, hstep s a s2 h2]
      simp [add_assoc]

/-- A loop with early return that ended: every round passed from some state. -/
theorem foldSteps_each {σ α : Type} (step : σ → α → Option σ) (P : α → Prop)
    (hstep : ∀ s a s1, step s a = some s1 → P a) :
    ∀ (l : List α) (s s1 : σ), foldSteps step s l = some s1 → ∀ a ∈ l, P a := by
  intro l
  induction l with
  | nil => intro s s1 _ a ha; simp at ha
  | cons a rest ih =>
    intro s s1 h x hx
    rw [foldSteps] at h
    split at h
    · simp at h
    · next s2 h2 =>
      rcases List.mem_cons.1 hx with rfl | hx
      · exact hstep s x s2 h2
      · exact ih s2 s1 h x hx

/-- A loop with early return that ended: a set the rounds insert into holds what it held
before and what the rounds inserted. -/
theorem foldSteps_set {σ α β : Type} [DecidableEq β] (step : σ → α → Option σ)
    (m : σ → Finset β) (v : α → Option β)
    (hstep : ∀ s a s1, step s a = some s1 →
      m s1 = (v a).elim (m s) (fun b => insert b (m s))) :
    ∀ (l : List α) (s s1 : σ), foldSteps step s l = some s1 →
      ∀ b, b ∈ m s1 ↔ b ∈ m s ∨ ∃ a ∈ l, v a = some b := by
  intro l
  induction l with
  | nil => intro s s1 h b; simp [foldSteps] at h; simp [h]
  | cons a rest ih =>
    intro s s1 h b
    rw [foldSteps] at h
    split at h
    · simp at h
    · next s2 h2 =>
      rw [ih s2 s1 h b, hstep s a s2 h2]
      cases hv : v a with
      | none => simp [hv]
      | some b1 =>
        simp only [Option.elim, Finset.mem_insert, List.mem_cons, exists_eq_or_imp, hv,
          Option.some.injEq]
        constructor
        · rintro ((h | h) | h)
          · right; left; exact h.symm
          · left; exact h
          · right; right; exact h
        · rintro (h | h | h)
          · left; right; exact h
          · left; left; exact h.symm
          · right; exact h

/-- What one round of the loop of `check_release_tx` over the inputs does when it passes. -/
theorem releaseVinStep_some (E : Env S) (K : Consts) (st st1 : ReleaseVins) (vin : CTxIn S)
    (h : releaseVinStep E K st vin = some st1) :
    (E.ismyvin vin.scriptSig = true → E.check_signing_pubkey vin.scriptSig ≠ E.Marmarapk
      ∧ ((E.myGetTransaction vin.prevout.hash).isSome → (releaseInputOwner E K vin).isSome))
    ∧ st1.ccInputs = st.ccInputs + (if E.ismyvin vin.scriptSig then spentValue E vin else 0)
    ∧ st1.inputpks = (if E.ismyvin vin.scriptSig then releaseInputOwner E K vin else none).elim
        st.inputpks (fun b => insert b st.inputpks) := by
  unfold releaseVinStep at h
  by_cases hmy : E.ismyvin vin.scriptSig = true
  · rw [if_pos hmy] at h
    by_cases hsig : E.check_signing_pubkey vin.scriptSig = E.Marmarapk
    · rw [if_pos hsig] at h; simp at h
    · rw [if_neg hsig] at h
      cases htx : E.myGetTransaction vin.prevout.hash with
      | none =>
        simp only [htx] at h
        simp only [Option.some.injEq] at h
        subst h
        simp [hmy, hsig, spentValue, htx, releaseInputOwner]
      | some vintx =>
        simp only [htx] at h
        cases hact : IsMarmaraActivatedVout E K vintx (toSigned 32 vin.prevout.n) [] with
        | mk b pk =>
          cases b with
          | false => simp [hact] at h
          | true =>
            simp only [hact, Option.some.injEq] at h
            subst h
            simp [hmy, hsig, spentValue, htx, releaseInputOwner, hact]
  · rw [if_neg hmy] at h
    simp only [Option.some.injEq] at h
    subst h
    simp [hmy]

/-- What one round of the loop of `check_release_tx` over the outputs does when it passes. -/
theorem releaseVoutStep_some (E : Env S) (K : Consts) (tx : CTransaction S)
    (st st1 : ReleaseVouts) (i : Nat) (h : releaseVoutStep E K tx st i = some st1) :
    ((E.IsPayToCryptoCondition (voutAt E tx.vout i).scriptPubKey).isSome →
      (IsMarmaraActivatedVout E K tx i []).1 = true)
    ∧ st1.ccOutputs = st.ccOutputs
      + (if (E.IsPayToCryptoCondition (voutAt E tx.vout i).scriptPubKey).isSome
         then (voutAt E tx.vout i).nValue else 0)
    ∧ st1.outputpks = (if (E.IsPayToCryptoCondition (voutAt E tx.vout i).scriptPubKey).isSome
          then some (IsMarmaraActivatedVout E K tx i []).2 else none).elim
        st.outputpks (fun b => insert b st.outputpks) := by
  unfold releaseVoutStep at h
  by_cases hcc : (E.IsPayToCryptoCondition (voutAt E tx.vout i).scriptPubKey).isSome = true
  · rw [if_pos hcc] at h
    cases hact : IsMarmaraActivatedVout E K tx i [] with
    | mk b pk =>
      cases b with
      | false => simp [hact] at h
      | true =>
        simp only [hact, Option.some.injEq] at h
        subst h
        simp [hcc]
  · rw [if_neg hcc] at h
    simp only [Option.some.injEq] at h
    subst h
    simp [hcc]

end ReleaseTheorems
section ReleaseTheorems2
variable {S : Type} [DecidableEq S]

omit [DecidableEq S] in
/-- Before the release upgrade the dispatch rejects a set of function ids that holds the
release id and is not one of the sets listed before the release branch. -/
theorem dispatchFuncIds_release_inactive (E : Env S) (K : Consts) (C : Checkers S)
    (tx : CTransaction S) (funcIds : Finset Nat) (hK : K.FuncidsDistinct)
    (hjune : E.MarmaraIs2020JuneUpdateActive = false)
    (hf : funcIds = {K.MARMARA_RELEASE} ∨ funcIds = {K.MARMARA_RELEASE, K.MARMARA_ACTIVATED}) :
    dispatchFuncIds E K C tx funcIds = false := by
  have hmem : K.MARMARA_RELEASE ∈ funcIds := by
    rcases hf with h | h <;> simp [h]
  have d1 : K.MARMARA_RELEASE ≠ K.MARMARA_POOL := fun he => by
    simp [Consts.FuncidsDistinct, he] at hK
  have d2 : K.MARMARA_RELEASE ≠ K.MARMARA_LOOP := fun he => by
    simp [Consts.FuncidsDistinct, he] at hK
  have d3 : K.MARMARA_RELEASE ≠ K.MARMARA_CREATELOOP := fun he => by
    simp [Consts.FuncidsDistinct, he] at hK
  have d4 : K.MARMARA_RELEASE ≠ K.MARMARA_REQUEST := fun he => by
    simp [Consts.FuncidsDistinct, he] at hK
  have d5 : K.MARMARA_RELEASE ≠ K.MARMARA_ISSUE := fun he => by
    simp [Consts.FuncidsDistinct, he] at hK
  have d6 : K.MARMARA_RELEASE ≠ K.MARMARA_TRANSFER := fun he => by
    simp [Consts.FuncidsDistinct, he] at hK
  have d7 : K.MARMARA_RELEASE ≠ K.MARMARA_SETTLE := fun he => by
    simp [Consts.FuncidsDistinct, he] at hK
  have d8 : K.MARMARA_RELEASE ≠ K.MARMARA_SETTLE_PARTIAL := fun he => by
    simp [Consts.FuncidsDistinct, he] at hK
  have d9 : K.MARMARA_RELEASE ≠ K.MARMARA_COINBASE := fun he => by
    simp [Consts.FuncidsDistinct, he] at hK
  have d10 : K.MARMARA_RELEASE ≠ K.MARMARA_COINBASE_3X := fun he => by
    simp [Consts.FuncidsDistinct, he] at hK
  have d11 : K.MARMARA_RELEASE ≠ K.MARMARA_LOCKED := fun he => by
    simp [Consts.FuncidsDistinct, he] at hK
  have d12 : K.MARMARA_RELEASE ≠ K.MARMARA_ACTIVATED := fun he => by
    simp [Consts.FuncidsDistinct, he] at hK
  have d13 : K.MARMARA_RELEASE ≠ K.MARMARA_ACTIVATED_INITIAL := fun he => by
    simp [Consts.FuncidsDistinct, he] at hK
  have ne : ∀ B : Finset Nat, K.MARMARA_RELEASE ∉ B → funcIds ≠ B :=
    fun B hB he => hB (he ▸ hmem)
  have e0 : funcIds ≠ ∅ := ne _ (by simp)
  have e1 : funcIds ≠ {K.MARMARA_POOL} := ne _ (by simp [d1])
  have e2 : funcIds ≠ {K.MARMARA_LOOP} := ne _ (by simp [d2])
  have e3 : funcIds ≠ {K.MARMARA_CREATELOOP} := ne _ (by simp [d3])
  have e4 : funcIds ≠ {K.MARMARA_REQUEST} := ne _ (by simp [d4])
  have e5 : funcIds ≠ {K.MARMARA_ISSUE} := ne _ (by simp [d5])
  have e6 : funcIds ≠ {K.MARMARA_ISSUE, K.MARMARA_LOCKED} := ne _ (by simp [d5, d11])
  have e7 : funcIds ≠ {K.MARMARA_ACTIVATED, K.MARMARA_ISSUE, K.MARMARA_LOCKED} :=
    ne _ (by simp [d5, d11, d12])
  have e8 : funcIds ≠ {K.MARMARA_TRANSFER} := ne _ (by simp [d6])
  have e9 : funcIds ≠ {K.MARMARA_TRANSFER, K.MARMARA_LOCKED} := ne _ (by simp [d6, d11])
  have e10 : funcIds ≠ {K.MARMARA_ACTIVATED, K.MARMARA_TRANSFER, K.MARMARA_LOCKED} :=
    ne _ (by simp [d6, d11, d12])
  have e11 : funcIds ≠ {K.MARMARA_SETTLE} := ne _ (by simp [d7])
  have e12 : funcIds ≠ {K.MARMARA_SETTLE_PARTIAL} := ne _ (by simp [d8])
  have e13 : funcIds ≠ {K.MARMARA_COINBASE} := ne _ (by simp [d9])
  have e14 : funcIds ≠ {K.MARMARA_COINBASE_3X} := ne _ (by simp [d10])
  have e15 : funcIds ≠ {K.MARMARA_LOCKED} := ne _ (by simp [d11])
  have e16 : funcIds ≠ {K.MARMARA_ACTIVATED} := ne _ (by simp [d12])
  have e17 : funcIds ≠ {K.MARMARA_ACTIVATED_INITIAL} := ne _ (by simp [d13])
  unfold dispatchFuncIds
  simp only [e0, e1, e2, e3, e4, e5, e6, e7, e8, e9, e10, e11, e12, e13, e14, e15, e16, e17,
    or_self, if_false, hjune]
  simp

/-- C19: what `check_release_tx` accepts, and the release gate of `MarmaraValidate` .  If
`check_release_tx` accepts a transaction whose Marmara cc inputs spend known
transactions, then every Marmara cc input is not signed with the protocol key and spends
an activated vout; all these inputs carry the same owner key; every cc output is an
activated vout whose owner key is the key of every Marmara cc input (and there is such
an input); the value of the cc outputs is at most the value the Marmara cc inputs spend.
Past the h0 height and before the release upgrade, `MarmaraValidate` rejects every
transaction whose function ids are {Release} or {Release, Activated}, whatever the
checkers answer. -/
theorem release_accepts_only (E : Env S) (K : Consts) (tx : CTransaction S)
    (hK : K.FuncidsDistinct) (h : check_release_tx E K tx = true)
    (hres : ∀ vin ∈ tx.vin, E.ismyvin vin.scriptSig = true →
      (E.myGetTransaction vin.prevout.hash).isSome = true) :
    (∀ vin ∈ tx.vin, E.ismyvin vin.scriptSig = true →
      E.check_signing_pubkey vin.scriptSig ≠ E.Marmarapk
        ∧ (releaseInputOwner E K vin).isSome = true)
    ∧ (∀ vin1 ∈ tx.vin, ∀ vin2 ∈ tx.vin, E.ismyvin vin1.scriptSig = true →
      E.ismyvin vin2.scriptSig = true → releaseInputOwner E K vin1 = releaseInputOwner E K vin2)
    ∧ (∀ i : Nat, i < tx.vout.length →
      (E.IsPayToCryptoCondition (voutAt E tx.vout i).scriptPubKey).isSome = true →
      (IsMarmaraActivatedVout E K tx i []).1 = true
        ∧ (∃ vin ∈ tx.vin, E.ismyvin vin.scriptSig = true)
        ∧ ∀ vin ∈ tx.vin, E.ismyvin vin.scriptSig = true →
            releaseInputOwner E K vin = some (IsMarmaraActivatedVout E K tx i []).2)
    ∧ ccOutputTotal E tx ≤ marmaraInputTotal E tx
    ∧ (∀ (C : Checkers S) (tx2 : CTransaction S) (nIn : Nat),
        E.MarmaraIs2020JuneUpdateActive = false →
        ¬ get_next_height E < K.MARMARA_POS_IMPROVEMENTS_HEIGHT →
        (collectFuncIds E K tx2 = {K.MARMARA_RELEASE}
          ∨ collectFuncIds E K tx2 = {K.MARMARA_RELEASE, K.MARMARA_ACTIVATED}) →
        MarmaraValidate E K C tx2 nIn = false) := by
  unfold check_release_tx at h
  split at h
  · simp at h
  next vins hvins =>
  split at h
  · simp at h
  next hcard =>
  split at h
  · simp at h
  next vouts hvouts =>
  split at h
  · simp at h
  next hpks =>
  split at h
  · simp at h
  next hamt =>
  -- the inputs
  have hin := foldSteps_each (releaseVinStep E K)
    (fun vin => E.ismyvin vin.scriptSig = true → E.check_signing_pubkey vin.scriptSig ≠ E.Marmarapk
      ∧ ((E.myGetTransaction vin.prevout.hash).isSome → (releaseInputOwner E K vin).isSome))
    (fun s a s1 hs => (releaseVinStep_some E K s s1 a hs).1) tx.vin _ _ hvins
  have hinsum := foldSteps_sum (releaseVinStep E K) (fun s => s.ccInputs)
    (fun vin => if E.ismyvin vin.scriptSig then spentValue E vin else 0)
    (fun s a s1 hs => (releaseVinStep_some E K s s1 a hs).2.1) tx.vin _ _ hvins
  have hinset := foldSteps_set (releaseVinStep E K) (fun s => s.inputpks)
    (fun vin => if E.ismyvin vin.scriptSig then releaseInputOwner E K vin else none)
    (fun s a s1 hs => (releaseVinStep_some E K s s1 a hs).2.2) tx.vin _ _ hvins
  have hout := foldSteps_each (releaseVoutStep E K tx)
    (fun i => (E.IsPayToCryptoCondition (voutAt E tx.vout i).scriptPubKey).isSome →
      (IsMarmaraActivatedVout E K tx i []).1 = true)
    (fun s a s1 hs => (releaseVoutStep_some E K tx s s1 a hs).1) _ _ _ hvouts
  have houtsum := foldSteps_sum (releaseVoutStep E K tx) (fun s => s.ccOutputs)
    (fun i => if (E.IsPayToCryptoCondition (voutAt E tx.vout i).scriptPubKey).isSome
      then (voutAt E tx.vout i).nValue else 0)
    (fun s a s1 hs => (releaseVoutStep_some E K tx s s1 a hs).2.1) _ _ _ hvouts
  have houtset := foldSteps_set (releaseVoutStep E K tx) (fun s => s.outputpks)
    (fun i => if (E.IsPayToCryptoCondition (voutAt E tx.vout i).scriptPubKey).isSome
      then some (IsMarmaraActivatedVout E K tx i []).2 else none)
    (fun s a s1 hs => (releaseVoutStep_some E K tx s s1 a hs).2.2) _ _ _ hvouts
  simp only [Finset.not_mem_empty, false_or] at hinset houtset
  have hcard1 : vins.inputpks.card ≤ 1 := by omega
  have hone : ∀ a ∈ vins.inputpks, ∀ b ∈ vins.inputpks, a = b :=
    Finset.card_le_one.1 hcard1
  have howner : ∀ vin ∈ tx.vin, E.ismyvin vin.scriptSig = true →
      ∃ pk, releaseInputOwner E K vin = some pk ∧ pk ∈ vins.inputpks := by
    intro vin hv hmy
    have h1 := (hin vin hv hmy).2 (hres vin hv hmy)
    obtain ⟨pk, hpk⟩ := Option.isSome_iff_exists.1 h1
    refine ⟨pk, hpk, (hinset pk).2 ⟨vin, hv, ?_⟩⟩
    simp [hmy, hpk]
  refine ⟨?_, ?_, ?_, ?_, ?_⟩
  · intro vin hv hmy
    exact ⟨(hin vin hv hmy).1, (hin vin hv hmy).2 (hres vin hv hmy)⟩
  · intro vin1 hv1 vin2 hv2 hmy1 hmy2
    obtain ⟨pk1, hp1, hm1⟩ := howner vin1 hv1 hmy1
    obtain ⟨pk2, hp2, hm2⟩ := howner vin2 hv2 hmy2
    rw [hp1, hp2, hone pk1 hm1 pk2 hm2]
  · intro i hi hcc
    have hmemo : (IsMarmaraActivatedVout E K tx i []).2 ∈ vouts.outputpks :=
      (houtset _).2 ⟨i, List.mem_range.2 hi, by simp [hcc]⟩
    have hposs : vouts.outputpks.card > 0 := Finset.card_pos.2 ⟨_, hmemo⟩
    have heq : vins.inputpks = vouts.outputpks := by
      by_contra hne
      exact hpks ⟨hposs, hne⟩
    have hmemi : (IsMarmaraActivatedVout E K tx i []).2 ∈ vins.inputpks := heq ▸ hmemo
    refine ⟨hout i (List.mem_range.2 hi) hcc, ?_, ?_⟩
    · obtain ⟨vin, hv, hvv⟩ := (hinset _).1 hmemi
      refine ⟨vin, hv, ?_⟩
      by_contra hmy
      simp [hmy] at hvv
    · intro vin hv hmy
      obtain ⟨pk, hp, hm⟩ := howner vin hv hmy
      rw [hp, hone pk hm _ hmemi]
  · have h1 : ccOutputTotal E tx = vouts.ccOutputs := by
      simp only [zero_add] at houtsum
      rw [houtsum]; unfold ccOutputTotal; rfl
    have h2 : marmaraInputTotal E tx = vins.ccInputs := by
      simp only [zero_add] at hinsum
      rw [hinsum]; unfold marmaraInputTotal; rfl
    rw [h1, h2]
    omega
  · intro C tx2 nIn hjune hh0 hf
    unfold MarmaraValidate
    rw [if_neg hh0]
    simp only []
    rw [dispatchFuncIds_release_inactive E K C tx2 _ hK hjune hf]
    split_ifs <;> rfl

end ReleaseTheorems2

set_option maxRecDepth 100000 in
/-- Witness of C19: the sample release transaction before the release upgrade: the
checker accepts it, its cc output does not exceed what it spends, and `MarmaraValidate`
rejects it. -/
theorem release_accepts_only_witness :
    check_release_tx loopV1Env marmaraConsts sampleReleaseTx = true
      ∧ ccOutputTotal loopV1Env sampleReleaseTx ≤ marmaraInputTotal loopV1Env sampleReleaseTx
      ∧ MarmaraValidate loopV1Env marmaraConsts permissiveCheckers sampleReleaseTx 0 = false :=
  ⟨by decide,
    (release_accepts_only loopV1Env marmaraConsts sampleReleaseTx (by decide) (by decide)
      (by decide)).2.2.2.1,
    (release_accepts_only loopV1Env marmaraConsts sampleReleaseTx (by decide) (by decide)
      (by decide)).2.2.2.2 permissiveCheckers sampleReleaseTx 0 (by decide) (by decide)
      (by decide)⟩


/-! ## The balances of the issue/transfer checker of version 1.2 -/

section Issue12Lemmas
variable {S : Type} [DecidableEq S]

omit [DecidableEq S] in
/-- The opret `get_either_opret` finds does not depend on the pubkey variable, for a
checker of the cc opret alone whose answer does not depend on it. -/
theorem get_either_opret_fst (E : Env S) (chk : CMarmaraOpretCheckerBase S)
    (hchk : ∀ s pk1 pk2, (chk.CheckOpret s pk1).1 = (chk.CheckOpret s pk2).1)
    (honly : chk.checkOnlyCC = true)
    (tx : CTransaction S) (n : Int) (pk1 pk2 : CPubKey) :
    (get_either_opret E chk tx n pk1).1 = (get_either_opret E chk tx n pk2).1 := by
  unfold get_either_opret
  by_cases hn : n < 0 ∨ n ≥ (tx.vout.length : Int)
  · simp only [if_pos hn]
  · simp only [if_neg hn, honly, not_true_eq_false, false_and, if_false]
    cases GetCCOpReturnData E (voutAt E tx.vout n).scriptPubKey with
    | none => rfl
    | some opret =>
      have h := hchk opret pk1 pk2
      rcases h1 : chk.CheckOpret opret pk1 with ⟨b1, q1⟩
      rcases h2 : chk.CheckOpret opret pk2 with ⟨b2, q2⟩
      rw [h1, h2] at h
      simp only at h
      subst h
      simp only [h1, h2]
      cases b1 <;> rfl

/-- The answer and the createtxid of `IsMarmaraLockedInLoopVout` do not depend on the
pubkey variable. -/
theorem IsMarmaraLockedInLoopVout_fst (E : Env S) (K : Consts) (tx : CTransaction S) (n : Int)
    (pk1 pk2 : CPubKey) (t0 : uint256) :
    (IsMarmaraLockedInLoopVout E K tx n pk1 t0).1 = (IsMarmaraLockedInLoopVout E K tx n pk2 t0).1
      ∧ (IsMarmaraLockedInLoopVout E K tx n pk1 t0).2.2
        = (IsMarmaraLockedInLoopVout E K tx n pk2 t0).2.2 := by
  have h := get_either_opret_fst E
    (CMarmaraLockInLoopOpretChecker E K CHECK_ONLY_CCOPRET K.MARMARA_OPRET_VERSION_DEFAULT)
    (fun s p1 p2 => by
      simp only [CMarmaraLockInLoopOpretChecker]
      split_ifs <;> rfl) rfl tx n pk1 pk2
  unfold IsMarmaraLockedInLoopVout
  by_cases hn : n < 0 ∨ n ≥ (tx.vout.length : Int)
  · simp only [if_pos hn, and_self]
  · simp only [if_neg hn]
    rcases h1 : get_either_opret E (CMarmaraLockInLoopOpretChecker E K CHECK_ONLY_CCOPRET
      K.MARMARA_OPRET_VERSION_DEFAULT) tx n pk1 with ⟨o1, q1⟩
    rcases h2 : get_either_opret E (CMarmaraLockInLoopOpretChecker E K CHECK_ONLY_CCOPRET
      K.MARMARA_OPRET_VERSION_DEFAULT) tx n pk2 with ⟨o2, q2⟩
    rw [h1, h2] at h
    simp only at h
    subst h
    cases o1 with
    | none => exact ⟨rfl, rfl⟩
    | some opret => simp only []; split_ifs <;> exact ⟨rfl, rfl⟩

/-- What one round of the loop of `check_issue_tx_12` over the inputs adds to the totals
when it passes. -/
theorem issue12VinStep_some (E : Env S) (K : Consts) (ld : SMarmaraCreditLoopOpret)
    (st st1 : Issue12Vins) (vin : CTxIn S) (h : issue12VinStep E K ld st vin = some st1) :
    st1.CCActivatedInputs = st.CCActivatedInputs
        + (if isActivatedInput E K vin then spentValue E vin else 0)
      ∧ st1.CCLockedInputs = st.CCLockedInputs
        + (if isLockedInput E K vin then spentValue E vin else 0) := by
  unfold issue12VinStep at h
  unfold isActivatedInput isLockedInput spentValue
  by_cases hcc : E.IsCCInput vin.scriptSig = true
  · rw [if_pos hcc] at h
    by_cases hmy : E.ismyvin vin.scriptSig = true
    · rw [if_pos hmy] at h
      cases htx : E.myGetTransaction vin.prevout.hash with
      | none => simp [htx] at h
      | some vintx =>
        simp only [htx] at h
        rcases hact : IsMarmaraActivatedVout E K vintx (toSigned 32 vin.prevout.n) [] with ⟨b, pk⟩
        rw [hact] at h
        cases b with
        | true =>
          simp only [] at h
          split at h
          · simp at h
          · simp only [Option.some.injEq] at h
            subst h
            simp [hcc, hmy, hact]
        | false =>
          simp only [] at h
          have hind := (IsMarmaraLockedInLoopVout_fst E K vintx (toSigned 32 vin.prevout.n)
            pk [] zeroid).1
          rcases hl : IsMarmaraLockedInLoopVout E K vintx (toSigned 32 vin.prevout.n) pk zeroid
            with ⟨bl, pkl, tl⟩
          rw [hl] at h hind
          simp only at hind
          cases bl with
          | true =>
            simp only [] at h
            split at h
            · simp at h
            · simp only [Option.some.injEq] at h
              subst h
              simp [hcc, hmy, hact, ← hind]
          | false =>
            simp only [] at h
            split at h
            · split at h
              · simp at h
              · split at h
                · simp at h
                · simp only [Option.some.injEq] at h
                  subst h
                  simp [hcc, hmy, hact, ← hind]
            · split at h
              · split at h
                · simp only [Option.some.injEq] at h
                  subst h
                  simp [hcc, hmy, hact, ← hind]
                · simp at h
              · simp only [Option.some.injEq] at h
                subst h
                simp [hcc, hmy, hact, ← hind]
    · rw [if_neg hmy] at h
      simp at h
  · rw [if_neg hcc] at h
    simp only [Option.some.injEq] at h
    subst h
    simp [hcc]

/-- What one round of the loop of `check_issue_tx_12` over the outputs adds to the totals
when it passes. -/
theorem issue12VoutStep_some (E : Env S) (K : Consts) (tx : CTransaction S)
    (cd : SMarmaraCreditLoopOpret) (st st1 : Issue12Vouts) (i : Nat)
    (h : issue12VoutStep E K tx (issue12LoopData E K tx) cd st i = some st1) :
    st1.lclAmount = st.lclAmount
        + (if isLockedOutput E K tx i then (voutAt E tx.vout i).nValue else 0)
      ∧ st1.CCchange = st.CCchange
        + (if isActivatedOutput E K tx i then (voutAt E tx.vout i).nValue else 0) := by
  unfold issue12VoutStep at h
  unfold isLockedOutput isActivatedOutput issue12MarkerPos
  by_cases hcc : (E.IsPayToCryptoCondition (voutAt E tx.vout i).scriptPubKey).isSome = true
  · rw [if_pos hcc] at h
    by_cases hb : (i : Int) = K.MARMARA_BATON_VOUT
    · rw [if_pos hb] at h
      split at h
      · simp at h
      · simp only [Option.some.injEq] at h
        subst h
        simp [hb]
    · rw [if_neg hb] at h
      by_cases hlm : (issue12LoopData E K tx).lastfuncid = K.MARMARA_ISSUE
          ∧ (i : Int) = K.MARMARA_LOOP_MARKER_VOUT
      · rw [if_pos hlm] at h
        split at h
        · simp at h
        · simp only [Option.some.injEq] at h
          subst h
          simp [hlm.1, hlm.2]
      · rw [if_neg hlm] at h
        by_cases hoc : (issue12LoopData E K tx).lastfuncid = K.MARMARA_ISSUE
            ∧ (i : Int) = K.MARMARA_OPENCLOSE_VOUT
        · rw [if_pos hoc] at h
          split at h
          · simp at h
          · simp only [Option.some.injEq] at h
            subst h
            simp [hoc.1, hoc.2]
        · rw [if_neg hoc] at h
          have hpos : (decide ((i : Int) = K.MARMARA_BATON_VOUT) ||
              (decide ((issue12LoopData E K tx).lastfuncid = K.MARMARA_ISSUE) &&
                (decide ((i : Int) = K.MARMARA_LOOP_MARKER_VOUT)
                  || decide ((i : Int) = K.MARMARA_OPENCLOSE_VOUT)))) = false := by
            simp only [Bool.or_eq_false_iff, decide_eq_false_iff_not, Bool.and_eq_false_iff]
            refine ⟨hb, ?_⟩
            by_cases hf : (issue12LoopData E K tx).lastfuncid = K.MARMARA_ISSUE
            · right
              exact ⟨fun h1 => hlm ⟨hf, h1⟩, fun h1 => hoc ⟨hf, h1⟩⟩
            · left; exact hf
          rw [hpos]
          rcases hl : IsMarmaraLockedInLoopVout E K tx i [] zeroid with ⟨bl, pkl, tl⟩
          rw [hl] at h
          cases bl with
          | true =>
            simp only [] at h
            obtain ⟨_, _, opret, _, hop, _⟩ :=
              IsMarmaraLockedInLoopVout_true E K tx i [] zeroid pkl tl hl
            rw [hop] at h
            simp only [] at h
            split at h
            · simp at h
            · split at h
              · simp at h
              · simp only [Option.some.injEq] at h
                subst h
                simp [hcc]
          | false =>
            simp only [] at h
            split at h
            · next hact =>
              simp only [Option.some.injEq] at h
              subst h
              simp [hcc, hact]
            · next hact =>
              simp only [Option.some.injEq] at h
              subst h
              simp [hcc, hact]
  · rw [if_neg hcc] at h
    simp only [Option.some.injEq] at h
    subst h
    simp [hcc]

/-- The part of C11 that the code keeps: the balances `check_issue_tx_12` enforces.  If it
accepts a transaction that is not on the list of bad loops then, with T the tolerance and
A the amount of the creation record of the loop: the total of the locked-in-loop outputs
differs from A by at most T; for an issuance the total value of the locked-in-loop inputs
is zero (the inputs themselves are not excluded, see the failing input of C11) and the
total of the activated inputs differs from the total of the locked-in-loop outputs plus
the activated (change) outputs by at most T; for a transfer the totals of the activated
inputs and of the activated outputs are zero and the total of the locked-in-loop inputs
differs from the total of the locked-in-loop outputs by at most T. -/
theorem issue12_accept_balances (E : Env S) (K : Consts) (tx : CTransaction S)
    (hK : K.MARMARA_ISSUE ≠ K.MARMARA_TRANSFER)
    (hskip : skipBadLoop E (E.GetHash tx) = false)
    (h : check_issue_tx_12 E K tx = true) :
    (((issue12CreationData E K tx).2.amount - lockedOutputTotal E K tx).natAbs : Int)
        ≤ K.MARMARA_LOOP_TOLERANCE
      ∧ ((issue12LoopData E K tx).lastfuncid = K.MARMARA_ISSUE →
          lockedInputTotal E K tx = 0
          ∧ ((activatedInputTotal E K tx
                - (lockedOutputTotal E K tx + activatedOutputTotal E K tx)).natAbs : Int)
              ≤ K.MARMARA_LOOP_TOLERANCE)
      ∧ ((issue12LoopData E K tx).lastfuncid = K.MARMARA_TRANSFER →
          activatedInputTotal E K tx = 0 ∧ activatedOutputTotal E K tx = 0
          ∧ ((lockedInputTotal E K tx - lockedOutputTotal E K tx).natAbs : Int)
              ≤ K.MARMARA_LOOP_TOLERANCE) := by
  unfold check_issue_tx_12 at h
  split at h
  · simp at h
  rw [hskip] at h
  simp only [Bool.false_eq_true, if_false] at h
  split at h
  · simp at h
  split at h
  · simp at h
  split at h
  · simp at h
  split at h
  · simp at h
  next vins hvins =>
  split at h
  · simp at h
  split at h
  · simp at h
  split at h
  · simp at h
  next vouts hvouts =>
  have ha := foldSteps_sum (issue12VinStep E K (issue12LoopData E K tx))
    (fun s => s.CCActivatedInputs)
    (fun vin => if isActivatedInput E K vin then spentValue E vin else 0)
    (fun s a s1 hs => (issue12VinStep_some E K _ s s1 a hs).1) tx.vin _ _ hvins
  have hl := foldSteps_sum (issue12VinStep E K (issue12LoopData E K tx))
    (fun s => s.CCLockedInputs)
    (fun vin => if isLockedInput E K vin then spentValue E vin else 0)
    (fun s a s1 hs => (issue12VinStep_some E K _ s s1 a hs).2) tx.vin _ _ hvins
  have ho := foldSteps_sum
    (issue12VoutStep E K tx (issue12LoopData E K tx) (issue12CreationData E K tx).2)
    (fun s => s.lclAmount)
    (fun (i : Nat) => if isLockedOutput E K tx i then (voutAt E tx.vout i).nValue else 0)
    (fun s a s1 hs => (issue12VoutStep_some E K tx _ s s1 a hs).1) _ _ _ hvouts
  have hc := foldSteps_sum
    (issue12VoutStep E K tx (issue12LoopData E K tx) (issue12CreationData E K tx).2)
    (fun s => s.CCchange)
    (fun (i : Nat) => if isActivatedOutput E K tx i then (voutAt E tx.vout i).nValue else 0)
    (fun s a s1 hs => (issue12VoutStep_some E K tx _ s s1 a hs).2) _ _ _ hvouts
  simp only [zero_add] at ha hl ho hc
  have ea : activatedInputTotal E K tx = vins.CCActivatedInputs := by
    rw [ha]; unfold activatedInputTotal; rfl
  have el : lockedInputTotal E K tx = vins.CCLockedInputs := by
    rw [hl]; unfold lockedInputTotal; rfl
  have eo : lockedOutputTotal E K tx = vouts.lclAmount := by
    rw [ho]; unfold lockedOutputTotal; rfl
  have ec : activatedOutputTotal E K tx = vouts.CCchange := by
    rw [hc]; unfold activatedOutputTotal; rfl
  rw [ea, el, eo, ec]
  unfold issue12Final at h
  by_cases c1 : vouts.endorserPks ≠ {(issue12CreationData E K tx).2.pk, (issue12LoopData E K tx).pk}
  · rw [if_pos c1] at h; simp at h
  rw [if_neg c1] at h
  by_cases c2 : vins.CCUnknownInputs ≠ 0
  · rw [if_pos c2] at h; simp at h
  rw [if_neg c2] at h
  by_cases c3 : vouts.CCUnknownOutputs ≠ 0
  · rw [if_pos c3] at h; simp at h
  rw [if_neg c3] at h
  by_cases c4 : (((issue12CreationData E K tx).2.amount - vouts.lclAmount).natAbs : Int)
      > K.MARMARA_LOOP_TOLERANCE
  · rw [if_pos c4] at h; simp at h
  rw [if_neg c4] at h
  refine ⟨by omega, ?_, ?_⟩
  · intro hf
    rw [if_pos hf] at h
    by_cases c5 : vins.CCLockedInputs ≠ 0
    · rw [if_pos c5] at h; simp at h
    rw [if_neg c5] at h
    by_cases c6 : ((vins.CCActivatedInputs - (vouts.lclAmount + vouts.CCchange)).natAbs : Int)
        > K.MARMARA_LOOP_TOLERANCE
    · rw [if_pos c6] at h; simp at h
    exact ⟨by omega, by omega⟩
  · intro hf
    have hne : (issue12LoopData E K tx).lastfuncid ≠ K.MARMARA_ISSUE := by
      rw [hf]; exact fun he => hK he.symm
    rw [if_neg hne] at h
    by_cases c5 : vins.CCActivatedInputs ≠ 0
    · rw [if_pos c5] at h; simp at h
    rw [if_neg c5] at h
    by_cases c6 : vouts.CCchange ≠ 0
    · rw [if_pos c6] at h; simp at h
    rw [if_neg c6] at h
    by_cases c7 : ((vins.CCLockedInputs - vouts.lclAmount).natAbs : Int)
        > K.MARMARA_LOOP_TOLERANCE
    · rw [if_pos c7] at h; simp at h
    exact ⟨by omega, by omega, by omega⟩

end Issue12Lemmas

set_option maxRecDepth 100000 in
/-- The balances of the sample issuance of version 1.2. -/
theorem issue12_accept_balances_witness :
    check_issue_tx_12 loopEnv marmaraConsts loopIssueTx = true
      ∧ lockedInputTotal loopEnv marmaraConsts loopIssueTx = 0
      ∧ lockedOutputTotal loopEnv marmaraConsts loopIssueTx = 1000
      ∧ activatedInputTotal loopEnv marmaraConsts loopIssueTx = 1000 :=
  ⟨by decide,
    ((issue12_accept_balances loopEnv marmaraConsts loopIssueTx (by decide) (by decide)
      (by decide)).2.1 (by decide)).1, by decide, by decide⟩

/-! ## Failing inputs of the issue/transfer and stake checkers (claims C11 to C14, C18) -/

set_option maxRecDepth 100000 in
/-- C12 fails in the code: `check_issue_tx_12` sums the values of the cc inputs and outputs
it cannot classify and rejects only when a sum is not zero.  On the sample loop it
accepts the issuance with one more cc output of value zero (index 5, before the record)
that is neither baton, marker, locked-in-loop nor activated, and the issuance with one
more cc input that spends a plain cc output of value zero after the request was found;
the same output with value 1 is rejected. -/
theorem issue12_accepts_zero_valued_unknown_cc :
    check_issue_tx_12 loopEnv marmaraConsts (loopIssueTxUnknownVout 0) = true
      ∧ skipBadLoop loopEnv (loopEnv.GetHash (loopIssueTxUnknownVout 0)) = false
      ∧ (loopEnv.IsPayToCryptoCondition
          (voutAt loopEnv (loopIssueTxUnknownVout 0).vout 5).scriptPubKey).isSome = true
      ∧ issue12MarkerPos marmaraConsts
          (issue12LoopData loopEnv marmaraConsts (loopIssueTxUnknownVout 0)) 5 = false
      ∧ (IsMarmaraLockedInLoopVout loopEnv marmaraConsts (loopIssueTxUnknownVout 0) 5 []
          zeroid).1 = false
      ∧ (IsMarmaraActivatedVout loopEnv marmaraConsts (loopIssueTxUnknownVout 0) 5 []).1 = false
      ∧ (issue12Vouts loopEnv marmaraConsts (loopIssueTxUnknownVout 0)).map
          (fun v => v.CCUnknownOutputs) = some 0
      ∧ check_issue_tx_12 loopEnv marmaraConsts (loopIssueTxUnknownVout 1) = false
      ∧ check_issue_tx_12 loopEnv marmaraConsts loopIssueTxZeroUnknownVin = true
      ∧ isActivatedInput loopEnv marmaraConsts
          (vinAt loopEnv loopIssueTxZeroUnknownVin.vin 2) = false
      ∧ isLockedInput loopEnv marmaraConsts
          (vinAt loopEnv loopIssueTxZeroUnknownVin.vin 2) = false
      ∧ (issue12Vins loopEnv marmaraConsts loopIssueTxZeroUnknownVin).map
          (fun v => (v.CCUnknownInputs, v.bRequestTxChecked)) = some (0, true) := by
  decide

set_option maxRecDepth 100000 in
/-- C13 fails in the code for version 1.2: `check_issue_tx_12` tests the baton and the
markers only inside its loop over the cc outputs, so an output at a reserved position
that is not a cc output is never compared.  On the sample loop it accepts the issuance
whose loop marker (vout1) is replaced by a normal output, and the one whose baton (vout0)
is replaced by a normal output; `check_issue_tx` rejects the issuance of version 1.1 with
the same replacement. -/
theorem issue12_accepts_missing_loop_marker :
    check_issue_tx_12 loopEnv marmaraConsts loopIssueTxNoLoopMarker = true
      ∧ skipBadLoop loopEnv (loopEnv.GetHash loopIssueTxNoLoopMarker) = false
      ∧ (issue12LoopData loopEnv marmaraConsts loopIssueTxNoLoopMarker).lastfuncid
          = marmaraConsts.MARMARA_ISSUE
      ∧ voutAt loopEnv loopIssueTxNoLoopMarker.vout marmaraConsts.MARMARA_LOOP_MARKER_VOUT
          ≠ loopEnv.MakeCC1vout marmaraConsts.EVAL_MARMARA
              marmaraConsts.MARMARA_LOOP_MARKER_AMOUNT loopEnv.Marmarapk
      ∧ check_issue_tx_12 loopEnv marmaraConsts loopIssueTx = true
      ∧ check_issue_tx_12 loopEnv marmaraConsts loopIssueTxNoBaton = true
      ∧ voutAt loopEnv loopIssueTxNoBaton.vout marmaraConsts.MARMARA_BATON_VOUT
          ≠ loopEnv.MakeCC1vout marmaraConsts.EVAL_MARMARA marmaraConsts.MARMARA_BATON_AMOUNT
              (issue12LoopData loopEnv marmaraConsts loopIssueTxNoBaton).pk
      ∧ check_issue_tx loopV1Env marmaraConsts loopV1IssueTx = true
      ∧ check_issue_tx loopV1Env marmaraConsts loopV1IssueTxNoLoopMarker = false := by
  decide

set_option maxRecDepth 100000 in
/-- C14 fails in the code: `check_lcl_redistribution` computes the difference of a
locked-in-loop output to its share as `nValue != amount / (n + 1)`, a comparison whose
value is 0 or 1, so with a tolerance of 1 or more no output is rejected for its own
value.  On the sample loop of version 1.1 (amount 1000, one prior endorser, tolerance
100) the transfer with locked-in-loop outputs of 700 and 300 is accepted by
`check_lcl_redistribution` and by `check_issue_tx`, although 700 and 300 differ from the
share 500 by 200; the totals balance.  With outputs of 700 and 500 the total check
rejects. -/
theorem lcl_redistribution_accepts_unequal_shares :
    (check_lcl_redistribution loopV1Env marmaraConsts (loopV1TransferTx 700 300)
        loopV1IssueTxid 3 ∅).map (fun r => (r.2.1, r.2.2)) = some (1000, 1)
      ∧ check_issue_tx loopV1Env marmaraConsts (loopV1TransferTx 700 300) = true
      ∧ skipBadLoop loopV1Env (loopV1Env.GetHash (loopV1TransferTx 700 300)) = false
      ∧ (IsMarmaraLockedInLoopVout loopV1Env marmaraConsts (loopV1TransferTx 700 300) 1 []
          zeroid).1 = true
      ∧ (voutAt loopV1Env (loopV1TransferTx 700 300).vout 1).nValue = 700
      ∧ (IsMarmaraLockedInLoopVout loopV1Env marmaraConsts (loopV1TransferTx 700 300) 2 []
          zeroid).1 = true
      ∧ (voutAt loopV1Env (loopV1TransferTx 700 300).vout 2).nValue = 300
      ∧ (700 : Int) - Int.tdiv 1000 (1 + 1) > marmaraConsts.MARMARA_LOOP_TOLERANCE
      ∧ check_issue_tx loopV1Env marmaraConsts (loopV1TransferTx 500 500) = true
      ∧ check_issue_tx loopV1Env marmaraConsts (loopV1TransferTx 700 500) = false := by
  decide

set_option maxRecDepth 100000 in
/-- C18 fails in the code: `check_stake_tx` makes its key from the createtxid alone (the
address is lost to the precedence of `+` over `?:` ) and classifies output `i` of the
stake tx itself for input `i` .  On the sample chain it accepts the stake tx that spends
the activated output of 1000 of one owner into an activated output of 1000 of another
owner: the two outputs are different scripts with different keys. -/
theorem stake_accepts_move_to_other_owner :
    check_stake_tx sampleChainEnv marmaraConsts false stakeToOtherOwnerTx = true
      ∧ sampleChainEnv.myGetTransaction (vinAt sampleChainEnv stakeToOtherOwnerTx.vin 0).prevout.hash
          = some sampleActivatedTx
      ∧ IsMarmaraActivatedVout sampleChainEnv marmaraConsts sampleActivatedTx 0 []
          = (true, samplePk)
      ∧ IsMarmaraActivatedVout sampleChainEnv marmaraConsts stakeToOtherOwnerTx 0 []
          = (true, sampleHolderPk)
      ∧ (voutAt sampleChainEnv sampleActivatedTx.vout 0).scriptPubKey
          ≠ (voutAt sampleChainEnv stakeToOtherOwnerTx.vout 0).scriptPubKey
      ∧ samplePk ≠ sampleHolderPk
      ∧ check_stake_tx sampleChainEnv marmaraConsts false stakeToSelfTx = true := by
  decide

set_option maxRecDepth 100000 in
/-- C11 fails in the code: `check_issue_tx_12` tests that an issuance has no
locked-in-loop inputs through the sum of their values (`CCLockedInputs != 0`).  On the
sample loop it accepts, and so does `MarmaraValidate`, the issuance with one more input
that spends a locked-in-loop output of this loop of value zero: the issuance has a
locked-in-loop input, and the total of its locked-in-loop inputs is zero.  The output
spent passed validation itself: it is made by a transaction in the form of a stake
transaction, which `MarmaraValidate` accepts through `check_stake_tx`, from a plain cc
output of a transaction without cc inputs.  With the value 1 in place of zero the stake
transaction is accepted as well and the same issuance is rejected. -/
theorem issue12_accepts_locked_input_of_value_zero :
    check_issue_tx_12 (loopLockedEnv 0) marmaraConsts loopIssueTxLockedVin = true
      ∧ skipBadLoop (loopLockedEnv 0) ((loopLockedEnv 0).GetHash loopIssueTxLockedVin) = false
      ∧ (issue12LoopData (loopLockedEnv 0) marmaraConsts loopIssueTxLockedVin).lastfuncid
          = marmaraConsts.MARMARA_ISSUE
      ∧ isLockedInput (loopLockedEnv 0) marmaraConsts
          (vinAt (loopLockedEnv 0) loopIssueTxLockedVin.vin 2) = true
      ∧ lockedInputTotal (loopLockedEnv 0) marmaraConsts loopIssueTxLockedVin = 0
      ∧ MarmaraValidate (loopLockedEnv 0) marmaraConsts
          (marmaraCheckers (loopLockedEnv 0) marmaraConsts 8) loopIssueTxLockedVin 0 = true
      ∧ tx_has_my_cc_vin (loopLockedEnv 0) (loopLockedSourceTx 0) = false
      ∧ collectFuncIds (loopLockedEnv 0) marmaraConsts (loopLockedStakeTx 0)
          = {marmaraConsts.MARMARA_LOCKED}
      ∧ check_stake_tx (loopLockedEnv 0) marmaraConsts true (loopLockedStakeTx 0) = true
      ∧ MarmaraValidate (loopLockedEnv 0) marmaraConsts
          (marmaraCheckers (loopLockedEnv 0) marmaraConsts 8) (loopLockedStakeTx 0) 0 = true
      ∧ MarmaraValidate (loopLockedEnv 1) marmaraConsts
          (marmaraCheckers (loopLockedEnv 1) marmaraConsts 8) (loopLockedStakeTx 1) 0 = true
      ∧ lockedInputTotal (loopLockedEnv 1) marmaraConsts loopIssueTxLockedVin = 1
      ∧ check_issue_tx_12 (loopLockedEnv 1) marmaraConsts loopIssueTxLockedVin = false := by
  decide

/-! ## The settlement checker (claims C15 to C17) -/

section SettlementTheorems
variable {S : Type} [DecidableEq S]

/-- What an accepted settlement went through: vin0 names output `MARMARA_OPENCLOSE_VOUT`
of a known transaction, the walk from it found a credit loop and a baton, the first entry
of the loop is the createtxid of the settlement record, the loop has matured, the baton
tx is known and the amount checks passed. -/
theorem check_settlement_tx_accept (E : Env S) (K : Consts) (fuel : Nat)
    (tx : CTransaction S)
    (hfix : fixBadSettle E K (E.GetHash tx) = false)
    (hskip : skipBadLoop E (vinAt E tx.vin 0).prevout.hash = false)
    (h : check_settlement_tx E K fuel tx = some true) :
    ((vinAt E tx.vin 0).prevout.n : Int) = K.MARMARA_OPENCLOSE_VOUT
      ∧ ∃ issuetx n creditloop batontxid batontx,
        E.myGetTransaction (vinAt E tx.vin 0).prevout.hash = some issuetx
        ∧ MarmaraGetbatontxid E K fuel [] (vinAt E tx.vin 0).prevout.hash
            = some (n, creditloop, batontxid)
        ∧ 0 < n ∧ creditloop ≠ []
        ∧ creditloop.headD zeroid = (settleLoopDataOf E K tx).createtxid
        ∧ (settleCreationDataOf E K tx creditloop).matures ≤ E.lastTipHeight
        ∧ E.myGetTransaction batontxid = some batontx
        ∧ settleAmountsOk E K tx (settleLoopDataOf E K tx)
            (settleCreationDataOf E K tx creditloop) (settleBatonDataOf E K tx batontx)
            (creditloop.headD zeroid) = true := by
  unfold check_settlement_tx at h
  by_cases c1 : tx.vout.length = 0
  · rw [if_pos c1] at h; simp at h
  rw [if_neg c1] at h
  by_cases c2 : tx.vin.length = 0
  · rw [if_pos c2] at h; simp at h
  rw [if_neg c2, hfix] at h
  simp only [Bool.false_eq_true, if_false] at h
  by_cases c3 : (settleLoopDataOf E K tx).lastfuncid ≠ K.MARMARA_SETTLE
      ∧ (settleLoopDataOf E K tx).lastfuncid ≠ K.MARMARA_SETTLE_PARTIAL
  · rw [if_pos c3] at h; simp at h
  rw [if_neg c3] at h
  by_cases c4 : ((vinAt E tx.vin 0).prevout.n : Int) ≠ K.MARMARA_OPENCLOSE_VOUT
  · rw [if_pos c4] at h; simp at h
  rw [if_neg c4] at h
  refine ⟨by simpa using c4, ?_⟩
  cases hissue : E.myGetTransaction (vinAt E tx.vin 0).prevout.hash with
  | none => rw [hissue] at h; simp at h
  | some issuetx =>
    rw [hissue] at h
    simp only [] at h
    by_cases c45 : (!settleIssueOk E K (settleLoopDataOf E K tx) issuetx) = true
    · rw [if_pos c45] at h; simp at h
    rw [if_neg c45, hskip] at h
    simp only [Bool.false_eq_true, if_false] at h
    cases hwalk : MarmaraGetbatontxid E K fuel [] (vinAt E tx.vin 0).prevout.hash with
    | none => rw [hwalk] at h; simp at h
    | some r =>
      obtain ⟨n, creditloop, batontxid⟩ := r
      rw [hwalk] at h
      simp only [] at h
      by_cases c5 : n ≤ 0 ∨ creditloop = []
      · rw [if_pos c5] at h; simp at h
      rw [if_neg c5] at h
      rcases hcd : get_loop_creation_data E K (creditloop.headD zeroid)
        SMarmaraCreditLoopOpret.init (settleLoopDataOf E K tx).version with ⟨ret, cdata⟩
      rw [hcd] at h
      simp only [] at h
      by_cases c6 : ret < 0
      · rw [if_pos c6] at h; simp at h
      rw [if_neg c6] at h
      by_cases c7 : creditloop.headD zeroid ≠ (settleLoopDataOf E K tx).createtxid
      · rw [if_pos c7] at h; simp at h
      rw [if_neg c7] at h
      by_cases c8 : E.lastTipHeight < cdata.matures
      · rw [if_pos c8] at h; simp at h
      rw [if_neg c8] at h
      cases hbaton : E.myGetTransaction batontxid with
      | none => rw [hbaton] at h; simp at h
      | some batontx =>
        rw [hbaton] at h
        simp only [] at h
        by_cases c9 : batontx.vout.length = 0
        · rw [if_pos c9] at h; simp at h
        rw [if_neg c9] at h
        by_cases c10 : (MarmaraDecodeLoopOpret E K (voutBack E batontx).scriptPubKey
            SMarmaraCreditLoopOpret.init (settleLoopDataOf E K tx).version).2.lastfuncid
              ≠ K.MARMARA_ISSUE
            ∧ (MarmaraDecodeLoopOpret E K (voutBack E batontx).scriptPubKey
            SMarmaraCreditLoopOpret.init (settleLoopDataOf E K tx).version).2.lastfuncid
              ≠ K.MARMARA_TRANSFER
        · rw [if_pos c10] at h; simp at h
        rw [if_neg c10] at h
        simp only [Option.some.injEq] at h
        have hcd2 : settleCreationDataOf E K tx creditloop = cdata := by
          unfold settleCreationDataOf; rw [hcd]
        refine ⟨issuetx, n, creditloop, batontxid, batontx, rfl, rfl, by omega, ?_, ?_, ?_,
          hbaton, ?_⟩
        · exact fun he => c5 (Or.inr he)
        · simpa using c7
        · rw [hcd2]; omega
        · rw [hcd2]; exact h

/-- What the amount checks of an accepted settlement say. -/
theorem settleAmountsOk_true (E : Env S) (K : Consts) (tx : CTransaction S)
    (sd cd bd : SMarmaraCreditLoopOpret) (createtxid : uint256)
    (h : settleAmountsOk E K tx sd cd bd createtxid = true) :
    (∀ v ∈ tx.vout, (E.IsPayToCryptoCondition v.scriptPubKey).isSome = false)
      ∧ get_cc_balance E tx = settledAmountOf E K tx bd.pk + K.MARMARA_OPEN_MARKER_AMOUNT
      ∧ (sd.lastfuncid = K.MARMARA_SETTLE → cd.amount ≤ settledAmountOf E K tx bd.pk)
      ∧ (sd.lastfuncid = K.MARMARA_SETTLE_PARTIAL →
          0 < settledAmountOf E K tx bd.pk ∧ settledAmountOf E K tx bd.pk < cd.amount) := by
  unfold settleAmountsOk at h
  simp only [] at h
  by_cases c1 : tx.vout.any (fun v => (E.IsPayToCryptoCondition v.scriptPubKey).isSome) = true
  · rw [if_pos c1] at h; simp at h
  rw [if_neg c1] at h
  by_cases c2 : get_cc_balance E tx ≠ settledAmountOf E K tx bd.pk + K.MARMARA_OPEN_MARKER_AMOUNT
  · rw [if_pos c2] at h; simp at h
  rw [if_neg c2] at h
  by_cases c3 : sd.lastfuncid = K.MARMARA_SETTLE ∧ settledAmountOf E K tx bd.pk - cd.amount < 0
  · rw [if_pos c3] at h; simp at h
  rw [if_neg c3] at h
  by_cases c4 : sd.lastfuncid = K.MARMARA_SETTLE_PARTIAL
      ∧ (settledAmountOf E K tx bd.pk - cd.amount ≥ 0 ∨ settledAmountOf E K tx bd.pk ≤ 0)
  · rw [if_pos c4] at h; simp at h
  refine ⟨?_, by simpa using c2, ?_, ?_⟩
  · intro v hv
    simp only [List.any_eq_true, not_exists, not_and, Bool.not_eq_true] at c1
    exact c1 v hv
  · intro hf
    by_contra hlt
    exact c3 ⟨hf, by omega⟩
  · intro hf
    constructor
    · by_contra hle
      exact c4 ⟨hf, Or.inr (by omega)⟩
    · by_contra hge
      exact c4 ⟨hf, Or.inl (by omega)⟩

/-- C15: the bounds on the settled amount.  If `check_settlement_tx` accepts a settlement
tx (not the fixed bad settlement, its issuance not on the list of bad loops), then the
walk from the issuance that vin0 names found a credit loop and a known baton tx, and with
A the amount of the creation record of the loop and s the value of output
`MARMARA_SETTLE_VOUT` when that is a normal output paying to the key of the record of the
baton tx (s = 0 otherwise): A <= s when the record of the settlement is Settle, and
0 < s < A when it is SettlePartial. -/
theorem settlement_amount_bounds (E : Env S) (K : Consts) (fuel : Nat) (tx : CTransaction S)
    (hfix : fixBadSettle E K (E.GetHash tx) = false)
    (hskip : skipBadLoop E (vinAt E tx.vin 0).prevout.hash = false)
    (h : check_settlement_tx E K fuel tx = some true) :
    ∃ n creditloop batontxid batontx,
      MarmaraGetbatontxid E K fuel [] (vinAt E tx.vin 0).prevout.hash
          = some (n, creditloop, batontxid)
        ∧ E.myGetTransaction batontxid = some batontx
        ∧ ((settleLoopDataOf E K tx).lastfuncid = K.MARMARA_SETTLE →
            (settleCreationDataOf E K tx creditloop).amount
              ≤ settledAmountOf E K tx (settleBatonDataOf E K tx batontx).pk)
        ∧ ((settleLoopDataOf E K tx).lastfuncid = K.MARMARA_SETTLE_PARTIAL →
            0 < settledAmountOf E K tx (settleBatonDataOf E K tx batontx).pk
              ∧ settledAmountOf E K tx (settleBatonDataOf E K tx batontx).pk
                < (settleCreationDataOf E K tx creditloop).amount) := by
  obtain ⟨_, _, n, creditloop, batontxid, batontx, _, hw, _, _, _, _, hb, hok⟩ :=
    check_settlement_tx_accept E K fuel tx hfix hskip h
  obtain ⟨_, _, h3, h4⟩ := settleAmountsOk_true E K tx _ _ _ _ hok
  exact ⟨n, creditloop, batontxid, batontx, hw, hb, h3, h4⟩

/-- The cc balance of the transaction `MarmaraSettlement` builds. -/
theorem MarmaraSettlementTx_balance (E : Env S) (K : Consts) (issuetxid : uint256)
    (markerSig : S) (normalVins lclVins : List (CTxIn S)) (lclAmount : Int) (holderpk : CPubKey)
    (finalVouts : List (CTxOut S)) (issuetx : CTransaction S)
    (hsv : K.MARMARA_SETTLE_VOUT = 0)
    (hp2pk : E.IsPayToCryptoCondition (E.p2pkScript holderpk) = none)
    (hmcc : E.IsCCInput markerSig = true) (hmmy : E.ismyvin markerSig = true)
    (hissue : E.myGetTransaction issuetxid = some issuetx)
    (hmv : (voutAt E issuetx.vout (ofSigned 32 K.MARMARA_OPENCLOSE_VOUT : Nat)).nValue
      = K.MARMARA_OPEN_MARKER_AMOUNT)
    (hnormal : ∀ vin ∈ normalVins, E.IsCCInput vin.scriptSig = false)
    (hlcl : ccInputsValue E lclVins = lclAmount)
    (hfinal : ∀ v ∈ finalVouts, E.IsPayToCryptoCondition v.scriptPubKey = none) :
    settledAmountOf E K (MarmaraSettlementTx E K issuetxid markerSig normalVins lclVins
        lclAmount holderpk finalVouts) holderpk = lclAmount
      ∧ get_cc_balance E (MarmaraSettlementTx E K issuetxid markerSig normalVins lclVins
          lclAmount holderpk finalVouts)
        = lclAmount + K.MARMARA_OPEN_MARKER_AMOUNT := by
  constructor
  · simp [settledAmountOf, MarmaraSettlementTx, hsv, voutAt, hp2pk]
  · have hn : ccInputsValue E normalVins = 0 := by
      unfold ccInputsValue
      apply List.sum_eq_zero
      intro x hx
      simp only [List.mem_map] at hx
      obtain ⟨vin, hv, rfl⟩ := hx
      simp [hnormal vin hv]
    have hf : (finalVouts.map (fun vout =>
        if (E.IsPayToCryptoCondition vout.scriptPubKey).isSome then vout.nValue else 0)).sum
        = 0 := by
      apply List.sum_eq_zero
      intro x hx
      simp only [List.mem_map] at hx
      obtain ⟨v, hv, rfl⟩ := hx
      simp [hfinal v hv]
    have hsplit : ∀ (a : CTxIn S) (l1 l2 : List (CTxIn S)),
        ccInputsValue E (a :: (l1 ++ l2))
          = ccInputsValue E [a] + ccInputsValue E l1 + ccInputsValue E l2 := by
      intro a l1 l2
      simp only [ccInputsValue, List.map_cons, List.sum_cons, List.map_append, List.sum_append,
        List.map_nil, List.sum_nil]
      omega
    have hm : ccInputsValue E
        [{ prevout := { hash := issuetxid, n := ofSigned 32 K.MARMARA_OPENCLOSE_VOUT },
           scriptSig := markerSig }] = K.MARMARA_OPEN_MARKER_AMOUNT := by
      simp [ccInputsValue, hmcc, hmmy, hissue, hmv]
    have hbal : ∀ t : CTransaction S, get_cc_balance E t = ccInputsValue E t.vin
        - (t.vout.map (fun vout =>
            if (E.IsPayToCryptoCondition vout.scriptPubKey).isSome then vout.nValue else 0)).sum :=
      fun _ => rfl
    rw [hbal]
    simp only [MarmaraSettlementTx]
    rw [hsplit, hm, hn, hlcl]
    simp only [List.map_cons, List.sum_cons, hf, hp2pk, Option.isSome_none, Bool.false_eq_true,
      if_false]
    omega

/-- C16: the balance of an accepted settlement.  If `check_settlement_tx` accepts a
settlement tx (not the fixed bad settlement, its issuance not on the list of bad loops),
then no output of the transaction is a cc output, and the cc balance (the values of the
Marmara cc outputs it spends minus the values of its cc outputs) equals the settled
amount plus `MARMARA_OPEN_MARKER_AMOUNT` exactly.  The transaction `MarmaraSettlement`
builds satisfies the equality: it spends the open/close marker of the issuance (an
output of the marker amount), normal inputs and locked-in-loop inputs whose values total
`lclAmount`, pays `lclAmount` to the holder in vout0 (`MARMARA_SETTLE_VOUT` is 0) and has
no cc output. -/
theorem settlement_balance_exact (E : Env S) (K : Consts) (fuel : Nat) (tx : CTransaction S)
    (hfix : fixBadSettle E K (E.GetHash tx) = false)
    (hskip : skipBadLoop E (vinAt E tx.vin 0).prevout.hash = false)
    (h : check_settlement_tx E K fuel tx = some true) :
    (∀ v ∈ tx.vout, (E.IsPayToCryptoCondition v.scriptPubKey).isSome = false)
      ∧ (∃ n creditloop batontxid batontx,
          MarmaraGetbatontxid E K fuel [] (vinAt E tx.vin 0).prevout.hash
            = some (n, creditloop, batontxid)
          ∧ E.myGetTransaction batontxid = some batontx
          ∧ get_cc_balance E tx
            = settledAmountOf E K tx (settleBatonDataOf E K tx batontx).pk
              + K.MARMARA_OPEN_MARKER_AMOUNT)
      ∧ (∀ (issuetxid : uint256) (markerSig : S) (normalVins lclVins : List (CTxIn S))
          (lclAmount : Int) (holderpk : CPubKey) (finalVouts : List (CTxOut S))
          (issuetx : CTransaction S),
          K.MARMARA_SETTLE_VOUT = 0 →
          E.IsPayToCryptoCondition (E.p2pkScript holderpk) = none →
          E.IsCCInput markerSig = true → E.ismyvin markerSig = true →
          E.myGetTransaction issuetxid = some issuetx →
          (voutAt E issuetx.vout (ofSigned 32 K.MARMARA_OPENCLOSE_VOUT : Nat)).nValue
            = K.MARMARA_OPEN_MARKER_AMOUNT →
          (∀ vin ∈ normalVins, E.IsCCInput vin.scriptSig = false) →
          ccInputsValue E lclVins = lclAmount →
          (∀ v ∈ finalVouts, E.IsPayToCryptoCondition v.scriptPubKey = none) →
          get_cc_balance E (MarmaraSettlementTx E K issuetxid markerSig normalVins lclVins
              lclAmount holderpk finalVouts)
            = settledAmountOf E K (MarmaraSettlementTx E K issuetxid markerSig normalVins
                lclVins lclAmount holderpk finalVouts) holderpk
              + K.MARMARA_OPEN_MARKER_AMOUNT) := by
  obtain ⟨_, _, n, creditloop, batontxid, batontx, _, hw, _, _, _, _, hb, hok⟩ :=
    check_settlement_tx_accept E K fuel tx hfix hskip h
  obtain ⟨h1, h2, _, _⟩ := settleAmountsOk_true E K tx _ _ _ _ hok
  refine ⟨h1, ⟨n, creditloop, batontxid, batontx, hw, hb, h2⟩, ?_⟩
  intro issuetxid markerSig normalVins lclVins lclAmount holderpk finalVouts issuetx
    hsv hp2pk hmcc hmmy hissue hmv hnormal hlcl hfinal
  obtain ⟨e1, e2⟩ := MarmaraSettlementTx_balance E K issuetxid markerSig normalVins lclVins
    lclAmount holderpk finalVouts issuetx hsv hp2pk hmcc hmmy hissue hmv hnormal hlcl hfinal
  rw [e1, e2]

/-- C17: maturity and the open/close marker.  If `check_settlement_tx` accepts a
settlement tx (not the fixed bad settlement, its issuance not on the list of bad loops),
then its first input names output `MARMARA_OPENCLOSE_VOUT` of a known transaction, the
walk from that transaction found the credit loop, and the height of the last tip is not
below the maturity height of the creation record of the loop; so a settlement below the
maturity height, or whose first input names another output index, is rejected. -/
theorem settlement_needs_maturity_and_marker (E : Env S) (K : Consts) (fuel : Nat)
    (tx : CTransaction S)
    (hfix : fixBadSettle E K (E.GetHash tx) = false)
    (hskip : skipBadLoop E (vinAt E tx.vin 0).prevout.hash = false)
    (h : check_settlement_tx E K fuel tx = some true) :
    ((vinAt E tx.vin 0).prevout.n : Int) = K.MARMARA_OPENCLOSE_VOUT
      ∧ ∃ issuetx n creditloop batontxid,
        E.myGetTransaction (vinAt E tx.vin 0).prevout.hash = some issuetx
        ∧ MarmaraGetbatontxid E K fuel [] (vinAt E tx.vin 0).prevout.hash
            = some (n, creditloop, batontxid)
        ∧ creditloop.headD zeroid = (settleLoopDataOf E K tx).createtxid
        ∧ (settleCreationDataOf E K tx creditloop).matures ≤ E.lastTipHeight := by
  obtain ⟨h0, issuetx, n, creditloop, batontxid, _, hi, hw, _, _, hc, hm, _, _⟩ :=
    check_settlement_tx_accept E K fuel tx hfix hskip h
  exact ⟨h0, issuetx, n, creditloop, batontxid, hi, hw, hc, hm⟩

end SettlementTheorems

set_option maxRecDepth 100000 in
/-- Witness of C15: the settlement of the sample loop, a full settlement of the amount
1000 that pays 1000 to the holder. -/
theorem settlement_amount_bounds_witness :
    check_settlement_tx loopEnv marmaraConsts 5 loopSettleTx = some true
      ∧ (settleLoopDataOf loopEnv marmaraConsts loopSettleTx).lastfuncid
          = marmaraConsts.MARMARA_SETTLE
      ∧ (settleCreationDataOf loopEnv marmaraConsts loopSettleTx [loopCreateTxid]).amount = 1000
      ∧ settledAmountOf loopEnv marmaraConsts loopSettleTx sampleHolderPk = 1000
      ∧ ∃ n creditloop batontxid batontx,
        MarmaraGetbatontxid loopEnv marmaraConsts 5 []
            (vinAt loopEnv loopSettleTx.vin 0).prevout.hash = some (n, creditloop, batontxid)
          ∧ loopEnv.myGetTransaction batontxid = some batontx
          ∧ ((settleLoopDataOf loopEnv marmaraConsts loopSettleTx).lastfuncid
              = marmaraConsts.MARMARA_SETTLE →
            (settleCreationDataOf loopEnv marmaraConsts loopSettleTx creditloop).amount
              ≤ settledAmountOf loopEnv marmaraConsts loopSettleTx
                  (settleBatonDataOf loopEnv marmaraConsts loopSettleTx batontx).pk)
          ∧ ((settleLoopDataOf loopEnv marmaraConsts loopSettleTx).lastfuncid
              = marmaraConsts.MARMARA_SETTLE_PARTIAL →
            0 < settledAmountOf loopEnv marmaraConsts loopSettleTx
                  (settleBatonDataOf loopEnv marmaraConsts loopSettleTx batontx).pk
              ∧ settledAmountOf loopEnv marmaraConsts loopSettleTx
                  (settleBatonDataOf loopEnv marmaraConsts loopSettleTx batontx).pk
                < (settleCreationDataOf loopEnv marmaraConsts loopSettleTx creditloop).amount) :=
  ⟨by decide, by decide, by decide, by decide,
    settlement_amount_bounds loopEnv marmaraConsts 5 loopSettleTx (by decide) (by decide)
      (by decide)⟩

set_option maxRecDepth 100000 in
/-- Witness of C16: the settlement of the sample loop is the transaction
`MarmaraSettlement` builds from the two locked-in-loop outputs of the issuance; it has no
cc output and its cc balance is 1000 + 10000. -/
theorem settlement_balance_exact_witness :
    check_settlement_tx loopEnv marmaraConsts 5 loopSettleTx = some true
      ∧ loopSettleTx = MarmaraSettlementTx loopEnv marmaraConsts loopIssueTxid
          (.ccSig loopEnv.Marmarapk) ((loopSettleTx.vin.drop 1).take 1) (loopSettleTx.vin.drop 2)
          1000 sampleHolderPk (loopSettleTx.vout.drop 1)
      ∧ get_cc_balance loopEnv loopSettleTx = 1000 + marmaraConsts.MARMARA_OPEN_MARKER_AMOUNT
      ∧ ∀ v ∈ loopSettleTx.vout, (loopEnv.IsPayToCryptoCondition v.scriptPubKey).isSome = false :=
  ⟨by decide, by decide, by decide,
    (settlement_balance_exact loopEnv marmaraConsts 5 loopSettleTx (by decide) (by decide)
      (by decide)).1⟩

set_option maxRecDepth 100000 in
/-- Witness of C17: the settlement of the sample loop at height 200000, past the maturity
height 150000 of the loop; its first input names output 3 of the issuance. -/
theorem settlement_needs_maturity_and_marker_witness :
    check_settlement_tx loopEnv marmaraConsts 5 loopSettleTx = some true
      ∧ (settleCreationDataOf loopEnv marmaraConsts loopSettleTx [loopCreateTxid]).matures
          = 150000
      ∧ loopEnv.lastTipHeight = 200000
      ∧ ((vinAt loopEnv loopSettleTx.vin 0).prevout.n : Int)
          = marmaraConsts.MARMARA_OPENCLOSE_VOUT :=
  ⟨by decide, by decide, by decide,
    (settlement_needs_maturity_and_marker loopEnv marmaraConsts 5 loopSettleTx (by decide)
      (by decide) (by decide)).1⟩

/-! ## The checker of version 1.1: markers and shares (claims C13, C14) -/

section IssueV1Theorems
variable {S : Type} [DecidableEq S]

/-- What the marker part of `check_issue_tx` enforces. -/
theorem issueMarkers_some (E : Env S) (K : Consts) (tx : CTransaction S)
    (ld : SMarmaraCreditLoopOpret) (used used1 : Finset Int)
    (h : issueMarkers E K tx ld used = some used1) :
    (K.MARMARA_BATON_VOUT < (tx.vout.length : Int)
      ∧ voutAt E tx.vout K.MARMARA_BATON_VOUT
        = E.MakeCC1vout K.EVAL_MARMARA K.MARMARA_BATON_AMOUNT ld.pk)
    ∧ (ld.lastfuncid = K.MARMARA_ISSUE →
      (K.MARMARA_LOOP_MARKER_VOUT < (tx.vout.length : Int)
        ∧ voutAt E tx.vout K.MARMARA_LOOP_MARKER_VOUT
          = E.MakeCC1vout K.EVAL_MARMARA K.MARMARA_LOOP_MARKER_AMOUNT E.Marmarapk)
      ∧ (K.MARMARA_OPENCLOSE_VOUT < (tx.vout.length : Int)
        ∧ voutAt E tx.vout K.MARMARA_OPENCLOSE_VOUT
          = E.MakeCC1vout K.EVAL_MARMARA K.MARMARA_OPEN_MARKER_AMOUNT E.Marmarapk)) := by
  unfold issueMarkers at h
  simp only [] at h
  by_cases c1 : (tx.vout.length : Int) ≤ K.MARMARA_BATON_VOUT
      ∨ voutAt E tx.vout K.MARMARA_BATON_VOUT
        ≠ E.MakeCC1vout K.EVAL_MARMARA K.MARMARA_BATON_AMOUNT ld.pk
  · rw [if_pos c1] at h; simp at h
  rw [if_neg c1] at h
  simp only [not_or, not_le, ne_eq, not_not] at c1
  refine ⟨c1, ?_⟩
  intro hf
  rw [if_pos hf] at h
  by_cases c2 : (tx.vout.length : Int) ≤ K.MARMARA_OPENCLOSE_VOUT
      ∨ voutAt E tx.vout K.MARMARA_OPENCLOSE_VOUT
        ≠ E.MakeCC1vout K.EVAL_MARMARA K.MARMARA_OPEN_MARKER_AMOUNT E.Marmarapk
  · rw [if_pos c2] at h; simp at h
  rw [if_neg c2] at h
  by_cases c3 : (tx.vout.length : Int) ≤ K.MARMARA_LOOP_MARKER_VOUT
      ∨ voutAt E tx.vout K.MARMARA_LOOP_MARKER_VOUT
        ≠ E.MakeCC1vout K.EVAL_MARMARA K.MARMARA_LOOP_MARKER_AMOUNT E.Marmarapk
  · rw [if_pos c3] at h; simp at h
  simp only [not_or, not_le, ne_eq, not_not] at c2 c3
  exact ⟨c3, c2⟩

/-- The baton and the markers in version 1.1: if `check_issue_tx` accepts a transaction
that is not on the list of bad loops, output `MARMARA_BATON_VOUT` is the baton to the key
of the record of the last output and, for an issuance, outputs `MARMARA_LOOP_MARKER_VOUT`
and `MARMARA_OPENCLOSE_VOUT` are the two markers to the protocol key. -/
theorem check_issue_tx_markers (E : Env S) (K : Consts) (tx : CTransaction S)
    (hskip : skipBadLoop E (E.GetHash tx) = false) (h : check_issue_tx E K tx = true) :
    voutAt E tx.vout K.MARMARA_BATON_VOUT
        = E.MakeCC1vout K.EVAL_MARMARA K.MARMARA_BATON_AMOUNT
            (MarmaraDecodeLoopOpret E K (voutBack E tx).scriptPubKey SMarmaraCreditLoopOpret.init
              K.MARMARA_OPRET_VERSION_DEFAULT).2.pk
      ∧ ((MarmaraDecodeLoopOpret E K (voutBack E tx).scriptPubKey SMarmaraCreditLoopOpret.init
            K.MARMARA_OPRET_VERSION_DEFAULT).2.lastfuncid = K.MARMARA_ISSUE →
        voutAt E tx.vout K.MARMARA_LOOP_MARKER_VOUT
            = E.MakeCC1vout K.EVAL_MARMARA K.MARMARA_LOOP_MARKER_AMOUNT E.Marmarapk
          ∧ voutAt E tx.vout K.MARMARA_OPENCLOSE_VOUT
            = E.MakeCC1vout K.EVAL_MARMARA K.MARMARA_OPEN_MARKER_AMOUNT E.Marmarapk) := by
  unfold check_issue_tx at h
  by_cases c1 : tx.vout.length = 0
  · rw [if_pos c1] at h; simp at h
  rw [if_neg c1, hskip] at h
  simp only [Bool.false_eq_true, if_false] at h
  split at h
  · simp at h
  split at h
  · simp at h
  next ivin hscan =>
  split at h
  · simp at h
  split at h
  · simp at h
  split at h
  · simp at h
  next ivin1 prevtxid hbaton =>
  split at h
  · simp at h
  next usedccvouts loopAmount nPrev hlcl =>
  split at h
  · simp at h
  next used hmark =>
  obtain ⟨hb, hm⟩ := issueMarkers_some E K tx _ _ _ hmark
  exact ⟨hb.2, fun hf => ⟨(hm hf).1.2, (hm hf).2.2⟩⟩

end IssueV1Theorems

section LclTheorems
variable {S : Type} [DecidableEq S]

/-- With a tolerance of 1 or more, a round of the first loop of `check_lcl_redistribution`
does not depend on the loop amount or on the number of prior endorsers: the share test
never rejects. -/
theorem lclVoutStep_ignores_share (E : Env S) (K : Consts) (tx : CTransaction S)
    (createtxid : uint256) (a1 a2 n1 n2 : Int) (st : LclVouts) (i : Nat)
    (hT : 1 ≤ K.MARMARA_LOOP_TOLERANCE) :
    lclVoutStep E K tx createtxid a1 n1 st i = lclVoutStep E K tx createtxid a2 n2 st i := by
  have key : ∀ (v a n : Int),
      ¬ ((if v ≠ Int.tdiv a (n + 1) then (1 : Int) else 0) < -K.MARMARA_LOOP_TOLERANCE
        ∨ (if v ≠ Int.tdiv a (n + 1) then (1 : Int) else 0) > K.MARMARA_LOOP_TOLERANCE) := by
    intro v a n
    split_ifs <;> omega
  unfold lclVoutStep
  simp only [key, if_false]

end LclTheorems

/-! ## The results of the baton walk (claim C21) -/
section WalkResults
variable {S : Type}

/-- What the while loop of `MarmaraGetbatontxid` returns, from any state of the loop. -/
theorem batonWalk_sound (E : Env S) (K : Consts) :
    ∀ (fuel : Nat) (txid : uint256) (cl : List uint256) (n r : Int) (cl1 : List uint256)
      (b : uint256), 0 ≤ n →
      batonWalk E K fuel txid cl n = some (r, cl1, b) →
      (r = 0 ∧ n = 0 ∧ cl1 = cl ∧ b = zeroid
          ∧ E.CCgetspenttxid txid K.MARMARA_BATON_VOUT = none)
      ∨ (r = -1 ∧ b = zeroid)
      ∨ (∃ trail : List uint256, cl1 = cl ++ trail
          ∧ n + (trail.length : Int) = r ∧ trail.head? = some txid ∧ BatonLinked E K trail
          ∧ E.CCgetspenttxid (trail.getLastD zeroid) K.MARMARA_BATON_VOUT = some b
          ∧ (E.CCgettxout b K.MARMARA_BATON_VOUT = K.MARMARA_BATON_AMOUNT
            ∨ E.CCgettxout b K.MARMARA_BATON_VOUT > 0)
          ∧ 0 < r) := by
  intro fuel
  induction fuel with
  | zero => intro txid cl n r cl1 b _ h; simp [batonWalk] at h
  | succ fuel ih =>
    intro txid cl n r cl1 b hn h
    rw [batonWalk] at h
    cases hs : E.CCgetspenttxid txid K.MARMARA_BATON_VOUT with
    | none =>
      rw [hs] at h
      by_cases c : n = 0
      · simp [c] at h
        obtain ⟨h1, h2, h3⟩ := h
        exact Or.inl ⟨h1.symm, c, h2.symm, h3.symm, rfl⟩
      · simp [c] at h
        obtain ⟨h1, _, h3⟩ := h
        exact Or.inr (Or.inl ⟨h1.symm, h3.symm⟩)
    | some s =>
      rw [hs] at h
      simp only at h
      have hone : (E.CCgettxout s K.MARMARA_BATON_VOUT = K.MARMARA_BATON_AMOUNT
            ∨ E.CCgettxout s K.MARMARA_BATON_VOUT > 0) →
          ∀ r cl1 b, (n + 1, cl ++ [txid], s) = (r, cl1, b) →
          ∃ trail : List uint256, cl1 = cl ++ trail
          ∧ n + (trail.length : Int) = r ∧ trail.head? = some txid ∧ BatonLinked E K trail
          ∧ E.CCgetspenttxid (trail.getLastD zeroid) K.MARMARA_BATON_VOUT = some b
          ∧ (E.CCgettxout b K.MARMARA_BATON_VOUT = K.MARMARA_BATON_AMOUNT
            ∨ E.CCgettxout b K.MARMARA_BATON_VOUT > 0)
          ∧ 0 < r := by
        intro hv r cl1 b e
        simp only [Prod.mk.injEq] at e
        obtain ⟨e1, e2, e3⟩ := e
        subst e3
        refine ⟨[txid], e2.symm, by simpa using e1, rfl, by simp [BatonLinked], ?_, hv,
          by omega⟩
        simpa using hs
      by_cases c1 : E.CCgettxout s K.MARMARA_BATON_VOUT = K.MARMARA_BATON_AMOUNT
      · rw [if_pos c1] at h
        exact Or.inr (Or.inr (hone (Or.inl c1) r cl1 b (Option.some.inj h)))
      · rw [if_neg c1] at h
        by_cases c2 : E.CCgettxout s K.MARMARA_BATON_VOUT > 0
        · rw [if_pos c2] at h
          exact Or.inr (Or.inr (hone (Or.inr c2) r cl1 b (Option.some.inj h)))
        · rw [if_neg c2] at h
          rcases ih s (cl ++ [txid]) (n + 1) r cl1 b (by omega) h with h0 | h1 | ⟨trail, t1, t2, t3, t4, t5, tv, t6⟩
          · omega
          · exact Or.inr (Or.inl h1)
          · refine Or.inr (Or.inr ⟨txid :: trail, by simp [t1], ?_, rfl, ?_, ?_, tv, t6⟩)
            · simp only [List.length_cons, Nat.cast_add, Nat.cast_one]; omega
            · cases trail with
              | nil => simp at t3
              | cons a rest =>
                simp only [List.head?_cons, Option.some.injEq] at t3
                subst t3
                exact List.Chain'.cons hs t4
            · cases trail with
              | nil => simp at t3
              | cons a rest => simpa using t5

/-- The walk along a chain of spent batons without a live one: with enough fuel it ends
with 0 when nothing was followed, else with -1. -/
theorem batonWalk_dead (E : Env S) (K : Consts) (ss : List uint256) :
    ∀ (fuel : Nat) (txid : uint256) (cl : List uint256) (n : Int), 0 ≤ n →
      DeadBatonChain E K txid ss → ss.length < fuel →
      batonWalk E K fuel txid cl n
        = if ss = [] ∧ n = 0 then some (0, cl, zeroid)
          else some (-1, cl ++ (txid :: ss).dropLast, zeroid) := by
  induction ss with
  | nil =>
    intro fuel txid cl n hn h hf
    cases fuel with
    | zero => simp at hf
    | succ fuel =>
      simp only [DeadBatonChain] at h
      rw [batonWalk]
      by_cases c : n = 0 <;> simp [h, c]
  | cons s rest ih =>
    intro fuel txid cl n hn h hf
    cases fuel with
    | zero => simp at hf
    | succ fuel =>
      obtain ⟨h1, h2, h3, h4⟩ := h
      have h3b : ¬ (E.CCgettxout s K.MARMARA_BATON_VOUT > 0) := by omega
      rw [batonWalk]
      simp only [h1, if_neg h2, if_neg h3b]
      rw [ih fuel s (cl ++ [txid]) (n + 1) (by omega) h4 (by simpa using hf)]
      have hn1 : ¬ (n + 1 = 0) := by omega
      simp [hn1]

/-- C21: the results of MarmaraGetbatontxid.  When the query transaction is not resolved
to a creation txid the result is -1 (trail unchanged, zero baton txid).  When it is
resolved to c: after following one or more spent batons none of whose spenders has a
positive-valued baton output, up to one whose baton has no spender, the result is -1;
when the baton output of c is unspent the result is 0 with nothing appended to the trail
and a zero baton txid; and whenever the walk returns n, n is -1, 0 or positive, and for
n > 0 exactly n txids were appended to the trail, the first being c, each spending the
baton output of the one before, and the returned baton txid spends the baton output of
the last trail entry (its baton value has the fixed baton amount or any other positive
value). -/
theorem getbatontxid_results (E : Env S) (K : Consts) (cl : List uint256) (q : uint256) :
    ((get_create_txid E K q K.MARMARA_OPRET_VERSION_ANY).1 ≠ 0 →
      ∀ fuel : Nat, MarmaraGetbatontxid E K fuel cl q = some (-1, cl, zeroid))
    ∧ (∀ c : uint256, get_create_txid E K q K.MARMARA_OPRET_VERSION_ANY = (0, c) →
      (∀ (ss : List uint256) (fuel : Nat), ss ≠ [] → DeadBatonChain E K c ss →
          ss.length < fuel →
          MarmaraGetbatontxid E K fuel cl q = some (-1, cl ++ c :: ss.dropLast, zeroid))
      ∧ (∀ fuel : Nat, E.CCgetspenttxid c K.MARMARA_BATON_VOUT = none →
          MarmaraGetbatontxid E K (fuel + 1) cl q = some (0, cl, zeroid))
      ∧ (∀ (fuel : Nat) (n : Int) (cl1 : List uint256) (b : uint256),
          MarmaraGetbatontxid E K fuel cl q = some (n, cl1, b) →
          (n = -1 ∨ n = 0 ∨ 0 < n)
          ∧ (n = 0 → E.CCgetspenttxid c K.MARMARA_BATON_VOUT = none ∧ cl1 = cl ∧ b = zeroid)
          ∧ (0 < n → ∃ trail : List uint256, cl1 = cl ++ trail
              ∧ (trail.length : Int) = n ∧ trail.head? = some c ∧ BatonLinked E K trail
              ∧ E.CCgetspenttxid (trail.getLastD zeroid) K.MARMARA_BATON_VOUT = some b
              ∧ (E.CCgettxout b K.MARMARA_BATON_VOUT = K.MARMARA_BATON_AMOUNT
                ∨ E.CCgettxout b K.MARMARA_BATON_VOUT > 0)))) := by
  refine ⟨?_, ?_⟩
  · intro hne fuel
    simp only [MarmaraGetbatontxid]
    rw [if_neg hne]
  · intro c hc
    refine ⟨?_, ?_, ?_⟩
    · intro ss fuel hss hd hf
      simp only [MarmaraGetbatontxid, hc, if_true]
      rw [batonWalk_dead E K ss fuel c cl 0 (le_refl 0) hd hf]
      cases ss with
      | nil => exact absurd rfl hss
      | cons s rest => simp
    · intro fuel hn
      simp [MarmaraGetbatontxid, hc, batonWalk, hn]
    · intro fuel n cl1 b h
      simp only [MarmaraGetbatontxid, hc, if_true] at h
      rcases batonWalk_sound E K fuel c cl 0 n cl1 b (le_refl 0) h with
        ⟨h1, _, h3, h4, h5⟩ | ⟨h1, _⟩ | ⟨trail, t1, t2, t3, t4, t5, tv, t6⟩
      · refine ⟨Or.inr (Or.inl h1), fun _ => ⟨h5, h3, h4⟩, fun hp => ?_⟩
        omega
      · refine ⟨Or.inl h1, fun h0 => ?_, fun hp => ?_⟩ <;> omega
      · refine ⟨Or.inr (Or.inr t6), fun h0 => ?_, fun _ => ?_⟩
        · omega
        · exact ⟨trail, t1, by omega, t3, t4, t5, tv⟩

end WalkResults

set_option maxRecDepth 100000 in
/-- Witness of C21: the walk over the sample loop, started from its issuance, returns 1
with the creation txid as the one trail entry and the issuance as the baton. -/
theorem getbatontxid_results_witness :
    get_create_txid loopEnv marmaraConsts loopIssueTxid marmaraConsts.MARMARA_OPRET_VERSION_ANY
        = (0, loopCreateTxid)
      ∧ MarmaraGetbatontxid loopEnv marmaraConsts 5 [] loopIssueTxid
        = some (1, [loopCreateTxid], loopIssueTxid)
      ∧ ∃ trail : List uint256, [loopCreateTxid] = [] ++ trail
          ∧ (trail.length : Int) = 1 ∧ trail.head? = some loopCreateTxid
          ∧ BatonLinked loopEnv marmaraConsts trail
          ∧ loopEnv.CCgetspenttxid (trail.getLastD zeroid) marmaraConsts.MARMARA_BATON_VOUT
              = some loopIssueTxid
          ∧ (loopEnv.CCgettxout loopIssueTxid marmaraConsts.MARMARA_BATON_VOUT
                = marmaraConsts.MARMARA_BATON_AMOUNT
            ∨ loopEnv.CCgettxout loopIssueTxid marmaraConsts.MARMARA_BATON_VOUT > 0) :=
  ⟨by decide, by decide,
    ((((getbatontxid_results loopEnv marmaraConsts [] loopIssueTxid).2 loopCreateTxid
      (by decide)).2.2 5 1 [loopCreateTxid] loopIssueTxid (by decide)).2.2 (by decide))⟩

/-! ## The redistribution outputs of the builder (claims C27, C28) -/
section RedistributeTheorems
variable {S : Type}

/-- The values after the rounding error `err` was distributed over outputs of equal
value `q` : the first `err` carry one satoshi more. -/
theorem distributeRoundError_values (q : Int) :
    ∀ (l : List (CTxOut S)) (err : Nat), (∀ v ∈ l, v.nValue = q) → err ≤ l.length →
      (distributeRoundError l (err : Int)).map CTxOut.nValue
        = List.replicate err (q + 1) ++ List.replicate (l.length - err) q := by
  intro l
  induction l with
  | nil => intro err _ he; simp at he; subst he; simp [distributeRoundError]
  | cons v rest ih =>
    intro err hq he
    cases err with
    | zero =>
      have h1 : ∀ w ∈ rest, w.nValue = q := fun w hw => hq w (List.mem_cons_of_mem _ hw)
      have h2 : List.map CTxOut.nValue rest = List.replicate rest.length q := by
        apply List.eq_replicate_iff.mpr
        refine ⟨by simp, ?_⟩
        intro b hb
        obtain ⟨w, hw, rfl⟩ := List.mem_map.mp hb
        exact h1 w hw
      simp [distributeRoundError, hq v (List.mem_cons_self _ _), h2, List.replicate_succ]
    | succ e =>
      have h1 : ∀ w ∈ rest, w.nValue = q := fun w hw => hq w (List.mem_cons_of_mem _ hw)
      have he2 : e ≤ rest.length := by simpa using he
      have hne : ((e + 1 : Nat) : Int) ≠ 0 := by omega
      have hsub : ((e + 1 : Nat) : Int) - 1 = (e : Int) := by omega
      simp only [distributeRoundError, if_pos hne, hsub, List.map_cons, ih e h1 he2,
        hq v (List.mem_cons_self _ _), List.replicate_succ, List.cons_append,
        List.length_cons, Nat.add_sub_add_right]

/-- The scripts of the outputs are not touched by the distribution of the error. -/
theorem distributeRoundError_scripts :
    ∀ (l : List (CTxOut S)) (err : Int),
      (distributeRoundError l err).map CTxOut.scriptPubKey = l.map CTxOut.scriptPubKey := by
  intro l
  induction l with
  | nil => intro err; simp [distributeRoundError]
  | cons v rest ih =>
    intro err
    by_cases h : err ≠ 0
    · simp [distributeRoundError, h, ih]
    · simp [distributeRoundError, h]

/-- Sum of the values floor(a/n) + 1 on the first a mod n of n outputs and floor(a/n) on
the others. -/
theorem shares_sum (a : Int) (n : Nat) (hn : 0 < n) :
    (List.replicate (a % (n : Int)).toNat (a / (n : Int) + 1)
      ++ List.replicate (n - (a % (n : Int)).toNat) (a / (n : Int))).sum = a := by
  have hn0 : (0 : Int) < (n : Int) := by exact_mod_cast hn
  have h1 : 0 ≤ a % (n : Int) := Int.emod_nonneg a (by omega)
  have h2 : a % (n : Int) < (n : Int) := Int.emod_lt_of_pos a hn0
  have h3 : (n : Int) * (a / (n : Int)) + a % (n : Int) = a := Int.ediv_add_emod a n
  have h4 : ((a % (n : Int)).toNat : Int) = a % (n : Int) := Int.toNat_of_nonneg h1
  have h5 : (a % (n : Int)).toNat ≤ n := by omega
  simp only [List.sum_append, List.sum_replicate, smul_eq_mul, nsmul_eq_mul]
  push_cast [Nat.cast_sub h5]
  rw [h4]
  nlinarith [h3]

/-- The values of the normal outputs of `redistribute_lcl_remainder` . -/
theorem lclNormalVouts_values (E : Env S) (pks : List CPubKey) (a : Int) (hn : pks ≠ [])
    (ha : 0 ≤ a) :
    (lclNormalVouts E pks (pks.length : Int) a).map CTxOut.nValue
      = List.replicate (a % (pks.length : Int)).toNat (a / (pks.length : Int) + 1)
        ++ List.replicate (pks.length - (a % (pks.length : Int)).toNat)
            (a / (pks.length : Int)) := by
  have hlen : 0 < pks.length := List.length_pos.mpr hn
  have hn0 : (0 : Int) < (pks.length : Int) := by exact_mod_cast hlen
  have h1 : 0 ≤ a % (pks.length : Int) := Int.emod_nonneg a (by omega)
  have h2 : a % (pks.length : Int) < (pks.length : Int) := Int.emod_lt_of_pos a hn0
  have h3 : (pks.length : Int) * (a / (pks.length : Int)) + a % (pks.length : Int) = a :=
    Int.ediv_add_emod a _
  have ht : Int.tdiv a (pks.length : Int) = a / (pks.length : Int) :=
    Int.tdiv_eq_ediv ha (by omega)
  have herr : a - a / (pks.length : Int) * (pks.length : Int)
      = (((a % (pks.length : Int)).toNat : Nat) : Int) := by
    rw [Int.toNat_of_nonneg h1]; nlinarith [h3]
  simp only [lclNormalVouts, ht, herr]
  have := distributeRoundError_values (a / (pks.length : Int))
    (pks.map (fun pk =>
      ({ nValue := a / (pks.length : Int), scriptPubKey := E.p2pkScript pk } : CTxOut S)))
    (a % (pks.length : Int)).toNat
    (by intro v hv; obtain ⟨pk, _, rfl⟩ := List.mem_map.mp hv; rfl)
    (by simp only [List.length_map]; omega)
  simpa using this

/-- The values of the locked-in-loop change outputs of `redistribute_lcl_remainder` . -/
theorem lclChangeVouts_values (E : Env S) (K : Consts) (createtxid : uint256)
    (pks : List CPubKey) (c : Int)
    (hval : ∀ e v pk1 pk2 d, (E.MakeCC1of2vout e v pk1 pk2 d).nValue = v)
    (hn : pks ≠ []) (hc : 0 < c) (hc64 : c < 2 ^ 63) :
    (lclChangeVouts E K createtxid pks c).map CTxOut.nValue
      = List.replicate (c % (pks.length : Int)).toNat (c / (pks.length : Int) + 1)
        ++ List.replicate (pks.length - (c % (pks.length : Int)).toNat)
            (c / (pks.length : Int)) := by
  have hlen : 0 < pks.length := List.length_pos.mpr hn
  have hn0 : (0 : Int) < (pks.length : Int) := by exact_mod_cast hlen
  have h1 : 0 ≤ c % (pks.length : Int) := Int.emod_nonneg c (by omega)
  have h2 : c % (pks.length : Int) < (pks.length : Int) := Int.emod_lt_of_pos c hn0
  have h3 : (pks.length : Int) * (c / (pks.length : Int)) + c % (pks.length : Int) = c :=
    Int.ediv_add_emod c _
  have hq0 : 0 ≤ c / (pks.length : Int) := Int.ediv_nonneg hc.le hn0.le
  have hqc : c / (pks.length : Int) ≤ c := by nlinarith
  -- the unsigned quotient is the quotient
  have e1 : ofSigned 64 c = c.toNat := by
    unfold ofSigned; congr 1; exact Int.emod_eq_of_lt hc.le (by omega)
  have e2 : ((c.toNat / pks.length : Nat) : Int) = c / (pks.length : Int) := by
    rw [Int.natCast_div, Int.toNat_of_nonneg hc.le]
  have e3 : toSigned 64 (c.toNat / pks.length) = c / (pks.length : Int) := by
    unfold toSigned
    have : c.toNat / pks.length < 2 ^ (64 - 1) := by
      have : ((c.toNat / pks.length : Nat) : Int) < 2 ^ 63 := by rw [e2]; omega
      have h63 : ((2 ^ 63 : Nat) : Int) = 2 ^ 63 := by norm_num
      omega
    rw [if_pos this, e2]
  have e4 : ofSigned 64 (c / (pks.length : Int)) = c.toNat / pks.length := by
    unfold ofSigned
    rw [Int.emod_eq_of_lt hq0 (by omega), ← e2]; rfl
  have hprod : ((c.toNat / pks.length * pks.length : Nat) : Int)
      = c / (pks.length : Int) * (pks.length : Int) := by
    rw [Nat.cast_mul, e2]
  have hprodlt : c / (pks.length : Int) * (pks.length : Int) < 2 ^ 63 := by nlinarith
  have hprod0 : 0 ≤ c / (pks.length : Int) * (pks.length : Int) := by positivity
  have e5 : toSigned 64 ((c.toNat / pks.length * pks.length) % 2 ^ 64)
      = c / (pks.length : Int) * (pks.length : Int) := by
    have hlt : c.toNat / pks.length * pks.length < 2 ^ 63 := by
      have h63 : ((2 ^ 63 : Nat) : Int) = 2 ^ 63 := by norm_num
      omega
    have hmod : (c.toNat / pks.length * pks.length) % 2 ^ 64
        = c.toNat / pks.length * pks.length := Nat.mod_eq_of_lt (by omega)
    unfold toSigned
    rw [hmod, if_pos (by simpa using hlt), hprod]
  have herr : c - c / (pks.length : Int) * (pks.length : Int)
      = (((c % (pks.length : Int)).toNat : Nat) : Int) := by
    rw [Int.toNat_of_nonneg h1]; nlinarith [h3]
  simp only [lclChangeVouts, e1, e3, e4, e5, herr]
  have := distributeRoundError_values (c / (pks.length : Int))
    (pks.map (fun pk =>
      MakeMarmaraCC1of2voutOpret E K (c / (pks.length : Int)) (E.CCtxidaddr_tweak createtxid)
        (MarmaraEncodeLoopCCVoutOpret E K createtxid pk)))
    (c % (pks.length : Int)).toNat
    (by
      intro v hv
      obtain ⟨pk, _, rfl⟩ := List.mem_map.mp hv
      simp only [MakeMarmaraCC1of2voutOpret]
      split_ifs <;> exact hval _ _ _ _ _)
    (by simp only [List.length_map]; omega)
  simpa using this

/-- C27: the outputs redistribute_lcl_remainder appends.  For an amount a >= 0 to
distribute among the n >= 1 endorsers whose pubkeys were collected, the pay-to-key
outputs, one to each endorser in turn, carry floor(a/n) + 1 on the first (a mod n) of
them and floor(a/n) on the others, and sum to exactly a; when the change c = inputsum - a
of the locked-in-loop inputs is positive, the n locked-in-loop outputs appended behind
them carry floor(c/n) + 1 on the first (c mod n) and floor(c/n) on the others and sum to
exactly c; no other output is appended.  The host builds a 1of2 output with the value
it is given, and amounts are 64-bit values. -/
theorem redistribute_outputs_sum (E : Env S) (K : Consts) (createtxid : uint256)
    (pks : List CPubKey) (a inputsum : Int)
    (hval : ∀ e v pk1 pk2 d, (E.MakeCC1of2vout e v pk1 pk2 d).nValue = v)
    (hn : pks ≠ []) (ha : 0 ≤ a) (hc64 : inputsum - a < 2 ^ 63) :
    redistributeVouts E K createtxid pks (pks.length : Int) inputsum a
        = some (lclNormalVouts E pks (pks.length : Int) a
            ++ (if 0 < inputsum - a then lclChangeVouts E K createtxid pks (inputsum - a)
                else []))
      ∧ (lclNormalVouts E pks (pks.length : Int) a).map CTxOut.scriptPubKey
          = pks.map E.p2pkScript
      ∧ (lclNormalVouts E pks (pks.length : Int) a).map CTxOut.nValue
          = List.replicate (a % (pks.length : Int)).toNat (a / (pks.length : Int) + 1)
            ++ List.replicate (pks.length - (a % (pks.length : Int)).toNat)
                (a / (pks.length : Int))
      ∧ ((lclNormalVouts E pks (pks.length : Int) a).map CTxOut.nValue).sum = a
      ∧ (0 < inputsum - a →
          (lclChangeVouts E K createtxid pks (inputsum - a)).length = pks.length
          ∧ (lclChangeVouts E K createtxid pks (inputsum - a)).map CTxOut.nValue
            = List.replicate ((inputsum - a) % (pks.length : Int)).toNat
                ((inputsum - a) / (pks.length : Int) + 1)
              ++ List.replicate (pks.length - ((inputsum - a) % (pks.length : Int)).toNat)
                  ((inputsum - a) / (pks.length : Int))
          ∧ ((lclChangeVouts E K createtxid pks (inputsum - a)).map CTxOut.nValue).sum
            = inputsum - a) := by
  have hlen : 0 < pks.length := List.length_pos.mpr hn
  refine ⟨?_, ?_, lclNormalVouts_values E pks a hn ha, ?_, ?_⟩
  · unfold redistributeVouts
    by_cases hc : 0 < inputsum - a
    · simp [hc]
    · simp [hc]
  · simp only [lclNormalVouts, distributeRoundError_scripts, List.map_map]
    rfl
  · rw [lclNormalVouts_values E pks a hn ha]
    exact shares_sum a pks.length hlen
  · intro hc
    have hv := lclChangeVouts_values E K createtxid pks (inputsum - a) hval hn hc hc64
    refine ⟨?_, hv, ?_⟩
    · have := congrArg List.length (distributeRoundError_scripts
        (pks.map (fun pk =>
          MakeMarmaraCC1of2voutOpret E K
            (toSigned 64 (ofSigned 64 (inputsum - a) / pks.length))
            (E.CCtxidaddr_tweak createtxid)
            (MarmaraEncodeLoopCCVoutOpret E K createtxid pk)))
        (inputsum - a - toSigned 64
          ((ofSigned 64 (toSigned 64 (ofSigned 64 (inputsum - a) / pks.length))
            * pks.length) % 2 ^ 64)))
      simpa [lclChangeVouts] using this
    · rw [hv]
      exact shares_sum (inputsum - a) pks.length hlen

/-- A loop with early return in which every round passes and adds to an amount. -/
theorem foldSteps_adds {α : Type} (step : Int → α → Option Int) (v : α → Int) :
    ∀ (l : List α) (acc : Int), (∀ acc, ∀ a ∈ l, step acc a = some (acc + v a)) →
      foldSteps step acc l = some (acc + (l.map v).sum) := by
  intro l
  induction l with
  | nil => intro acc _; simp [foldSteps]
  | cons a rest ih =>
    intro acc h
    rw [foldSteps, h acc a (List.mem_cons_self _ _)]
    simp only
    rw [ih (acc + v a) (fun acc b hb => h acc b (List.mem_cons_of_mem _ hb))]
    simp [add_assoc]

/-- The share the version-1 checker expects and the share the builder pays are the same
quotient: dividing by n and then by n + 1 is dividing by n + 1 and then by n. -/
theorem share_quotients (A n : Int) (hA : 0 ≤ A) (hn : 1 ≤ n) :
    Int.tdiv (Int.tdiv A n) (n + 1) = A / (n + 1) / n
      ∧ Int.tdiv A (n + 1) = A / (n + 1) := by
  have h1 : Int.tdiv A n = A / n := Int.tdiv_eq_ediv hA (by omega)
  have h2 : 0 ≤ A / n := Int.ediv_nonneg hA (by omega)
  have h3 : Int.tdiv (A / n) (n + 1) = A / n / (n + 1) := Int.tdiv_eq_ediv h2 (by omega)
  have h4 : Int.tdiv A (n + 1) = A / (n + 1) := Int.tdiv_eq_ediv hA (by omega)
  refine ⟨?_, h4⟩
  rw [h1, h3]
  obtain ⟨a, rfl⟩ := Int.eq_ofNat_of_zero_le hA
  obtain ⟨k, rfl⟩ := Int.eq_ofNat_of_zero_le (by omega : (0 : Int) ≤ n)
  have e : (a / k / (k + 1) : Nat) = a / (k + 1) / k := by
    rw [Nat.div_div_eq_div_mul, Nat.div_div_eq_div_mul, mul_comm]
  exact_mod_cast congrArg (fun x : Nat => (x : Int)) e

/-- Quotients of two amounts that differ by at most T differ by at most T. -/
theorem quotient_within_tolerance (A L m T : Int) (hL : 0 ≤ L)
    (hm : 1 ≤ m) (hT : 0 ≤ T) (h1 : A - L ≤ T) (h2 : -T ≤ A - L) :
    -T ≤ Int.tdiv L m - A / m ∧ Int.tdiv L m - A / m ≤ T := by
  rw [Int.tdiv_eq_ediv hL (by omega)]
  have a1 := Int.ediv_add_emod A m
  have a2 := Int.emod_nonneg A (by omega : m ≠ 0)
  have a3 := Int.emod_lt_of_pos A (by omega : 0 < m)
  have l1 := Int.ediv_add_emod L m
  have l2 := Int.emod_nonneg L (by omega : m ≠ 0)
  have l3 := Int.emod_lt_of_pos L (by omega : 0 < m)
  constructor
  · by_contra hc
    push_neg at hc
    nlinarith
  · by_contra hc
    push_neg at hc
    nlinarith

/-- C28: the redistribution outputs of the version-1 builder against the version-1
checker.  For a loop amount A >= 0 and n >= 1 prior endorsers MarmaraIssue locks
floor(A/(n+1)) and redistribute_lcl_remainder splits that amount over the n endorsers:
every pay-to-key output carries floor(floor(A/(n+1))/n) or one satoshi more, which
differs from the value the checker expects, floor(floor(A/n)/(n+1)), by at most 1, and
the outputs sum to floor(A/(n+1)).  With a tolerance of at least 1 every such output
passes the per-output test of the checker, the loop of the checker over these outputs
ends with the total floor(A/(n+1)), and that total passes the test against the share
of the locked total, for every locked total that is within the tolerance of A. -/
theorem v1_redistribution_within_tolerance (E : Env S) [DecidableEq S] (K : Consts)
    (pks : List CPubKey) (A : Int)
    (hp2pk : ∀ pk, E.IsPayToCryptoCondition (E.p2pkScript pk) = none)
    (hn : pks ≠ []) (hA : 0 ≤ A) (hT : 1 ≤ K.MARMARA_LOOP_TOLERANCE) :
    issueAmountToLock 1 (pks.length : Int) A = A / ((pks.length : Int) + 1)
      ∧ (∀ v ∈ lclNormalVouts E pks (pks.length : Int)
            (issueAmountToLock 1 (pks.length : Int) A),
          (v.nValue = A / ((pks.length : Int) + 1) / (pks.length : Int)
            ∨ v.nValue = A / ((pks.length : Int) + 1) / (pks.length : Int) + 1)
          ∧ 0 ≤ v.nValue - Int.tdiv (Int.tdiv A (pks.length : Int)) ((pks.length : Int) + 1)
          ∧ v.nValue - Int.tdiv (Int.tdiv A (pks.length : Int)) ((pks.length : Int) + 1) ≤ 1
          ∧ ∀ acc : Int, redistributedStep E K pks A (pks.length : Int) acc v
              = some (acc + v.nValue))
      ∧ ((lclNormalVouts E pks (pks.length : Int)
            (issueAmountToLock 1 (pks.length : Int) A)).map CTxOut.nValue).sum
          = A / ((pks.length : Int) + 1)
      ∧ foldSteps (redistributedStep E K pks A (pks.length : Int)) 0
          (lclNormalVouts E pks (pks.length : Int) (issueAmountToLock 1 (pks.length : Int) A))
          = some (A / ((pks.length : Int) + 1))
      ∧ (∀ lclAmount : Int, 0 ≤ lclAmount →
          A - lclAmount ≤ K.MARMARA_LOOP_TOLERANCE →
          -K.MARMARA_LOOP_TOLERANCE ≤ A - lclAmount →
          ¬ (Int.tdiv lclAmount ((pks.length : Int) + 1) - A / ((pks.length : Int) + 1)
                < -K.MARMARA_LOOP_TOLERANCE
              ∨ Int.tdiv lclAmount ((pks.length : Int) + 1) - A / ((pks.length : Int) + 1)
                > K.MARMARA_LOOP_TOLERANCE)) := by
  have hlen : 0 < pks.length := List.length_pos.mpr hn
  have hn1 : (1 : Int) ≤ (pks.length : Int) := by exact_mod_cast hlen
  obtain ⟨hq, hlock⟩ := share_quotients A (pks.length : Int) hA hn1
  have hamt : issueAmountToLock 1 (pks.length : Int) A = A / ((pks.length : Int) + 1) := by
    simp only [issueAmountToLock, if_true, if_pos (by omega : (pks.length : Int) > 0), hlock]
  have ha0 : 0 ≤ A / ((pks.length : Int) + 1) := Int.ediv_nonneg hA (by omega)
  have hvals := lclNormalVouts_values E pks (A / ((pks.length : Int) + 1)) hn ha0
  have hscr : (lclNormalVouts E pks (pks.length : Int)
      (A / ((pks.length : Int) + 1))).map CTxOut.scriptPubKey = pks.map E.p2pkScript := by
    simp only [lclNormalVouts, distributeRoundError_scripts, List.map_map]
    rfl
  have hsum : ((lclNormalVouts E pks (pks.length : Int)
      (A / ((pks.length : Int) + 1))).map CTxOut.nValue).sum = A / ((pks.length : Int) + 1) := by
    rw [hvals]; exact shares_sum _ pks.length hlen
  have heach : ∀ v ∈ lclNormalVouts E pks (pks.length : Int) (A / ((pks.length : Int) + 1)),
      (v.nValue = A / ((pks.length : Int) + 1) / (pks.length : Int)
        ∨ v.nValue = A / ((pks.length : Int) + 1) / (pks.length : Int) + 1)
      ∧ ∃ pk ∈ pks, v.scriptPubKey = E.p2pkScript pk := by
    intro v hv
    constructor
    · have hm : v.nValue ∈ (lclNormalVouts E pks (pks.length : Int)
          (A / ((pks.length : Int) + 1))).map CTxOut.nValue := List.mem_map_of_mem _ hv
      rw [hvals, List.mem_append] at hm
      rcases hm with hm | hm
      · exact Or.inr (List.eq_of_mem_replicate hm)
      · exact Or.inl (List.eq_of_mem_replicate hm)
    · have hm : v.scriptPubKey ∈ (lclNormalVouts E pks (pks.length : Int)
          (A / ((pks.length : Int) + 1))).map CTxOut.scriptPubKey := List.mem_map_of_mem _ hv
      rw [hscr] at hm
      obtain ⟨pk, hpk, e⟩ := List.mem_map.mp hm
      exact ⟨pk, hpk, e.symm⟩
  have hstep : ∀ acc : Int,
      ∀ v ∈ lclNormalVouts E pks (pks.length : Int) (A / ((pks.length : Int) + 1)),
      redistributedStep E K pks A (pks.length : Int) acc v = some (acc + v.nValue) := by
    intro acc v hv
    obtain ⟨hval, pk, hpk, hs⟩ := heach v hv
    have hany : pks.any (fun pk =>
        decide (v = { nValue := v.nValue, scriptPubKey := E.p2pkScript pk })) = true := by
      rw [List.any_eq_true]
      refine ⟨pk, hpk, ?_⟩
      simp only [decide_eq_true_eq]
      rw [← hs]
    have hnone : (E.IsPayToCryptoCondition v.scriptPubKey).isNone = true := by
      rw [hs, hp2pk pk]; rfl
    have hdiff : ¬ (v.nValue - Int.tdiv (Int.tdiv A (pks.length : Int)) ((pks.length : Int) + 1)
          < -K.MARMARA_LOOP_TOLERANCE
        ∨ v.nValue - Int.tdiv (Int.tdiv A (pks.length : Int)) ((pks.length : Int) + 1)
          > K.MARMARA_LOOP_TOLERANCE) := by
      rw [hq]; rcases hval with h | h <;> rw [h] <;> omega
    simp only [redistributedStep, hnone, if_true, hany, if_neg hdiff]
  rw [hamt]
  refine ⟨rfl, ?_, hsum, ?_, ?_⟩
  · intro v hv
    obtain ⟨hval, _⟩ := heach v hv
    refine ⟨hval, ?_, ?_, fun acc => hstep acc v hv⟩
    · rw [hq]; rcases hval with h | h <;> rw [h] <;> omega
    · rw [hq]; rcases hval with h | h <;> rw [h] <;> omega
  · rw [foldSteps_adds _ CTxOut.nValue _ 0 hstep, hsum]; simp
  · intro lcl hl h1 h2
    have := quotient_within_tolerance A lcl ((pks.length : Int) + 1) K.MARMARA_LOOP_TOLERANCE
      hl (by omega) (by omega) h1 h2
    omega

end RedistributeTheorems

set_option maxRecDepth 100000 in
/-- Witness of C27: 10 satoshis distributed among three endorsers, with locked-in-loop
inputs of 17: the pay-to-key outputs carry 4, 3, 3 and the change outputs 3, 2, 2. -/
theorem redistribute_outputs_sum_witness :
    (lclNormalVouts sampleEnv [samplePk, sampleHolderPk, sampleHolder2Pk] 3 10).map
        CTxOut.nValue = [4, 3, 3]
      ∧ (lclChangeVouts sampleEnv marmaraConsts loopV1CreateTxid
          [samplePk, sampleHolderPk, sampleHolder2Pk] 7).map CTxOut.nValue = [3, 2, 2]
      ∧ ((lclNormalVouts sampleEnv [samplePk, sampleHolderPk, sampleHolder2Pk] 3 10).map
          CTxOut.nValue).sum = 10
      ∧ ((lclChangeVouts sampleEnv marmaraConsts loopV1CreateTxid
          [samplePk, sampleHolderPk, sampleHolder2Pk] 7).map CTxOut.nValue).sum = 7 :=
  ⟨by decide, by decide,
    (redistribute_outputs_sum sampleEnv marmaraConsts loopV1CreateTxid
      [samplePk, sampleHolderPk, sampleHolder2Pk] 10 17 (fun _ _ _ _ _ => rfl) (by decide)
      (by decide) (by decide)).2.2.2.1,
    ((redistribute_outputs_sum sampleEnv marmaraConsts loopV1CreateTxid
      [samplePk, sampleHolderPk, sampleHolder2Pk] 10 17 (fun _ _ _ _ _ => rfl) (by decide)
      (by decide) (by decide)).2.2.2.2 (by decide)).2.2⟩

set_option maxRecDepth 100000 in
/-- Witness of C28: the loop amount 1001 with two prior endorsers: the builder locks 333
and pays 167 and 166, the checker expects 166 for each, and its loop over the two
outputs ends with the total 333. -/
theorem v1_redistribution_within_tolerance_witness :
    issueAmountToLock 1 2 1001 = 333
      ∧ (lclNormalVouts sampleEnv [samplePk, sampleHolderPk] 2 333).map CTxOut.nValue
          = [167, 166]
      ∧ Int.tdiv (Int.tdiv 1001 2) (2 + 1) = 166
      ∧ foldSteps (redistributedStep sampleEnv marmaraConsts [samplePk, sampleHolderPk] 1001 2) 0
          (lclNormalVouts sampleEnv [samplePk, sampleHolderPk] 2
            (issueAmountToLock 1 2 1001)) = some (1001 / (2 + 1)) :=
  ⟨by decide, by decide, by decide,
    (v1_redistribution_within_tolerance sampleEnv marmaraConsts [samplePk, sampleHolderPk] 1001
      (fun _ => rfl) (by decide) (by decide) (by decide)).2.2.2.1⟩

/-! ## The amounts of the version-2 issuance builder (claim C29) -/
section IssueBuilderTheorems
variable {S : Type}

/-- C29: the amounts of the version-2 issuance builder against the version-2 checker.
For a loop amount A >= 0, odd or even, and activated inputs of value S >= A, the
outputs MarmaraIssue writes for an issuance of version 2 carry, in this order, the baton
amount, the loop marker amount, floor(A/2) locked for the issuer, the open marker
amount, floor(A/2) locked for the receiver and, when S - A is positive, the activated
change S - A.  With a tolerance of at least 1 each locked output passes the test
against A/2 of the checker, and the final tests of the checker pass on the totals of
these outputs (locked total 2 floor(A/2) against A, inputs S against locked total plus
change) for an issuance whose inputs are the activated ones only.  The host builds
cc outputs with the value it is given. -/
theorem v2_issue_amounts_within_tolerance (E : Env S) (K : Consts) (createtxid : uint256)
    (creationData ld : SMarmaraCreditLoopOpret) (receiverpk mypk : CPubKey)
    (endorsersNumber inputsum nextheight : Int) (vins : Issue12Vins)
    (hval1 : ∀ e v pk, (E.MakeCC1vout e v pk).nValue = v)
    (hval2 : ∀ e v pk1 pk2 d, (E.MakeCC1of2vout e v pk1 pk2 d).nValue = v)
    (hA : 0 ≤ creationData.amount) (hS : creationData.amount ≤ inputsum)
    (hT : 1 ≤ K.MARMARA_LOOP_TOLERANCE)
    (hissue : ld.lastfuncid = K.MARMARA_ISSUE)
    (hact : vins.CCActivatedInputs = inputsum) (hlocked : vins.CCLockedInputs = 0)
    (hunknown : vins.CCUnknownInputs = 0) :
    (MarmaraIssueVouts E K 2 K.MARMARA_ISSUE createtxid creationData receiverpk mypk
        endorsersNumber inputsum nextheight).map CTxOut.nValue
      = [K.MARMARA_BATON_AMOUNT, K.MARMARA_LOOP_MARKER_AMOUNT, creationData.amount / 2,
          K.MARMARA_OPEN_MARKER_AMOUNT, creationData.amount / 2]
        ++ (if inputsum - creationData.amount > 0 then [inputsum - creationData.amount]
            else [])
    ∧ ¬ (((Int.tdiv creationData.amount 2 - creationData.amount / 2).natAbs : Int)
          > K.MARMARA_LOOP_TOLERANCE)
    ∧ ¬ (((creationData.amount - (creationData.amount / 2 + creationData.amount / 2)).natAbs
          : Int) > K.MARMARA_LOOP_TOLERANCE)
    ∧ ¬ (((inputsum - ((creationData.amount / 2 + creationData.amount / 2)
            + (if inputsum - creationData.amount > 0 then inputsum - creationData.amount
               else 0))).natAbs : Int) > K.MARMARA_LOOP_TOLERANCE)
    ∧ issue12Final K ld creationData vins
        { lclAmount := creationData.amount / 2 + creationData.amount / 2,
          CCchange := if inputsum - creationData.amount > 0
            then inputsum - creationData.amount else 0,
          CCUnknownOutputs := 0,
          endorserPks := {creationData.pk, ld.pk} } = true := by
  have ht : Int.tdiv creationData.amount 2 = creationData.amount / 2 :=
    Int.tdiv_eq_ediv hA (by omega)
  have hmk : ∀ v pk2 o, (MakeMarmaraCC1of2voutOpret E K v pk2 o).nValue = v := by
    intro v pk2 o
    simp only [MakeMarmaraCC1of2voutOpret]
    split_ifs <;> exact hval2 _ _ _ _ _
  have t1 : ¬ (((creationData.amount - (creationData.amount / 2 + creationData.amount / 2)).natAbs
      : Int) > K.MARMARA_LOOP_TOLERANCE) := by omega
  have t2 : ¬ (((inputsum - ((creationData.amount / 2 + creationData.amount / 2)
      + (if inputsum - creationData.amount > 0 then inputsum - creationData.amount
         else 0))).natAbs : Int) > K.MARMARA_LOOP_TOLERANCE) := by
    split_ifs <;> omega
  refine ⟨?_, ?_, t1, t2, ?_⟩
  · simp only [MarmaraIssueVouts, issueAmountToLock, issueUtxoAmount, ht]
    by_cases hc : inputsum - creationData.amount > 0
    · simp [hc, hval1, hmk, ht]
    · simp [hc, hval1, hmk, ht]
  · rw [ht]; omega
  · simp only [issue12Final, hunknown, hlocked, hact, hissue]
    rw [if_neg (by simp), if_neg (by simp), if_neg (by simp), if_neg t1, if_pos trivial,
      if_neg (by simp), if_neg t2]

end IssueBuilderTheorems

set_option maxRecDepth 100000 in
/-- Witness of C29: an odd loop amount 1001 with activated inputs of 1500; and the sample
issuance, whose outputs are the ones the builder writes for the sample loop and which
the version-2 checker accepts. -/
theorem v2_issue_amounts_within_tolerance_witness :
    (MarmaraIssueVouts sampleEnv marmaraConsts 2 marmaraConsts.MARMARA_ISSUE loopCreateTxid
        { SMarmaraCreditLoopOpret.init with amount := 1001, pk := samplePk } sampleHolderPk
        samplePk 0 1500 200001).map CTxOut.nValue
      = [10000, 10000, 500, 10000, 500, 499]
    ∧ loopIssueTx.vout.dropLast
      = MarmaraIssueVouts sampleEnv marmaraConsts 2 marmaraConsts.MARMARA_ISSUE loopCreateTxid
          { SMarmaraCreditLoopOpret.init with amount := 1000, pk := samplePk } sampleHolderPk
          samplePk 0 1000 200001
    ∧ check_issue_tx_12 loopEnv marmaraConsts loopIssueTx = true :=
  ⟨(v2_issue_amounts_within_tolerance sampleEnv marmaraConsts loopCreateTxid
      { SMarmaraCreditLoopOpret.init with amount := 1001, pk := samplePk }
      { SMarmaraCreditLoopOpret.init with lastfuncid := marmaraConsts.MARMARA_ISSUE }
      sampleHolderPk samplePk 0 1500 200001
      { CCActivatedInputs := 1500, CCLockedInputs := 0, CCUnknownInputs := 0,
        bRequestTxChecked := true, bBatonTxChecked := false }
      (fun _ _ _ => rfl) (fun _ _ _ _ _ => rfl) (by decide) (by decide) (by decide) rfl rfl rfl
      rfl).1,
    by decide, by decide⟩

/-! ## The selection loop of the builder (claim C22) -/
section SelectTheorems
variable {S : Type}

end SelectTheorems

/-! ## The state of an account after an accepted Fund (claim C23) -/
section PegsFundTheorems
variable {S : Type}

/-- The loop of `PegsFindAccount` : an account transaction other than the zero id comes
with its function id, which is not 0. -/
theorem findAccount_fold_funcid (E : PegsEnv S) (pegstxid tokenid : uint256) :
    ∀ (l : List (uint256 × Int × Int)) (st : FindAccountState S),
      (st.accounttxid ≠ zeroid → st.funcid ≠ 0) →
      (l.foldl (findAccountStep E pegstxid tokenid) st).accounttxid ≠ zeroid →
      (l.foldl (findAccountStep E pegstxid tokenid) st).funcid ≠ 0 := by
  intro l
  induction l with
  | nil => intro st h; simpa using h
  | cons u rest ih =>
    intro st h
    simp only [List.foldl_cons]
    apply ih
    unfold findAccountStep
    split_ifs with c1
    · cases hg : E.myGetTransaction u.1 with
      | none => simpa using h
      | some tx =>
        simp only
        split_ifs with c2 c3
        · intro _; exact c3.1
        · exact h
        · exact h
    · exact h

/-- The result of `PegsFindAccount` is 0 exactly when no account transaction was found. -/
theorem PegsFindAccount_zero_iff (E : PegsEnv S) (pk : CPubKey) (pegstxid tokenid : uint256)
    (account : Int × Int) :
    (PegsFindAccount E pk pegstxid tokenid account).1 = 0
      ↔ (PegsFindAccount E pk pegstxid tokenid account).2.1 = zeroid := by
  have hinv := findAccount_fold_funcid E pegstxid tokenid
    (E.SetCCunspents (E.GetCCaddress1of2 pk E.pegspk).2)
    { accounttxid := zeroid, funcid := 0, acctx := none, tmppegstxid := zeroid,
      tmptokenid := zeroid } (fun h => absurd rfl h)
  unfold PegsFindAccount
  simp only
  split_ifs with c
  · cases ha : (List.foldl (findAccountStep E pegstxid tokenid)
        { accounttxid := zeroid, funcid := 0, acctx := none, tmppegstxid := zeroid,
          tmptokenid := zeroid }
        (E.SetCCunspents (E.GetCCaddress1of2 pk E.pegspk).2)).acctx with
    | none => simp only; exact ⟨fun h => absurd h (hinv c), fun h => absurd h c⟩
    | some acctx => simp only; exact ⟨fun h => absurd h (hinv c), fun h => absurd h c⟩
  · simp only [true_iff]
    exact not_not.mp c

/-- An account transaction that `ValidateAccount` passes as a Fund: the state relation. -/
theorem ValidateAccount_fund (E : PegsEnv S) (tx : CTransaction S) (tokenid : uint256)
    (prevaccount : Int × Int) (v : PegsVars)
    (hname : PegsDecodeAccountTx E tx PegsVars.init = ("fund", v))
    (h : ValidateAccount E tx tokenid prevaccount = "") :
    prevaccount.1 + v.amount = v.account.1 ∧ prevaccount.2 = v.account.2
      ∧ v.srcpub = v.accountpk := by
  unfold ValidateAccount at h
  rw [hname] at h
  simp only at h
  by_cases c1 : (!E.ismyvin (pegsVin E tx 0).scriptSig) = true
  · rw [if_pos c1] at h; exact absurd h (by decide)
  · rw [if_neg c1] at h
    by_cases c2 : (!E.ismyvin (pegsVin E tx 1).scriptSig) = true
    · rw [if_pos c2] at h; exact absurd h (by decide)
    · rw [if_neg c2] at h
      split_ifs at h with c3 c4 c5
      all_goals first | exact absurd h (by decide) | skip
      simp only [true_and, not_or, not_not, ne_eq] at c5
      exact c5

/-- The branch 'F' of `PegsValidate`, when it does not return false: the record is a Fund
record, an existing account passes `ValidateAccount`, and without an account the
amount is the new deposit and the new debt is 0. -/
theorem pegsValidateFund_passed (E : PegsEnv S) (tx : CTransaction S)
    (pegstxid tokenid : uint256) (h : pegsValidateFund E tx pegstxid tokenid ≠ some false) :
    (DecodePegsAccountOpRet E (pegsLastVout E tx).scriptPubKey
        { PegsVars.init with tokenid := tokenid, pegstxid := pegstxid }).1 = 70
      ∧ ∀ (v : PegsVars),
        (DecodePegsAccountOpRet E (pegsLastVout E tx).scriptPubKey
          { PegsVars.init with tokenid := tokenid, pegstxid := pegstxid }).2 = v →
        ((PegsFindAccount E v.srcpub v.pegstxid v.tokenid (0, 0)).1 ≠ 0 →
          ValidateAccount E tx v.tokenid
            (PegsFindAccount E v.srcpub v.pegstxid v.tokenid (0, 0)).2.2 = "")
        ∧ ((PegsFindAccount E v.srcpub v.pegstxid v.tokenid (0, 0)).2.1 = zeroid →
          v.amount = v.account.1 ∧ v.account.2 = 0) := by
  unfold pegsValidateFund at h
  cases h1 : E.myGetTransaction pegstxid with
  | none => rw [h1] at h; exact absurd rfl h
  | some pegstx =>
    rw [h1] at h
    simp only at h
    by_cases c1 : pegstx.vout.length ≤ 0
    · rw [if_pos c1] at h; exact absurd rfl h
    · rw [if_neg c1] at h
      by_cases c2 : DecodePegsCreateOpRet E (pegsLastVout E pegstx).scriptPubKey ≠ 67
      · rw [if_pos c2] at h; exact absurd rfl h
      · rw [if_neg c2] at h
        cases h2 : E.myGetTransaction tokenid with
        | none => rw [h2] at h; exact absurd rfl h
        | some tokentx =>
          rw [h2] at h
          simp only at h
          by_cases c3 : tokentx.vout.length ≤ 0
          · rw [if_pos c3] at h; exact absurd rfl h
          · rw [if_neg c3] at h
            by_cases c4 : (E.DecodeTokenCreateOpRetV1 (pegsLastVout E tokentx).scriptPubKey).1 ≠ 99
            · rw [if_pos c4] at h; exact absurd rfl h
            · rw [if_neg c4] at h
              by_cases c5 : (!CheckSynthetic E
                  (E.DecodeTokenCreateOpRetV1 (pegsLastVout E tokentx).scriptPubKey).2) = true
              · rw [if_pos c5] at h; exact absurd rfl h
              · rw [if_neg c5] at h
                by_cases c6 : tx.vout.length < 1
                · rw [if_pos c6] at h; exact absurd rfl h
                · rw [if_neg c6] at h
                  rcases hd : DecodePegsAccountOpRet E (pegsLastVout E tx).scriptPubKey
                      { PegsVars.init with tokenid := tokenid, pegstxid := pegstxid }
                    with ⟨f, v⟩
                  rw [hd] at h
                  simp only at h
                  by_cases c7 : f ≠ 70
                  · rw [if_pos c7] at h; exact absurd rfl h
                  · rw [if_neg c7] at h
                    refine ⟨not_not.mp c7, ?_⟩
                    intro v1 hv1
                    simp only at hv1
                    subst hv1
                    rcases hf : PegsFindAccount E v.srcpub v.pegstxid v.tokenid (0, 0)
                      with ⟨fa, accounttxid, prevaccount⟩
                    rw [hf] at h
                    simp only at h ⊢
                    by_cases c8 : fa ≠ 0 ∧ ValidateAccount E tx v.tokenid prevaccount ≠ ""
                    · rw [if_pos c8] at h; exact absurd rfl h
                    · rw [if_neg c8] at h
                      refine ⟨fun hfa => ?_, fun hz => ?_⟩
                      · by_contra hne
                        exact c8 ⟨hfa, hne⟩
                      · rw [if_pos hz] at h
                        split_ifs at h with d1 d2 d3 d4
                        all_goals first | exact absurd rfl h | skip
                        simp only [not_or, not_not, ne_eq] at d4
                        exact d4

/-- C23: the state of an account after an accepted Fund.  When PegsValidate accepts a
transaction that DecodePegsOpRet reads as a Fund, the record of its last output is a
Fund record with the funded amount a, the new state (d', b'), the funder and the
account key; if the funder has an account, with the previous state (d, b), then
d' = d + a, b' = b and the funder is the account key; if there is no previous account
(a first Fund) then d' = a and b' = 0.  Amounts are integers; the additions of the
source are on 64 bits within their range. -/
theorem fund_accept_state (E : PegsEnv S) (tx : CTransaction S)
    (haccept : PegsValidate E tx = true)
    (hfund : (DecodePegsOpRet E tx zeroid zeroid).1 = 70) :
    (pegsRecordOf E tx).1 = 70
      ∧ ((pegsFundPrevAccount E tx).1 ≠ 0 →
          (pegsFundPrevAccount E tx).2.2.1 + (pegsRecordOf E tx).2.amount
              = (pegsRecordOf E tx).2.account.1
            ∧ (pegsFundPrevAccount E tx).2.2.2 = (pegsRecordOf E tx).2.account.2
            ∧ (pegsRecordOf E tx).2.srcpub = (pegsRecordOf E tx).2.accountpk)
      ∧ ((pegsFundPrevAccount E tx).1 = 0 →
          (pegsRecordOf E tx).2.amount = (pegsRecordOf E tx).2.account.1
            ∧ (pegsRecordOf E tx).2.account.2 = 0) := by
  rcases hd : DecodePegsOpRet E tx zeroid zeroid with ⟨funcid, pegstxid, tokenid⟩
  rw [hd] at hfund
  simp only at hfund
  subst hfund
  have hbranch : pegsValidateFund E tx pegstxid tokenid ≠ some false := by
    intro hb
    unfold PegsValidate at haccept
    by_cases c0 : tx.vout.length < 1
    · rw [if_pos c0] at haccept; exact absurd haccept (by decide)
    · rw [if_neg c0, hd] at haccept
      simp only at haccept
      by_cases c1 : E.KOMODO_EARLYTXID ≠ zeroid ∧ pegstxid ≠ E.KOMODO_EARLYTXID
      · simp [c1] at haccept
      · rw [if_pos (by decide : (70 : Nat) ≠ 0), if_neg c1, if_neg (by decide : ¬ (70 : Nat) = 67),
          if_pos trivial, hb] at haccept
        simp at haccept
  obtain ⟨hf, hrel⟩ := pegsValidateFund_passed E tx pegstxid tokenid hbranch
  have hrec : pegsRecordOf E tx = DecodePegsAccountOpRet E (pegsLastVout E tx).scriptPubKey
      { PegsVars.init with tokenid := tokenid, pegstxid := pegstxid } := by
    unfold pegsRecordOf; rw [hd]
  obtain ⟨hval, hfirst⟩ := hrel _ rfl
  have hname : PegsDecodeAccountTx E tx PegsVars.init = ("fund", (pegsRecordOf E tx).2) := by
    unfold PegsDecodeAccountTx
    rw [hd]
    simp only [if_pos (by decide : (70 : Nat) ≠ 0), if_true]
    rw [hrec]
    rcases hx : DecodePegsAccountOpRet E (pegsLastVout E tx).scriptPubKey
        { PegsVars.init with tokenid := tokenid, pegstxid := pegstxid } with ⟨f, v⟩
    rw [hx] at hf
    simp only at hf
    simp only [hf, if_true]
  refine ⟨by rw [hrec]; exact hf, ?_, ?_⟩
  · intro hfa
    unfold pegsFundPrevAccount at hfa ⊢
    rw [hrec] at hfa ⊢
    have hv := hval hfa
    rw [hrec] at hname
    exact ValidateAccount_fund E tx _ _ _ hname hv
  · intro hfa
    unfold pegsFundPrevAccount at hfa
    rw [hrec] at hfa ⊢
    exact hfirst ((PegsFindAccount_zero_iff E _ _ _ _).mp hfa)

end PegsFundTheorems

set_option maxRecDepth 100000 in
/-- Witness of C23: the top-up of 200 tokens of the sample account, whose previous state is
(500, 0) and whose record carries the new state (700, 0), and the first Fund of 500. -/
theorem fund_accept_state_witness :
    PegsValidate (pegsFundedEnv true) pegsTopUpTx = true
      ∧ (pegsFundPrevAccount (pegsFundedEnv true) pegsTopUpTx).2.2 = (500, 0)
      ∧ (pegsRecordOf (pegsFundedEnv true) pegsTopUpTx).2.amount = 200
      ∧ (pegsRecordOf (pegsFundedEnv true) pegsTopUpTx).2.account = (700, 0)
      ∧ ((pegsFundPrevAccount (pegsFundedEnv true) pegsTopUpTx).2.2.1
            + (pegsRecordOf (pegsFundedEnv true) pegsTopUpTx).2.amount
          = (pegsRecordOf (pegsFundedEnv true) pegsTopUpTx).2.account.1
        ∧ (pegsFundPrevAccount (pegsFundedEnv true) pegsTopUpTx).2.2.2
          = (pegsRecordOf (pegsFundedEnv true) pegsTopUpTx).2.account.2
        ∧ (pegsRecordOf (pegsFundedEnv true) pegsTopUpTx).2.srcpub
          = (pegsRecordOf (pegsFundedEnv true) pegsTopUpTx).2.accountpk)
      ∧ PegsValidate pegsEmptyEnv pegsFirstFundTx = true
      ∧ ((pegsRecordOf pegsEmptyEnv pegsFirstFundTx).2.amount
          = (pegsRecordOf pegsEmptyEnv pegsFirstFundTx).2.account.1
        ∧ (pegsRecordOf pegsEmptyEnv pegsFirstFundTx).2.account.2 = 0) :=
  ⟨by decide, by decide, by decide, by decide,
    (fund_accept_state (pegsFundedEnv true) pegsTopUpTx (by decide) (by decide)).2.1
      (by decide),
    by decide,
    (fund_accept_state pegsEmptyEnv pegsFirstFundTx (by decide) (by decide)).2.2 (by decide)⟩

/-! ## The pegs validator on sample transactions (claims C24, C25, C30) -/

set_option maxRecDepth 100000 in
/-- C24 fails on the code.  A first Fund of 500 tokens whose output 2 pays the tokens to
the plain token address of a third party, not to the token address of the account, is
accepted: the branch of a first Fund never looks at output 2.  And a top-up Fund of 200
tokens whose output 2 pays 1 token to a third party is accepted as well, even by a
host whose `PreventCC` rejects every transaction, while the same top-up with the right
output 2 goes on to `PreventCC` : the test of output 2 returns its error string from
a function of type `bool`, which is the value true. -/
theorem fund_accepts_misdirected_tokens :
    (DecodePegsOpRet pegsEmptyEnv pegsFirstFundMisdirectedTx zeroid zeroid).1 = 70
      ∧ pegsEmptyEnv.ConstrainVout (pegsVout pegsEmptyEnv pegsFirstFundMisdirectedTx 2) 1
          (pegsEmptyEnv.GetTokensCCaddress1of2 pegsOwnerPk pegsEmptyEnv.pegspk).2 500 = false
      ∧ PegsValidate pegsEmptyEnv pegsFirstFundMisdirectedTx = true
      ∧ (DecodePegsOpRet (pegsFundedEnv false) pegsTopUpMisdirectedTx zeroid zeroid).1 = 70
      ∧ (PegsFindAccount (pegsFundedEnv false) pegsOwnerPk pegsCreateTxid pegsTokenid (0, 0))
          = (70, pegsFirstFundTxid, (500, 0))
      ∧ (pegsFundedEnv false).ConstrainVout
          (pegsVout (pegsFundedEnv false) pegsTopUpMisdirectedTx 2) 1
          ((pegsFundedEnv false).GetTokensCCaddress1of2 pegsOwnerPk
            (pegsFundedEnv false).pegspk).2 200 = false
      ∧ PegsValidate (pegsFundedEnv false) pegsTopUpMisdirectedTx = true
      ∧ PegsValidate (pegsFundedEnv false) pegsTopUpTx = false
      ∧ PegsValidate (pegsFundedEnv true) pegsTopUpMisdirectedTx = true := by
  refine ⟨by decide, by decide, by decide, by decide, by decide, by decide, by decide,
    by decide, by decide⟩

set_option maxRecDepth 100000 in
/-- C25 fails on the code.  The account of deposit 1000 and debt 950 has the ratio 95, in
the red zone; with the debt-free account of deposit 100000 the global ratio of the peg
is below 1, far below the global red-zone threshold 60.  The liquidation of the account
passes every test of the branch 'L' of `PegsValidate` and is accepted: the validator
looks at the ratio of the account only.  The builder `PegsLiquidate` refuses the same
liquidation, for the global ratio. -/
theorem liquidate_accepted_below_global_red_zone :
    (DecodePegsOpRet pegsRedEnv pegsLiquidateTx zeroid zeroid).1 = 76
      ∧ (PegsFindAccount pegsRedEnv pegsOwnerPk pegsCreateTxid pegsTokenid (0, 0))
          = (70, pegsRedAccountTxid, (1000, 950))
      ∧ Dbl.isInt (PegsGetRatio pegsRedEnv pegsTokenid (1000, 950)) 95 = true
      ∧ Dbl.ge (PegsGetRatio pegsRedEnv pegsTokenid (1000, 950))
          (Dbl.ofInt (accountRedZone pegsRedEnv)) = true
      ∧ globalRedZone pegsRedEnv = 60
      ∧ Dbl.lt (PegsGetGlobalRatio pegsRedEnv pegsCreateTxid) (Dbl.ofInt 1) = true
      ∧ Dbl.lt (PegsGetGlobalRatio pegsRedEnv pegsCreateTxid)
          (Dbl.ofInt (globalRedZone pegsRedEnv)) = true
      ∧ pegsValidateLiquidate pegsRedEnv pegsLiquidateTx pegsCreateTxid pegsTokenid = none
      ∧ PegsValidate pegsRedEnv pegsLiquidateTx = true
      ∧ pegsLiquidateRefuses pegsRedEnv pegsCreateTxid pegsTokenid pegsRedAccountTxid = true := by
  refine ⟨by decide, by decide, by decide, by decide, by decide, by decide, by decide,
    by decide, by decide, by decide⟩

set_option maxRecDepth 100000 in
/-- C30 fails on the code.  The account of deposit D = 1000 tokens and debt 990 at the
price of one coin per token has the ratio 99, in the red zone; alone on the peg it
passes the test of `PegsLiquidate` on the zones.  The debt is worth t = 990 tokens,
p = 990 * 105 / 100 = 1039, and the amount for the liquidator is
1039 + (1000 - 1039) * 10 / 100 = 1036, more than the deposit: the remainder for the
global token address is -36.  A liquidator needs an account of its own outside the red
zone: without one the builder refuses; with the liquidator account of deposit 100 and
debt 10 (ratio 10) next to the account, the global ratio is above 90, the builder
refuses neither for the liquidator nor for the zones, and the amounts are the same. -/
theorem liquidate_amount_exceeds_deposit :
    pegsLiquidateRefuses pegsDeepRedEnv pegsCreateTxid pegsTokenid pegsRedAccountTxid = false
      ∧ (PegsDecodeAccountTx pegsDeepRedEnv (pegsRedAccountTx 990) PegsVars.init).2.account
          = (1000, 990)
      ∧ Dbl.isInt (PegsGetAccountRatio pegsDeepRedEnv pegsCreateTxid pegsTokenid
          pegsRedAccountTxid) 99 = true
      ∧ PegsGetTokensAmountPerPrice pegsDeepRedEnv 990 pegsTokenid = 990
      ∧ pegsLiquidateTmpAmount pegsDeepRedEnv pegsTokenid (1000, 990) = 1039
      ∧ pegsLiquidateAmount pegsDeepRedEnv pegsTokenid (1000, 990) = 1036
      ∧ ¬ (pegsLiquidateAmount pegsDeepRedEnv pegsTokenid (1000, 990) ≤ 1000)
      ∧ pegsLiquidateRemainder pegsDeepRedEnv pegsTokenid (1000, 990) = -36
      ∧ pegsLiquidatorRefuses pegsDeepRedEnv pegsOtherPk pegsCreateTxid pegsTokenid = true
      ∧ PegsFindAccount pegsLiquidatorEnv pegsOtherPk pegsCreateTxid pegsTokenid (0, 0)
          = (70, pegsLiquidatorAccountTxid, (100, 10))
      ∧ Dbl.isInt (PegsGetRatio pegsLiquidatorEnv pegsTokenid (100, 10)) 10 = true
      ∧ pegsLiquidatorRefuses pegsLiquidatorEnv pegsOtherPk pegsCreateTxid pegsTokenid = false
      ∧ (pegsLiquidatorEnv.myGetTransaction pegsRedAccountTxid).map
          (fun tx => (PegsDecodeAccountTx pegsLiquidatorEnv tx PegsVars.init).2.account)
          = some (1000, 990)
      ∧ Dbl.isInt (PegsGetAccountRatio pegsLiquidatorEnv pegsCreateTxid pegsTokenid
          pegsRedAccountTxid) 99 = true
      ∧ Dbl.ge (PegsGetGlobalRatio pegsLiquidatorEnv pegsCreateTxid) (Dbl.ofInt 90) = true
      ∧ pegsLiquidateRefuses pegsLiquidatorEnv pegsCreateTxid pegsTokenid pegsRedAccountTxid
          = false
      ∧ pegsLiquidateAmount pegsLiquidatorEnv pegsTokenid (1000, 990) = 1036
      ∧ pegsLiquidateRemainder pegsLiquidatorEnv pegsTokenid (1000, 990) = -36 := by
  refine ⟨by decide, by decide, by decide, by decide, by decide, by decide, by decide,
    by decide, ?_⟩
  refine ⟨by decide, by decide, by decide, by decide, ?_⟩
  refine ⟨by decide, by decide, by decide, by decide, by decide, by decide⟩

set_option maxRecDepth 100000 in
/-- C26, as the claim states it, fails.  With the deposit 1000 and the price 100000000 the
value of the deposit is 1000, and `PegsGetRatio` returns 50000000 for the debt
500000000 and 80000000 for the debt 800000000, not 50 and 80.  And it is not strictly
increasing in the debt: the debts 2^53 and 2^53 + 1 have the same conversion to
`double` and the same ratio. -/
theorem pegs_ratio_literals_differ :
    pegsDepositValue pegsDeepRedEnv.COIN (PegsGetTokenPrice pegsDeepRedEnv pegsTokenid) 1000
        = 1000
      ∧ PegsGetTokenPrice pegsDeepRedEnv pegsTokenid = 100000000
      ∧ Dbl.isInt (PegsGetRatio pegsDeepRedEnv pegsTokenid (1000, 500000000)) 50000000 = true
      ∧ Dbl.isInt (PegsGetRatio pegsDeepRedEnv pegsTokenid (1000, 500000000)) 50 = false
      ∧ Dbl.isInt (PegsGetRatio pegsDeepRedEnv pegsTokenid (1000, 800000000)) 80000000 = true
      ∧ Dbl.isInt (PegsGetRatio pegsDeepRedEnv pegsTokenid (1000, 800000000)) 80 = false
      ∧ PegsGetRatio pegsDeepRedEnv pegsTokenid (1000, 2 ^ 53)
          = PegsGetRatio pegsDeepRedEnv pegsTokenid (1000, 2 ^ 53 + 1)
      ∧ Dbl.lt (PegsGetRatio pegsDeepRedEnv pegsTokenid (1000, 2 ^ 53))
          (PegsGetRatio pegsDeepRedEnv pegsTokenid (1000, 2 ^ 53 + 1)) = false := by
  refine ⟨by decide, by decide, by decide, by decide, by decide, by decide, by decide,
    by decide⟩

/-! ## The ratio of an account is increasing in the debt (claim C26) -/
section RatioTheorems

/-- Zero has no binary digits. -/
theorem bitLenAux_zero (fuel : Nat) : bitLenAux fuel 0 = 0 := by
  cases fuel <;> simp [bitLenAux]

/-- The number of binary digits bounds the number from both sides. -/
theorem bitLenAux_bounds : ∀ (fuel n : Nat), n ≤ fuel →
    n < 2 ^ bitLenAux fuel n ∧ (0 < n → 2 ^ bitLenAux fuel n ≤ 2 * n) := by
  intro fuel
  induction fuel with
  | zero =>
    intro n hn
    have : n = 0 := by omega
    subst this
    simp [bitLenAux]
  | succ fuel ih =>
    intro n hn
    by_cases h0 : n = 0
    · subst h0; simp [bitLenAux]
    · have hlt : n / 2 ≤ fuel := by omega
      obtain ⟨h1, h2⟩ := ih (n / 2) hlt
      simp only [bitLenAux, if_neg h0, pow_succ]
      constructor
      · omega
      · intro _
        by_cases hh : n / 2 = 0
        · rw [hh, bitLenAux_zero]; simp; omega
        · have := h2 (by omega)
          omega

/-- The bounds of `bitLen` . -/
theorem bitLen_bounds (n : Nat) (hn : 0 < n) :
    n < 2 ^ bitLen n ∧ 2 ^ bitLen n ≤ 2 * n :=
  ⟨(bitLenAux_bounds n n (le_refl n)).1, (bitLenAux_bounds n n (le_refl n)).2 hn⟩

/-- Rounding to the nearest integer is off by at most one half. -/
theorem roundHalfEven_err (n d : Nat) (hd : 0 < d) :
    2 * (roundHalfEven n d * d) ≤ 2 * n + d ∧ 2 * n ≤ 2 * (roundHalfEven n d * d) + d := by
  have h1 : d * (n / d) + n % d = n := Nat.div_add_mod n d
  have h2 : n % d < d := Nat.mod_lt n hd
  have e1 : (n / d) * d = d * (n / d) := Nat.mul_comm _ _
  have e2 : (n / d + 1) * d = d * (n / d) + d := by ring
  unfold roundHalfEven
  split_ifs
  all_goals first | (rw [e1]; omega) | (rw [e2]; omega)

/-- The quotient scaled by the digits of its two numbers is at least 2^52. -/
theorem round_scale (n d : Nat) (hn : 0 < n) (hd : 0 < d) :
    2 ^ 52 * (d * 2 ^ (bitLen n - (bitLen d + 53))) ≤ n * 2 ^ (bitLen d + 53 - bitLen n) := by
  obtain ⟨_, hn2⟩ := bitLen_bounds n hn
  obtain ⟨hd1, _⟩ := bitLen_bounds d hd
  by_cases c : bitLen n ≤ bitLen d + 53
  · rw [Nat.sub_eq_zero_of_le c]
    have hp : 2 ^ bitLen n * 2 ^ (bitLen d + 53 - bitLen n) = 2 ^ 53 * 2 ^ bitLen d := by
      rw [← pow_add, ← pow_add]; congr 1; omega
    have h1 : 2 ^ bitLen n * 2 ^ (bitLen d + 53 - bitLen n)
        ≤ 2 * n * 2 ^ (bitLen d + 53 - bitLen n) := Nat.mul_le_mul_right _ hn2
    have h2 : 2 ^ 53 * (d + 1) ≤ 2 ^ 53 * 2 ^ bitLen d := Nat.mul_le_mul_left _ hd1
    have e1 : 2 * n * 2 ^ (bitLen d + 53 - bitLen n)
        = 2 * (n * 2 ^ (bitLen d + 53 - bitLen n)) := by ring
    simp only [pow_zero, mul_one]
    omega
  · have c1 : bitLen d + 53 - bitLen n = 0 := by omega
    rw [c1]
    have hp : 2 ^ 53 * 2 ^ bitLen d * 2 ^ (bitLen n - (bitLen d + 53)) = 2 ^ bitLen n := by
      rw [← pow_add, ← pow_add]; congr 1; omega
    have h2 : 2 ^ 53 * (d + 1) * 2 ^ (bitLen n - (bitLen d + 53))
        ≤ 2 ^ 53 * 2 ^ bitLen d * 2 ^ (bitLen n - (bitLen d + 53)) :=
      Nat.mul_le_mul_right _ (Nat.mul_le_mul_left _ hd1)
    have e1 : 2 ^ 53 * (d + 1) * 2 ^ (bitLen n - (bitLen d + 53))
        = 2 * (2 ^ 52 * (d * 2 ^ (bitLen n - (bitLen d + 53))))
          + 2 ^ 53 * 2 ^ (bitLen n - (bitLen d + 53)) := by ring
    simp only [pow_zero, mul_one]
    omega

/-- A quotient of at least 2^52, rounded to an integer, is off by at most the
2^53-th part of itself; both sides scaled by a positive number. -/
theorem scaled_round_err (N D : Nat) (x : ℚ) (hD : 0 < D) (hx : 0 < x)
    (hs : 2 ^ 52 * D ≤ N) :
    |(roundHalfEven N D : ℚ) * x - (N : ℚ) / D * x| ≤ ((N : ℚ) / D * x) / 2 ^ 53 := by
  obtain ⟨h1, h2⟩ := roundHalfEven_err N D hD
  have hDq : (0 : ℚ) < (D : ℚ) := by exact_mod_cast hD
  have h1q : 2 * ((roundHalfEven N D : ℚ) * D) ≤ 2 * N + D := by exact_mod_cast h1
  have h2q : 2 * (N : ℚ) ≤ 2 * ((roundHalfEven N D : ℚ) * D) + D := by exact_mod_cast h2
  have hsq : (2 : ℚ) ^ 52 * D ≤ N := by exact_mod_cast hs
  have hy : (N : ℚ) = (N : ℚ) / D * D := by field_simp
  set y : ℚ := (N : ℚ) / D with hydef
  set r : ℚ := (roundHalfEven N D : ℚ) with hrdef
  have hy52 : (2 : ℚ) ^ 52 ≤ y := by
    by_contra hc
    push_neg at hc
    nlinarith
  have hr1 : r ≤ y + 1 / 2 := by
    by_contra hc
    push_neg at hc
    nlinarith
  have hr2 : y - 1 / 2 ≤ r := by
    by_contra hc
    push_neg at hc
    nlinarith
  have hhalf : (1 : ℚ) / 2 ≤ y / 2 ^ 53 := by
    rw [le_div_iff₀ (by positivity)]
    nlinarith
  rw [abs_le]
  constructor
  · have : y * x / 2 ^ 53 = y / 2 ^ 53 * x := by ring
    rw [this]
    nlinarith
  · have : y * x / 2 ^ 53 = y / 2 ^ 53 * x := by ring
    rw [this]
    nlinarith

/-- The rounding of a positive quotient to 53 bits: the result is finite and positive and
is off by at most the 2^53-th part of the quotient. -/
theorem round_bounds (n d : Nat) (e : Int) (hn : 0 < n) (hd : 0 < d) :
    ∃ (m : Nat) (e1 : Int), Dbl.round false n d e = Dbl.fin (m : Int) e1
      ∧ |(m : ℚ) * (2 : ℚ) ^ e1 - (n : ℚ) / d * (2 : ℚ) ^ e|
          ≤ ((n : ℚ) / d * (2 : ℚ) ^ e) / 2 ^ 53 := by
  have h2 : (2 : ℚ) ≠ 0 := by norm_num
  have hdq : (d : ℚ) ≠ 0 := by exact_mod_cast hd.ne'
  have hscale := round_scale n d hn hd
  by_cases hh : n * 2 ^ (bitLen d + 53 - bitLen n)
      ≥ 2 ^ 53 * (d * 2 ^ (bitLen n - (bitLen d + 53)))
  · refine ⟨roundHalfEven (n * 2 ^ (bitLen d + 53 - bitLen n))
        (2 * (d * 2 ^ (bitLen n - (bitLen d + 53)))),
      e + (((bitLen n - (bitLen d + 53) : Nat) : Int)
        - ((bitLen d + 53 - bitLen n : Nat) : Int)) + 1, ?_, ?_⟩
    · simp only [Dbl.round, if_neg hn.ne', hh, decide_True, if_true]
      simp
    · have hval : ((n * 2 ^ (bitLen d + 53 - bitLen n) : Nat) : ℚ)
            / ((2 * (d * 2 ^ (bitLen n - (bitLen d + 53))) : Nat) : ℚ)
            * (2 : ℚ) ^ (e + (((bitLen n - (bitLen d + 53) : Nat) : Int)
              - ((bitLen d + 53 - bitLen n : Nat) : Int)) + 1)
          = (n : ℚ) / d * (2 : ℚ) ^ e := by
        rw [zpow_add₀ h2, zpow_add₀ h2, zpow_sub₀ h2, zpow_natCast, zpow_natCast]
        push_cast
        field_simp
        ring
      have := scaled_round_err (n * 2 ^ (bitLen d + 53 - bitLen n))
        (2 * (d * 2 ^ (bitLen n - (bitLen d + 53))))
        ((2 : ℚ) ^ (e + (((bitLen n - (bitLen d + 53) : Nat) : Int)
              - ((bitLen d + 53 - bitLen n : Nat) : Int)) + 1))
        (by positivity) (by positivity) (by omega)
      rw [hval] at this
      exact this
  · refine ⟨roundHalfEven (n * 2 ^ (bitLen d + 53 - bitLen n))
        (d * 2 ^ (bitLen n - (bitLen d + 53))),
      e + (((bitLen n - (bitLen d + 53) : Nat) : Int)
        - ((bitLen d + 53 - bitLen n : Nat) : Int)) + 0, ?_, ?_⟩
    · simp only [Dbl.round, if_neg hn.ne', hh, decide_False]
      simp
    · have hval : ((n * 2 ^ (bitLen d + 53 - bitLen n) : Nat) : ℚ)
            / ((d * 2 ^ (bitLen n - (bitLen d + 53)) : Nat) : ℚ)
            * (2 : ℚ) ^ (e + (((bitLen n - (bitLen d + 53) : Nat) : Int)
              - ((bitLen d + 53 - bitLen n : Nat) : Int)) + 0)
          = (n : ℚ) / d * (2 : ℚ) ^ e := by
        rw [add_zero, zpow_add₀ h2, zpow_sub₀ h2, zpow_natCast, zpow_natCast]
        push_cast
        field_simp
        ring
      have := scaled_round_err (n * 2 ^ (bitLen d + 53 - bitLen n))
        (d * 2 ^ (bitLen n - (bitLen d + 53)))
        ((2 : ℚ) ^ (e + (((bitLen n - (bitLen d + 53) : Nat) : Int)
              - ((bitLen d + 53 - bitLen n : Nat) : Int)) + 0))
        (by positivity) (by positivity) hscale
      rw [hval] at this
      exact this

/-- The rounding of a positive quotient, with the two bounds apart. -/
theorem round_pos_bounds (n d : Nat) (e : Int) (hn : 0 < n) (hd : 0 < d) :
    ∃ (m : Nat) (e1 : Int), Dbl.round false n d e = Dbl.fin (m : Int) e1 ∧ 0 < m
      ∧ (n : ℚ) / d * (2 : ℚ) ^ e * (1 - 1 / 2 ^ 53) ≤ (m : ℚ) * (2 : ℚ) ^ e1
      ∧ (m : ℚ) * (2 : ℚ) ^ e1 ≤ (n : ℚ) / d * (2 : ℚ) ^ e * (1 + 1 / 2 ^ 53) := by
  obtain ⟨m, e1, hr, hb⟩ := round_bounds n d e hn hd
  have hq : (0 : ℚ) < (n : ℚ) / d * (2 : ℚ) ^ e := by positivity
  rw [abs_le] at hb
  obtain ⟨hl, hu⟩ := hb
  have hl2 : (n : ℚ) / d * (2 : ℚ) ^ e * (1 - 1 / 2 ^ 53) ≤ (m : ℚ) * (2 : ℚ) ^ e1 := by
    have : (n : ℚ) / d * (2 : ℚ) ^ e * (1 - 1 / 2 ^ 53)
        = (n : ℚ) / d * (2 : ℚ) ^ e - (n : ℚ) / d * (2 : ℚ) ^ e / 2 ^ 53 := by ring
    rw [this]; linarith
  have hu2 : (m : ℚ) * (2 : ℚ) ^ e1 ≤ (n : ℚ) / d * (2 : ℚ) ^ e * (1 + 1 / 2 ^ 53) := by
    have : (n : ℚ) / d * (2 : ℚ) ^ e * (1 + 1 / 2 ^ 53)
        = (n : ℚ) / d * (2 : ℚ) ^ e + (n : ℚ) / d * (2 : ℚ) ^ e / 2 ^ 53 := by ring
    rw [this]; linarith
  refine ⟨m, e1, hr, ?_, hl2, hu2⟩
  have hpos : (0 : ℚ) < (m : ℚ) * (2 : ℚ) ^ e1 := by
    have h1 : (0 : ℚ) < (n : ℚ) / d * (2 : ℚ) ^ e * (1 - 1 / 2 ^ 53) := by
      apply mul_pos hq; norm_num
    linarith
  have h2e : (0 : ℚ) < (2 : ℚ) ^ e1 := by positivity
  have hm : (0 : ℚ) < (m : ℚ) := by
    by_contra hc
    push_neg at hc
    nlinarith
  exact_mod_cast hm

/-- The conversion of a positive integer to `double` . -/
theorem ofInt_pos_bounds (v : Int) (hv : 0 < v) :
    ∃ (m : Nat) (e1 : Int), Dbl.ofInt v = Dbl.fin (m : Int) e1 ∧ 0 < m
      ∧ (v : ℚ) * (1 - 1 / 2 ^ 53) ≤ (m : ℚ) * (2 : ℚ) ^ e1
      ∧ (m : ℚ) * (2 : ℚ) ^ e1 ≤ (v : ℚ) * (1 + 1 / 2 ^ 53) := by
  obtain ⟨m, e1, hr, hm, hl, hu⟩ := round_pos_bounds v.natAbs 1 0 (by omega) (by norm_num)
  have hcast : ((v.natAbs : Nat) : ℚ) = (v : ℚ) := by
    obtain ⟨k, rfl⟩ := Int.eq_ofNat_of_zero_le hv.le
    simp
  simp only [Nat.cast_one, div_one, zpow_zero, mul_one, hcast] at hl hu
  refine ⟨m, e1, ?_, hm, hl, hu⟩
  unfold Dbl.ofInt
  rw [show decide (v < 0) = false from by simp; omega]
  exact hr

/-- The comparison of two finite values of type `double` follows their rational values. -/
theorem Dbl_lt_of_lt (m1 m2 e1 e2 : Int)
    (h : (m1 : ℚ) * (2 : ℚ) ^ e1 < (m2 : ℚ) * (2 : ℚ) ^ e2) :
    Dbl.lt (.fin m1 e1) (.fin m2 e2) = true := by
  have h2 : (2 : ℚ) ≠ 0 := by norm_num
  have hk1 : (((e1 - min e1 e2).toNat : Nat) : Int) = e1 - min e1 e2 :=
    Int.toNat_of_nonneg (by have := min_le_left e1 e2; omega)
  have hk2 : (((e2 - min e1 e2).toNat : Nat) : Int) = e2 - min e1 e2 :=
    Int.toNat_of_nonneg (by have := min_le_right e1 e2; omega)
  have p1 : (2 : ℚ) ^ e1 = (2 : ℚ) ^ (min e1 e2) * (2 : ℚ) ^ (e1 - min e1 e2).toNat := by
    rw [← zpow_natCast, hk1, ← zpow_add₀ h2]; congr 1; ring
  have p2 : (2 : ℚ) ^ e2 = (2 : ℚ) ^ (min e1 e2) * (2 : ℚ) ^ (e2 - min e1 e2).toNat := by
    rw [← zpow_natCast, hk2, ← zpow_add₀ h2]; congr 1; ring
  rw [p1, p2] at h
  have hpos : (0 : ℚ) < (2 : ℚ) ^ (min e1 e2) := by positivity
  have h3 : (m1 : ℚ) * (2 : ℚ) ^ (e1 - min e1 e2).toNat
      < (m2 : ℚ) * (2 : ℚ) ^ (e2 - min e1 e2).toNat := by
    by_contra hc
    push_neg at hc
    have := mul_le_mul_of_nonneg_left hc hpos.le
    nlinarith
  simp only [Dbl.lt, decide_eq_true_eq]
  exact_mod_cast h3

/-- The ratio of a positive debt over a positive value: the three roundings of the
expression keep it within three relative errors of 2^-53 of the quotient of the debt
times 100 by the value as converted to `double` . -/
theorem pegsRatio_pos_bounds (debt value : Int) (hd : 0 < debt) (hv : 0 < value) :
    ∃ (mr : Nat) (er : Int) (mw : Nat) (ew : Int),
      pegsRatio debt value = Dbl.fin (mr : Int) er
      ∧ Dbl.ofInt value = Dbl.fin (mw : Int) ew ∧ 0 < mw
      ∧ (debt : ℚ) * 100 * ((1 - 1 / 2 ^ 53) * (1 - 1 / 2 ^ 53) * (1 - 1 / 2 ^ 53))
          / ((mw : ℚ) * (2 : ℚ) ^ ew) ≤ (mr : ℚ) * (2 : ℚ) ^ er
      ∧ (mr : ℚ) * (2 : ℚ) ^ er
          ≤ (debt : ℚ) * 100 * ((1 + 1 / 2 ^ 53) * (1 + 1 / 2 ^ 53) * (1 + 1 / 2 ^ 53))
            / ((mw : ℚ) * (2 : ℚ) ^ ew) := by
  have h2 : (2 : ℚ) ≠ 0 := by norm_num
  obtain ⟨ma, ea, hA, hma, la, ua⟩ := ofInt_pos_bounds debt hd
  obtain ⟨mw, ew, hW, hmw, lw, uw⟩ := ofInt_pos_bounds value hv
  have h100 : Dbl.ofInt 100 = Dbl.fin 7036874417766400 (-46) := by decide
  obtain ⟨mb, eb, hB, hmb, lb, ub⟩ :=
    round_pos_bounds (ma * 7036874417766400) 1 (ea + -46) (by positivity) (by norm_num)
  obtain ⟨mr, er, hR, hmr, lr, ur⟩ := round_pos_bounds mb mw (eb - ew) hmb hmw
  have hmul : Dbl.mul (Dbl.fin (ma : Int) ea) (Dbl.fin 7036874417766400 (-46))
      = Dbl.fin (mb : Int) eb := by
    have e1 : decide ((ma : Int) * 7036874417766400 < 0) = false := by
      simp only [decide_eq_false_iff_not, not_lt]; positivity
    have e2 : ((ma : Int) * 7036874417766400).natAbs = ma * 7036874417766400 := by
      rw [Int.natAbs_mul]; simp
    simp only [Dbl.mul, e1, e2]
    exact hB
  have hdiv : Dbl.div (Dbl.fin (mb : Int) eb) (Dbl.fin (mw : Int) ew)
      = Dbl.fin (mr : Int) er := by
    have e0 : ¬ ((mw : Int) = 0) := by omega
    have e1 : decide ((mb : Int) < 0) = false := by simp
    have e2 : decide ((mw : Int) < 0) = false := by simp
    simp only [Dbl.div, if_neg e0, e1, e2, Int.natAbs_ofNat, bne_self_eq_false]
    exact hR
  refine ⟨mr, er, mw, ew, ?_, hW, hmw, ?_, ?_⟩
  · unfold pegsRatio
    rw [hA, h100, hmul, hW, hdiv]
  all_goals
    have hwpos : (0 : ℚ) < (mw : ℚ) * (2 : ℚ) ^ ew := by positivity
    have hbq : ((ma * 7036874417766400 : Nat) : ℚ) / ((1 : Nat) : ℚ) * (2 : ℚ) ^ (ea + -46)
        = (ma : ℚ) * (2 : ℚ) ^ ea * 100 := by
      rw [zpow_add₀ h2]
      push_cast
      norm_num
      ring
    have hrq : (mb : ℚ) / (mw : ℚ) * (2 : ℚ) ^ (eb - ew)
        = (mb : ℚ) * (2 : ℚ) ^ eb / ((mw : ℚ) * (2 : ℚ) ^ ew) := by
      rw [zpow_sub₀ h2]
      field_simp
    rw [hbq] at lb ub
    rw [hrq] at lr ur
    have hdq : (0 : ℚ) < (debt : ℚ) := by exact_mod_cast hd
    have hl : (0 : ℚ) < 1 - 1 / 2 ^ 53 := by norm_num
    have hu : (0 : ℚ) < 1 + 1 / 2 ^ 53 := by norm_num
  · -- lower bound
    have s1 : (debt : ℚ) * (1 - 1 / 2 ^ 53) * 100 * (1 - 1 / 2 ^ 53) ≤ (mb : ℚ) * (2 : ℚ) ^ eb := by
      have := mul_le_mul_of_nonneg_right la (by positivity : (0 : ℚ) ≤ 100 * (1 - 1 / 2 ^ 53))
      calc (debt : ℚ) * (1 - 1 / 2 ^ 53) * 100 * (1 - 1 / 2 ^ 53)
          = (debt : ℚ) * (1 - 1 / 2 ^ 53) * (100 * (1 - 1 / 2 ^ 53)) := by ring
        _ ≤ (ma : ℚ) * (2 : ℚ) ^ ea * (100 * (1 - 1 / 2 ^ 53)) := this
        _ = (ma : ℚ) * (2 : ℚ) ^ ea * 100 * (1 - 1 / 2 ^ 53) := by ring
        _ ≤ (mb : ℚ) * (2 : ℚ) ^ eb := lb
    have s2 : (debt : ℚ) * (1 - 1 / 2 ^ 53) * 100 * (1 - 1 / 2 ^ 53)
          / ((mw : ℚ) * (2 : ℚ) ^ ew) ≤ (mb : ℚ) * (2 : ℚ) ^ eb / ((mw : ℚ) * (2 : ℚ) ^ ew) :=
      div_le_div_of_nonneg_right s1 hwpos.le
    have s3 := mul_le_mul_of_nonneg_right s2 hl.le
    calc (debt : ℚ) * 100 * ((1 - 1 / 2 ^ 53) * (1 - 1 / 2 ^ 53) * (1 - 1 / 2 ^ 53))
            / ((mw : ℚ) * (2 : ℚ) ^ ew)
        = (debt : ℚ) * (1 - 1 / 2 ^ 53) * 100 * (1 - 1 / 2 ^ 53)
            / ((mw : ℚ) * (2 : ℚ) ^ ew) * (1 - 1 / 2 ^ 53) := by ring
      _ ≤ (mb : ℚ) * (2 : ℚ) ^ eb / ((mw : ℚ) * (2 : ℚ) ^ ew) * (1 - 1 / 2 ^ 53) := s3
      _ ≤ (mr : ℚ) * (2 : ℚ) ^ er := lr
  · -- upper bound
    have s1 : (mb : ℚ) * (2 : ℚ) ^ eb ≤ (debt : ℚ) * (1 + 1 / 2 ^ 53) * 100 * (1 + 1 / 2 ^ 53) := by
      have := mul_le_mul_of_nonneg_right ua (by positivity : (0 : ℚ) ≤ 100 * (1 + 1 / 2 ^ 53))
      calc (mb : ℚ) * (2 : ℚ) ^ eb
          ≤ (ma : ℚ) * (2 : ℚ) ^ ea * 100 * (1 + 1 / 2 ^ 53) := ub
        _ = (ma : ℚ) * (2 : ℚ) ^ ea * (100 * (1 + 1 / 2 ^ 53)) := by ring
        _ ≤ (debt : ℚ) * (1 + 1 / 2 ^ 53) * (100 * (1 + 1 / 2 ^ 53)) := this
        _ = (debt : ℚ) * (1 + 1 / 2 ^ 53) * 100 * (1 + 1 / 2 ^ 53) := by ring
    have s2 : (mb : ℚ) * (2 : ℚ) ^ eb / ((mw : ℚ) * (2 : ℚ) ^ ew)
        ≤ (debt : ℚ) * (1 + 1 / 2 ^ 53) * 100 * (1 + 1 / 2 ^ 53)
          / ((mw : ℚ) * (2 : ℚ) ^ ew) :=
      div_le_div_of_nonneg_right s1 hwpos.le
    have s3 := mul_le_mul_of_nonneg_right s2 hu.le
    calc (mr : ℚ) * (2 : ℚ) ^ er
        ≤ (mb : ℚ) * (2 : ℚ) ^ eb / ((mw : ℚ) * (2 : ℚ) ^ ew) * (1 + 1 / 2 ^ 53) := ur
      _ ≤ (debt : ℚ) * (1 + 1 / 2 ^ 53) * 100 * (1 + 1 / 2 ^ 53)
            / ((mw : ℚ) * (2 : ℚ) ^ ew) * (1 + 1 / 2 ^ 53) := s3
      _ = (debt : ℚ) * 100 * ((1 + 1 / 2 ^ 53) * (1 + 1 / 2 ^ 53) * (1 + 1 / 2 ^ 53))
            / ((mw : ℚ) * (2 : ℚ) ^ ew) := by ring

/-- The ratio of the debt 0 over a positive value is 0. -/
theorem pegsRatio_zero (value : Int) (hv : 0 < value) : pegsRatio 0 value = Dbl.fin 0 0 := by
  obtain ⟨mw, ew, hW, hmw, _, _⟩ := ofInt_pos_bounds value hv
  have h1 : Dbl.mul (Dbl.ofInt 0) (Dbl.ofInt 100) = Dbl.fin 0 0 := by decide
  have e0 : ¬ ((mw : Int) = 0) := by omega
  unfold pegsRatio
  rw [h1, hW]
  simp [Dbl.div, e0, Dbl.round]

/-- The ratio is strictly increasing in the debt, for debts up to 2^50 and a positive
value. -/
theorem pegsRatio_increasing (debt1 debt2 value : Int) (hv : 0 < value) (h0 : 0 ≤ debt1)
    (hlt : debt1 < debt2) (hmax : debt2 ≤ 2 ^ 50) :
    Dbl.lt (pegsRatio debt1 value) (pegsRatio debt2 value) = true := by
  obtain ⟨m2, e2, mw, ew, hr2, hW, hmw, l2, _⟩ := pegsRatio_pos_bounds debt2 value (by omega) hv
  have hwpos : (0 : ℚ) < (mw : ℚ) * (2 : ℚ) ^ ew := by positivity
  have hd2 : (0 : ℚ) < (debt2 : ℚ) := by exact_mod_cast (by omega : (0 : Int) < debt2)
  rcases h0.lt_or_eq with hpos | hz
  · obtain ⟨m1, e1, mw1, ew1, hr1, hW1, _, _, u1⟩ := pegsRatio_pos_bounds debt1 value hpos hv
    rw [hW] at hW1
    injection hW1 with hm he
    have hm' : mw = mw1 := by exact_mod_cast hm
    subst hm'
    subst he
    rw [hr1, hr2]
    apply Dbl_lt_of_lt
    have hd1 : (debt1 : ℚ) + 1 ≤ (debt2 : ℚ) := by exact_mod_cast (by omega : debt1 + 1 ≤ debt2)
    have hd1max : (debt1 : ℚ) ≤ 2 ^ 50 - 1 := by
      have : debt1 ≤ 2 ^ 50 - 1 := by omega
      exact_mod_cast this
    have hd1pos : (0 : ℚ) < (debt1 : ℚ) := by exact_mod_cast hpos
    have key : (debt1 : ℚ) * 100 * ((1 + 1 / 2 ^ 53) * (1 + 1 / 2 ^ 53) * (1 + 1 / 2 ^ 53))
        < (debt2 : ℚ) * 100 * ((1 - 1 / 2 ^ 53) * (1 - 1 / 2 ^ 53) * (1 - 1 / 2 ^ 53)) := by
      have c1 : ((1 : ℚ) + 1 / 2 ^ 53) * (1 + 1 / 2 ^ 53) * (1 + 1 / 2 ^ 53) ≤ 1 + 4 / 2 ^ 53 := by
        norm_num
      have c2 : (1 : ℚ) - 3 / 2 ^ 53 ≤ (1 - 1 / 2 ^ 53) * (1 - 1 / 2 ^ 53) * (1 - 1 / 2 ^ 53) := by
        norm_num
      have a1 : (debt1 : ℚ) * 100 * ((1 + 1 / 2 ^ 53) * (1 + 1 / 2 ^ 53) * (1 + 1 / 2 ^ 53))
          ≤ (debt1 : ℚ) * 100 * (1 + 4 / 2 ^ 53) :=
        mul_le_mul_of_nonneg_left c1 (by positivity)
      have a2 : (debt2 : ℚ) * 100 * (1 - 3 / 2 ^ 53)
          ≤ (debt2 : ℚ) * 100 * ((1 - 1 / 2 ^ 53) * (1 - 1 / 2 ^ 53) * (1 - 1 / 2 ^ 53)) :=
        mul_le_mul_of_nonneg_left c2 (by positivity)
      have a3 : (debt1 : ℚ) * 100 * (1 + 4 / 2 ^ 53) < (debt2 : ℚ) * 100 * (1 - 3 / 2 ^ 53) := by
        have : ((debt1 : ℚ) + 1) * 100 * (1 - 3 / 2 ^ 53)
            ≤ (debt2 : ℚ) * 100 * (1 - 3 / 2 ^ 53) := by
          apply mul_le_mul_of_nonneg_right _ (by norm_num)
          linarith
        have : (debt1 : ℚ) * 100 * (1 + 4 / 2 ^ 53)
            < ((debt1 : ℚ) + 1) * 100 * (1 - 3 / 2 ^ 53) := by
          norm_num at hd1max ⊢
          linarith
        linarith
      linarith
    calc (m1 : ℚ) * (2 : ℚ) ^ e1
        ≤ (debt1 : ℚ) * 100 * ((1 + 1 / 2 ^ 53) * (1 + 1 / 2 ^ 53) * (1 + 1 / 2 ^ 53))
            / ((mw : ℚ) * (2 : ℚ) ^ ew) := u1
      _ < (debt2 : ℚ) * 100 * ((1 - 1 / 2 ^ 53) * (1 - 1 / 2 ^ 53) * (1 - 1 / 2 ^ 53))
            / ((mw : ℚ) * (2 : ℚ) ^ ew) := div_lt_div_of_pos_right key hwpos
      _ ≤ (m2 : ℚ) * (2 : ℚ) ^ e2 := l2
  · subst hz
    rw [pegsRatio_zero value hv, hr2]
    apply Dbl_lt_of_lt
    have : (0 : ℚ) < (debt2 : ℚ) * 100
        * ((1 - 1 / 2 ^ 53) * (1 - 1 / 2 ^ 53) * (1 - 1 / 2 ^ 53))
        / ((mw : ℚ) * (2 : ℚ) ^ ew) := by
      apply div_pos _ hwpos
      apply mul_pos (by positivity)
      norm_num
    simp only [Int.cast_zero, zero_mul]
    exact_mod_cast lt_of_lt_of_le this l2

variable {S : Type}

set_option maxRecDepth 100000 in
/-- C26 (amended): PegsGetRatio.  For every deposit and price for which the value of the
deposit, deposit*price/COIN, is positive, PegsGetRatio is strictly increasing in the
debt on the debts from 0 to 2^50: its value for a debt is below its value for every
larger debt in that range (beyond 2^53 neighbouring debts have the same conversion to
double).  With the literal values deposit = 1000 and price = COIN = 100000000 the value of
the deposit is 1000, and PegsGetRatio returns 0 for the debt 0, 50000000 for the debt
500000000 and 80000000 for the debt 800000000; it returns 50 for the debt 500 and 80,
the redemption boundary PEGS_ACCOUNT_MAX_DEBT, for the debt 800. -/
theorem pegs_ratio_increasing (E : PegsEnv S) (tokenid : uint256) :
    (∀ deposit debt1 debt2 : Int,
      0 < pegsDepositValue E.COIN (PegsGetTokenPrice E tokenid) deposit →
      0 ≤ debt1 → debt1 < debt2 → debt2 ≤ 2 ^ 50 →
      Dbl.lt (PegsGetRatio E tokenid (deposit, debt1))
        (PegsGetRatio E tokenid (deposit, debt2)) = true)
    ∧ (E.COIN = 100000000 → PegsGetTokenPrice E tokenid = 100000000 →
      pegsDepositValue E.COIN (PegsGetTokenPrice E tokenid) 1000 = 1000
        ∧ Dbl.isInt (PegsGetRatio E tokenid (1000, 0)) 0 = true
        ∧ Dbl.isInt (PegsGetRatio E tokenid (1000, 500000000)) 50000000 = true
        ∧ Dbl.isInt (PegsGetRatio E tokenid (1000, 800000000)) 80000000 = true
        ∧ Dbl.isInt (PegsGetRatio E tokenid (1000, 500)) 50 = true
        ∧ Dbl.isInt (PegsGetRatio E tokenid (1000, 800)) 80 = true
        ∧ Dbl.ge (PegsGetRatio E tokenid (1000, 800)) (Dbl.ofInt PEGS_ACCOUNT_MAX_DEBT) = true
        ∧ Dbl.lt (PegsGetRatio E tokenid (1000, 799)) (Dbl.ofInt PEGS_ACCOUNT_MAX_DEBT)
            = true) := by
  constructor
  · intro deposit debt1 debt2 hv h0 hlt hmax
    exact pegsRatio_increasing debt1 debt2 _ hv h0 hlt hmax
  · intro hc hp
    simp only [PegsGetRatio, hc, hp]
    refine ⟨by decide, by decide, by decide, by decide, by decide, by decide, by decide,
      by decide⟩

end RatioTheorems

set_option maxRecDepth 100000 in
/-- Witness of C26: in the sample host the deposit 1000 has the value 1000, and the ratio
for the debt 500 is below the ratio for the debt 800. -/
theorem pegs_ratio_increasing_witness :
    0 < pegsDepositValue pegsDeepRedEnv.COIN (PegsGetTokenPrice pegsDeepRedEnv pegsTokenid) 1000
      ∧ Dbl.lt (PegsGetRatio pegsDeepRedEnv pegsTokenid (1000, 500))
          (PegsGetRatio pegsDeepRedEnv pegsTokenid (1000, 800)) = true
      ∧ Dbl.isInt (PegsGetRatio pegsDeepRedEnv pegsTokenid (1000, 500)) 50 = true :=
  ⟨by decide,
    (pegs_ratio_increasing pegsDeepRedEnv pegsTokenid).1 1000 500 800 (by decide) (by decide)
      (by decide) (by decide),
    ((pegs_ratio_increasing pegsDeepRedEnv pegsTokenid).2 (by decide) (by decide)).2.2.2.2.1⟩

end Marmara
